import Mathlib

/-!
# Mem3DG: force engine, line search and forward-Euler loop

A shallow embedding of the solver core of Mem3DG
(`src/solver/force.cpp`, `src/solver/regularization.cpp`,
`src/solver/integrator/integrator.cpp`, `src/solver/integrator/forward_euler.cpp`, and
`getInsidePressure` and the loop of `getDPDForces` in `src/pressure.cpp`).

Conventions of the embedding.
* A `double` on which the code does arithmetic is an exact rational.  The four
  values that the code tests with `std::isfinite` (`timeStep`, the two error
  norms and `energy.totalEnergy`) have the type `Double`, a rational or a
  non-finite value.
* A per-vertex field that the integrator updates as a whole matrix
  (`inputVertexPositions`, `proteinDensity`, the force fields) is a list with
  one entry per vertex; cached geometric quantities and mesh navigation are
  functions of the element index.
* Functions of the repository that live outside the embedded files, and the
  geometry library, are the fields of `External`.
* `while (true)` loops take a fuel argument and return `none` when it runs out.
* The mesh mutation routines of `regularization.cpp` create and delete vertices; they
  act on `MutableSystem`, whose per-vertex data are maps from vertex indices, and
  the operations of the mesh library they call are the fields of `MeshLibrary`.
* A runtime error (`mem3dg_runtime_error`) is the error result of `Except`.
-/

namespace Mem3DG

/-! ## Numbers and vectors -/

/-- Value of a `double` as far as `std::isfinite` and a comparison observe it. -/
inductive Double where
  | finite (q : ℚ)
  | nonFinite
deriving DecidableEq

namespace Double

/-- Test `std::isfinite`. -/
def isfinite : Double → Bool
  | finite _ => true
  | nonFinite => false

/-- Comparison `a < b` of a norm with a finite bound; a NaN or +inf norm is not below it. -/
def ltRat : Double → ℚ → Bool
  | finite q, b => decide (q < b)
  | nonFinite, _ => false

end Double

/-- Vector of R^3 (`gc::Vector3`). -/
structure Vector3 where
  x : ℚ
  y : ℚ
  z : ℚ
deriving DecidableEq

namespace Vector3

def zero : Vector3 := ⟨0, 0, 0⟩

def add (a b : Vector3) : Vector3 := ⟨a.x + b.x, a.y + b.y, a.z + b.z⟩

def sub (a b : Vector3) : Vector3 := ⟨a.x - b.x, a.y - b.y, a.z - b.z⟩

def neg (a : Vector3) : Vector3 := ⟨-a.x, -a.y, -a.z⟩

def smul (c : ℚ) (a : Vector3) : Vector3 := ⟨c * a.x, c * a.y, c * a.z⟩

def dot (a b : Vector3) : ℚ := a.x * b.x + a.y * b.y + a.z * b.z

def cross (a b : Vector3) : Vector3 :=
  ⟨a.y * b.z - a.z * b.y, a.z * b.x - a.x * b.z, a.x * b.y - a.y * b.x⟩

/-- Component-wise product, one row of `A.array() * B.array()`. -/
def cwiseMul (a b : Vector3) : Vector3 := ⟨a.x * b.x, a.y * b.y, a.z * b.z⟩

/-- Squared Euclidean norm (`norm2`). -/
def norm2 (a : Vector3) : ℚ := dot a a

/-- Sum of the three components (`gc::sum`). -/
def sum (a : Vector3) : ℚ := a.x + a.y + a.z

instance : Add Vector3 := ⟨add⟩

instance : Sub Vector3 := ⟨sub⟩

instance : Neg Vector3 := ⟨neg⟩

instance : HMul ℚ Vector3 Vector3 := ⟨smul⟩

instance : HMul Vector3 ℚ Vector3 := ⟨fun a c => smul c a⟩

instance : HDiv Vector3 ℚ Vector3 := ⟨fun a c => ⟨a.x / c, a.y / c, a.z / c⟩⟩

end Vector3

/-! ## Eigen expressions on n x 3 and n x 1 matrices -/

/-- Sum `A + B` of two n x 3 matrices. -/
def matAdd (a b : List Vector3) : List Vector3 := List.zipWith Vector3.add a b

/-- Product `c * A` of a scalar and an n x 3 matrix. -/
def matScale (c : ℚ) (a : List Vector3) : List Vector3 := a.map (Vector3.smul c)

/-- Sum `(A.array() * B.array()).sum()` over all entries of two n x 3 matrices. -/
def matInner (a b : List Vector3) : ℚ := (List.zipWith Vector3.dot a b).sum

/-- Sum `a + b` of two column vectors. -/
def vecAdd (a b : List ℚ) : List ℚ := List.zipWith (fun p q => p + q) a b

/-- Product `c * a` of a scalar and a column vector. -/
def vecScale (c : ℚ) (a : List ℚ) : List ℚ := a.map (fun p => c * p)

/-- Sum `(a.array() * b.array()).sum()` of two column vectors. -/
def vecInner (a b : List ℚ) : ℚ := (List.zipWith (fun p q => p * q) a b).sum

/-- Entry `a[i]` of a per-vertex vector field. -/
def vAt (a : List Vector3) (i : Nat) : Vector3 := a.getD i Vector3.zero

/-- Entry `a[i]` of a per-vertex scalar field. -/
def sAt (a : List ℚ) (i : Nat) : ℚ := a.getD i 0

/-! ## Data model -/

/-- Connectivity of the halfedge mesh (`gcs::ManifoldSurfaceMesh`), as the queries the
solver makes of it. Elements are named by their index. -/
structure Mesh where
  nVertices : Nat
  /-- Halfedges leaving a vertex, in the order `v.outgoingHalfedges()` visits them. -/
  outgoingHalfedges : Nat → List Nat
  /-- Edges of the mesh, in the order `mesh->edges()` visits them. -/
  edges : List Nat
  /-- Halfedge `e.halfedge()` of an edge. -/
  edgeHalfedge : Nat → Nat
  next : Nat → Nat
  twin : Nat → Nat
  /-- Tail vertex `he.vertex()`. -/
  vertex : Nat → Nat
  tipVertex : Nat → Nat
  face : Nat → Nat
  edge : Nat → Nat
  /-- Answer of `he.isInterior()`. -/
  isInterior : Nat → Bool
  vertexIsBoundary : Nat → Bool
  edgeIsBoundary : Nat → Bool

/-- Vertex positions and the quantities cached from them (`gcs::VertexPositionGeometry`). -/
structure VertexPositionGeometry where
  inputVertexPositions : List Vector3
  vertexNormals : List Vector3
  vertexMeanCurvatures : Nat → ℚ
  vertexDualAreas : Nat → ℚ
  faceNormals : Nat → Vector3
  faceAreas : Nat → ℚ
  halfedgeCotanWeights : Nat → ℚ
  edgeDihedralAngles : Nat → ℚ
  edgeLengths : Nat → ℚ
  /-- Product `cotanLaplacian * x` with the cached sparse matrix. -/
  cotanLaplacian : List ℚ → List ℚ

structure Variation where
  isShapeVariation : Bool
  isProteinVariation : Bool

structure Bending where
  relation : String
  H0c : ℚ
  Kbc : ℚ

structure Tension where
  Ksg : ℚ
  At : ℚ
  lambdaSG : ℚ

structure Osmotic where
  isPreferredVolume : Bool
  Kv : ℚ
  Vt : ℚ
  cam : ℚ
  n : ℚ
  lambdaV : ℚ

/-- Parameter bundle `Parameters`, the members the embedded code reads; a nested member
`a.b` of the source is the field `a_b`. -/
structure Parameters where
  variation : Variation
  bending : Bending
  tension : Tension
  osmotic : Osmotic
  adsorption_epsilon : ℚ
  aggregation_chi : ℚ
  dirichlet_eta : ℚ
  proteinDistribution_lambdaPhi : ℚ
  external_Kf : ℚ
  dpd_gamma : ℚ
  temperature : ℚ
  proteinMobility : ℚ

/-- Energy record `Energy`. -/
structure Energy where
  totalEnergy : Double
  kineticEnergy : ℚ
  potentialEnergy : ℚ
  externalWork : ℚ
  bendingEnergy : ℚ
  surfaceEnergy : ℚ
  pressureEnergy : ℚ
  adsorptionEnergy : ℚ
  aggregationEnergy : ℚ
  dirichletEnergy : ℚ
  proteinInteriorPenalty : ℚ

/-- Force fields and masks `Forces`. -/
structure Forces where
  forceMask : List Vector3
  proteinMask : List ℚ
  surfaceTension : ℚ
  osmoticPressure : ℚ
  mechanicalForceVec : List Vector3
  mechanicalForce : List ℚ
  bendingForceVec : List Vector3
  bendingForceVec_areaGrad : List Vector3
  bendingForceVec_gaussVec : List Vector3
  bendingForceVec_schlafliVec : List Vector3
  capillaryForceVec : List Vector3
  osmoticForceVec : List Vector3
  lineCapillaryForceVec : List Vector3
  adsorptionForceVec : List Vector3
  aggregationForceVec : List Vector3
  externalForceVec : List Vector3
  bendingForce : List ℚ
  capillaryForce : List ℚ
  osmoticForce : List ℚ
  lineCapillaryForce : List ℚ
  adsorptionForce : List ℚ
  aggregationForce : List ℚ
  externalForce : List ℚ
  chemicalPotential : List ℚ
  bendingPotential : List ℚ
  adsorptionPotential : List ℚ
  aggregationPotential : List ℚ
  diffusionPotential : List ℚ
  interiorPenaltyPotential : List ℚ
  regularizationForce : List Vector3
  dampingForce : List Vector3
  stochasticForce : List Vector3

/-- Mesh regularizer `meshProcessor.meshRegularizer`. -/
structure MeshRegularizer where
  Kst : ℚ
  Ksl : ℚ
  Kse : ℚ
  refLcrs : Nat → ℚ
  refFaceAreas : Nat → ℚ
  refEdgeLengths : Nat → ℚ
  meanTargetFaceArea : ℚ
  meanTargetEdgeLength : ℚ

structure MeshProcessor where
  isMeshRegularize : Bool
  meshRegularizer : MeshRegularizer

/-- Simulation state `System`, the members the embedded code reads or writes. -/
structure System where
  mesh : Mesh
  vpg : VertexPositionGeometry
  parameters : Parameters
  meshProcessor : MeshProcessor
  forces : Forces
  energy : Energy
  proteinDensity : List ℚ
  proteinDensityGradient : Nat → Vector3
  velocity : List Vector3
  proteinVelocity : List ℚ
  H0 : Nat → ℚ
  Kb : Nat → ℚ
  time : ℚ
  mechErrorNorm : Double
  chemErrorNorm : Double
  surfaceArea : ℚ
  volume : ℚ
  /-- Tracked point `thePoint`, by the index of its vertex. -/
  thePoint : Nat
  geodesicDistanceFromPtInd : Nat → ℚ

/-- Quantities that `System::updateVertexPositions` recomputes from the positions and the
protein density. -/
structure Derived where
  vpg : VertexPositionGeometry
  H0 : Nat → ℚ
  Kb : Nat → ℚ
  proteinDensityGradient : Nat → Vector3
  surfaceArea : ℚ
  volume : ℚ
  surfaceTension : ℚ
  osmoticPressure : ℚ
  geodesicDistanceFromPtInd : Nat → ℚ

/-- Functions of the repository outside the embedded files, taken as given. Each energy
routine reads the state and yields the energy record it leaves in `system.energy`. -/
structure External where
  /-- Values recomputed by `updateVertexPositions(isUpdateGeodesics)`. -/
  refresh : Bool → System → Derived
  computePotentialEnergy : System → Energy
  computeTotalEnergy : System → Energy
  /-- Call `computeExternalWork(currentTime, dt)`. -/
  computeExternalWork : System → ℚ → Double → Energy
  computeBendingEnergy : System → Energy
  computeSurfaceEnergy : System → Energy
  computePressureEnergy : System → Energy
  computeAdsorptionEnergy : System → Energy
  computeAggregationEnergy : System → Energy
  computeDirichletEnergy : System → Energy
  /-- Value returned by `computeIntegratedPower(dt)`. -/
  computeIntegratedPower : System → ℚ → ℚ
  /-- Helper `vecFromHalfedge(he, vpg)` of `meshops.h`. -/
  vecFromHalfedge : Mesh → VertexPositionGeometry → Nat → Vector3
  /-- Unit vector of a vector (`normalize()`, `unit()`). -/
  normalize : Vector3 → Vector3
  /-- Euclidean norm `gc::norm`. -/
  norm : Vector3 → ℚ
  /-- Angle `gc::angle` between two vectors. -/
  angle : Vector3 → Vector3 → ℚ
  sin : ℚ → ℚ
  cos : ℚ → ℚ
  exp : ℚ → ℚ
  /-- Geodesic distance `heatSolver.computeDistance(thePoint)` at each vertex. -/
  computeDistance : Mesh → VertexPositionGeometry → Nat → Nat → ℚ
  /-- Helper `gaussianDistribution(distance, standardDeviation)`. -/
  gaussianDistribution : ℚ → ℚ → ℚ
  /-- Immediate (uncached) `vpg->vertexDualArea(v)`. -/
  vertexDualArea : Mesh → VertexPositionGeometry → Nat → ℚ
  /-- Immediate (uncached) `vpg->edgeLength(e)`. -/
  edgeLength : Mesh → VertexPositionGeometry → Nat → ℚ
  /-- Immediate (uncached) `vpg->faceArea(f)`. -/
  faceArea : Mesh → VertexPositionGeometry → Nat → ℚ
  /-- Immediate (uncached) `vpg->faceNormal(f)`. -/
  faceNormal : Mesh → VertexPositionGeometry → Nat → Vector3
  /-- Call `meshRegularizer.computeLengthCrossRatio(vpg, e)`. -/
  computeLengthCrossRatio : Mesh → VertexPositionGeometry → Nat → ℚ
  /-- Frobenius norm `.norm()` of an n x 3 matrix. -/
  matrixNorm : List Vector3 → Double
  /-- Euclidean norm `.norm()` of a column vector. -/
  vectorNorm : List ℚ → Double
  /-- State left by `computeDPDForces(dt)`, which draws from the random generator. -/
  computeDPDForces : System → Double → System
  /-- State left by `mutateMesh()`, or `none` when it raises a runtime error. -/
  mutateMesh : System → Option System

/-- State of `Integrator` (and of its subclass `Euler`). -/
structure Integrator where
  system : System
  characteristicTimeStep : ℚ
  timeStep : Double
  EXIT : Bool
  SUCCESS : Bool
  tolerance : ℚ
  totalTime : ℚ
  initialTime : ℚ
  savePeriod : ℚ
  lastSave : ℚ
  processMeshPeriod : ℚ
  lastProcessMesh : ℚ
  updateGeodesicsPeriod : ℚ
  lastUpdateGeodesics : ℚ
  isBacktrack : Bool
  rho : ℚ
  c1 : ℚ
  isAdaptiveStep : Bool
  dt_size2_ratio : ℚ
  initialMaximumForce : ℚ
  frame : Nat
  areaDifference : ℚ
  volumeDifference : ℚ
  dpdForce : List ℚ

/-! ## Masks -/

/-- Modelled from the spec: `Forces::maskForce` (declared in `forces.h`) is the
component-wise product of a force matrix with the per-vertex force mask. -/
def Forces.maskForce (f : Forces) (m : List Vector3) : List Vector3 :=
  List.zipWith Vector3.cwiseMul f.forceMask m

/-- Modelled from the spec: `Forces::maskForce(vec, i)`, the masking of one row. -/
def Forces.maskForceAt (f : Forces) (v : Vector3) (i : Nat) : Vector3 :=
  Vector3.cwiseMul (vAt f.forceMask i) v

/-- Modelled from the spec: `Forces::maskProtein` (declared in `forces.h`) is the
component-wise product of a potential with the per-vertex protein mask. -/
def Forces.maskProtein (f : Forces) (p : List ℚ) : List ℚ :=
  List.zipWith (fun a b => a * b) f.proteinMask p

/-! ## Collaborator calls on the system -/

/-- Modelled from the spec: `System::updateVertexPositions` (defined outside the embedded
files) recomputes the derived and cached quantities and leaves positions, protein density,
time, forces and energy as they are. -/
def System.updateVertexPositions (ext : External) (isUpdateGeodesics : Bool) (s : System) :
    System :=
  let d := ext.refresh isUpdateGeodesics s
  { s with
    vpg := { d.vpg with inputVertexPositions := s.vpg.inputVertexPositions }
    H0 := d.H0
    Kb := d.Kb
    proteinDensityGradient := d.proteinDensityGradient
    surfaceArea := d.surfaceArea
    volume := d.volume
    forces := { s.forces with surfaceTension := d.surfaceTension
                              osmoticPressure := d.osmoticPressure }
    geodesicDistanceFromPtInd := d.geodesicDistanceFromPtInd }

/-- Store a new energy record. -/
def System.setEnergy (s : System) (e : Energy) : System := { s with energy := e }

/-- Assignment `toMatrix(system.vpg->inputVertexPositions) = p`. -/
def System.setPositions (s : System) (p : List Vector3) : System :=
  { s with vpg := { s.vpg with inputVertexPositions := p } }

/-- Assignment `system.proteinDensity.raw() = phi`. -/
def System.setProteinDensity (s : System) (phi : List ℚ) : System :=
  { s with proteinDensity := phi }

/-! ## Line search (`integrator.cpp`) -/

/-- One probe of `lineSearchErrorBacktrace` with a single force: reset the protein density,
move the positions by `alpha * maskForce(forceVec)` from `currentPosition`, refresh, and
recompute one energy term. -/
def probeForce (ext : External) (energyTerm : System → Energy) (alpha : ℚ)
    (currentPosition : List Vector3) (currentProteinDensity : List ℚ)
    (forceVec : Forces → List Vector3) (s : System) : System :=
  let s := s.setProteinDensity currentProteinDensity
  let s := s.setPositions
    (matAdd currentPosition (matScale alpha (s.forces.maskForce (forceVec s.forces))))
  let s := s.updateVertexPositions ext false
  s.setEnergy (energyTerm s)

/-- One probe of `lineSearchErrorBacktrace` with a single potential: reset the positions,
move the protein density by `alpha * proteinMobility * maskProtein(potential)` from
`currentProteinDensity`, refresh, and recompute one energy term. -/
def probePotential (ext : External) (energyTerm : System → Energy) (alpha : ℚ)
    (currentPosition : List Vector3) (currentProteinDensity : List ℚ)
    (potential : Forces → List ℚ) (s : System) : System :=
  let s := s.setPositions currentPosition
  let s := s.setProteinDensity
    (vecAdd currentProteinDensity
      (vecScale (alpha * s.parameters.proteinMobility)
        (s.forces.maskProtein (potential s.forces))))
  let s := s.updateVertexPositions ext false
  s.setEnergy (energyTerm s)

/-- Block "test if bending energy increases" of `lineSearchErrorBacktrace`. -/
def probeBending (ext : External) (alpha : ℚ) (currentPosition : List Vector3)
    (currentProteinDensity : List ℚ) (previousEnergy totalForceEnergy : Energy) (runAll : Bool)
    (s : System) : System :=
  if runAll = true ∨ totalForceEnergy.bendingEnergy > previousEnergy.bendingEnergy then
    probePotential ext ext.computeBendingEnergy alpha currentPosition currentProteinDensity
      Forces.bendingPotential
      (probeForce ext ext.computeBendingEnergy alpha currentPosition currentProteinDensity
        Forces.bendingForceVec s)
  else s

/-- Block "test if surface energy increases" of `lineSearchErrorBacktrace`. -/
def probeSurface (ext : External) (alpha : ℚ) (currentPosition : List Vector3)
    (currentProteinDensity : List ℚ) (previousEnergy totalForceEnergy : Energy) (runAll : Bool)
    (s : System) : System :=
  if runAll = true ∨ totalForceEnergy.surfaceEnergy > previousEnergy.surfaceEnergy then
    probeForce ext ext.computeSurfaceEnergy alpha currentPosition currentProteinDensity
      Forces.capillaryForceVec s
  else s

/-- Block "test if pressure energy increases" of `lineSearchErrorBacktrace`. -/
def probePressure (ext : External) (alpha : ℚ) (currentPosition : List Vector3)
    (currentProteinDensity : List ℚ) (previousEnergy totalForceEnergy : Energy) (runAll : Bool)
    (s : System) : System :=
  if runAll = true ∨ totalForceEnergy.pressureEnergy > previousEnergy.pressureEnergy then
    probeForce ext ext.computePressureEnergy alpha currentPosition currentProteinDensity
      Forces.osmoticForceVec s
  else s

/-- Block "test if adsorption energy increases" of `lineSearchErrorBacktrace`. -/
def probeAdsorption (ext : External) (alpha : ℚ) (currentPosition : List Vector3)
    (currentProteinDensity : List ℚ) (previousEnergy totalForceEnergy : Energy) (runAll : Bool)
    (s : System) : System :=
  if runAll = true ∨ totalForceEnergy.adsorptionEnergy > previousEnergy.adsorptionEnergy then
    probePotential ext ext.computeAdsorptionEnergy alpha currentPosition currentProteinDensity
      Forces.adsorptionPotential
      (probeForce ext ext.computeAdsorptionEnergy alpha currentPosition currentProteinDensity
        Forces.adsorptionForceVec s)
  else s

/-- Block "test if aggregation energy increases" of `lineSearchErrorBacktrace`. -/
def probeAggregation (ext : External) (alpha : ℚ) (currentPosition : List Vector3)
    (currentProteinDensity : List ℚ) (previousEnergy totalForceEnergy : Energy) (runAll : Bool)
    (s : System) : System :=
  if runAll = true ∨ totalForceEnergy.aggregationEnergy > previousEnergy.aggregationEnergy then
    probePotential ext ext.computeAggregationEnergy alpha currentPosition currentProteinDensity
      Forces.aggregationPotential
      (probeForce ext ext.computeAggregationEnergy alpha currentPosition currentProteinDensity
        Forces.aggregationForceVec s)
  else s

/-- Block "test if dirichlet energy increases" of `lineSearchErrorBacktrace`; its test reads
the current `system.energy`, not the cached `totalForceEnergy`. -/
def probeDirichlet (ext : External) (alpha : ℚ) (currentPosition : List Vector3)
    (currentProteinDensity : List ℚ) (previousEnergy : Energy) (runAll : Bool)
    (s : System) : System :=
  if runAll = true ∨ s.energy.dirichletEnergy > previousEnergy.dirichletEnergy then
    probePotential ext ext.computeDirichletEnergy alpha currentPosition currentProteinDensity
      Forces.diffusionPotential
      (probeForce ext ext.computeDirichletEnergy alpha currentPosition currentProteinDensity
        Forces.lineCapillaryForceVec s)
  else s

/-- Opening of `lineSearchErrorBacktrace`: the external work when `Kf != 0`, then the total
energy, which the diagnostic caches as `totalForceEnergy`. -/
def Integrator.totalForceEnergyState (ext : External) (I : Integrator) : System :=
  let s := I.system
  let s := if s.parameters.external_Kf ≠ 0
    then s.setEnergy (ext.computeExternalWork s s.time I.timeStep) else s
  s.setEnergy (ext.computeTotalEnergy s)

/-- Diagnostic `Integrator::lineSearchErrorBacktrace`; console output is dropped, the
changes of the system are kept. Returns the system it leaves. -/
def Integrator.lineSearchErrorBacktrace (ext : External) (I : Integrator) (alpha : ℚ)
    (currentPosition : List Vector3) (currentProteinDensity : List ℚ)
    (previousEnergy : Energy) (runAll : Bool) : System :=
  let s := I.totalForceEnergyState ext
  let totalForceEnergy := s.energy
  if runAll = true ∨ totalForceEnergy.potentialEnergy > previousEnergy.potentialEnergy then
    let s := probeBending ext alpha currentPosition currentProteinDensity previousEnergy
      totalForceEnergy runAll s
    let s := probeSurface ext alpha currentPosition currentProteinDensity previousEnergy
      totalForceEnergy runAll s
    let s := probePressure ext alpha currentPosition currentProteinDensity previousEnergy
      totalForceEnergy runAll s
    let s := probeAdsorption ext alpha currentPosition currentProteinDensity previousEnergy
      totalForceEnergy runAll s
    let s := probeAggregation ext alpha currentPosition currentProteinDensity previousEnergy
      totalForceEnergy runAll s
    probeDirichlet ext alpha currentPosition currentProteinDensity previousEnergy runAll s
  else s

/-- Relation between a state and a later one that the diagnostic's probes maintain: same
parameters, same time, same masked diffusion potential. -/
def System.sameInputs (s s' : System) : Prop :=
  s'.parameters = s.parameters ∧ s'.time = s.time ∧
    s'.forces.maskProtein s'.forces.diffusionPotential =
      s.forces.maskProtein s.forces.diffusionPotential

/-- Direction validation of `backtrack` for the positions: the direction used and
`positionProjection`. -/
def validatePositionDirection (s : System) (positionDirection : List Vector3) :
    List Vector3 × ℚ :=
  if s.parameters.variation.isShapeVariation = true then
    let positionProjection := matInner s.forces.mechanicalForceVec positionDirection
    if positionProjection < 0 then
      (s.forces.mechanicalForceVec,
        matInner s.forces.mechanicalForceVec s.forces.mechanicalForceVec)
    else (positionDirection, positionProjection)
  else (positionDirection, 0)

/-- Direction validation of `backtrack` for the protein density: the direction used and
`chemicalProjection`. -/
def validateChemicalDirection (s : System) (chemicalDirection : List ℚ) : List ℚ × ℚ :=
  if s.parameters.variation.isProteinVariation = true then
    let chemicalProjection := vecInner s.forces.chemicalPotential chemicalDirection
    if chemicalProjection < 0 then
      (s.forces.chemicalPotential,
        vecInner s.forces.chemicalPotential s.forces.chemicalPotential)
    else (chemicalDirection, chemicalProjection)
  else (chemicalDirection, 0)

/-- Locals of `backtrack` that are fixed when its loop starts. -/
structure LineSearch where
  energy_pre : ℚ
  rho : ℚ
  c1 : ℚ
  positionDirection : List Vector3
  chemicalDirection : List ℚ
  positionProjection : ℚ
  chemicalProjection : ℚ
  initial_pos : List Vector3
  initial_protein : List ℚ
  init_time : ℚ
  previousE : Energy

/-- Outcome of `backtrack`: the returned step, the local `count` of shrinks, and the
integrator it leaves. -/
structure BacktrackResult where
  alpha : ℚ
  count : Nat
  integrator : Integrator

/-- Sufficient-decrease test of `backtrack` at the current trial state. -/
def wolfeCondition (ext : External) (ls : LineSearch) (s : System) (alpha : ℚ) : Prop :=
  s.energy.potentialEnergy <
    ls.energy_pre + ext.computeIntegratedPower s alpha -
      ls.c1 * alpha * (ls.positionProjection + ls.chemicalProjection)

instance (ext : External) (ls : LineSearch) (s : System) (alpha : ℚ) :
    Decidable (wolfeCondition ext ls s alpha) := by
  unfold wolfeCondition; infer_instance

/-- Trial update inside the loop of `backtrack` after a shrink to `alpha`. -/
def retryUpdate (ext : External) (ls : LineSearch) (s : System) (alpha : ℚ) : System :=
  let s := if s.parameters.variation.isShapeVariation = true
    then s.setPositions (matAdd ls.initial_pos (matScale alpha ls.positionDirection)) else s
  let s := if s.parameters.variation.isProteinVariation = true
    then s.setProteinDensity (vecAdd ls.initial_protein (vecScale alpha ls.chemicalDirection))
    else s
  let s := { s with time := ls.init_time + alpha }
  let s := s.updateVertexPositions ext false
  s.setEnergy (ext.computePotentialEnergy s)

/-- Loop `while (true)` of `backtrack`; `fuel` bounds the number of tests. -/
def backtrackLoop (ext : External) (ls : LineSearch) :
    Nat → Integrator → ℚ → Nat → Option BacktrackResult
  | 0, _, _, _ => none
  | fuel + 1, I, alpha, count =>
    if wolfeCondition ext ls I.system alpha then
      some ⟨alpha, count, I⟩
    else if alpha < (1 / 100000 : ℚ) * I.characteristicTimeStep then
      some ⟨alpha, count,
        { I with
          system := I.lineSearchErrorBacktrace ext alpha ls.initial_pos ls.initial_protein
            ls.previousE true
          EXIT := true
          SUCCESS := false }⟩
    else
      backtrackLoop ext ls fuel
        { I with system := retryUpdate ext ls I.system (alpha * ls.rho) } (alpha * ls.rho)
        (count + 1)

/-- Zeroth iteration of `backtrack`: the first trial update, made in place. -/
def zerothUpdate (ext : External) (ls : LineSearch) (s : System) (alpha : ℚ) : System :=
  let s := if s.parameters.variation.isShapeVariation = true
    then s.setPositions (matAdd s.vpg.inputVertexPositions
      (matScale alpha ls.positionDirection)) else s
  let s := if s.parameters.variation.isProteinVariation = true
    then s.setProteinDensity (vecAdd s.proteinDensity (vecScale alpha ls.chemicalDirection))
    else s
  let s := { s with time := s.time + alpha }
  let s := s.updateVertexPositions ext false
  s.setEnergy (ext.computePotentialEnergy s)

/-- Locals of `backtrack` on entry to the loop, after the direction validation. -/
def lineSearchOf (I : Integrator) (energy_pre : ℚ) (positionDirection : List Vector3)
    (chemicalDirection : List ℚ) (rho c1 : ℚ) : LineSearch :=
  { energy_pre := energy_pre
    rho := rho
    c1 := c1
    positionDirection := (validatePositionDirection I.system positionDirection).1
    chemicalDirection := (validateChemicalDirection I.system chemicalDirection).1
    positionProjection := (validatePositionDirection I.system positionDirection).2
    chemicalProjection := (validateChemicalDirection I.system chemicalDirection).2
    initial_pos := I.system.vpg.inputVertexPositions
    initial_protein := I.system.proteinDensity
    init_time := I.system.time
    previousE := I.system.energy }

/-- Line search `Integrator::backtrack`. -/
def Integrator.backtrack (ext : External) (fuel : Nat) (I : Integrator) (energy_pre : ℚ)
    (positionDirection : List Vector3) (chemicalDirection : List ℚ) (rho c1 : ℚ) :
    Option BacktrackResult :=
  let ls := lineSearchOf I energy_pre positionDirection chemicalDirection rho c1
  let alpha := I.characteristicTimeStep
  backtrackLoop ext ls fuel
    { I with system := zerothUpdate ext ls I.system alpha } alpha 0

/-- Trial state of `backtrack` after `k` shrinks, starting from the entry system `s0` with
first step `cts`: the zeroth update, then one retry update per shrink. -/
def trialSystem (ext : External) (ls : LineSearch) (s0 : System) (cts : ℚ) : Nat → System
  | 0 => zerothUpdate ext ls s0 cts
  | k + 1 => retryUpdate ext ls (trialSystem ext ls s0 cts k) (cts * ls.rho ^ (k + 1))

/-- Failure signal of the line search: `EXIT` set and `SUCCESS` cleared. -/
def BacktrackResult.failed (r : BacktrackResult) : Prop :=
  r.integrator.EXIT = true ∧ r.integrator.SUCCESS = false

instance (r : BacktrackResult) : Decidable r.failed := by
  unfold BacktrackResult.failed; infer_instance

/-! ## Force engine (`force.cpp`) -/

/-- Pair of vectors of `System::computeHalfedgeSchlafliVector`. -/
def computeHalfedgeSchlafliVector (m : Mesh) (vpg : VertexPositionGeometry) (he : Nat) :
    Vector3 × Vector3 :=
  let fID := m.face he
  let heID_twin := m.twin he
  let fID_he_twin := m.face (m.twin he)
  let heID_twin_next := m.next (m.twin he)
  let heID_he_next_next := m.next (m.next he)
  let vj := m.tipVertex he
  let boundaryVertex := m.vertexIsBoundary (m.vertex he)
  let boundaryEdge := m.edgeIsBoundary (m.edge he)
  let interiorHalfedge := m.isInterior he
  let schlafliVec1 : Vector3 :=
    if boundaryEdge = false then
      vpg.halfedgeCotanWeights heID_he_next_next * vpg.faceNormals fID +
        vpg.halfedgeCotanWeights heID_twin_next * vpg.faceNormals fID_he_twin
    else Vector3.zero
  let schlafliVec2 : Vector3 :=
    if boundaryVertex = true ∧ boundaryEdge = true then
      if interiorHalfedge = true then
        (-(vpg.halfedgeCotanWeights he + vpg.halfedgeCotanWeights heID_he_next_next)) *
          vpg.faceNormals fID
      else
        (-(vpg.halfedgeCotanWeights heID_twin + vpg.halfedgeCotanWeights heID_twin_next)) *
          vpg.faceNormals fID_he_twin
    else if boundaryVertex = false ∧ m.vertexIsBoundary vj = true then
      let v : Vector3 :=
        vpg.halfedgeCotanWeights heID_he_next_next * vpg.faceNormals fID +
          vpg.halfedgeCotanWeights heID_twin_next * vpg.faceNormals fID_he_twin
      let v : Vector3 :=
        if m.edgeIsBoundary (m.edge (m.next he)) = false then
          v - (vpg.halfedgeCotanWeights he + vpg.halfedgeCotanWeights heID_he_next_next) *
            vpg.faceNormals fID
        else v
      if m.edgeIsBoundary (m.edge (m.next (m.next (m.twin he)))) = false then
        v - (vpg.halfedgeCotanWeights heID_twin + vpg.halfedgeCotanWeights heID_twin_next) *
          vpg.faceNormals fID_he_twin
      else v
    else
      -(vpg.halfedgeCotanWeights he * vpg.faceNormals fID +
        vpg.halfedgeCotanWeights heID_twin * vpg.faceNormals fID_he_twin)
  (schlafliVec1, schlafliVec2)

/-- Vector of `System::computeHalfedgeGaussianCurvatureVector`. -/
def computeHalfedgeGaussianCurvatureVector (ext : External) (m : Mesh)
    (vpg : VertexPositionGeometry) (he : Nat) : Vector3 :=
  if m.edgeIsBoundary (m.edge he) = false then
    ((1 / 2 : ℚ) * vpg.edgeDihedralAngles (m.edge he)) *
      ext.normalize (-(ext.vecFromHalfedge m vpg he))
  else Vector3.zero

/-- Vector of `System::computeHalfedgeMeanCurvatureVector`. -/
def computeHalfedgeMeanCurvatureVector (ext : External) (m : Mesh)
    (vpg : VertexPositionGeometry) (he : Nat) : Vector3 :=
  let fID := m.face he
  let fID_he_twin := m.face (m.twin he)
  let areaGrad : Vector3 := Vector3.zero
  let areaGrad : Vector3 :=
    if m.isInterior he = true then
      areaGrad + (1 / 4 : ℚ) *
        Vector3.cross (vpg.faceNormals fID) (ext.vecFromHalfedge m vpg (m.next he))
    else areaGrad
  let areaGrad : Vector3 :=
    if m.isInterior (m.twin he) = true then
      areaGrad + (1 / 4 : ℚ) *
        Vector3.cross (vpg.faceNormals fID_he_twin)
          (ext.vecFromHalfedge m vpg (m.next (m.next (m.twin he))))
    else areaGrad
  areaGrad / (2 : ℚ)

/-- Vector of `System::computeHalfedgeVolumeVariationVector`. -/
def computeHalfedgeVolumeVariationVector (m : Mesh) (vpg : VertexPositionGeometry)
    (he : Nat) : Vector3 :=
  let fID := m.face he
  if m.isInterior he = true then
    (vpg.faceNormals fID * vpg.faceAreas fID) / (3 : ℚ)
  else Vector3.zero

/-- Gradient of `System::computeGradientNorm2Gradient`; `none` stands for the runtime error
raised on a halfedge that is not interior. -/
def computeGradientNorm2Gradient (ext : External) (m : Mesh) (vpg : VertexPositionGeometry)
    (he : Nat) (quantities : List ℚ) : Option Vector3 :=
  if m.isInterior he = false then none
  else
    let qj := sAt quantities (m.vertex (m.next (m.next he)))
    let qi := sAt quantities (m.vertex he)
    let qk := sAt quantities (m.vertex (m.next he))
    if qj = qi ∧ qj = qk then some Vector3.zero
    else
      let n := vpg.faceNormals (m.face he)
      let ej := ext.vecFromHalfedge m vpg he
      let ei := ext.vecFromHalfedge m vpg (m.next he)
      let ek := ext.vecFromHalfedge m vpg (m.next (m.next he))
      let anglek := ext.angle ej ei
      let anglej := ext.angle ei ek
      let anglei := ext.angle ek ej
      let grad_ejnorm : Vector3 := -(ext.normalize ej)
      let grad_eknorm : Vector3 := ext.normalize ek
      let grad_anglek : Vector3 := ext.normalize (Vector3.cross n ej) / ext.norm ej
      let grad_anglej : Vector3 := ext.normalize (Vector3.cross n ek) / ext.norm ek
      let grad_anglei : Vector3 := -(grad_anglek + grad_anglej)
      let grad_cosanglek : Vector3 := (-(ext.sin anglek)) * grad_anglek
      let grad_cosanglei : Vector3 := (-(ext.sin anglei)) * grad_anglei
      let grad_cosanglej : Vector3 := (-(ext.sin anglej)) * grad_anglej
      some
        ((2 * qj * qj * ext.norm ej) * grad_ejnorm +
          (2 * qk * qk * ext.norm ek) * grad_eknorm +
          (2 * qj * qi * ext.norm ei) *
            (grad_ejnorm * ext.cos anglek + ext.norm ej * grad_cosanglek) +
          (2 * qi * qk * ext.norm ei) *
            (grad_eknorm * ext.cos anglej + ext.norm ek * grad_cosanglej) +
          (2 * qj * qk) *
            (grad_ejnorm * ext.norm ek * ext.cos anglei +
              ext.norm ej * grad_eknorm * ext.cos anglei +
              (ext.norm ej * ext.norm ek) * grad_cosanglei))

/-- Modelled from the spec: `Forces::ontoNormal(vec, i)` (declared in `forces.h`) is the scalar
projection of a force vector onto the vertex normal. -/
def ontoNormalAt (vpg : VertexPositionGeometry) (v : Vector3) (i : Nat) : ℚ :=
  Vector3.dot v (vAt vpg.vertexNormals i)

/-- Modelled from the spec: `Forces::ontoNormal(field)`, the projection row by row. -/
def ontoNormal (vpg : VertexPositionGeometry) (f : List Vector3) : List ℚ :=
  List.zipWith Vector3.dot f vpg.vertexNormals

/-- Accumulators of `computeMechanicalForces(i)`. -/
structure VertexForces where
  bendForceVec : Vector3
  bendForceVec_areaGrad : Vector3
  bendForceVec_gaussVec : Vector3
  bendForceVec_schlafliVec : Vector3
  capillaryForceVec : Vector3
  osmoticForceVec : Vector3
  lineCapForceVec : Vector3
  adsorptionForceVec : Vector3
  aggregationForceVec : Vector3

/-- Accumulators of `computeMechanicalForces(i)` at their initial value. -/
def VertexForces.zero : VertexForces :=
  ⟨Vector3.zero, Vector3.zero, Vector3.zero, Vector3.zero, Vector3.zero, Vector3.zero,
    Vector3.zero, Vector3.zero, Vector3.zero⟩

/-- Mean curvature `vertexMeanCurvatures[i] / vertexDualAreas[i]` at a vertex. -/
def pointwiseMeanCurvature (vpg : VertexPositionGeometry) (i : Nat) : ℚ :=
  vpg.vertexMeanCurvatures i / vpg.vertexDualAreas i

/-- Body of the loop over `v.outgoingHalfedges()` in `computeMechanicalForces(i)`. -/
def accumulateHalfedge (ext : External) (s : System) (i : Nat) (acc : VertexForces)
    (he : Nat) : VertexForces :=
  let Hi := pointwiseMeanCurvature s.vpg i
  let H0i := s.H0 i
  let Kbi := s.Kb i
  let proteinDensityi := sAt s.proteinDensity i
  let fID := s.mesh.face he
  let i_vj := s.mesh.tipVertex he
  let dphi_ijk : Vector3 :=
    if s.mesh.isInterior he = true then s.proteinDensityGradient fID else Vector3.zero
  let Hj := pointwiseMeanCurvature s.vpg i_vj
  let H0j := s.H0 i_vj
  let Kbj := s.Kb i_vj
  let proteinDensityj := sAt s.proteinDensity i_vj
  let interiorHalfedge := s.mesh.isInterior he
  let areaGrad : Vector3 := (2 : ℚ) * computeHalfedgeMeanCurvatureVector ext s.mesh s.vpg he
  let gaussVec := computeHalfedgeGaussianCurvatureVector ext s.mesh s.vpg he
  let schlafliVec1 := (computeHalfedgeSchlafliVector s.mesh s.vpg he).1
  let schlafliVec2 := (computeHalfedgeSchlafliVector s.mesh s.vpg he).2
  let oneSidedAreaGrad : Vector3 :=
    if interiorHalfedge = true then
      (1 / 2 : ℚ) *
        Vector3.cross (s.vpg.faceNormals fID) (ext.vecFromHalfedge s.mesh s.vpg (s.mesh.next he))
    else Vector3.zero
  let dirichletVec : Vector3 :=
    if interiorHalfedge = true then
      ((computeGradientNorm2Gradient ext s.mesh s.vpg he s.proteinDensity).getD Vector3.zero) /
        s.vpg.faceAreas fID
    else Vector3.zero
  { osmoticForceVec := acc.osmoticForceVec +
      s.forces.osmoticPressure * computeHalfedgeVolumeVariationVector s.mesh s.vpg he
    capillaryForceVec := acc.capillaryForceVec - s.forces.surfaceTension * areaGrad
    adsorptionForceVec := acc.adsorptionForceVec -
      ((proteinDensityi / 3 + proteinDensityj * 2 / 3) * s.parameters.adsorption_epsilon) *
        areaGrad
    aggregationForceVec := acc.aggregationForceVec -
      ((proteinDensityi * proteinDensityi / 3 + proteinDensityj * proteinDensityj * 2 / 3) *
        s.parameters.aggregation_chi) * areaGrad
    lineCapForceVec := acc.lineCapForceVec -
      s.parameters.dirichlet_eta *
        ((1 / 8 : ℚ) * dirichletVec - ((1 / 2 : ℚ) * Vector3.norm2 dphi_ijk) * oneSidedAreaGrad)
    bendForceVec_schlafliVec := acc.bendForceVec_schlafliVec -
      ((Kbi * (Hi - H0i)) * schlafliVec1 + (Kbj * (Hj - H0j)) * schlafliVec2)
    bendForceVec_areaGrad := acc.bendForceVec_areaGrad -
      (Kbi * (H0i * H0i - Hi * Hi) / 3 + Kbj * (H0j * H0j - Hj * Hj) * 2 / 3) * areaGrad
    bendForceVec_gaussVec := acc.bendForceVec_gaussVec -
      (Kbi * (Hi - H0i) + Kbj * (Hj - H0j)) * gaussVec
    bendForceVec := acc.bendForceVec -
      ((Kbi * (Hi - H0i) + Kbj * (Hj - H0j)) * gaussVec +
        (Kbi * (H0i * H0i - Hi * Hi) / 3 + Kbj * (H0j * H0j - Hj * Hj) * 2 / 3) * areaGrad +
        ((Kbi * (Hi - H0i)) * schlafliVec1 + (Kbj * (Hj - H0j)) * schlafliVec2)) }

/-- Masked force vectors of `computeMechanicalForces(i)` at vertex `i`. -/
def vertexForcesAt (ext : External) (s : System) (i : Nat) : VertexForces :=
  let acc := (s.mesh.outgoingHalfedges i).foldl (accumulateHalfedge ext s i) VertexForces.zero
  { bendForceVec_areaGrad := s.forces.maskForceAt acc.bendForceVec_areaGrad i
    bendForceVec_gaussVec := s.forces.maskForceAt acc.bendForceVec_gaussVec i
    bendForceVec_schlafliVec := s.forces.maskForceAt acc.bendForceVec_schlafliVec i
    bendForceVec := s.forces.maskForceAt acc.bendForceVec i
    osmoticForceVec := s.forces.maskForceAt acc.osmoticForceVec i
    capillaryForceVec := s.forces.maskForceAt acc.capillaryForceVec i
    lineCapForceVec := s.forces.maskForceAt acc.lineCapForceVec i
    adsorptionForceVec := s.forces.maskForceAt acc.adsorptionForceVec i
    aggregationForceVec := s.forces.maskForceAt acc.aggregationForceVec i }

/-- Field with one entry per vertex, entry `i` being `f i`. -/
def vertexField {α : Type} (m : Mesh) (f : Nat → α) : List α := (List.range m.nVertices).map f

/-- Loop of `System::computeMechanicalForces()` over all vertices: the per-mechanism force
vectors and their projections onto the vertex normal. -/
def System.computeMechanicalForces (ext : External) (s : System) : System :=
  let vf := vertexForcesAt ext s
  { s with forces :=
    { s.forces with
      bendingForceVec_areaGrad := vertexField s.mesh fun i => (vf i).bendForceVec_areaGrad
      bendingForceVec_gaussVec := vertexField s.mesh fun i => (vf i).bendForceVec_gaussVec
      bendingForceVec_schlafliVec :=
        vertexField s.mesh fun i => (vf i).bendForceVec_schlafliVec
      bendingForceVec := vertexField s.mesh fun i => (vf i).bendForceVec
      capillaryForceVec := vertexField s.mesh fun i => (vf i).capillaryForceVec
      osmoticForceVec := vertexField s.mesh fun i => (vf i).osmoticForceVec
      lineCapillaryForceVec := vertexField s.mesh fun i => (vf i).lineCapForceVec
      adsorptionForceVec := vertexField s.mesh fun i => (vf i).adsorptionForceVec
      aggregationForceVec := vertexField s.mesh fun i => (vf i).aggregationForceVec
      bendingForce := vertexField s.mesh fun i => ontoNormalAt s.vpg (vf i).bendForceVec i
      capillaryForce :=
        vertexField s.mesh fun i => ontoNormalAt s.vpg (vf i).capillaryForceVec i
      osmoticForce := vertexField s.mesh fun i => ontoNormalAt s.vpg (vf i).osmoticForceVec i
      lineCapillaryForce :=
        vertexField s.mesh fun i => ontoNormalAt s.vpg (vf i).lineCapForceVec i
      adsorptionForce :=
        vertexField s.mesh fun i => ontoNormalAt s.vpg (vf i).adsorptionForceVec i
      aggregationForce :=
        vertexField s.mesh fun i => ontoNormalAt s.vpg (vf i).aggregationForceVec i } }

/-- Anchor force of `System::prescribeExternalForce` (the branch `MODE == 1`). -/
def System.prescribeExternalForce (ext : External) (s : System) : System :=
  let decayTime : ℚ := 500
  let geodesicDistanceFromPtInd := ext.computeDistance s.mesh s.vpg s.thePoint
  let standardDeviation : ℚ := 2 / 100
  let direction : Vector3 := ⟨0, 0, 1⟩
  let externalForceVec : List Vector3 := vertexField s.mesh fun i =>
    (ext.exp (-s.time / decayTime) * s.parameters.external_Kf *
      ext.gaussianDistribution (geodesicDistanceFromPtInd i) standardDeviation *
      ext.vertexDualArea s.mesh s.vpg i) * direction
  { s with
    geodesicDistanceFromPtInd := geodesicDistanceFromPtInd
    forces :=
      { s.forces with
        externalForceVec := externalForceVec
        externalForce := ontoNormal s.vpg externalForceVec } }

/-- Potentials of `System::computeChemicalPotential`. -/
def System.computeChemicalPotential (s : System) : System :=
  let phi := fun i => sAt s.proteinDensity i
  let meanCurvDiff := fun i => pointwiseMeanCurvature s.vpg i - s.H0 i
  let dH0dphi : Nat → ℚ :=
    if s.parameters.bending.relation = "linear" then fun _ => s.parameters.bending.H0c
    else if s.parameters.bending.relation = "hill" then
      fun i => 2 * s.parameters.bending.H0c * phi i /
        ((1 + phi i * phi i) * (1 + phi i * phi i))
    else fun _ => 0
  let dKbdphi : Nat → ℚ :=
    if s.parameters.bending.relation = "linear" then fun _ => s.parameters.bending.Kbc
    else if s.parameters.bending.relation = "hill" then
      fun i => 2 * s.parameters.bending.Kbc * phi i /
        ((1 + phi i * phi i) * (1 + phi i * phi i))
    else fun _ => 0
  let adsorptionPotential := s.forces.maskProtein
    (vertexField s.mesh fun i => -s.parameters.adsorption_epsilon * s.vpg.vertexDualAreas i)
  let aggregationPotential := s.forces.maskProtein
    (vertexField s.mesh fun i =>
      -2 * s.parameters.aggregation_chi * phi i * s.vpg.vertexDualAreas i)
  let bendingPotential := s.forces.maskProtein
    (vertexField s.mesh fun i =>
      -s.vpg.vertexDualAreas i *
        (meanCurvDiff i * meanCurvDiff i * dKbdphi i -
          2 * s.Kb i * meanCurvDiff i * dH0dphi i))
  let diffusionPotential := s.forces.maskProtein
    (vecScale (-s.parameters.dirichlet_eta) (s.vpg.cotanLaplacian s.proteinDensity))
  let interiorPenaltyPotential := s.forces.maskProtein
    (vertexField s.mesh fun i =>
      s.parameters.proteinDistribution_lambdaPhi * (1 / phi i - 1 / (1 - phi i)))
  { s with forces :=
    { s.forces with
      adsorptionPotential := adsorptionPotential
      aggregationPotential := aggregationPotential
      bendingPotential := bendingPotential
      diffusionPotential := diffusionPotential
      interiorPenaltyPotential := interiorPenaltyPotential
      chemicalPotential :=
        vecAdd
          (vecAdd (vecAdd (vecAdd adsorptionPotential aggregationPotential) bendingPotential)
            diffusionPotential)
          interiorPenaltyPotential } }

/-- Field `fill({0, 0, 0})` on a per-vertex vector field. -/
def zeroVectors (m : Mesh) : List Vector3 := vertexField m fun _ => Vector3.zero

/-- Field `setZero()` on a per-vertex scalar field. -/
def zeroScalars (m : Mesh) : List ℚ := vertexField m fun _ => 0

/-- First block of `computePhysicalForcing`: "zero all forces". -/
def System.zeroAllForces (s : System) : System :=
  { s with forces :=
    { s.forces with
      bendingForceVec := zeroVectors s.mesh
      bendingForceVec_areaGrad := zeroVectors s.mesh
      bendingForceVec_gaussVec := zeroVectors s.mesh
      bendingForceVec_schlafliVec := zeroVectors s.mesh
      capillaryForceVec := zeroVectors s.mesh
      osmoticForceVec := zeroVectors s.mesh
      lineCapillaryForceVec := zeroVectors s.mesh
      adsorptionForceVec := zeroVectors s.mesh
      aggregationForceVec := zeroVectors s.mesh
      externalForceVec := zeroVectors s.mesh
      bendingForce := zeroScalars s.mesh
      capillaryForce := zeroScalars s.mesh
      lineCapillaryForce := zeroScalars s.mesh
      externalForce := zeroScalars s.mesh
      adsorptionForce := zeroScalars s.mesh
      aggregationForce := zeroScalars s.mesh
      osmoticForce := zeroScalars s.mesh
      chemicalPotential := zeroScalars s.mesh
      diffusionPotential := zeroScalars s.mesh
      bendingPotential := zeroScalars s.mesh
      adsorptionPotential := zeroScalars s.mesh
      interiorPenaltyPotential := zeroScalars s.mesh } }

/-- Block `if (parameters.variation.isShapeVariation)` of `computePhysicalForcing`. -/
def System.shapeForcing (ext : External) (s : System) : System :=
  let s := s.computeMechanicalForces ext
  let s := if s.parameters.external_Kf ≠ 0 then s.prescribeExternalForce ext else s
  let mechanicalForceVec :=
    matAdd (matAdd (matAdd (matAdd (matAdd (matAdd s.forces.osmoticForceVec
      s.forces.capillaryForceVec) s.forces.bendingForceVec) s.forces.lineCapillaryForceVec)
      s.forces.adsorptionForceVec) s.forces.aggregationForceVec) s.forces.externalForceVec
  { s with forces :=
    { s.forces with
      mechanicalForceVec := mechanicalForceVec
      mechanicalForce := ontoNormal s.vpg mechanicalForceVec } }

/-- Force evaluation `System::computePhysicalForcing`. -/
def System.computePhysicalForcing (ext : External) (s : System) : System :=
  let s := s.zeroAllForces
  let s := if s.parameters.variation.isShapeVariation = true then s.shapeForcing ext else s
  let s := if s.parameters.variation.isProteinVariation = true
    then s.computeChemicalPotential else s
  { s with
    mechErrorNorm :=
      if s.parameters.variation.isShapeVariation = true
      then ext.matrixNorm s.forces.mechanicalForceVec else Double.finite 0
    chemErrorNorm :=
      if s.parameters.variation.isProteinVariation = true
      then ext.vectorNorm s.forces.chemicalPotential else Double.finite 0 }

/-- Relation "`t` has the forcing inputs of `s`": the state that `computePhysicalForcing`
reads and does not write (mesh, geometry, parameters, protein density and its gradient,
`H0`, `Kb`, time, tracked point, masks, surface tension and osmotic pressure). -/
def System.sameForcingInputs (s t : System) : Prop :=
  t.mesh = s.mesh ∧ t.vpg = s.vpg ∧ t.parameters = s.parameters ∧
    t.proteinDensity = s.proteinDensity ∧
    t.proteinDensityGradient = s.proteinDensityGradient ∧ t.H0 = s.H0 ∧ t.Kb = s.Kb ∧
    t.time = s.time ∧ t.thePoint = s.thePoint ∧ t.forces.forceMask = s.forces.forceMask ∧
    t.forces.proteinMask = s.forces.proteinMask ∧
    t.forces.surfaceTension = s.forces.surfaceTension ∧
    t.forces.osmoticPressure = s.forces.osmoticPressure

/-! ## Mesh regularizer (`regularization.cpp`) -/

/-- Body of the loop over `v.outgoingHalfedges()` in `computeRegularizationForce`: the
contributions of one halfedge, added to the force `f` of the vertex `v`. -/
def regularizeHalfedge (ext : External) (s : System) (v : Nat) (f : Vector3) (he : Nat) :
    Vector3 :=
  let reg := s.meshProcessor.meshRegularizer
  let e := s.mesh.edge he
  -- conformal regularization
  let f : Vector3 :=
    if reg.Kst ≠ 0 ∧ s.mesh.edgeIsBoundary e = false then
      let jl := s.mesh.next he
      let li := s.mesh.next jl
      let ik := s.mesh.next (s.mesh.twin he)
      let kj := s.mesh.next ik
      let grad_li := ext.normalize (ext.vecFromHalfedge s.mesh s.vpg li)
      let grad_ik := ext.normalize (ext.vecFromHalfedge s.mesh s.vpg (s.mesh.twin ik))
      f + ((-reg.Kst * (ext.computeLengthCrossRatio s.mesh s.vpg e - reg.refLcrs e) /
              reg.refLcrs e *
              (ext.edgeLength s.mesh s.vpg (s.mesh.edge kj) /
                ext.edgeLength s.mesh s.vpg (s.mesh.edge jl))) *
            (grad_li * ext.edgeLength s.mesh s.vpg (s.mesh.edge ik) -
              grad_ik * ext.edgeLength s.mesh s.vpg (s.mesh.edge li))) /
          ext.edgeLength s.mesh s.vpg (s.mesh.edge ik) /
          ext.edgeLength s.mesh s.vpg (s.mesh.edge ik)
    else f
  -- local area regularization
  let f : Vector3 :=
    if reg.Ksl ≠ 0 ∧ s.mesh.isInterior he = true then
      let base_he := s.mesh.next he
      let base_vec := ext.vecFromHalfedge s.mesh s.vpg base_he
      let localAreaGradient : Vector3 :=
        -(Vector3.cross base_vec (ext.faceNormal s.mesh s.vpg (s.mesh.face he)))
      let referenceArea :=
        if s.mesh.vertexIsBoundary v = true then reg.refFaceAreas (s.mesh.face base_he)
        else reg.meanTargetFaceArea
      f + ((-reg.Ksl) * localAreaGradient) *
        (ext.faceArea s.mesh s.vpg (s.mesh.face base_he) - referenceArea)
    else f
  -- local edge regularization
  if reg.Kse ≠ 0 then
    let edgeGradient : Vector3 := -(ext.normalize (ext.vecFromHalfedge s.mesh s.vpg he))
    let referenceLength :=
      if s.mesh.vertexIsBoundary v = true then reg.refEdgeLengths e
      else reg.meanTargetEdgeLength
    f + ((-reg.Kse) * edgeGradient) * (ext.edgeLength s.mesh s.vpg e - referenceLength)
  else f

/-- Force `forces.regularizationForce[v]` after the loop over the vertices of
`computeRegularizationForce`: the contributions are added to the value the field holds on
entry. -/
def accumulateRegularization (ext : External) (s : System) (v : Nat) : Vector3 :=
  if s.mesh.vertexIsBoundary v = false then
    (s.mesh.outgoingHalfedges v).foldl (regularizeHalfedge ext s v)
      (vAt s.forces.regularizationForce v)
  else vAt s.forces.regularizationForce v

/-- Post-processing "remove the normal component" of `computeRegularizationForce`:
`F -= rowwiseScalarProduct(rowwiseDotProduct(F, N), N)`. -/
def removeNormalComponent (f n : List Vector3) : List Vector3 :=
  List.zipWith (fun fi ni => fi - Vector3.dot fi ni * ni) f n

/-- Regularization force `System::computeRegularizationForce`. -/
def System.computeRegularizationForce (ext : External) (s : System) : System :=
  let accumulated := vertexField s.mesh (accumulateRegularization ext s)
  { s with forces :=
    { s.forces with
      regularizationForce := removeNormalComponent accumulated s.vpg.vertexNormals } }

/-! ## Forward Euler loop (`forward_euler.cpp`, `integrator.cpp`) -/

/-- Smallest entry `minCoeff()` of a vector. -/
def minCoeff (l : List ℚ) : ℚ := l.foldl min (l.headD 0)

/-- Largest entry `maxCoeff()` of a vector. -/
def maxCoeff (l : List ℚ) : ℚ := l.foldl max (l.headD 0)

/-- Step rule `Integrator::updateAdaptiveCharacteristicStep`. -/
def Integrator.updateAdaptiveCharacteristicStep (I : Integrator) : Integrator :=
  let currentMinimumSize := minCoeff (I.system.mesh.edges.map I.system.vpg.edgeLengths)
  let currentMaximumForce :=
    if I.system.parameters.variation.isShapeVariation = true
    then maxCoeff (I.system.forces.mechanicalForce.map fun x => |x|)
    else maxCoeff (I.system.forces.chemicalPotential.map fun x => |x|)
  { I with characteristicTimeStep :=
      (I.dt_size2_ratio * currentMinimumSize * currentMinimumSize) *
        (I.initialMaximumForce / currentMaximumForce) }

/-- Flag update made by each failing test of `finitenessErrorBacktrack`. -/
def Integrator.signalFailure (I : Integrator) : Integrator :=
  { I with EXIT := true, SUCCESS := false }

/-- Check `Integrator::finitenessErrorBacktrack`; the console diagnostics are dropped. -/
def Integrator.finitenessErrorBacktrack (I : Integrator) : Integrator :=
  let I := if I.timeStep.isfinite = false then I.signalFailure else I
  let I := if I.system.mechErrorNorm.isfinite = false then I.signalFailure else I
  let I := if I.system.chemErrorNorm.isfinite = false then I.signalFailure else I
  if I.system.energy.totalEnergy.isfinite = false then I.signalFailure else I

/-- Force summary `Integrator::getForces`. -/
def Integrator.getForces (ext : External) (I : Integrator) : Integrator :=
  let s := I.system.computePhysicalForcing ext
  if s.parameters.dpd_gamma ≠ 0 then
    let s := ext.computeDPDForces s I.timeStep
    { I with
      system := s
      dpdForce := List.zipWith Vector3.dot
        (s.forces.maskForce (matAdd s.forces.dampingForce s.forces.stochasticForce))
        s.vpg.vertexNormals }
  else { I with system := s }

/-- Lines "compute the area contraint error" of `Euler::status`. -/
def Euler.constraintErrors (I : Integrator) : Integrator :=
  { I with
    areaDifference := |I.system.surfaceArea / I.system.parameters.tension.At - 1|
    volumeDifference :=
      if I.system.parameters.osmotic.isPreferredVolume = true
      then |I.system.volume / I.system.parameters.osmotic.Vt - 1|
      else |I.system.parameters.osmotic.n / I.system.volume /
        I.system.parameters.osmotic.cam - 1| }

/-- Lines "exit if under error tolerance" of `Euler::status`. -/
def Euler.thresholdTolerance (I : Integrator) : Integrator :=
  if I.system.mechErrorNorm.ltRat I.tolerance = true ∧
      I.system.chemErrorNorm.ltRat I.tolerance = true
  then { I with EXIT := true } else I

/-- Lines "exit if reached time" of `Euler::status`. -/
def Euler.thresholdTime (I : Integrator) : Integrator :=
  if I.system.time > I.totalTime then { I with EXIT := true, SUCCESS := false } else I

/-- Lines "compute the free energy of the system" of `Euler::status`. -/
def Euler.computeFreeEnergy (ext : External) (I : Integrator) : Integrator :=
  let I :=
    if I.system.parameters.external_Kf ≠ 0
    then { I with system :=
      I.system.setEnergy (ext.computeExternalWork I.system I.system.time I.timeStep) }
    else I
  { I with system := I.system.setEnergy (ext.computeTotalEnergy I.system) }

/-- Status evaluation `Euler::status`. -/
def Euler.status (ext : External) (I : Integrator) : Integrator :=
  Integrator.finitenessErrorBacktrack
    (Euler.computeFreeEnergy ext
      (Euler.thresholdTime (Euler.thresholdTolerance (Euler.constraintErrors (I.getForces ext)))))

/-- Output routine `Integrator::saveData`: files and console output are dropped, the frame
counter advances. -/
def Integrator.saveData (I : Integrator) : Integrator := { I with frame := I.frame + 1 }

/-- First lines of `Euler::march`: the velocities are set to the forces and the
characteristic step is adapted if requested. -/
def Euler.marchEntry (I : Integrator) : Integrator :=
  let I := { I with system :=
    { I.system with
      velocity := I.system.forces.mechanicalForceVec
      proteinVelocity :=
        vecScale I.system.parameters.proteinMobility I.system.forces.chemicalPotential } }
  if I.isAdaptiveStep = true then I.updateAdaptiveCharacteristicStep else I

/-- Call of `backtrack` made by `Euler::march` when `isBacktrack` is set. -/
def Euler.marchLineSearch (ext : External) (lsFuel : Nat) (I : Integrator) :
    Option BacktrackResult :=
  let I := Euler.marchEntry I
  I.backtrack ext lsFuel I.system.energy.potentialEnergy I.system.velocity
    I.system.proteinVelocity I.rho I.c1

/-- Last lines of `Euler::march`: the regularization move, then the refresh. -/
def Euler.marchExit (ext : External) (I : Integrator) : Integrator :=
  let s := I.system
  let s :=
    if s.meshProcessor.isMeshRegularize = true then
      let s := s.computeRegularizationForce ext
      s.setPositions (matAdd s.vpg.inputVertexPositions s.forces.regularizationForce)
    else s
  { I with system := s.updateVertexPositions ext false }

/-- Step `Euler::march`; `none` when the line search runs out of fuel. -/
def Euler.march (ext : External) (lsFuel : Nat) (I : Integrator) : Option Integrator :=
  if I.isBacktrack = true then
    match Euler.marchLineSearch ext lsFuel I with
    | none => none
    | some r => some (Euler.marchExit ext { r.integrator with timeStep := Double.finite r.alpha })
  else
    let I := Euler.marchEntry I
    let timeStep := I.characteristicTimeStep
    let s := I.system
    let s := s.setPositions (matAdd s.vpg.inputVertexPositions (matScale timeStep s.velocity))
    let s := s.setProteinDensity (vecAdd s.proteinDensity (vecScale timeStep s.proteinVelocity))
    let s := { s with time := s.time + timeStep }
    some (Euler.marchExit ext { I with system := s, timeStep := Double.finite timeStep })

/-- Periodic save of the loop of `Euler::integrate`. -/
def Euler.periodicSave (I : Integrator) : Integrator :=
  if I.system.time - I.lastSave ≥ I.savePeriod ∨ I.system.time = I.initialTime ∨
      I.EXIT = true
  then Integrator.saveData { I with lastSave := I.system.time } else I

/-- Periodic mesh processing of the loop of `Euler::integrate`; `none` when `mutateMesh`
raises a runtime error. -/
def Euler.periodicMesh (ext : External) (I : Integrator) : Option Integrator :=
  if I.system.time - I.lastProcessMesh > I.processMeshPeriod then
    match ext.mutateMesh I.system with
    | none => none
    | some s =>
      some { I with lastProcessMesh := I.system.time
                    system := s.updateVertexPositions ext false }
  else some I

/-- Periodic geodesics update of the loop of `Euler::integrate`. -/
def Euler.periodicGeodesics (ext : External) (I : Integrator) : Integrator :=
  if I.system.time - I.lastUpdateGeodesics > I.updateGeodesicsPeriod
  then { I with lastUpdateGeodesics := I.system.time
                system := I.system.updateVertexPositions ext true }
  else I

/-- Part of one pass of the loop of `Euler::integrate` from `status()` to the test of `EXIT`:
status, periodic save, periodic mesh processing, periodic geodesics update. -/
def Euler.loopBody (ext : External) (I : Integrator) : Option Integrator :=
  match Euler.periodicMesh ext (Euler.periodicSave (Euler.status ext I)) with
  | none => none
  | some I => some (Euler.periodicGeodesics ext I)

/-- Part "step forward" of one pass of the loop of `Euler::integrate`. -/
def Euler.stepForward (ext : External) (lsFuel : Nat) (I : Integrator) : Option Integrator :=
  if I.system.time = I.lastProcessMesh ∨ I.system.time = I.lastUpdateGeodesics then
    some { I with system :=
      { I.system with time := I.system.time + (1 / 10000000000 : ℚ) * I.characteristicTimeStep } }
  else Euler.march ext lsFuel I

/-- Loop `for (;;)` of `Euler::integrate`; `none` when the fuel runs out or a runtime error
is raised. -/
def Euler.integrateLoop (ext : External) (lsFuel : Nat) : Nat → Integrator → Option Integrator
  | 0, _ => none
  | fuel + 1, I =>
    match Euler.loopBody ext I with
    | none => none
    | some P =>
      if P.EXIT = true then some P
      else
        match Euler.stepForward ext lsFuel P with
        | none => none
        | some Q => Euler.integrateLoop ext lsFuel fuel Q

/-- Outcome of `Euler::integrate`: the returned flag, the marker passed to `markFileName`
when the run did not succeed, and the integrator left. -/
structure IntegrateResult where
  success : Bool
  marker : Option String
  integrator : Integrator

/-- Time integration `Euler::integrate`, without an interrupt. -/
def Euler.integrate (ext : External) (fuel lsFuel : Nat) (I : Integrator) :
    Option IntegrateResult :=
  match Euler.integrateLoop ext lsFuel fuel I with
  | none => none
  | some R =>
    some
      { success := R.SUCCESS
        marker :=
          if R.SUCCESS = false then some (if R.tolerance = 0 then "_most" else "_failed")
          else none
        integrator := R }

/-- State at the top of the loop of `Euler::integrate` after `k` completed passes, if the
loop gets that far. -/
def Euler.loopHead (ext : External) (lsFuel : Nat) : Nat → Integrator → Option Integrator
  | 0, I => some I
  | k + 1, I =>
    match Euler.loopBody ext I with
    | none => none
    | some P =>
      if P.EXIT = true then none
      else
        match Euler.stepForward ext lsFuel P with
        | none => none
        | some Q => Euler.loopHead ext lsFuel k Q

/-- Outcome "no failure at the status call on `J`": the time does not exceed `totalTime`
and the four values tested by `finitenessErrorBacktrack` are finite. -/
def Euler.statusClean (ext : External) (J : Integrator) : Prop :=
  ¬ ((Euler.status ext J).system.time > (Euler.status ext J).totalTime) ∧
    (Euler.status ext J).timeStep.isfinite = true ∧
    (Euler.status ext J).system.mechErrorNorm.isfinite = true ∧
    (Euler.status ext J).system.chemErrorNorm.isfinite = true ∧
    (Euler.status ext J).system.energy.totalEnergy.isfinite = true

/-- Outcome "both error norms are below the tolerance at the status call on `J`". -/
def Euler.statusConverged (ext : External) (J : Integrator) : Prop :=
  (Euler.status ext J).system.mechErrorNorm.ltRat (Euler.status ext J).tolerance = true ∧
    (Euler.status ext J).system.chemErrorNorm.ltRat (Euler.status ext J).tolerance = true

/-- Event "the step forward from `P` is a backtracking march whose line search signals
failure". -/
def Euler.lineSearchFailed (ext : External) (lsFuel : Nat) (P : Integrator) : Prop :=
  ¬ (P.system.time = P.lastProcessMesh ∨ P.system.time = P.lastUpdateGeodesics) ∧
    P.isBacktrack = true ∧
    ∃ r, Euler.marchLineSearch ext lsFuel P = some r ∧ r.failed

/-! ## Constraint thresholds and parameter check (`integrator.cpp`, `forward_euler.cpp`) -/

/-- Assignment to `system.parameters.tension.lambdaSG`. -/
def Integrator.setLambdaSG (I : Integrator) (v : ℚ) : Integrator :=
  { I with system := { I.system with parameters := { I.system.parameters with
      tension := { I.system.parameters.tension with lambdaSG := v } } } }

/-- Assignment to `system.parameters.osmotic.lambdaV`. -/
def Integrator.setLambdaV (I : Integrator) (v : ℚ) : Integrator :=
  { I with system := { I.system with parameters := { I.system.parameters with
      osmotic := { I.system.parameters.osmotic with lambdaV := v } } } }

/-- Assignment to `system.parameters.tension.Ksg`. -/
def Integrator.setKsg (I : Integrator) (v : ℚ) : Integrator :=
  { I with system := { I.system with parameters := { I.system.parameters with
      tension := { I.system.parameters.tension with Ksg := v } } } }

/-- Assignment to `system.parameters.osmotic.Kv`. -/
def Integrator.setKv (I : Integrator) (v : ℚ) : Integrator :=
  { I with system := { I.system with parameters := { I.system.parameters with
      osmotic := { I.system.parameters.osmotic with Kv := v } } } }

/-- Test `system.mechErrorNorm < tolerance && system.chemErrorNorm < tolerance`. -/
def Integrator.normsBelowTolerance (I : Integrator) : Prop :=
  I.system.mechErrorNorm.ltRat I.tolerance = true ∧
    I.system.chemErrorNorm.ltRat I.tolerance = true

instance (I : Integrator) : Decidable I.normsBelowTolerance := by
  unfold Integrator.normsBelowTolerance; infer_instance

/-- Threshold `Integrator::pressureConstraintThreshold`. The flag passed by reference is the
first component of the result; the console output is dropped. -/
def Integrator.pressureConstraintThreshold (I : Integrator) (EXIT : Bool)
    (isAugmentedLagrangian : Bool) (dArea ctol increment : ℚ) : Bool × Integrator :=
  if I.normsBelowTolerance then
    if isAugmentedLagrangian = true then
      if dArea < ctol then (true, I)
      else
        (EXIT, I.setLambdaSG (I.system.parameters.tension.lambdaSG +
          I.system.parameters.tension.Ksg *
            (I.system.surfaceArea - I.system.parameters.tension.At) /
            I.system.parameters.tension.At))
    else
      if dArea < ctol then (true, I)
      else (EXIT, I.setKsg (I.system.parameters.tension.Ksg * increment))
  else (EXIT, I)

/-- Threshold `Integrator::reducedVolumeThreshold`. The flag passed by reference is the first
component of the result; the console output is dropped. The argument `increment` is not
read by the body, which multiplies by the literal `1.3`. -/
def Integrator.reducedVolumeThreshold (I : Integrator) (EXIT : Bool)
    (isAugmentedLagrangian : Bool) (dArea dVolume ctol _increment : ℚ) : Bool × Integrator :=
  if I.normsBelowTolerance then
    if isAugmentedLagrangian = true then
      if dArea < ctol ∧ dVolume < ctol then (true, I)
      else
        let I := I.setLambdaSG (I.system.parameters.tension.lambdaSG +
          I.system.parameters.tension.Ksg *
            (I.system.surfaceArea - I.system.parameters.tension.At) /
            I.system.parameters.tension.At)
        let I := I.setLambdaV (I.system.parameters.osmotic.lambdaV +
          I.system.parameters.osmotic.Kv *
            (I.system.volume - I.system.parameters.osmotic.Vt) /
            I.system.parameters.osmotic.Vt)
        (EXIT, I)
    else
      let EXIT := if dArea < ctol ∧ dVolume < ctol then true else EXIT
      let I := if dArea > ctol
        then I.setKsg (I.system.parameters.tension.Ksg * (13 / 10)) else I
      let I := if dVolume > ctol
        then I.setKv (I.system.parameters.osmotic.Kv * (13 / 10)) else I
      (EXIT, I)
  else (EXIT, I)

/-- Check `Euler::checkParameters`; `mem3dg_runtime_error` is the error result. -/
def Euler.checkParameters (I : Integrator) : Except String Unit :=
  if I.system.parameters.dpd_gamma ≠ 0 then
    Except.error "DPD has to be turned off for euler integration!"
  else if I.isBacktrack = true then
    if I.rho ≥ 1 ∨ I.rho ≤ 0 ∨ I.c1 ≥ 1 ∨ I.c1 ≤ 0 then
      Except.error "To backtrack, 0<rho<1 and 0<c1<1!"
    else Except.ok ()
  else Except.ok ()

/-- The four values that `finitenessErrorBacktrack` tests are all finite. -/
def Integrator.allFinite (I : Integrator) : Prop :=
  I.timeStep.isfinite = true ∧ I.system.mechErrorNorm.isfinite = true ∧
    I.system.chemErrorNorm.isfinite = true ∧ I.system.energy.totalEnergy.isfinite = true

instance (I : Integrator) : Decidable I.allFinite := by
  unfold Integrator.allFinite; infer_instance

/-! ## Damping and stochastic forces (`force.cpp`, `pressure.cpp`) -/

/-- Update `field[i] += f` of a per-vertex vector field. -/
def addAt : List Vector3 → Nat → Vector3 → List Vector3
  | [], _, _ => []
  | x :: xs, 0, f => (x + f) :: xs
  | x :: xs, i + 1, f => x :: addAt xs i f

/-- Update `field[i] -= f` of a per-vertex vector field. -/
def subAt : List Vector3 → Nat → Vector3 → List Vector3
  | [], _, _ => []
  | x :: xs, 0, f => (x - f) :: xs
  | x :: xs, i + 1, f => x :: subAt xs i f

/-- Sum of the rows of an n x 3 matrix. -/
def matSum (a : List Vector3) : Vector3 := a.foldr (fun x acc => x + acc) Vector3.zero

/-- Fields written by the loop over the edges of `computeDPDForces`, and the number of draws
taken from the random generator so far. -/
structure DPDForces where
  dampingForce : List Vector3
  stochasticForce : List Vector3
  draws : Nat

/-- Body of the loop `for (gcs::Edge e : mesh->edges())` of `computeDPDForces`; `noise k` is
the value of the `k`-th call `normal_dist(rng)`. -/
def dpdEdge (ext : External) (m : Mesh) (pos vel : List Vector3) (gamma sigma : ℚ)
    (noise : Nat → ℚ) (st : DPDForces) (e : Nat) : DPDForces :=
  let he := m.edgeHalfedge e
  let v1 := m.vertex he
  let v2 := m.vertex (m.next he)
  let dVel12 : Vector3 := vAt vel v1 - vAt vel v2
  let dPos12_n : Vector3 := ext.normalize (vAt pos v1 - vAt pos v2)
  let st :=
    if gamma ≠ 0 then
      let df : Vector3 := gamma * (Vector3.dot dVel12 dPos12_n * dPos12_n)
      { st with dampingForce := addAt (subAt st.dampingForce v1 df) v2 df }
    else st
  if sigma ≠ 0 then
    let drawn := noise st.draws
    { st with
      stochasticForce :=
        subAt (addAt st.stochasticForce v1 (drawn * dPos12_n)) v2 (drawn * dPos12_n)
      draws := st.draws + 1 }
  else st

/-- Reset of the two fields and loop over the edges, common to `System::computeDPDForces`
(`force.cpp`) and `System::getDPDForces` (`pressure.cpp`). -/
def dpdLoop (ext : External) (m : Mesh) (pos vel : List Vector3) (gamma sigma : ℚ)
    (noise : Nat → ℚ) : DPDForces :=
  m.edges.foldl (dpdEdge ext m pos vel gamma sigma noise) ⟨zeroVectors m, zeroVectors m, 0⟩

/-- Routine `System::computeDPDForces(dt)` of `force.cpp`. The square root of libm, the
constant `mem3dg::constants::kBoltzmann` and the draws of the random generator are taken as
given; `External.computeDPDForces` stands for this routine with the draws of a run. -/
def System.computeDPDForces (ext : External) (sqrt : ℚ → ℚ) (kBoltzmann : ℚ)
    (noise : Nat → ℚ) (dt : ℚ) (s : System) : System :=
  let sigma := sqrt (2 * s.parameters.dpd_gamma * kBoltzmann * s.parameters.temperature / dt)
  let r := dpdLoop ext s.mesh s.vpg.inputVertexPositions s.velocity s.parameters.dpd_gamma
    sigma noise
  { s with forces :=
    { s.forces with dampingForce := r.dampingForce, stochasticForce := r.stochasticForce } }

/-- Routine `System::getDPDForces` of `pressure.cpp` (the older interface), on the vertex
positions, the velocities `vel` and the parameters `P.gamma` and `P.sigma`. -/
def getDPDForces (ext : External) (m : Mesh) (pos vel : List Vector3) (gamma sigma : ℚ)
    (noise : Nat → ℚ) : DPDForces :=
  dpdLoop ext m pos vel gamma sigma noise

/-! ## Edge collapse of `growMesh` (`regularization.cpp`) -/

/-- Value `collapsedPosition` computed by the collapse branch of `growMesh` for the edge with
`vertex1 = he.tipVertex()` and `vertex2 = he.tailVertex()`. -/
def System.collapsedPosition (s : System) (vertex1 vertex2 : Nat) : Vector3 :=
  if Vector3.sum (vAt s.forces.forceMask vertex1) < 5 / 2 then
    vAt s.vpg.inputVertexPositions vertex1
  else if Vector3.sum (vAt s.forces.forceMask vertex2) < 5 / 2 then
    vAt s.vpg.inputVertexPositions vertex2
  else (vAt s.vpg.inputVertexPositions vertex1 + vAt s.vpg.inputVertexPositions vertex2) /
    (2 : ℚ)

/-- Assignment `field[i] = v` on a per-vertex vector field. -/
def setAt : List Vector3 → Nat → Vector3 → List Vector3
  | [], _, _ => []
  | _ :: xs, 0, v => v :: xs
  | x :: xs, i + 1, v => x :: setAt xs i v

/-- Position update of the collapse branch of `growMesh` on the edge `e`:
`collapsedPosition` is computed before the collapse and assigned to the vertex `newVertex`
that `mesh->collapseEdgeTriangular(e)` returns. The other updates of the branch (tracker,
velocity, distance, protein density) do not write positions. -/
def System.placeCollapsedVertex (s : System) (e newVertex : Nat) : System :=
  let he := s.mesh.edgeHalfedge e
  let vertex1 := s.mesh.tipVertex he
  let vertex2 := s.mesh.vertex he
  s.setPositions (setAt s.vpg.inputVertexPositions newVertex (s.collapsedPosition vertex1 vertex2))

/-- Mask with every component 0 or 1. -/
def Vector3.isBinary (m : Vector3) : Prop :=
  (m.x = 0 ∨ m.x = 1) ∧ (m.y = 0 ∨ m.y = 1) ∧ (m.z = 0 ∨ m.z = 1)

/-- Mask `(1,1,1)` of a vertex that is free in every coordinate. -/
def Vector3.isFree (m : Vector3) : Prop := m = ⟨1, 1, 1⟩

instance (m : Vector3) : Decidable m.isFree := by
  unfold Vector3.isFree; infer_instance

/-! ## Evolution by explicit steps -/

/-- One pass of the loop of `Euler::integrate` without output, mesh processing and geodesics
update: `status()`, then `march()`. -/
def Euler.pass (ext : External) (lsFuel : Nat) (I : Integrator) : Option Integrator :=
  Euler.march ext lsFuel (Euler.status ext I)

/-- State after `k` passes, if every line search of the run returns. -/
def Euler.evolve (ext : External) (lsFuel : Nat) : Nat → Integrator → Option Integrator
  | 0, I => some I
  | k + 1, I =>
    match Euler.pass ext lsFuel I with
    | none => none
    | some J => Euler.evolve ext lsFuel k J

/-- What the density update of a non-backtracking `march()` reads. -/
structure MarchView where
  proteinDensity : List ℚ
  chemicalPotential : List ℚ
  parameters : Parameters
  mesh : Mesh
  characteristicTimeStep : ℚ
  isBacktrack : Bool
  isAdaptiveStep : Bool

def Integrator.marchView (I : Integrator) : MarchView :=
  ⟨I.system.proteinDensity, I.system.forces.chemicalPotential, I.system.parameters,
    I.system.mesh, I.characteristicTimeStep, I.isBacktrack, I.isAdaptiveStep⟩

/-- Every entry of the protein density lies strictly between 0 and 1. -/
def Integrator.densityInUnit (I : Integrator) : Prop :=
  ∀ x ∈ I.system.proteinDensity, 0 < x ∧ x < 1

/-- Diffusion-potential-only step within the stability bound of the explicit scheme: a
non-backtracking, non-adaptive step without dissipation, protein variation on, every
potential but the diffusion potential switched off, a protein mask with entries in `[0,1]`,
a Laplacian product of the form `sum_j w i j * (phi i - phi j)` with weights `w i j >= 0`,
and `tau = timeStep * proteinMobility * eta >= 0` with `tau * sum_j w i j <= 1` at every
vertex. -/
def Euler.DiffusionStable (I : Integrator) : Prop :=
  I.isBacktrack = false ∧ I.isAdaptiveStep = false ∧
    I.system.parameters.dpd_gamma = 0 ∧
    I.system.parameters.variation.isProteinVariation = true ∧
    I.system.parameters.adsorption_epsilon = 0 ∧
    I.system.parameters.aggregation_chi = 0 ∧
    I.system.parameters.proteinDistribution_lambdaPhi = 0 ∧
    I.system.parameters.bending.H0c = 0 ∧
    I.system.parameters.bending.Kbc = 0 ∧
    I.system.forces.proteinMask.length = I.system.mesh.nVertices ∧
    I.system.proteinDensity.length = I.system.mesh.nVertices ∧
    (I.system.vpg.cotanLaplacian I.system.proteinDensity).length = I.system.mesh.nVertices ∧
    (∀ i, i < I.system.mesh.nVertices →
      0 ≤ sAt I.system.forces.proteinMask i ∧ sAt I.system.forces.proteinMask i ≤ 1) ∧
    0 ≤ I.characteristicTimeStep * I.system.parameters.proteinMobility *
      I.system.parameters.dirichlet_eta ∧
    ∃ w : Nat → Nat → ℚ,
      (∀ i j, i < I.system.mesh.nVertices → j < I.system.mesh.nVertices → 0 ≤ w i j) ∧
      (∀ i, i < I.system.mesh.nVertices →
        sAt (I.system.vpg.cotanLaplacian I.system.proteinDensity) i =
          ((List.range I.system.mesh.nVertices).map fun j =>
            w i j * (sAt I.system.proteinDensity i - sAt I.system.proteinDensity j)).sum) ∧
      (∀ i, i < I.system.mesh.nVertices →
        I.characteristicTimeStep * I.system.parameters.proteinMobility *
          I.system.parameters.dirichlet_eta *
          ((List.range I.system.mesh.nVertices).map fun j => w i j).sum ≤ 1)

/-! ## Mesh mutation (`regularization.cpp`)

The mutation routines delete and create vertices, so here the per-vertex data
(`gcs::VertexData`) are maps from vertex indices, and a mesh carries the list of its vertices
that have not been deleted. -/

/-- A `gcs::SurfacePoint`: a vertex, a point on an edge, or a point in a face. -/
inductive SurfacePoint where
  | vertex (v : Nat)
  | edge (e : Nat) (tEdge : ℚ)
  | face (f : Nat) (faceCoords : Vector3)
deriving DecidableEq

/-- A `gcs::ManifoldSurfaceMesh` under mutation: the connectivity (whose `edges` are the
edges that have not been deleted) and the vertices that have not been deleted, in the order
`mesh->vertices()` visits them. -/
structure MutableMesh where
  connectivity : Mesh
  vertices : List Nat

/-- Vertices `v.adjacentVertices()`: the tips of the outgoing halfedges. -/
def MutableMesh.adjacentVertices (m : MutableMesh) (v : Nat) : List Nat :=
  (m.connectivity.outgoingHalfedges v).map m.connectivity.tipVertex

/-- Edges `v.adjacentEdges()`: the edges of the outgoing halfedges. -/
def MutableMesh.adjacentEdges (m : MutableMesh) (v : Nat) : List Nat :=
  (m.connectivity.outgoingHalfedges v).map m.connectivity.edge

/-- Member `meshProcessor.meshMutator`: the switches of `mutateMesh` and the criteria and
helpers of `MeshMutator`, which are defined outside the embedded files. -/
structure MeshMutator where
  shiftVertex : Bool
  isSplitEdge : Bool
  isCollapseEdge : Bool
  isEdgeFlip : Bool
  /-- Criterion `ifFlip(e, *vpg)`, on the mesh and the vertex positions. -/
  ifFlip : Nat → MutableMesh → (Nat → Vector3) → Bool
  /-- Criterion `ifSplit(e, *vpg)`. -/
  ifSplit : Nat → MutableMesh → (Nat → Vector3) → Bool
  /-- Criterion `ifCollapse(e, *vpg)`. -/
  ifCollapse : Nat → MutableMesh → (Nat → Vector3) → Bool
  /-- Mask left by `maskAllNeighboring(smoothingMask, v)`. -/
  maskAllNeighboring : MutableMesh → (Nat → Bool) → Nat → (Nat → Bool)

/-- Members of `System` that the mesh mutation routines read or write. -/
structure MutableSystem where
  mesh : MutableMesh
  meshMutator : MeshMutator
  isOpenMesh : Bool
  /-- Parameter `parameters.point.isFloatVertex`. -/
  point_isFloatVertex : Bool
  inputVertexPositions : Nat → Vector3
  vertexNormals : Nat → Vector3
  velocity : Nat → Vector3
  geodesicDistanceFromPtInd : Nat → ℚ
  proteinDensity : Nat → ℚ
  forceMask : Nat → Vector3
  proteinMask : Nat → ℚ
  thePointTracker : Nat → Bool
  smoothingMask : Nat → Bool
  thePoint : SurfacePoint

/-- Operations of the mesh library and helpers of the repository outside the embedded files
that the mutation routines call, taken as given. -/
structure MeshLibrary where
  /-- Mesh left by `mesh->flip(e)`. -/
  flip : MutableMesh → Nat → MutableMesh
  /-- Mesh left by `mesh->splitEdgeTriangular(e)` and the vertex `.vertex()` of the halfedge
  it returns, the vertex created by the split. -/
  splitEdgeTriangular : MutableMesh → Nat → MutableMesh × Nat
  /-- Mesh left by `mesh->collapseEdgeTriangular(e)` and the vertex it returns. -/
  collapseEdgeTriangular : MutableMesh → Nat → MutableMesh × Nat
  /-- State left by `mesh->compress()`, which re-indexes the mesh and every per-vertex datum
  registered with it. -/
  compress : MutableSystem → MutableSystem
  /-- Data left by `averageData(data, vertex1, vertex2, newVertex)` on 3-vectors. -/
  averageVector : (Nat → Vector3) → Nat → Nat → Nat → (Nat → Vector3)
  /-- Data left by `averageData(data, vertex1, vertex2, newVertex)` on scalars. -/
  averageScalar : (Nat → ℚ) → Nat → Nat → Nat → (Nat → ℚ)
  /-- Mask left by `boundaryForceMask(*mesh, mask, shapeBoundaryCondition)`. -/
  boundaryForceMask : MutableMesh → (Nat → Vector3) → (Nat → Vector3)
  /-- Mask left by `boundaryProteinMask(*mesh, mask, proteinBoundaryCondition)`. -/
  boundaryProteinMask : MutableMesh → (Nat → ℚ) → (Nat → ℚ)
  /-- State left by `globalSmoothing()` with its default arguments. -/
  globalSmoothing : MutableSystem → MutableSystem

/-- Locals `v1`, `v2`, `n_vAdj` of the boundary branch of `vertexShift`. -/
structure BoundaryScan where
  v1 : Nat
  v2 : Nat
  n_vAdj : Nat

/-- Body of the loop over `v.adjacentVertices()` in the boundary branch of `vertexShift`. -/
def boundaryScanStep (m : MutableMesh) (v : Nat) (st : BoundaryScan) (vAdj : Nat) :
    BoundaryScan :=
  if m.connectivity.vertexIsBoundary vAdj = true then
    if st.v1 = v then { st with v1 := vAdj, n_vAdj := st.n_vAdj + 1 }
    else if st.v2 = v then { st with v2 := vAdj, n_vAdj := st.n_vAdj + 1 }
    else { st with n_vAdj := st.n_vAdj + 1 }
  else st

/-- Loop over `v.adjacentVertices()` in the boundary branch of `vertexShift`. -/
def boundaryScan (m : MutableMesh) (v : Nat) : BoundaryScan :=
  (m.adjacentVertices v).foldl (boundaryScanStep m v) ⟨v, v, 0⟩

/-- Local `baryCenter` of the interior branch of `vertexShift`: the sum of the positions of
the adjacent vertices divided by their number. -/
def MutableSystem.baryCenter (s : MutableSystem) (v : Nat) : Vector3 :=
  ((s.mesh.adjacentVertices v).foldl (fun b vAdj => b + s.inputVertexPositions vAdj)
    Vector3.zero) / (((s.mesh.adjacentVertices v).length : ℚ))

/-- Body of the loop over the vertices of `vertexShift`; `mem3dg_runtime_error` is the error
result. -/
def MutableSystem.vertexShiftVertex (ext : External) (s : MutableSystem) (v : Nat) :
    Except String MutableSystem :=
  if Vector3.sum (s.forceMask v) > 1 / 2 then
    if s.mesh.connectivity.vertexIsBoundary v = true then
      let scan := boundaryScan s.mesh v
      if scan.n_vAdj ≠ 2 then
        Except.error "vertexShift: number of neighbor vertices on boundary is not 2!"
      else
        let pos := s.inputVertexPositions
        let baryCenter : Vector3 := (pos scan.v1 + pos scan.v2) / (2 : ℚ)
        let faceNormal := Vector3.cross (pos scan.v1 - pos v) (pos scan.v2 - pos v)
        let sideNormal := ext.normalize (Vector3.cross faceNormal (pos scan.v1 - pos scan.v2))
        Except.ok { s with
          inputVertexPositions := Function.update pos v
            (baryCenter - Vector3.dot sideNormal (baryCenter - pos v) * sideNormal) }
    else
      let baryCenter := s.baryCenter v
      Except.ok ((s.mesh.connectivity.outgoingHalfedges v).foldl
        (fun (q : MutableSystem) (_he : Nat) =>
          { q with
            inputVertexPositions := Function.update q.inputVertexPositions v
              (baryCenter -
                Vector3.dot (q.vertexNormals v) (baryCenter - q.inputVertexPositions v) *
                  q.vertexNormals v) })
        s)
  else Except.ok s

/-- Loop `for (gcs::Vertex v : mesh->vertices())` of `vertexShift` over the vertices `vs`
still to visit; an error ends it. -/
def MutableSystem.vertexShiftLoop (ext : External) : List Nat → MutableSystem →
    Except String MutableSystem
  | [], s => Except.ok s
  | v :: vs, s =>
    match s.vertexShiftVertex ext v with
    | Except.error msg => Except.error msg
    | Except.ok q => MutableSystem.vertexShiftLoop ext vs q

/-- Routine `System::vertexShift`. -/
def MutableSystem.vertexShift (ext : External) (s : MutableSystem) :
    Except String MutableSystem :=
  MutableSystem.vertexShiftLoop ext s.mesh.vertices s

/-- State of the loop of `edgeFlip`: the system and the locals `isOrigEdge`, `isFlipped`. -/
structure FlipState where
  system : MutableSystem
  isOrigEdge : Nat → Bool
  isFlipped : Bool

/-- Body of the loop `for (gcs::Edge e : mesh->edges())` of `edgeFlip`. The iterator passes
over an edge that has been deleted. The vertices `he.tailVertex()` and `he.tipVertex()` are
read after the flip. -/
def edgeFlipEdge (lib : MeshLibrary) (st : FlipState) (e : Nat) : FlipState :=
  let s := st.system
  if e ∉ s.mesh.connectivity.edges then st
  else if (!st.isOrigEdge e || s.mesh.connectivity.edgeIsBoundary e) = true then st
  else
    let he := s.mesh.connectivity.edgeHalfedge e
    if Vector3.sum (s.forceMask (s.mesh.connectivity.vertex he) +
        s.forceMask (s.mesh.connectivity.vertex (s.mesh.connectivity.twin he))) < 1 / 2 then st
    else if s.meshMutator.ifFlip e s.mesh s.inputVertexPositions = true then
      let flipped := lib.flip s.mesh e
      { system :=
          { s with
            mesh := flipped
            smoothingMask :=
              s.meshMutator.maskAllNeighboring flipped
                (s.meshMutator.maskAllNeighboring flipped s.smoothingMask
                  (flipped.connectivity.vertex he))
                (flipped.connectivity.tipVertex he) }
        isOrigEdge := Function.update st.isOrigEdge e false
        isFlipped := true }
    else st

/-- Routine `System::edgeFlip`: the value returned and the state left. -/
def MutableSystem.edgeFlip (lib : MeshLibrary) (s : MutableSystem) : Bool × MutableSystem :=
  let st := s.mesh.connectivity.edges.foldl (edgeFlipEdge lib) ⟨s, fun _ => true, false⟩
  (st.isFlipped, if st.isFlipped = true then lib.compress st.system else st.system)

/-- State of the loop of `growMesh`: the system and the locals `isOrigEdge`, `isOrigVertex`,
`isGrown`, `count`. -/
structure GrowState where
  system : MutableSystem
  isOrigEdge : Nat → Bool
  isOrigVertex : Nat → Bool
  isGrown : Bool
  count : Nat

/-- Value `collapsedPosition` of the collapse branch of `growMesh`. -/
def MutableSystem.collapsedPosition (s : MutableSystem) (vertex1 vertex2 : Nat) : Vector3 :=
  if Vector3.sum (s.forceMask vertex1) < 5 / 2 then s.inputVertexPositions vertex1
  else if Vector3.sum (s.forceMask vertex2) < 5 / 2 then s.inputVertexPositions vertex2
  else (s.inputVertexPositions vertex1 + s.inputVertexPositions vertex2) / (2 : ℚ)

/-- Split branch of the loop of `growMesh` on the edge `e` with `vertex1 = he.tipVertex()` and
`vertex2 = he.tailVertex()`. -/
def growMeshSplit (lib : MeshLibrary) (st : GrowState) (e vertex1 vertex2 : Nat) : GrowState :=
  let s := st.system
  let split := lib.splitEdgeTriangular s.mesh e
  let newVertex := split.2
  { system :=
      { s with
        mesh := split.1
        inputVertexPositions :=
          lib.averageVector s.inputVertexPositions vertex1 vertex2 newVertex
        velocity := lib.averageVector s.velocity vertex1 vertex2 newVertex
        geodesicDistanceFromPtInd :=
          lib.averageScalar s.geodesicDistanceFromPtInd vertex1 vertex2 newVertex
        proteinDensity := lib.averageScalar s.proteinDensity vertex1 vertex2 newVertex
        thePointTracker := Function.update s.thePointTracker newVertex false
        forceMask := Function.update s.forceMask newVertex ⟨1, 1, 1⟩
        smoothingMask := s.meshMutator.maskAllNeighboring split.1 s.smoothingMask newVertex }
    isOrigEdge := fun e1 =>
      if e1 ∈ split.1.adjacentEdges newVertex then false else st.isOrigEdge e1
    isOrigVertex := Function.update st.isOrigVertex newVertex false
    isGrown := true
    count := st.count + 1 }

/-- Collapse branch of the loop of `growMesh` on the edge `e` with
`vertex1 = he.tipVertex()` and `vertex2 = he.tailVertex()`. -/
def growMeshCollapse (lib : MeshLibrary) (st : GrowState) (e vertex1 vertex2 : Nat) :
    GrowState :=
  let s := st.system
  let collapsedPosition := s.collapsedPosition vertex1 vertex2
  let isThePoint := s.thePointTracker vertex1 || s.thePointTracker vertex2
  let collapse := lib.collapseEdgeTriangular s.mesh e
  let newVertex := collapse.2
  { system :=
      { s with
        mesh := collapse.1
        inputVertexPositions :=
          Function.update s.inputVertexPositions newVertex collapsedPosition
        thePointTracker := Function.update s.thePointTracker newVertex isThePoint
        velocity := lib.averageVector s.velocity vertex1 vertex2 newVertex
        geodesicDistanceFromPtInd :=
          lib.averageScalar s.geodesicDistanceFromPtInd vertex1 vertex2 newVertex
        proteinDensity := lib.averageScalar s.proteinDensity vertex1 vertex2 newVertex
        smoothingMask :=
          s.meshMutator.maskAllNeighboring collapse.1 s.smoothingMask newVertex }
    isOrigEdge := fun e1 =>
      if e1 ∈ collapse.1.adjacentEdges newVertex then false else st.isOrigEdge e1
    isOrigVertex := Function.update st.isOrigVertex newVertex false
    isGrown := true
    count := st.count }

/-- Body of the loop `for (gcs::Edge e : mesh->edges())` of `growMesh`. The iterator passes
over an edge that has been deleted. -/
def growMeshEdge (lib : MeshLibrary) (st : GrowState) (e : Nat) : GrowState :=
  let s := st.system
  if e ∉ s.mesh.connectivity.edges then st
  else
    let he := s.mesh.connectivity.edgeHalfedge e
    let vertex1 := s.mesh.connectivity.tipVertex he
    let vertex2 := s.mesh.connectivity.vertex he
    if st.isOrigEdge e = false then st
    else if Vector3.sum (s.forceMask vertex1 + s.forceMask vertex2) < 1 / 2 then st
    else if s.meshMutator.ifSplit e s.mesh s.inputVertexPositions = true then
      growMeshSplit lib st e vertex1 vertex2
    else if s.meshMutator.ifCollapse e s.mesh s.inputVertexPositions = true then
      growMeshCollapse lib st e vertex1 vertex2
    else st

/-- Locals of `growMesh` before its loop. -/
def GrowState.initial (s : MutableSystem) : GrowState :=
  ⟨s, fun _ => true, fun _ => true, false, 0⟩

/-- Routine `System::growMesh`: the value returned and the state left. -/
def MutableSystem.growMesh (lib : MeshLibrary) (s : MutableSystem) : Bool × MutableSystem :=
  let st := s.mesh.connectivity.edges.foldl (growMeshEdge lib) (GrowState.initial s)
  (st.isGrown, if st.isGrown = true then lib.compress st.system else st.system)

/-- Sum `thePointTracker.raw().cast<int>().sum()`: the number of marked vertices. The
routine that reads it runs on a compressed mesh, where the raw data hold one entry for each
vertex of the mesh. -/
def MutableSystem.trackerSum (s : MutableSystem) : Nat :=
  (s.mesh.vertices.filter fun v => s.thePointTracker v).length

/-- Routine `System::globalUpdateAfterMutation`; `mem3dg_runtime_error` is the error
result. -/
def MutableSystem.globalUpdateAfterMutation (lib : MeshLibrary) (s : MutableSystem) :
    Except String MutableSystem :=
  let s :=
    if s.isOpenMesh = true then
      { s with
        forceMask := lib.boundaryForceMask s.mesh fun _ => ⟨1, 1, 1⟩
        proteinMask := lib.boundaryProteinMask s.mesh fun _ => 1 }
    else s
  if s.point_isFloatVertex = false then
    let s := s.mesh.vertices.foldl
      (fun (q : MutableSystem) (v : Nat) =>
        if q.thePointTracker v = true then { q with thePoint := SurfacePoint.vertex v } else q)
      s
    if s.trackerSum ≠ 1 then
      Except.error "globalUpdateAfterMutation: there is no unique/existing \"the\" point!"
    else Except.ok s
  else Except.ok s

/-- The three flip passes of `mutateMesh`: `isFlipped = edgeFlip(); edgeFlip(); edgeFlip();`.
The value kept is the one the first pass returns. -/
def MutableSystem.flipPasses (lib : MeshLibrary) (s : MutableSystem) : Bool × MutableSystem :=
  let first := s.edgeFlip lib
  let second := first.2.edgeFlip lib
  let third := second.2.edgeFlip lib
  (first.1, third.2)

/-- First statements of `mutateMesh`: `smoothingMask.fill(false)` and, if it is switched on,
the vertex shift. -/
def MutableSystem.mutateMeshShift (ext : External) (s : MutableSystem) :
    Except String MutableSystem :=
  let s := { s with smoothingMask := fun _ => false }
  if s.meshMutator.shiftVertex = true then s.vertexShift ext else Except.ok s

/-- Second statement of `mutateMesh`: the local `isGrown` and the state left by the split and
collapse pass, if it is switched on. -/
def MutableSystem.mutateMeshGrow (lib : MeshLibrary) (mutator : MeshMutator)
    (s : MutableSystem) : Bool × MutableSystem :=
  if (mutator.isSplitEdge || mutator.isCollapseEdge) = true then s.growMesh lib else (false, s)

/-- Routine `System::mutateMesh`. -/
def MutableSystem.mutateMesh (ext : External) (lib : MeshLibrary) (s : MutableSystem) :
    Except String MutableSystem :=
  match s.mutateMeshShift ext with
  | Except.error msg => Except.error msg
  | Except.ok shifted =>
    let grown := shifted.mutateMeshGrow lib s.meshMutator
    let flipped :=
      if s.meshMutator.isEdgeFlip = true then grown.2.flipPasses lib else (false, grown.2)
    let updated :=
      if (grown.1 || flipped.1) = true then flipped.2.globalUpdateAfterMutation lib
      else Except.ok flipped.2
    match updated with
    | Except.error msg => Except.error msg
    | Except.ok s => Except.ok (lib.globalSmoothing s)

/-- Mesh whose edges join vertices that have not been deleted. -/
def MutableMesh.EndpointsLive (m : MutableMesh) : Prop :=
  ∀ e ∈ m.connectivity.edges,
    m.connectivity.tipVertex (m.connectivity.edgeHalfedge e) ∈ m.vertices ∧
      m.connectivity.vertex (m.connectivity.edgeHalfedge e) ∈ m.vertices

instance (m : MutableMesh) : Decidable m.EndpointsLive := by
  unfold MutableMesh.EndpointsLive; infer_instance

/-- Contract of `splitEdgeTriangular` on an edge of a mesh whose edges join live vertices: the
vertex created is new, the vertices of the mesh left are this vertex and those there were,
and the edges of the mesh left join live vertices. -/
def MeshLibrary.SplitContract (lib : MeshLibrary) : Prop :=
  ∀ (m : MutableMesh) (e : Nat), m.EndpointsLive → e ∈ m.connectivity.edges →
    (lib.splitEdgeTriangular m e).2 ∉ m.vertices ∧
      (∀ u, u ∈ (lib.splitEdgeTriangular m e).1.vertices ↔
        (u = (lib.splitEdgeTriangular m e).2 ∨ u ∈ m.vertices)) ∧
      (lib.splitEdgeTriangular m e).1.EndpointsLive

/-- Contract of `collapseEdgeTriangular` on an edge of a mesh whose edges join live vertices:
the vertex returned is one of the two endpoints, the vertices of the mesh left are this
vertex and those that were not an endpoint, and the edges of the mesh left join live
vertices. -/
def MeshLibrary.CollapseContract (lib : MeshLibrary) : Prop :=
  ∀ (m : MutableMesh) (e : Nat), m.EndpointsLive → e ∈ m.connectivity.edges →
    ((lib.collapseEdgeTriangular m e).2 = m.connectivity.tipVertex (m.connectivity.edgeHalfedge e) ∨
      (lib.collapseEdgeTriangular m e).2 = m.connectivity.vertex (m.connectivity.edgeHalfedge e)) ∧
      (∀ u, u ∈ (lib.collapseEdgeTriangular m e).1.vertices ↔
        (u = (lib.collapseEdgeTriangular m e).2 ∨
          (u ∈ m.vertices ∧ u ≠ m.connectivity.tipVertex (m.connectivity.edgeHalfedge e) ∧
            u ≠ m.connectivity.vertex (m.connectivity.edgeHalfedge e)))) ∧
      (lib.collapseEdgeTriangular m e).1.EndpointsLive

/-- Exactly one vertex of the mesh is marked in `thePointTracker`. -/
def MutableSystem.OneMarked (s : MutableSystem) : Prop :=
  ∃ u ∈ s.mesh.vertices, s.thePointTracker u = true ∧
    ∀ w ∈ s.mesh.vertices, s.thePointTracker w = true → w = u

instance (s : MutableSystem) : Decidable s.OneMarked := by
  unfold MutableSystem.OneMarked; infer_instance

/-! ## Inside pressure of the older interface (`pressure.cpp`) -/

/-- Members of the `System` of `pressure.cpp` that `getInsidePressure` reads or writes: the
answer of `mesh.hasBoundary()`, the flag `isReducedVolume`, the parameters `P.Kv`, `P.Vt`,
`P.cam`, `P.lambdaV`, and `volume`, `refVolume`, `insidePressure`. -/
structure PressureSystem where
  hasBoundary : Bool
  isReducedVolume : Bool
  Kv : ℚ
  Vt : ℚ
  cam : ℚ
  lambdaV : ℚ
  volume : ℚ
  refVolume : ℚ
  insidePressure : ℚ

/-- Routine `System::getInsidePressure` of `pressure.cpp`. -/
def PressureSystem.getInsidePressure (s : PressureSystem) : PressureSystem :=
  if s.hasBoundary = true then { s with insidePressure := s.Kv }
  else if s.isReducedVolume = true then
    { s with
      insidePressure :=
        -(s.Kv * (s.volume - s.refVolume * s.Vt) / (s.refVolume * s.Vt) + s.lambdaV) }
  else { s with insidePressure := s.Kv * (1 / s.volume - s.cam) }

/-! ## Marking the trajectory file (`integrator.cpp`)

Character buffers are lists of characters of the size of the array; a C string is the part of
a buffer before its first NUL. A write beyond the end of a buffer, which the language leaves
undefined, is the result `none`. -/

/-- The character that ends a C string. -/
def nul : Char := Char.ofNat 0

/-- The C string that a buffer or a `std::string` holds (`c_str()`): the characters before
the first NUL. -/
def cString (buf : List Char) : List Char := buf.takeWhile fun c => c != nul

/-- Array `char buf[size]{"/"}`: a slash and NULs after it. -/
def slashBuffer (size : Nat) : List Char := '/' :: List.replicate (size - 1) nul

/-- Buffer after the characters `cs` are written from the index `i` on. -/
def writeAt (buf : List Char) (i : Nat) (cs : List Char) : Option (List Char) :=
  if i + cs.length ≤ buf.length then some (buf.take i ++ cs ++ buf.drop (i + cs.length))
  else none

/-- Call `std::strncpy(dest, src, n)` with a C string `src`: `n` characters are written, NULs
once `src` is used up. -/
def strncpy (dest src : List Char) (n : Nat) : Option (List Char) :=
  writeAt dest 0 (src.take n ++ List.replicate (n - src.length) nul)

/-- Call `std::strcat(dest, src)` with a C string `src`. -/
def strcat (dest src : List Char) : Option (List Char) :=
  writeAt dest (cString dest).length (src ++ [nul])

/-- Call `std::strcpy(dest, src)` with a C string `src`. -/
def strcpy (dest src : List Char) : Option (List Char) :=
  writeAt dest 0 (src ++ [nul])

/-- Path `outputDirectory + "/" + trajFileName` at which `createMutableNetcdfFile` and
`createNetcdfFile` create the trajectory file, the path that `Euler::integrate` prints. -/
def trajectoryFilePath (outputDirectory trajFileName : List Char) : List Char :=
  outputDirectory ++ '/' :: trajFileName

/-- Routine `Integrator::markFileName(marker_str)` on the members `outputDirectory` and
`trajFileName`: the two arguments `oldNC`, `newNC` of the call `rename(oldNC, newNC)`, or
`none` when the routine runs into undefined behaviour (no `.` in the file name, so that `ext`
is null, or a write beyond a buffer). `sizeofPointer` is `sizeof(const char *)`, the value of
both `sizeof(marker)` and `sizeof(ext)`. -/
def markFileName (sizeofPointer : Nat) (outputDirectory trajFileName marker_str : List Char) :
    Option (List Char × List Char) :=
  let dirPath := cString outputDirectory
  let marker := cString marker_str
  let file := cString trajFileName
  let stem := file.takeWhile fun c => c != '.'
  if stem.length = file.length then none
  else
    let ext := file.drop stem.length
    match strncpy (slashBuffer 50) file stem.length with
    | none => none
    | some named =>
      match strcat named marker with
      | none => none
      | some marked =>
        match strcat marked ext with
        | none => none
        | some fileMarked =>
          match writeAt fileMarked (stem.length + sizeofPointer + sizeofPointer) [nul] with
          | none => none
          | some fileMarked =>
            match strcpy (slashBuffer 150) dirPath, strcpy (slashBuffer 150) dirPath with
            | some oldNC, some newNC =>
              match strcat oldNC file, strcat newNC (cString fileMarked) with
              | some oldNC, some newNC => some (cString oldNC, cString newNC)
              | _, _ => none
            | _, _ => none

/-! ## Example data

A flat patch in the plane `z = 0`: the interior vertex 0 at the origin and the boundary
vertices 1..4 at `(8,0,0)`, `(0,6,0)`, `(-8,0,0)`, `(0,-15,0)`; faces `(0,1,2)`, `(0,2,3)`,
`(0,3,4)`, `(0,4,1)`. Edge `e` has the halfedges `2e` and `2e+1`: the spokes 0..3 join the
vertex 0 to the vertices 1..4, the rim edges 4..7 join 1-2, 2-3, 3-4, 4-1, and the halfedges
9, 11, 13, 15 are exterior. All edge lengths are rational (8, 6, 8, 15, 10, 10, 17, 17). -/

def exMesh : Mesh :=
  { nVertices := 5
    outgoingHalfedges := fun v =>
      match v with
      | 0 => [0, 2, 4, 6]
      | 1 => [1, 8, 15]
      | 2 => [3, 10, 9]
      | 3 => [5, 12, 11]
      | 4 => [7, 14, 13]
      | _ => []
    edges := [0, 1, 2, 3, 4, 5, 6, 7]
    edgeHalfedge := fun e => 2 * e
    next := fun h =>
      match h with
      | 0 => 8 | 8 => 3 | 3 => 0
      | 2 => 10 | 10 => 5 | 5 => 2
      | 4 => 12 | 12 => 7 | 7 => 4
      | 6 => 14 | 14 => 1 | 1 => 6
      | 9 => 15 | 15 => 13 | 13 => 11 | 11 => 9
      | _ => 0
    twin := fun h => if h % 2 = 0 then h + 1 else h - 1
    vertex := fun h =>
      match h with
      | 0 => 0 | 1 => 1 | 2 => 0 | 3 => 2 | 4 => 0 | 5 => 3 | 6 => 0 | 7 => 4
      | 8 => 1 | 9 => 2 | 10 => 2 | 11 => 3 | 12 => 3 | 13 => 4 | 14 => 4 | 15 => 1
      | _ => 0
    tipVertex := fun h =>
      match h with
      | 0 => 1 | 1 => 0 | 2 => 2 | 3 => 0 | 4 => 3 | 5 => 0 | 6 => 4 | 7 => 0
      | 8 => 2 | 9 => 1 | 10 => 3 | 11 => 2 | 12 => 4 | 13 => 3 | 14 => 1 | 15 => 4
      | _ => 0
    face := fun h =>
      match h with
      | 0 => 0 | 8 => 0 | 3 => 0
      | 2 => 1 | 10 => 1 | 5 => 1
      | 4 => 2 | 12 => 2 | 7 => 2
      | 6 => 3 | 14 => 3 | 1 => 3
      | _ => 4
    edge := fun h => h / 2
    isInterior := fun h => !(h = 9 || h = 11 || h = 13 || h = 15)
    vertexIsBoundary := fun v => !(v = 0)
    edgeIsBoundary := fun e => decide (4 ≤ e) }

def exPositions : List Vector3 :=
  [⟨0, 0, 0⟩, ⟨8, 0, 0⟩, ⟨0, 6, 0⟩, ⟨-8, 0, 0⟩, ⟨0, -15, 0⟩]

/-- Cached geometry of the flat patch: unit normals `(0,0,1)`, zero curvature and dihedral
angles, barycentric dual areas, exact cotangent weights. -/
def exVpg : VertexPositionGeometry :=
  { inputVertexPositions := exPositions
    vertexNormals := [⟨0, 0, 1⟩, ⟨0, 0, 1⟩, ⟨0, 0, 1⟩, ⟨0, 0, 1⟩, ⟨0, 0, 1⟩]
    vertexMeanCurvatures := fun _ => 0
    vertexDualAreas := fun v =>
      match v with
      | 0 => 56 | 1 => 28 | 2 => 16 | 3 => 28 | _ => 40
    faceNormals := fun _ => ⟨0, 0, 1⟩
    faceAreas := fun f =>
      match f with
      | 0 => 24 | 1 => 24 | 2 => 60 | 3 => 60 | _ => 0
    halfedgeCotanWeights := fun h =>
      match h with
      | 0 => 3 / 8 | 3 => 2 / 3 | 2 => 2 / 3 | 5 => 3 / 8
      | 4 => 15 / 16 | 7 => 4 / 15 | 6 => 4 / 15 | 1 => 15 / 16
      | _ => 0
    edgeDihedralAngles := fun _ => 0
    edgeLengths := fun e =>
      match e with
      | 0 => 8 | 1 => 6 | 2 => 8 | 3 => 15 | 4 => 10 | 5 => 10 | 6 => 17 | _ => 17
    cotanLaplacian := fun x =>
      [(21 / 16 : ℚ) * (sAt x 0 - sAt x 1) + (4 / 3 : ℚ) * (sAt x 0 - sAt x 2) +
          (21 / 16 : ℚ) * (sAt x 0 - sAt x 3) + (8 / 15 : ℚ) * (sAt x 0 - sAt x 4),
        (21 / 16 : ℚ) * (sAt x 1 - sAt x 0), (4 / 3 : ℚ) * (sAt x 2 - sAt x 0),
        (21 / 16 : ℚ) * (sAt x 3 - sAt x 0), (8 / 15 : ℚ) * (sAt x 4 - sAt x 0)] }

/-- Parameters of the example: both variations on, every modulus zero, unit mobility. -/
def exParameters : Parameters :=
  { variation := ⟨true, true⟩
    bending := ⟨"linear", 0, 0⟩
    tension := ⟨0, 1, 0⟩
    osmotic := ⟨false, 0, 1, 1, 1, 0⟩
    adsorption_epsilon := 0
    aggregation_chi := 0
    dirichlet_eta := 0
    proteinDistribution_lambdaPhi := 0
    external_Kf := 0
    dpd_gamma := 0
    temperature := 0
    proteinMobility := 1 }

/-- Energy record whose only nonzero term is the Dirichlet energy. -/
def exEnergy (dirichletEnergy : ℚ) : Energy :=
  { totalEnergy := Double.finite dirichletEnergy
    kineticEnergy := 0
    potentialEnergy := dirichletEnergy
    externalWork := 0
    bendingEnergy := 0
    surfaceEnergy := 0
    pressureEnergy := 0
    adsorptionEnergy := 0
    aggregationEnergy := 0
    dirichletEnergy := dirichletEnergy
    proteinInteriorPenalty := 0 }

/-- Dirichlet energy `eta / 2 * phi^T L phi` of the protein density, with the cached cotangent
Laplacian `L`. -/
def exDirichletEnergy (s : System) : ℚ :=
  s.parameters.dirichlet_eta / 2 *
    vecInner s.proteinDensity (s.vpg.cotanLaplacian s.proteinDensity)

/-- Gradient on each face of the patch of the piecewise-linear interpolant of a vertex
field. -/
def exGradient (phi : List ℚ) (f : Nat) : Vector3 :=
  match f with
  | 0 => ⟨(sAt phi 1 - sAt phi 0) / 8, (sAt phi 2 - sAt phi 0) / 6, 0⟩
  | 1 => ⟨(sAt phi 0 - sAt phi 3) / 8, (sAt phi 2 - sAt phi 0) / 6, 0⟩
  | 2 => ⟨(sAt phi 0 - sAt phi 3) / 8, (sAt phi 0 - sAt phi 4) / 15, 0⟩
  | 3 => ⟨(sAt phi 1 - sAt phi 0) / 8, (sAt phi 0 - sAt phi 4) / 15, 0⟩
  | _ => ⟨0, 0, 0⟩

/-- Geodesic distance from the interior vertex 0 to each vertex of the patch. -/
def exGeodesic (v : Nat) : ℚ :=
  match v with
  | 0 => 0 | 1 => 8 | 2 => 6 | 3 => 8 | _ => 15

def exZeroVectors : List Vector3 :=
  [⟨0, 0, 0⟩, ⟨0, 0, 0⟩, ⟨0, 0, 0⟩, ⟨0, 0, 0⟩, ⟨0, 0, 0⟩]

def exZeroScalars : List ℚ := [0, 0, 0, 0, 0]

/-- Force fields of the example: free masks, every field zero. -/
def exForces : Forces :=
  { forceMask := [⟨1, 1, 1⟩, ⟨1, 1, 1⟩, ⟨1, 1, 1⟩, ⟨1, 1, 1⟩, ⟨1, 1, 1⟩]
    proteinMask := [1, 1, 1, 1, 1]
    surfaceTension := 0
    osmoticPressure := 0
    mechanicalForceVec := exZeroVectors
    mechanicalForce := exZeroScalars
    bendingForceVec := exZeroVectors
    bendingForceVec_areaGrad := exZeroVectors
    bendingForceVec_gaussVec := exZeroVectors
    bendingForceVec_schlafliVec := exZeroVectors
    capillaryForceVec := exZeroVectors
    osmoticForceVec := exZeroVectors
    lineCapillaryForceVec := exZeroVectors
    adsorptionForceVec := exZeroVectors
    aggregationForceVec := exZeroVectors
    externalForceVec := exZeroVectors
    bendingForce := exZeroScalars
    capillaryForce := exZeroScalars
    osmoticForce := exZeroScalars
    lineCapillaryForce := exZeroScalars
    adsorptionForce := exZeroScalars
    aggregationForce := exZeroScalars
    externalForce := exZeroScalars
    chemicalPotential := exZeroScalars
    bendingPotential := exZeroScalars
    adsorptionPotential := exZeroScalars
    aggregationPotential := exZeroScalars
    diffusionPotential := exZeroScalars
    interiorPenaltyPotential := exZeroScalars
    regularizationForce := exZeroVectors
    dampingForce := exZeroVectors
    stochasticForce := exZeroVectors }

def exMeshProcessor : MeshProcessor :=
  { isMeshRegularize := false
    meshRegularizer :=
      { Kst := 0, Ksl := 0, Kse := 0, refLcrs := fun _ => 1, refFaceAreas := fun _ => 42,
        refEdgeLengths := fun e => exVpg.edgeLengths e, meanTargetFaceArea := 42,
        meanTargetEdgeLength := 10 } }

/-- Example state: the flat patch with uniform protein density 1/2, every modulus zero, and
with the forces (all zero) and the energy (zero) that belong to it. -/
def exSystem : System :=
  { mesh := exMesh
    vpg := exVpg
    parameters := exParameters
    meshProcessor := exMeshProcessor
    forces := exForces
    energy := exEnergy 0
    proteinDensity := [1 / 2, 1 / 2, 1 / 2, 1 / 2, 1 / 2]
    proteinDensityGradient := exGradient [1 / 2, 1 / 2, 1 / 2, 1 / 2, 1 / 2]
    velocity := exZeroVectors
    proteinVelocity := exZeroScalars
    H0 := fun _ => 0
    Kb := fun _ => 0
    time := 0
    mechErrorNorm := Double.finite 0
    chemErrorNorm := Double.finite 0
    surfaceArea := 168
    volume := 1
    thePoint := 0
    geodesicDistanceFromPtInd := fun v => exGeodesic v }

/-- Derived quantities of the example: the cached geometry is kept as it is (the example
runs do not move the vertices) and the density gradient follows the protein density. -/
def exDerived (s : System) : Derived :=
  { vpg := s.vpg
    H0 := s.H0
    Kb := s.Kb
    proteinDensityGradient := exGradient s.proteinDensity
    surfaceArea := s.surfaceArea
    volume := s.volume
    surfaceTension := s.forces.surfaceTension
    osmoticPressure := s.forces.osmoticPressure
    geodesicDistanceFromPtInd := s.geodesicDistanceFromPtInd }

/-- Square root, exact on the squares that occur in the example and an upper bound
elsewhere. -/
def exSqrt (q : ℚ) : ℚ :=
  if q = 0 then 0 else if q = 36 then 6 else if q = 64 then 8 else if q = 100 then 10
  else if q = 225 then 15 else if q = 289 then 17 else (q + 1) / 2

/-- Collaborators of the example. The potential energy is the Dirichlet energy of the protein
density, there is no external power, and the other energy routines leave the record as it
is; vectors along halfedges come from the positions. The Gaussian of the external force is
the value 20 at distance 0 and 0 at the other vertices, and the exponential is its value at
time 0. -/
def exExternal : External :=
  { refresh := fun _ s => exDerived s
    computePotentialEnergy := fun s => exEnergy (exDirichletEnergy s)
    computeTotalEnergy := fun s => s.energy
    computeExternalWork := fun s _ _ => s.energy
    computeBendingEnergy := fun s => s.energy
    computeSurfaceEnergy := fun s => s.energy
    computePressureEnergy := fun s => s.energy
    computeAdsorptionEnergy := fun s => s.energy
    computeAggregationEnergy := fun s => s.energy
    computeDirichletEnergy := fun s => { s.energy with dirichletEnergy := exDirichletEnergy s }
    computeIntegratedPower := fun _ _ => 0
    vecFromHalfedge := fun m vpg he =>
      vAt vpg.inputVertexPositions (m.tipVertex he) - vAt vpg.inputVertexPositions (m.vertex he)
    normalize := fun v => v / exSqrt (Vector3.norm2 v)
    norm := fun v => exSqrt (Vector3.norm2 v)
    angle := fun _ _ => 0
    sin := fun _ => 0
    cos := fun _ => 1
    exp := fun _ => 1
    computeDistance := fun _ _ _ v => exGeodesic v
    gaussianDistribution := fun x _ => if x = 0 then 20 else 0
    vertexDualArea := fun _ vpg v => vpg.vertexDualAreas v
    edgeLength := fun _ vpg e => vpg.edgeLengths e
    faceArea := fun _ vpg f => vpg.faceAreas f
    faceNormal := fun _ vpg f => vpg.faceNormals f
    computeLengthCrossRatio := fun _ _ _ => 1
    matrixNorm := fun m => Double.finite (exSqrt (matInner m m))
    vectorNorm := fun v => Double.finite (exSqrt (vecInner v v))
    computeDPDForces := fun s _ => s
    mutateMesh := fun s => some s }

def exIntegrator : Integrator :=
  { system := exSystem
    characteristicTimeStep := 1
    timeStep := Double.finite 1
    EXIT := false
    SUCCESS := true
    tolerance := 1 / 1000
    totalTime := 10
    initialTime := 0
    savePeriod := 1
    lastSave := 0
    processMeshPeriod := 100
    lastProcessMesh := 0
    updateGeodesicsPeriod := 100
    lastUpdateGeodesics := 0
    isBacktrack := true
    rho := 1 / 2
    c1 := 1 / 4
    isAdaptiveStep := false
    dt_size2_ratio := 1
    initialMaximumForce := 1
    frame := 0
    areaDifference := 0
    volumeDifference := 0
    dpdForce := [] }

/-- Parameters of the diffusion example: protein variation only, Dirichlet modulus 240. -/
def exStiffParameters : Parameters :=
  { exParameters with variation := ⟨false, true⟩, dirichlet_eta := 240 }

/-- Protein density of the diffusion example: 1/40 above 1/2 at the interior vertex. -/
def exStiffDensity : List ℚ := [21 / 40, 1 / 2, 1 / 2, 1 / 2, 1 / 2]

/-- Diffusion potential `-eta * L * phi` of the diffusion example. -/
def exStiffPotential : List ℚ := [-539 / 20, 63 / 8, 8, 63 / 8, 16 / 5]

/-- State of the diffusion example, with the forces and the energy that the force engine and
the energy routine compute for it: the chemical potential is the diffusion potential and the
potential energy is the Dirichlet energy 539/1600. -/
def exStiffSystem : System :=
  { exSystem with
    parameters := exStiffParameters
    proteinDensity := exStiffDensity
    proteinDensityGradient := exGradient exStiffDensity
    proteinVelocity := exStiffPotential
    forces :=
      { exForces with
        chemicalPotential := exStiffPotential
        diffusionPotential := exStiffPotential }
    energy := exEnergy (539 / 1600)
    chemErrorNorm := exExternal.vectorNorm exStiffPotential }

/-- Integrator of the diffusion example with the characteristic step 1/100. -/
def exStiffIntegrator : Integrator :=
  { exIntegrator with system := exStiffSystem, characteristicTimeStep := 1 / 100, rho := 1 / 10 }

/-- Line-search locals of the run from `exStiffIntegrator` along the stored velocities. -/
def exLineSearch : LineSearch :=
  lineSearchOf exStiffIntegrator (539 / 1600) exZeroVectors exStiffPotential (1 / 10) (1 / 4)

/-- Outcome of the run from `exStiffIntegrator`: one shrink, step 1/1000. -/
def exResult : BacktrackResult :=
  { alpha := 1 / 1000
    count := 1
    integrator :=
      { exStiffIntegrator with
        system := trialSystem exExternal exLineSearch exStiffSystem (1 / 100) 1 } }

/-- Integrator of the diffusion example with a characteristic step, 10000, that is far too
large for the Dirichlet modulus. -/
def exOverstepIntegrator : Integrator :=
  { exIntegrator with system := exStiffSystem, characteristicTimeStep := 10000, rho := 1 / 100 }

/-- Line-search locals of the run from `exOverstepIntegrator` along the stored velocities. -/
def exOverstepLineSearch : LineSearch :=
  lineSearchOf exOverstepIntegrator (539 / 1600) exZeroVectors exStiffPotential (1 / 100)
    (1 / 4)

/-- Outcome of the run from `exOverstepIntegrator`: the steps 10000, 100, 1 and 1/100 are all
rejected, and 1/100 is below the threshold 1/10: three shrinks, then failure. -/
def exFailResult : BacktrackResult :=
  { alpha := 1 / 100
    count := 3
    integrator :=
      { exOverstepIntegrator with
        system := Integrator.lineSearchErrorBacktrace exExternal
          { exOverstepIntegrator with
            system := trialSystem exExternal exOverstepLineSearch exStiffSystem 10000 3 }
          (1 / 100) exPositions exStiffDensity (exEnergy (539 / 1600)) true
        EXIT := true
        SUCCESS := false } }

/-- External force of the pushed example: `Kf` times the Gaussian times the dual area, along
`(0,0,1)`, which is nonzero at the interior vertex only. -/
def exPush : List Vector3 := [⟨0, 0, 1120⟩, ⟨0, 0, 0⟩, ⟨0, 0, 0⟩, ⟨0, 0, 0⟩, ⟨0, 0, 0⟩]

/-- State of the pushed example: the patch under the external force with `Kf = 1`, every
other modulus zero, with the forces that the force engine computes for it. -/
def exPushedSystem : System :=
  { exSystem with
    parameters := { exParameters with external_Kf := 1 }
    velocity := exPush
    forces :=
      { exForces with
        externalForceVec := exPush
        externalForce := [1120, 0, 0, 0, 0]
        mechanicalForceVec := exPush
        mechanicalForce := [1120, 0, 0, 0, 0] }
    mechErrorNorm := exExternal.matrixNorm exPush }

def exPushedIntegrator : Integrator := { exIntegrator with system := exPushedSystem }

/-- Direction that moves every vertex along the x axis, in the plane of the patch. -/
def exSideways : List Vector3 := [⟨1, 0, 0⟩, ⟨1, 0, 0⟩, ⟨1, 0, 0⟩, ⟨1, 0, 0⟩, ⟨1, 0, 0⟩]

/-- Example patch with edge stiffness `Kse = 1` against the mean target edge length 10; the
regularization force field starts at zero. -/
def exRegularizedSystem : System :=
  { exSystem with
    meshProcessor :=
      { isMeshRegularize := true
        meshRegularizer := { exMeshProcessor.meshRegularizer with Kse := 1 } } }

/-- Outcome of `integrate` on the example: with every modulus zero the first status call
computes zero forces, finds both norms below the tolerance and ends the loop. -/
def exIntegrateResult : IntegrateResult :=
  { success := true
    marker := none
    integrator :=
      Integrator.saveData { Euler.status exExternal exIntegrator with lastSave := 0 } }

/-- Integrator of the penalty example: protein variation only on the uniform patch, so both
error norms are zero, with the stiffnesses `Ksg = 1` and `Kv = 1`. -/
def exPenaltyIntegrator : Integrator :=
  { exIntegrator with
    system :=
      { exSystem with
        parameters :=
          { exParameters with
            variation := ⟨false, true⟩
            tension := ⟨1, 1, 0⟩
            osmotic := ⟨true, 1, 1, 1, 1, 0⟩ } } }

/-- Geodesic distance from the boundary vertex 1 to each vertex of the patch. -/
def exGeodesicFromRim (v : Nat) : ℚ :=
  match v with
  | 0 => 8 | 1 => 0 | 2 => 10 | 3 => 16 | _ => 17

/-- Collaborators of the clamped example: as `exExternal`, with the distances measured from
the boundary vertex 1. -/
def exRimExternal : External :=
  { exExternal with computeDistance := fun _ _ _ v => exGeodesicFromRim v }

/-- External force of the clamped example: nonzero at the tracked boundary vertex 1 only. -/
def exRimPush : List Vector3 := [⟨0, 0, 0⟩, ⟨0, 0, 560⟩, ⟨0, 0, 0⟩, ⟨0, 0, 0⟩, ⟨0, 0, 0⟩]

/-- State of the clamped example: the patch with a fixed boundary (force mask `(0,0,0)` on
the vertices 1..4), the tracked point at the boundary vertex 1 and the external force with
`Kf = 1`, every other modulus zero, with the forces the force engine computes for it. -/
def exClampedSystem : System :=
  { exSystem with
    parameters := { exParameters with external_Kf := 1 }
    thePoint := 1
    geodesicDistanceFromPtInd := fun v => exGeodesicFromRim v
    velocity := exRimPush
    forces :=
      { exForces with
        forceMask := [⟨1, 1, 1⟩, ⟨0, 0, 0⟩, ⟨0, 0, 0⟩, ⟨0, 0, 0⟩, ⟨0, 0, 0⟩]
        externalForceVec := exRimPush
        externalForce := [0, 560, 0, 0, 0]
        mechanicalForceVec := exRimPush
        mechanicalForce := [0, 560, 0, 0, 0] }
    mechErrorNorm := exExternal.matrixNorm exRimPush }

/-- State with damping: the patch with `gamma = 1` and unit temperature, the interior vertex
moving along `(0,0,1120)`. -/
def exDampedSystem : System :=
  { exSystem with
    parameters := { exParameters with dpd_gamma := 1, temperature := 1 }
    velocity := exPush }

/-- Integrator of the diffusion example with explicit steps of the characteristic step 1. -/
def exExplicitIntegrator : Integrator :=
  { exIntegrator with system := exStiffSystem, isBacktrack := false }

/-- Integrator of the diffusion example with explicit steps of the characteristic step
1/2000, within the stability bound. -/
def exCalmIntegrator : Integrator :=
  { exIntegrator with
    system := exStiffSystem, isBacktrack := false, characteristicTimeStep := 1 / 2000 }

/-- Edge weights of the cotangent Laplacian of the patch. -/
def exWeights (i j : Nat) : ℚ :=
  match i, j with
  | 0, 1 => 21 / 16 | 0, 2 => 4 / 3 | 0, 3 => 21 / 16 | 0, 4 => 8 / 15
  | 1, 0 => 21 / 16 | 2, 0 => 4 / 3 | 3, 0 => 21 / 16 | 4, 0 => 8 / 15
  | _, _ => 0

/-- State with the interior penalty switched on (`lambdaPhi = 1`) and the protein density
1/4 at the interior vertex of the patch. -/
def exBarrierSystem : System :=
  { exSystem with
    parameters := { exParameters with proteinDistribution_lambdaPhi := 1 }
    proteinDensity := [1 / 4, 1 / 2, 3 / 4, 1 / 2, 1 / 2] }

/-- The patch as a mesh under mutation, none of its vertices deleted. -/
def exMutableMesh : MutableMesh := ⟨exMesh, [0, 1, 2, 3, 4]⟩

/-- Mesh mutator of the examples: every switch on; the edge 0 is to be collapsed, the edge 5
to be split and no edge to be flipped; `maskAllNeighboring` marks the vertex itself. -/
def exMeshMutator : MeshMutator :=
  { shiftVertex := true
    isSplitEdge := true
    isCollapseEdge := true
    isEdgeFlip := true
    ifFlip := fun _ _ _ => false
    ifSplit := fun e _ _ => e == 5
    ifCollapse := fun e _ _ => e == 0
    maskAllNeighboring := fun _ mask v => Function.update mask v true }

/-- State of the patch for the mutation routines: vertex-bound tracking of the vertex 0, only
the interior vertex 0 free to move (the boundary is held fixed). -/
def exMutableSystem : MutableSystem :=
  { mesh := exMutableMesh
    meshMutator := exMeshMutator
    isOpenMesh := true
    point_isFloatVertex := false
    inputVertexPositions := fun v => vAt exPositions v
    vertexNormals := fun _ => ⟨0, 0, 1⟩
    velocity := fun _ => Vector3.zero
    geodesicDistanceFromPtInd := fun v => exGeodesic v
    proteinDensity := fun _ => 1 / 2
    forceMask := fun v => if v = 0 then ⟨1, 1, 1⟩ else Vector3.zero
    proteinMask := fun _ => 1
    thePointTracker := fun v => v == 0
    smoothingMask := fun _ => false
    thePoint := SurfacePoint.vertex 0 }

/-- State that `vertexShift` leaves from `exMutableSystem`: the interior vertex at the
barycentre `(0, -9/4, 0)` of its four neighbours, which lies in the plane of the patch. -/
def exShiftedSystem : MutableSystem :=
  { exMutableSystem with
    inputVertexPositions := Function.update exMutableSystem.inputVertexPositions 0
      ⟨0, -9 / 4, 0⟩ }

/-- A rectangle of two triangles: vertices 0..3 at `(0,0,0)`, `(3,0,0)`, `(3,4,0)`,
`(0,4,0)`, faces `(0,1,2)` and `(0,2,3)`. Edge `e` has the halfedges `2e` and `2e+1`: the
edges 0, 1, 3, 4 are the sides 0-1, 1-2, 2-3, 3-0 and the edge 2 is the diagonal 2-0; the
halfedges 1, 3, 7, 9 are exterior. Every vertex is on the boundary, and the vertices 0 and 2
have three neighbours on the boundary. -/
def exQuadMesh : Mesh :=
  { nVertices := 4
    outgoingHalfedges := fun v =>
      match v with
      | 0 => [0, 5, 9]
      | 1 => [2, 1]
      | 2 => [4, 6, 3]
      | 3 => [8, 7]
      | _ => []
    edges := [0, 1, 2, 3, 4]
    edgeHalfedge := fun e => 2 * e
    next := fun h =>
      match h with
      | 0 => 2 | 2 => 4 | 4 => 0
      | 5 => 6 | 6 => 8 | 8 => 5
      | 1 => 9 | 9 => 7 | 7 => 3 | 3 => 1
      | _ => 0
    twin := fun h => if h % 2 = 0 then h + 1 else h - 1
    vertex := fun h =>
      match h with
      | 0 => 0 | 1 => 1 | 2 => 1 | 3 => 2 | 4 => 2 | 5 => 0 | 6 => 2 | 7 => 3
      | 8 => 3 | 9 => 0
      | _ => 0
    tipVertex := fun h =>
      match h with
      | 0 => 1 | 1 => 0 | 2 => 2 | 3 => 1 | 4 => 0 | 5 => 2 | 6 => 3 | 7 => 2
      | 8 => 0 | 9 => 3
      | _ => 0
    face := fun h =>
      match h with
      | 0 => 0 | 2 => 0 | 4 => 0
      | 5 => 1 | 6 => 1 | 8 => 1
      | _ => 2
    edge := fun h => h / 2
    isInterior := fun h => !(h = 1 || h = 3 || h = 7 || h = 9)
    vertexIsBoundary := fun _ => true
    edgeIsBoundary := fun e => !(e = 2) }

def exQuadPositions : List Vector3 := [⟨0, 0, 0⟩, ⟨3, 0, 0⟩, ⟨3, 4, 0⟩, ⟨0, 4, 0⟩]

/-- State of the rectangle with its boundary, that is every vertex, held fixed: the force
mask is `(0,0,0)` everywhere. -/
def exPinnedQuad : MutableSystem :=
  { exMutableSystem with
    mesh := ⟨exQuadMesh, [0, 1, 2, 3]⟩
    inputVertexPositions := fun v => vAt exQuadPositions v
    forceMask := fun _ => Vector3.zero }

/-- Mesh library of the examples. A split adds a vertex with a fresh index; a collapse
deletes the two endpoints, puts the tail vertex `he.tailVertex()` back and keeps the edges
whose endpoints are left; `flip`, `compress` and `globalSmoothing` leave their argument as it
is; `averageData` writes the mean at the new vertex; the force mask is `(0,0,0)` on the
boundary and the protein mask is left as it is. -/
def exLibrary : MeshLibrary :=
  { flip := fun m _ => m
    splitEdgeTriangular := fun m _ =>
      (⟨m.connectivity, m.vertices ++ [m.vertices.foldr max 0 + 1]⟩,
        m.vertices.foldr max 0 + 1)
    collapseEdgeTriangular := fun m e =>
      let vertex1 := m.connectivity.tipVertex (m.connectivity.edgeHalfedge e)
      let vertex2 := m.connectivity.vertex (m.connectivity.edgeHalfedge e)
      let vertices := vertex2 :: m.vertices.filter fun u => u ≠ vertex1 ∧ u ≠ vertex2
      (⟨{ m.connectivity with
          edges := m.connectivity.edges.filter fun e1 =>
            m.connectivity.tipVertex (m.connectivity.edgeHalfedge e1) ∈ vertices ∧
              m.connectivity.vertex (m.connectivity.edgeHalfedge e1) ∈ vertices },
        vertices⟩, vertex2)
    compress := fun s => s
    averageVector := fun data vertex1 vertex2 newVertex =>
      Function.update data newVertex ((data vertex1 + data vertex2) / (2 : ℚ))
    averageScalar := fun data vertex1 vertex2 newVertex =>
      Function.update data newVertex ((data vertex1 + data vertex2) / 2)
    boundaryForceMask := fun m mask v =>
      if m.connectivity.vertexIsBoundary v = true then Vector3.zero else mask v
    boundaryProteinMask := fun _ mask => mask
    globalSmoothing := fun s => s }

/-- State that `globalUpdateAfterMutation` leaves from `exMutableSystem`: the masks are set
again and the tracked point is the marked vertex 0. -/
def exUpdatedSystem : MutableSystem :=
  { exMutableSystem with
    forceMask := exLibrary.boundaryForceMask exMutableSystem.mesh fun _ => ⟨1, 1, 1⟩
    proteinMask := exLibrary.boundaryProteinMask exMutableSystem.mesh fun _ => 1 }

/-- State of the patch with a floating tracked point, in the face 0, while the tracker marks
the vertex 1 alone. -/
def exFloatingSystem : MutableSystem :=
  { exMutableSystem with
    isOpenMesh := false
    point_isFloatVertex := true
    thePointTracker := fun v => v == 1
    thePoint := SurfacePoint.face 0 ⟨1 / 3, 1 / 3, 1 / 3⟩ }

/-- A closed vesicle under the reduced-volume constraint with a nonzero multiplier
`lambdaV`: volume 3, reference volume 4, `Vt = 1/2`, `Kv = 2`, `lambdaV = 1`. -/
def exVesicle : PressureSystem :=
  { hasBoundary := false
    isReducedVolume := true
    Kv := 2
    Vt := 1 / 2
    cam := 0
    lambdaV := 1
    volume := 3
    refVolume := 4
    insidePressure := 0 }

/-! ## Theorems: vector arithmetic -/

theorem Vector3.add_def (a b : Vector3) : a + b = ⟨a.x + b.x, a.y + b.y, a.z + b.z⟩ := rfl

theorem Vector3.sub_def (a b : Vector3) : a - b = ⟨a.x - b.x, a.y - b.y, a.z - b.z⟩ := rfl

theorem Vector3.neg_def (a : Vector3) : -a = ⟨-a.x, -a.y, -a.z⟩ := rfl

theorem Vector3.smul_def (c : ℚ) (a : Vector3) : c * a = ⟨c * a.x, c * a.y, c * a.z⟩ := rfl

theorem Vector3.mul_scalar_def (a : Vector3) (c : ℚ) :
    a * c = ⟨c * a.x, c * a.y, c * a.z⟩ := rfl

theorem Vector3.div_def (a : Vector3) (c : ℚ) : a / c = ⟨a.x / c, a.y / c, a.z / c⟩ := rfl

/-! ## Theorems: line search -/

theorem backtrackLoop_trace (ext : External) (ls : LineSearch) (I : Integrator) (s0 : System) :
    ∀ (fuel k : Nat) (r : BacktrackResult),
      backtrackLoop ext ls fuel
        { I with system := trialSystem ext ls s0 I.characteristicTimeStep k }
        (I.characteristicTimeStep * ls.rho ^ k) k = some r →
      r.alpha = I.characteristicTimeStep * ls.rho ^ r.count ∧ k ≤ r.count ∧
      (∀ j, k ≤ j → j < r.count →
        ¬ wolfeCondition ext ls (trialSystem ext ls s0 I.characteristicTimeStep j)
            (I.characteristicTimeStep * ls.rho ^ j) ∧
        ¬ (I.characteristicTimeStep * ls.rho ^ j
            < (1 / 100000 : ℚ) * I.characteristicTimeStep)) ∧
      ((wolfeCondition ext ls (trialSystem ext ls s0 I.characteristicTimeStep r.count) r.alpha ∧
          r.integrator =
            { I with system := trialSystem ext ls s0 I.characteristicTimeStep r.count }) ∨
        (¬ wolfeCondition ext ls (trialSystem ext ls s0 I.characteristicTimeStep r.count)
            r.alpha ∧
          r.alpha < (1 / 100000 : ℚ) * I.characteristicTimeStep ∧
          r.integrator =
            { I with
              system := Integrator.lineSearchErrorBacktrace ext
                { I with system := trialSystem ext ls s0 I.characteristicTimeStep r.count }
                r.alpha ls.initial_pos ls.initial_protein ls.previousE true
              EXIT := true
              SUCCESS := false })) := by
  intro fuel
  induction fuel with
  | zero => intro k r h; simp [backtrackLoop] at h
  | succ n ih =>
    intro k r h
    rw [backtrackLoop] at h
    split_ifs at h with hw hthr
    · -- accepted
      cases h
      refine ⟨rfl, le_refl _, ?_, Or.inl ⟨hw, rfl⟩⟩
      intro j hj hj'
      exact absurd hj' (not_lt.mpr hj)
    · -- failure
      cases h
      refine ⟨rfl, le_refl _, ?_, Or.inr ⟨hw, hthr, rfl⟩⟩
      intro j hj hj'
      exact absurd hj' (not_lt.mpr hj)
    · -- shrink and retry
      have hstep : I.characteristicTimeStep * ls.rho ^ k * ls.rho
          = I.characteristicTimeStep * ls.rho ^ (k + 1) := by ring
      rw [hstep] at h
      have h' := ih (k + 1) r h
      obtain ⟨ha, hk, hrej, hend⟩ := h'
      refine ⟨ha, Nat.le_of_succ_le hk, ?_, hend⟩
      intro j hj hj'
      rcases Nat.eq_or_lt_of_le hj with hjk | hjk
      · subst hjk
        exact ⟨hw, hthr⟩
      · exact hrej j hjk hj'

theorem backtrackLoop_fuel_mono (ext : External) (ls : LineSearch) :
    ∀ (fuel : Nat) (I : Integrator) (alpha : ℚ) (count : Nat) (r : BacktrackResult),
      backtrackLoop ext ls fuel I alpha count = some r →
      backtrackLoop ext ls (fuel + 1) I alpha count = some r := by
  intro fuel
  induction fuel with
  | zero => intro I alpha count r h; simp [backtrackLoop] at h
  | succ n ih =>
    intro I alpha count r h
    rw [backtrackLoop] at h
    rw [backtrackLoop]
    split_ifs at h ⊢ with hw hthr
    · exact h
    · exact h
    · exact ih _ _ _ _ h

theorem backtrackLoop_fuel_le (ext : External) (ls : LineSearch) (fuel fuel' : Nat)
    (hle : fuel ≤ fuel') (I : Integrator) (alpha : ℚ) (count : Nat) (r : BacktrackResult)
    (h : backtrackLoop ext ls fuel I alpha count = some r) :
    backtrackLoop ext ls fuel' I alpha count = some r := by
  induction hle with
  | refl => exact h
  | step _ ih => exact backtrackLoop_fuel_mono ext ls _ _ _ _ _ ih

/-- Once `cts * rho ^ n` is below the failure threshold, `n - k + 1` tests from the trial
after `k` shrinks are enough for the loop to return. -/
theorem backtrackLoop_returns (ext : External) (ls : LineSearch) (cts : ℚ) (n : Nat)
    (hn : cts * ls.rho ^ n < (1 / 100000 : ℚ) * cts) :
    ∀ (d k : Nat) (I : Integrator), k + d = n → I.characteristicTimeStep = cts →
      ∃ r, backtrackLoop ext ls (d + 1) I (cts * ls.rho ^ k) k = some r := by
  intro d
  induction d with
  | zero =>
    intro k I hk hI
    rw [backtrackLoop]
    simp only [Nat.add_zero] at hk
    subst hk
    split_ifs with hw hthr
    · exact ⟨_, rfl⟩
    · exact ⟨_, rfl⟩
    · exact absurd (hI ▸ hn) hthr
  | succ d ih =>
    intro k I hk hI
    rw [backtrackLoop]
    split_ifs with hw hthr
    · exact ⟨_, rfl⟩
    · exact ⟨_, rfl⟩
    · have hstep : cts * ls.rho ^ k * ls.rho = cts * ls.rho ^ (k + 1) := by ring
      rw [hstep]
      exact ih (k + 1) _ (by omega) hI

/-- For a positive first step and a shrink ratio in (0,1) some power of the ratio brings the
step below the failure threshold. -/
theorem exists_shrinks_below_threshold (cts rho : ℚ) (hcts : 0 < cts) (hrho1 : rho < 1) : ∃ n : Nat, cts * rho ^ n < (1 / 100000 : ℚ) * cts := by
  obtain ⟨n, hn⟩ := exists_pow_lt_of_lt_one (show (0 : ℚ) < 1 / 100000 by norm_num) hrho1
  refine ⟨n, ?_⟩
  have := mul_lt_mul_of_pos_left hn hcts
  linarith [mul_comm cts (1 / 100000 : ℚ)]

/-- The line search returns: for a positive characteristic step and a ratio in (0,1) there
is a number of tests from which on `backtrack` yields a result. -/
theorem backtrack_returns (ext : External) (I : Integrator) (energy_pre : ℚ)
    (positionDirection : List Vector3) (chemicalDirection : List ℚ) (rho c1 : ℚ)
    (hcts : 0 < I.characteristicTimeStep) (hrho1 : rho < 1) :
    ∃ N : Nat, ∀ fuel, N ≤ fuel →
      ∃ r, I.backtrack ext fuel energy_pre positionDirection chemicalDirection rho c1
        = some r := by
  obtain ⟨n, hn⟩ := exists_shrinks_below_threshold I.characteristicTimeStep rho hcts hrho1
  refine ⟨n + 1, ?_⟩
  intro fuel hfuel
  obtain ⟨r, hr⟩ := backtrackLoop_returns ext
    (lineSearchOf I energy_pre positionDirection chemicalDirection rho c1)
    I.characteristicTimeStep n hn n 0
    { I with system := (zerothUpdate ext
        (lineSearchOf I energy_pre positionDirection chemicalDirection rho c1)
        I.system I.characteristicTimeStep) }
    (by omega) rfl
  refine ⟨r, ?_⟩
  simp only [pow_zero, mul_one] at hr
  exact backtrackLoop_fuel_le ext _ (n + 1) fuel hfuel _ _ _ _ hr

/-- Result of `backtrack` in terms of the sequence of trial states. -/
theorem backtrack_trace (ext : External) (fuel : Nat) (I : Integrator) (energy_pre : ℚ)
    (positionDirection : List Vector3) (chemicalDirection : List ℚ) (rho c1 : ℚ)
    (r : BacktrackResult)
    (h : I.backtrack ext fuel energy_pre positionDirection chemicalDirection rho c1 = some r) :
    let ls := lineSearchOf I energy_pre positionDirection chemicalDirection rho c1
    let cts := I.characteristicTimeStep
    r.alpha = cts * rho ^ r.count ∧
    (∀ j, j < r.count →
      ¬ wolfeCondition ext ls (trialSystem ext ls I.system cts j) (cts * rho ^ j) ∧
      ¬ (cts * rho ^ j < (1 / 100000 : ℚ) * cts)) ∧
    ((wolfeCondition ext ls (trialSystem ext ls I.system cts r.count) r.alpha ∧
        r.integrator = { I with system := trialSystem ext ls I.system cts r.count }) ∨
      (¬ wolfeCondition ext ls (trialSystem ext ls I.system cts r.count) r.alpha ∧
        r.alpha < (1 / 100000 : ℚ) * cts ∧
        r.integrator =
          { I with
            system := Integrator.lineSearchErrorBacktrace ext
              { I with system := trialSystem ext ls I.system cts r.count }
              r.alpha ls.initial_pos ls.initial_protein ls.previousE true
            EXIT := true
            SUCCESS := false })) := by
  intro ls cts
  have h0 : backtrackLoop ext ls fuel
      { I with system := trialSystem ext ls I.system I.characteristicTimeStep 0 }
      (I.characteristicTimeStep * ls.rho ^ 0) 0 = some r := by
    simpa [Integrator.backtrack, trialSystem, ls] using h
  obtain ⟨ha, -, hrej, hend⟩ := backtrackLoop_trace ext ls I I.system fuel 0 r h0
  exact ⟨ha, fun j hj => hrej j (Nat.zero_le _) hj, hend⟩

/-! ### What the trial updates and the diagnostic leave in place -/

theorem retryUpdate_parameters (ext : External) (ls : LineSearch) (s : System) (alpha : ℚ) :
    (retryUpdate ext ls s alpha).parameters = s.parameters := by
  simp only [retryUpdate]
  split_ifs <;> rfl

theorem zerothUpdate_parameters (ext : External) (ls : LineSearch) (s : System) (alpha : ℚ) :
    (zerothUpdate ext ls s alpha).parameters = s.parameters := by
  simp only [zerothUpdate]
  split_ifs <;> rfl

theorem trialSystem_parameters (ext : External) (ls : LineSearch) (s0 : System) (cts : ℚ)
    (k : Nat) : (trialSystem ext ls s0 cts k).parameters = s0.parameters := by
  induction k with
  | zero => exact zerothUpdate_parameters ext ls s0 cts
  | succ k ih => rw [trialSystem, retryUpdate_parameters, ih]

theorem retryUpdate_positions (ext : External) (ls : LineSearch) (s : System) (alpha : ℚ) :
    (retryUpdate ext ls s alpha).vpg.inputVertexPositions =
      if s.parameters.variation.isShapeVariation = true
      then matAdd ls.initial_pos (matScale alpha ls.positionDirection)
      else s.vpg.inputVertexPositions := by
  simp only [retryUpdate]
  split_ifs <;> rfl

theorem retryUpdate_proteinDensity (ext : External) (ls : LineSearch) (s : System) (alpha : ℚ) :
    (retryUpdate ext ls s alpha).proteinDensity =
      if s.parameters.variation.isProteinVariation = true
      then vecAdd ls.initial_protein (vecScale alpha ls.chemicalDirection)
      else s.proteinDensity := by
  simp only [retryUpdate]
  split_ifs <;> first | rfl | (exfalso; simp_all [System.setPositions])

theorem retryUpdate_time (ext : External) (ls : LineSearch) (s : System) (alpha : ℚ) :
    (retryUpdate ext ls s alpha).time = ls.init_time + alpha := by
  simp only [retryUpdate]
  split_ifs <;> rfl

theorem zerothUpdate_positions (ext : External) (ls : LineSearch) (s : System) (alpha : ℚ) :
    (zerothUpdate ext ls s alpha).vpg.inputVertexPositions =
      if s.parameters.variation.isShapeVariation = true
      then matAdd s.vpg.inputVertexPositions (matScale alpha ls.positionDirection)
      else s.vpg.inputVertexPositions := by
  simp only [zerothUpdate]
  split_ifs <;> rfl

theorem zerothUpdate_proteinDensity (ext : External) (ls : LineSearch) (s : System) (alpha : ℚ) :
    (zerothUpdate ext ls s alpha).proteinDensity =
      if s.parameters.variation.isProteinVariation = true
      then vecAdd s.proteinDensity (vecScale alpha ls.chemicalDirection)
      else s.proteinDensity := by
  simp only [zerothUpdate]
  split_ifs <;> first | rfl | (exfalso; simp_all [System.setPositions])

theorem zerothUpdate_time (ext : External) (ls : LineSearch) (s : System) (alpha : ℚ) :
    (zerothUpdate ext ls s alpha).time = s.time + alpha := by
  simp only [zerothUpdate]
  split_ifs <;> rfl

theorem trialSystem_positions (ext : External) (ls : LineSearch) (s0 : System) (cts : ℚ)
    (hpos : ls.initial_pos = s0.vpg.inputVertexPositions) (k : Nat) :
    (trialSystem ext ls s0 cts k).vpg.inputVertexPositions =
      if s0.parameters.variation.isShapeVariation = true
      then matAdd s0.vpg.inputVertexPositions (matScale (cts * ls.rho ^ k) ls.positionDirection)
      else s0.vpg.inputVertexPositions := by
  induction k with
  | zero => simp only [trialSystem, zerothUpdate_positions, pow_zero, mul_one]
  | succ k ih =>
    rw [trialSystem, retryUpdate_positions, trialSystem_parameters, ih, hpos]
    split_ifs <;> rfl

theorem trialSystem_proteinDensity (ext : External) (ls : LineSearch) (s0 : System) (cts : ℚ)
    (hphi : ls.initial_protein = s0.proteinDensity) (k : Nat) :
    (trialSystem ext ls s0 cts k).proteinDensity =
      if s0.parameters.variation.isProteinVariation = true
      then vecAdd s0.proteinDensity (vecScale (cts * ls.rho ^ k) ls.chemicalDirection)
      else s0.proteinDensity := by
  induction k with
  | zero => simp only [trialSystem, zerothUpdate_proteinDensity, pow_zero, mul_one]
  | succ k ih =>
    rw [trialSystem, retryUpdate_proteinDensity, trialSystem_parameters, ih, hphi]
    split_ifs <;> rfl

theorem trialSystem_time (ext : External) (ls : LineSearch) (s0 : System) (cts : ℚ)
    (htime : ls.init_time = s0.time) (k : Nat) :
    (trialSystem ext ls s0 cts k).time = s0.time + cts * ls.rho ^ k := by
  cases k with
  | zero => simp only [trialSystem, zerothUpdate_time, pow_zero, mul_one]
  | succ k => rw [trialSystem, retryUpdate_time, htime]

theorem retryUpdate_maskedDiffusion (ext : External) (ls : LineSearch) (s : System) (alpha : ℚ) :
    (retryUpdate ext ls s alpha).forces.maskProtein
        (retryUpdate ext ls s alpha).forces.diffusionPotential =
      s.forces.maskProtein s.forces.diffusionPotential := by
  simp only [retryUpdate]
  split_ifs <;> rfl

theorem zerothUpdate_maskedDiffusion (ext : External) (ls : LineSearch) (s : System) (alpha : ℚ) :
    (zerothUpdate ext ls s alpha).forces.maskProtein
        (zerothUpdate ext ls s alpha).forces.diffusionPotential =
      s.forces.maskProtein s.forces.diffusionPotential := by
  simp only [zerothUpdate]
  split_ifs <;> rfl

theorem trialSystem_maskedDiffusion (ext : External) (ls : LineSearch) (s0 : System) (cts : ℚ)
    (k : Nat) :
    (trialSystem ext ls s0 cts k).forces.maskProtein
        (trialSystem ext ls s0 cts k).forces.diffusionPotential =
      s0.forces.maskProtein s0.forces.diffusionPotential := by
  induction k with
  | zero => exact zerothUpdate_maskedDiffusion ext ls s0 cts
  | succ k ih => rw [trialSystem, retryUpdate_maskedDiffusion, ih]

theorem sameInputs_refl (s : System) : s.sameInputs s := ⟨rfl, rfl, rfl⟩

theorem sameInputs_trans {s t u : System} (h1 : s.sameInputs t) (h2 : t.sameInputs u) :
    s.sameInputs u :=
  ⟨h2.1.trans h1.1, h2.2.1.trans h1.2.1, h2.2.2.trans h1.2.2⟩

theorem probeForce_sameInputs (ext : External) (energyTerm : System → Energy) (alpha : ℚ)
    (cp : List Vector3) (cpd : List ℚ) (forceVec : Forces → List Vector3) (s : System) :
    s.sameInputs (probeForce ext energyTerm alpha cp cpd forceVec s) := ⟨rfl, rfl, rfl⟩

theorem probePotential_sameInputs (ext : External) (energyTerm : System → Energy) (alpha : ℚ)
    (cp : List Vector3) (cpd : List ℚ) (potential : Forces → List ℚ) (s : System) :
    s.sameInputs (probePotential ext energyTerm alpha cp cpd potential s) := ⟨rfl, rfl, rfl⟩

theorem probeBending_sameInputs (ext : External) (alpha : ℚ) (cp : List Vector3)
    (cpd : List ℚ) (prev tot : Energy) (runAll : Bool) (s : System) :
    s.sameInputs (probeBending ext alpha cp cpd prev tot runAll s) := by
  unfold probeBending
  split_ifs
  · exact sameInputs_trans (probeForce_sameInputs ..) (probePotential_sameInputs ..)
  · exact sameInputs_refl s

theorem probeSurface_sameInputs (ext : External) (alpha : ℚ) (cp : List Vector3)
    (cpd : List ℚ) (prev tot : Energy) (runAll : Bool) (s : System) :
    s.sameInputs (probeSurface ext alpha cp cpd prev tot runAll s) := by
  unfold probeSurface
  split_ifs
  · exact probeForce_sameInputs ..
  · exact sameInputs_refl s

theorem probePressure_sameInputs (ext : External) (alpha : ℚ) (cp : List Vector3)
    (cpd : List ℚ) (prev tot : Energy) (runAll : Bool) (s : System) :
    s.sameInputs (probePressure ext alpha cp cpd prev tot runAll s) := by
  unfold probePressure
  split_ifs
  · exact probeForce_sameInputs ..
  · exact sameInputs_refl s

theorem probeAdsorption_sameInputs (ext : External) (alpha : ℚ) (cp : List Vector3)
    (cpd : List ℚ) (prev tot : Energy) (runAll : Bool) (s : System) :
    s.sameInputs (probeAdsorption ext alpha cp cpd prev tot runAll s) := by
  unfold probeAdsorption
  split_ifs
  · exact sameInputs_trans (probeForce_sameInputs ..) (probePotential_sameInputs ..)
  · exact sameInputs_refl s

theorem probeAggregation_sameInputs (ext : External) (alpha : ℚ) (cp : List Vector3)
    (cpd : List ℚ) (prev tot : Energy) (runAll : Bool) (s : System) :
    s.sameInputs (probeAggregation ext alpha cp cpd prev tot runAll s) := by
  unfold probeAggregation
  split_ifs
  · exact sameInputs_trans (probeForce_sameInputs ..) (probePotential_sameInputs ..)
  · exact sameInputs_refl s

theorem totalForceEnergyState_sameInputs (ext : External) (I : Integrator) :
    I.system.sameInputs (I.totalForceEnergyState ext) := by
  simp only [Integrator.totalForceEnergyState]
  split_ifs <;> exact ⟨rfl, rfl, rfl⟩

theorem probePotential_positions (ext : External) (energyTerm : System → Energy) (alpha : ℚ)
    (cp : List Vector3) (cpd : List ℚ) (potential : Forces → List ℚ) (s : System) :
    (probePotential ext energyTerm alpha cp cpd potential s).vpg.inputVertexPositions = cp :=
  rfl

theorem probePotential_proteinDensity (ext : External) (energyTerm : System → Energy)
    (alpha : ℚ) (cp : List Vector3) (cpd : List ℚ) (potential : Forces → List ℚ) (s : System) :
    (probePotential ext energyTerm alpha cp cpd potential s).proteinDensity =
      vecAdd cpd (vecScale (alpha * s.parameters.proteinMobility)
        (s.forces.maskProtein (potential s.forces))) :=
  rfl

theorem probePotential_time (ext : External) (energyTerm : System → Energy) (alpha : ℚ)
    (cp : List Vector3) (cpd : List ℚ) (potential : Forces → List ℚ) (s : System) :
    (probePotential ext energyTerm alpha cp cpd potential s).time = s.time :=
  rfl

/-- With `runAll` set the diagnostic ends with its diffusion-potential probe, applied to a
state with the parameters, time and masked diffusion potential of the entry state. -/
theorem lineSearchErrorBacktrace_runAll_eq (ext : External) (J : Integrator) (alpha : ℚ)
    (cp : List Vector3) (cpd : List ℚ) (prev : Energy) :
    ∃ X : System, J.system.sameInputs X ∧
      J.lineSearchErrorBacktrace ext alpha cp cpd prev true =
        probePotential ext ext.computeDirichletEnergy alpha cp cpd Forces.diffusionPotential X := by
  have h0 := totalForceEnergyState_sameInputs ext J
  have h1 := sameInputs_trans h0 (probeBending_sameInputs ext alpha cp cpd prev
    (J.totalForceEnergyState ext).energy true _)
  have h2 := sameInputs_trans h1 (probeSurface_sameInputs ext alpha cp cpd prev
    (J.totalForceEnergyState ext).energy true _)
  have h3 := sameInputs_trans h2 (probePressure_sameInputs ext alpha cp cpd prev
    (J.totalForceEnergyState ext).energy true _)
  have h4 := sameInputs_trans h3 (probeAdsorption_sameInputs ext alpha cp cpd prev
    (J.totalForceEnergyState ext).energy true _)
  have h5 := sameInputs_trans h4 (probeAggregation_sameInputs ext alpha cp cpd prev
    (J.totalForceEnergyState ext).energy true _)
  have h6 := sameInputs_trans h5 (probeForce_sameInputs ext ext.computeDirichletEnergy alpha
    cp cpd Forces.lineCapillaryForceVec _)
  refine ⟨_, h6, ?_⟩
  simp only [Integrator.lineSearchErrorBacktrace, probeDirichlet, true_or, if_true]

/-- With `runAll` set the diagnostic leaves the positions at `currentPosition`, the protein
density at `currentProteinDensity` moved by
`alpha * proteinMobility * maskProtein(diffusionPotential)`, and the time untouched. -/
theorem lineSearchErrorBacktrace_runAll (ext : External) (J : Integrator) (alpha : ℚ)
    (currentPosition : List Vector3) (currentProteinDensity : List ℚ) (previousEnergy : Energy) :
    (J.lineSearchErrorBacktrace ext alpha currentPosition currentProteinDensity previousEnergy
        true).vpg.inputVertexPositions = currentPosition ∧
    (J.lineSearchErrorBacktrace ext alpha currentPosition currentProteinDensity previousEnergy
        true).proteinDensity =
      vecAdd currentProteinDensity
        (vecScale (alpha * J.system.parameters.proteinMobility)
          (J.system.forces.maskProtein J.system.forces.diffusionPotential)) ∧
    (J.lineSearchErrorBacktrace ext alpha currentPosition currentProteinDensity previousEnergy
        true).time = J.system.time := by
  obtain ⟨X, ⟨hp, ht, hm⟩, hX⟩ := lineSearchErrorBacktrace_runAll_eq ext J alpha
    currentPosition currentProteinDensity previousEnergy
  rw [hX, probePotential_positions, probePotential_proteinDensity, probePotential_time,
    hp, ht]
  exact ⟨rfl, by rw [← hm], rfl⟩

theorem exResult_eq :
    exStiffIntegrator.backtrack exExternal 5 (539 / 1600) exZeroVectors exStiffPotential
      (1 / 10) (1 / 4) = some exResult := by
  simp [Integrator.backtrack, backtrackLoop, wolfeCondition, exResult, exLineSearch,
    trialSystem, zerothUpdate, retryUpdate, lineSearchOf, validatePositionDirection,
    validateChemicalDirection, exStiffIntegrator, exIntegrator, exStiffSystem, exSystem,
    exExternal, exForces, exVpg, exStiffParameters, exParameters, exStiffDensity,
    exStiffPotential, exZeroVectors, exEnergy, exDirichletEnergy, sAt, matInner, vecInner,
    matAdd, matScale, vecAdd, vecScale, System.setEnergy, System.setPositions,
    System.setProteinDensity, System.updateVertexPositions, exDerived]
  norm_num

/-! ### Direction validation -/

theorem matInner_self_nonneg (a : List Vector3) : 0 ≤ matInner a a := by
  unfold matInner
  induction a with
  | nil => simp
  | cons v t ih =>
    simp only [List.zipWith_cons_cons, List.sum_cons]
    have hv : 0 ≤ Vector3.dot v v := by
      unfold Vector3.dot
      nlinarith [mul_self_nonneg v.x, mul_self_nonneg v.y, mul_self_nonneg v.z]
    linarith

theorem vecInner_self_nonneg (a : List ℚ) : 0 ≤ vecInner a a := by
  unfold vecInner
  induction a with
  | nil => simp
  | cons v t ih =>
    simp only [List.zipWith_cons_cons, List.sum_cons]
    nlinarith [mul_self_nonneg v]

theorem validatePositionDirection_fst (s : System) (pd : List Vector3) :
    (validatePositionDirection s pd).1 =
      if s.parameters.variation.isShapeVariation = true ∧
          matInner s.forces.mechanicalForceVec pd < 0
      then s.forces.mechanicalForceVec else pd := by
  unfold validatePositionDirection
  by_cases h1 : s.parameters.variation.isShapeVariation = true
  · by_cases h2 : matInner s.forces.mechanicalForceVec pd < 0 <;> simp [h1, h2]
  · simp [h1]

theorem validateChemicalDirection_fst (s : System) (cd : List ℚ) :
    (validateChemicalDirection s cd).1 =
      if s.parameters.variation.isProteinVariation = true ∧
          vecInner s.forces.chemicalPotential cd < 0
      then s.forces.chemicalPotential else cd := by
  unfold validateChemicalDirection
  by_cases h1 : s.parameters.variation.isProteinVariation = true
  · by_cases h2 : vecInner s.forces.chemicalPotential cd < 0 <;> simp [h1, h2]
  · simp [h1]

theorem validatePositionDirection_snd (s : System) (pd : List Vector3) :
    (validatePositionDirection s pd).2 =
      if s.parameters.variation.isShapeVariation = true
      then matInner s.forces.mechanicalForceVec (validatePositionDirection s pd).1 else 0 := by
  unfold validatePositionDirection
  by_cases h1 : s.parameters.variation.isShapeVariation = true
  · by_cases h2 : matInner s.forces.mechanicalForceVec pd < 0 <;> simp [h1, h2]
  · simp [h1]

theorem validateChemicalDirection_snd (s : System) (cd : List ℚ) :
    (validateChemicalDirection s cd).2 =
      if s.parameters.variation.isProteinVariation = true
      then vecInner s.forces.chemicalPotential (validateChemicalDirection s cd).1 else 0 := by
  unfold validateChemicalDirection
  by_cases h1 : s.parameters.variation.isProteinVariation = true
  · by_cases h2 : vecInner s.forces.chemicalPotential cd < 0 <;> simp [h1, h2]
  · simp [h1]

theorem validatePositionDirection_snd_nonneg (s : System) (pd : List Vector3) :
    0 ≤ (validatePositionDirection s pd).2 := by
  unfold validatePositionDirection
  by_cases h1 : s.parameters.variation.isShapeVariation = true
  · by_cases h2 : matInner s.forces.mechanicalForceVec pd < 0
    · simpa [h1, h2] using matInner_self_nonneg _
    · simpa [h1, h2] using not_lt.mp h2
  · simp [h1]

theorem validateChemicalDirection_snd_nonneg (s : System) (cd : List ℚ) :
    0 ≤ (validateChemicalDirection s cd).2 := by
  unfold validateChemicalDirection
  by_cases h1 : s.parameters.variation.isProteinVariation = true
  · by_cases h2 : vecInner s.forces.chemicalPotential cd < 0
    · simpa [h1, h2] using vecInner_self_nonneg _
    · simpa [h1, h2] using not_lt.mp h2
  · simp [h1]

/-- A result that does not carry the failure signal is an accepted trial state. -/
theorem backtrack_accepted (ext : External) (fuel : Nat) (I : Integrator) (energy_pre : ℚ)
    (positionDirection : List Vector3) (chemicalDirection : List ℚ) (rho c1 : ℚ)
    (r : BacktrackResult)
    (h : I.backtrack ext fuel energy_pre positionDirection chemicalDirection rho c1 = some r)
    (hok : ¬ r.failed) :
    wolfeCondition ext (lineSearchOf I energy_pre positionDirection chemicalDirection rho c1)
        r.integrator.system r.alpha ∧
      r.integrator =
        { I with system := (trialSystem ext
            (lineSearchOf I energy_pre positionDirection chemicalDirection rho c1)
            I.system I.characteristicTimeStep r.count) } := by
  obtain ⟨-, -, hend⟩ := backtrack_trace ext fuel I energy_pre positionDirection
    chemicalDirection rho c1 r h
  rcases hend with ⟨hw, hr⟩ | ⟨-, -, hr⟩
  · exact ⟨by rw [hr]; exact hw, hr⟩
  · exact absurd (show r.failed by rw [BacktrackResult.failed, hr]; exact ⟨rfl, rfl⟩) hok

/-- A result that carries the failure signal, from an entry state that did not, comes from
the failure branch. -/
theorem backtrack_rejected (ext : External) (fuel : Nat) (I : Integrator) (energy_pre : ℚ)
    (positionDirection : List Vector3) (chemicalDirection : List ℚ) (rho c1 : ℚ)
    (r : BacktrackResult)
    (h : I.backtrack ext fuel energy_pre positionDirection chemicalDirection rho c1 = some r)
    (hentry : ¬ (I.EXIT = true ∧ I.SUCCESS = false)) (hfail : r.failed) :
    r.alpha < (1 / 100000 : ℚ) * I.characteristicTimeStep ∧
      r.integrator.system =
        Integrator.lineSearchErrorBacktrace ext
          { I with system := (trialSystem ext
              (lineSearchOf I energy_pre positionDirection chemicalDirection rho c1)
              I.system I.characteristicTimeStep r.count) }
          r.alpha I.system.vpg.inputVertexPositions I.system.proteinDensity I.system.energy
          true := by
  obtain ⟨-, -, hend⟩ := backtrack_trace ext fuel I energy_pre positionDirection
    chemicalDirection rho c1 r h
  rcases hend with ⟨-, hr⟩ | ⟨-, hthr, hr⟩
  · exfalso
    apply hentry
    rw [BacktrackResult.failed, hr] at hfail
    exact hfail
  · exact ⟨hthr, by rw [hr]; rfl⟩

theorem exFailResult_eq :
    exOverstepIntegrator.backtrack exExternal 5 (539 / 1600) exZeroVectors exStiffPotential
      (1 / 100) (1 / 4) = some exFailResult := by
  simp [Integrator.backtrack, backtrackLoop, wolfeCondition, exFailResult,
    exOverstepLineSearch, trialSystem, zerothUpdate, retryUpdate, lineSearchOf,
    validatePositionDirection, validateChemicalDirection, exOverstepIntegrator, exIntegrator,
    exStiffSystem, exSystem, exExternal, exForces, exVpg, exPositions, exStiffParameters,
    exParameters, exStiffDensity, exStiffPotential, exZeroVectors, exEnergy,
    exDirichletEnergy, sAt, matInner, vecInner, matAdd, matScale, vecAdd, vecScale,
    System.setEnergy, System.setPositions, System.setProteinDensity,
    System.updateVertexPositions, exDerived]
  norm_num

/-! ### Claims on `Integrator::backtrack` -/

/-- C3. Whenever `backtrack` returns a step `alpha` without signalling line-search failure,
the potential energy of the state it leaves satisfies the sufficient-decrease inequality at
that `alpha`: it is below `energy_pre + computeIntegratedPower(alpha) -
c1 * alpha * (positionProjection + chemicalProjection)`, where each projection is the inner
product of the mechanical force (the chemical potential) with the search direction actually
used, and is 0 for a variation that is switched off. -/
theorem backtrack_sufficient_decrease (ext : External) (fuel : Nat) (I : Integrator)
    (energy_pre : ℚ) (positionDirection : List Vector3) (chemicalDirection : List ℚ)
    (rho c1 : ℚ) (r : BacktrackResult)
    (h : I.backtrack ext fuel energy_pre positionDirection chemicalDirection rho c1 = some r)
    (hok : ¬ r.failed) :
    r.integrator.system.energy.potentialEnergy <
      energy_pre + ext.computeIntegratedPower r.integrator.system r.alpha -
        c1 * r.alpha *
          ((if I.system.parameters.variation.isShapeVariation = true
              then matInner I.system.forces.mechanicalForceVec
                (validatePositionDirection I.system positionDirection).1
              else 0) +
            (if I.system.parameters.variation.isProteinVariation = true
              then vecInner I.system.forces.chemicalPotential
                (validateChemicalDirection I.system chemicalDirection).1
              else 0)) := by
  have hw := (backtrack_accepted ext fuel I energy_pre positionDirection chemicalDirection
    rho c1 r h hok).1
  rw [← validatePositionDirection_snd, ← validateChemicalDirection_snd]
  exact hw

theorem backtrack_sufficient_decrease_witness :
    exStiffIntegrator.backtrack exExternal 5 (539 / 1600) exZeroVectors exStiffPotential
        (1 / 10) (1 / 4) = some exResult ∧
      ¬ exResult.failed ∧
      exResult.integrator.system.energy.potentialEnergy <
        539 / 1600 +
            exExternal.computeIntegratedPower exResult.integrator.system exResult.alpha -
          1 / 4 * exResult.alpha *
            ((if exStiffIntegrator.system.parameters.variation.isShapeVariation = true
                then matInner exStiffIntegrator.system.forces.mechanicalForceVec
                  (validatePositionDirection exStiffIntegrator.system exZeroVectors).1
                else 0) +
              (if exStiffIntegrator.system.parameters.variation.isProteinVariation = true
                then vecInner exStiffIntegrator.system.forces.chemicalPotential
                  (validateChemicalDirection exStiffIntegrator.system exStiffPotential).1
                else 0)) :=
  ⟨exResult_eq, by simp [BacktrackResult.failed, exResult, exStiffIntegrator, exIntegrator],
    backtrack_sufficient_decrease exExternal 5 exStiffIntegrator (539 / 1600) exZeroVectors
      exStiffPotential (1 / 10) (1 / 4) exResult exResult_eq
      (by simp [BacktrackResult.failed, exResult, exStiffIntegrator, exIntegrator])⟩

/-- The step returned by `backtrack` is the characteristic step times `rho` to the number of
shrinks. -/
theorem backtrack_alpha_eq (ext : External) (fuel : Nat) (I : Integrator) (energy_pre : ℚ)
    (positionDirection : List Vector3) (chemicalDirection : List ℚ) (rho c1 : ℚ)
    (r : BacktrackResult)
    (h : I.backtrack ext fuel energy_pre positionDirection chemicalDirection rho c1 = some r) :
    r.alpha = I.characteristicTimeStep * rho ^ r.count :=
  (backtrack_trace ext fuel I energy_pre positionDirection chemicalDirection rho c1 r h).1

theorem backtrack_alpha_pos (ext : External) (fuel : Nat) (I : Integrator) (energy_pre : ℚ)
    (positionDirection : List Vector3) (chemicalDirection : List ℚ) (rho c1 : ℚ)
    (r : BacktrackResult) (hcts : 0 < I.characteristicTimeStep) (hrho0 : 0 < rho)
    (h : I.backtrack ext fuel energy_pre positionDirection chemicalDirection rho c1 = some r) :
    0 < r.alpha := by
  rw [backtrack_alpha_eq ext fuel I energy_pre positionDirection chemicalDirection rho c1 r h]
  exact mul_pos hcts (pow_pos hrho0 _)

/-- C4. With no external forcing (`computeIntegratedPower` is 0 at the returned step),
`c1 > 0`, `characteristicTimeStep > 0` and `0 < rho`, a backtracking step that returns
without signalling failure leaves a potential energy strictly below `energy_pre`, for every
supplied position and chemical direction; the two projections that enter the test are
non-negative after the direction validation. -/
theorem backtrack_energy_decreases (ext : External) (fuel : Nat) (I : Integrator)
    (energy_pre : ℚ) (positionDirection : List Vector3) (chemicalDirection : List ℚ)
    (rho c1 : ℚ) (r : BacktrackResult)
    (h : I.backtrack ext fuel energy_pre positionDirection chemicalDirection rho c1 = some r)
    (hok : ¬ r.failed)
    (hpower : ext.computeIntegratedPower r.integrator.system r.alpha = 0)
    (hc1 : 0 < c1) (hcts : 0 < I.characteristicTimeStep) (hrho0 : 0 < rho) :
    r.integrator.system.energy.potentialEnergy < energy_pre ∧
      0 ≤ (validatePositionDirection I.system positionDirection).2 ∧
      0 ≤ (validateChemicalDirection I.system chemicalDirection).2 := by
  have hw := (backtrack_accepted ext fuel I energy_pre positionDirection chemicalDirection
    rho c1 r h hok).1
  have hpos := validatePositionDirection_snd_nonneg I.system positionDirection
  have hchem := validateChemicalDirection_snd_nonneg I.system chemicalDirection
  have ha := backtrack_alpha_pos ext fuel I energy_pre positionDirection chemicalDirection
    rho c1 r hcts hrho0 h
  refine ⟨?_, hpos, hchem⟩
  unfold wolfeCondition at hw
  rw [hpower] at hw
  have hprod : 0 ≤ c1 * r.alpha *
      ((validatePositionDirection I.system positionDirection).2 +
        (validateChemicalDirection I.system chemicalDirection).2) :=
    mul_nonneg (mul_nonneg hc1.le ha.le) (add_nonneg hpos hchem)
  have hw' : r.integrator.system.energy.potentialEnergy <
      energy_pre + 0 - c1 * r.alpha *
        ((validatePositionDirection I.system positionDirection).2 +
          (validateChemicalDirection I.system chemicalDirection).2) := hw
  linarith

theorem backtrack_energy_decreases_witness :
    exStiffIntegrator.backtrack exExternal 5 (539 / 1600) exZeroVectors exStiffPotential
        (1 / 10) (1 / 4) = some exResult ∧
      ¬ exResult.failed ∧
      exExternal.computeIntegratedPower exResult.integrator.system exResult.alpha = 0 ∧
      (0 : ℚ) < 1 / 4 ∧ 0 < exStiffIntegrator.characteristicTimeStep ∧ (0 : ℚ) < 1 / 10 ∧
      (exResult.integrator.system.energy.potentialEnergy < 539 / 1600 ∧
        0 ≤ (validatePositionDirection exStiffIntegrator.system exZeroVectors).2 ∧
        0 ≤ (validateChemicalDirection exStiffIntegrator.system exStiffPotential).2) :=
  ⟨exResult_eq, by simp [BacktrackResult.failed, exResult, exStiffIntegrator, exIntegrator],
    rfl, by norm_num, by simp [exStiffIntegrator, exIntegrator], by norm_num,
    backtrack_energy_decreases exExternal 5 exStiffIntegrator (539 / 1600) exZeroVectors
      exStiffPotential (1 / 10) (1 / 4) exResult exResult_eq
      (by simp [BacktrackResult.failed, exResult, exStiffIntegrator, exIntegrator]) rfl
      (by norm_num) (by simp [exStiffIntegrator, exIntegrator]) (by norm_num)⟩

/-- C5. For `characteristicTimeStep > 0` and `0 < rho < 1`, `backtrack` returns (from some
number of loop tests on), and the step it returns equals `characteristicTimeStep * rho ^ k`
with `k` the number of shrinks performed; it is positive and no larger than the
characteristic step. -/
theorem backtrack_step_size (ext : External) (I : Integrator) (energy_pre : ℚ)
    (positionDirection : List Vector3) (chemicalDirection : List ℚ) (rho c1 : ℚ)
    (hcts : 0 < I.characteristicTimeStep) (hrho0 : 0 < rho) (hrho1 : rho < 1) :
    (∃ N : Nat, ∀ fuel, N ≤ fuel →
      ∃ r, I.backtrack ext fuel energy_pre positionDirection chemicalDirection rho c1
        = some r) ∧
    ∀ (fuel : Nat) (r : BacktrackResult),
      I.backtrack ext fuel energy_pre positionDirection chemicalDirection rho c1 = some r →
      r.alpha = I.characteristicTimeStep * rho ^ r.count ∧ 0 < r.alpha ∧
        r.alpha ≤ I.characteristicTimeStep := by
  refine ⟨backtrack_returns ext I energy_pre positionDirection chemicalDirection rho c1
    hcts hrho1, ?_⟩
  intro fuel r h
  have ha := backtrack_alpha_eq ext fuel I energy_pre positionDirection chemicalDirection
    rho c1 r h
  refine ⟨ha, ?_, ?_⟩
  · exact backtrack_alpha_pos ext fuel I energy_pre positionDirection chemicalDirection
      rho c1 r hcts hrho0 h
  · rw [ha]
    have hpow : rho ^ r.count ≤ 1 := pow_le_one₀ hrho0.le hrho1.le
    calc I.characteristicTimeStep * rho ^ r.count
        ≤ I.characteristicTimeStep * 1 := mul_le_mul_of_nonneg_left hpow hcts.le
      _ = I.characteristicTimeStep := mul_one _

theorem backtrack_step_size_witness :
    0 < exStiffIntegrator.characteristicTimeStep ∧ (0 : ℚ) < 1 / 10 ∧ (1 / 10 : ℚ) < 1 ∧
      exResult.alpha = exStiffIntegrator.characteristicTimeStep * (1 / 10) ^ exResult.count ∧
      0 < exResult.alpha ∧ exResult.alpha ≤ exStiffIntegrator.characteristicTimeStep :=
  ⟨by simp [exStiffIntegrator, exIntegrator], by norm_num, by norm_num,
    (backtrack_step_size exExternal exStiffIntegrator (539 / 1600) exZeroVectors
      exStiffPotential (1 / 10) (1 / 4)
      (by simp [exStiffIntegrator, exIntegrator]) (by norm_num) (by norm_num)).2 5 exResult
      exResult_eq⟩

/-- C6, as stated, fails when the inner product is exactly 0. On the pushed example (shape
variation enabled) the mechanical force is `(0,0,1120)` at the interior vertex and the
supplied position direction `(1,0,0)` at every vertex is orthogonal to it: the inner product
is `≤ 0`, yet the search keeps the supplied direction. On the diffusion example (protein
variation enabled) the entries of the chemical potential sum to 0, so the supplied chemical
direction `(1,1,1,1,1)` is orthogonal to it, and the search keeps that direction too. -/
theorem backtrack_keeps_direction_at_zero_projection :
    (exPushedIntegrator.system.parameters.variation.isShapeVariation = true ∧
      matInner exPushedIntegrator.system.forces.mechanicalForceVec exSideways ≤ 0 ∧
      (lineSearchOf exPushedIntegrator 0 exSideways exZeroScalars (1 / 2)
          (1 / 4)).positionDirection = exSideways ∧
      (lineSearchOf exPushedIntegrator 0 exSideways exZeroScalars (1 / 2)
          (1 / 4)).positionDirection ≠ exPushedIntegrator.system.forces.mechanicalForceVec) ∧
    (exStiffIntegrator.system.parameters.variation.isProteinVariation = true ∧
      vecInner exStiffIntegrator.system.forces.chemicalPotential [1, 1, 1, 1, 1] ≤ 0 ∧
      (lineSearchOf exStiffIntegrator (539 / 1600) exZeroVectors [1, 1, 1, 1, 1] (1 / 10)
          (1 / 4)).chemicalDirection = [1, 1, 1, 1, 1] ∧
      (lineSearchOf exStiffIntegrator (539 / 1600) exZeroVectors [1, 1, 1, 1, 1] (1 / 10)
          (1 / 4)).chemicalDirection ≠ exStiffIntegrator.system.forces.chemicalPotential) := by
  constructor
  · simp [lineSearchOf, validatePositionDirection, exPushedIntegrator, exPushedSystem,
      exIntegrator, exSystem, exParameters, exForces, exPush, exSideways, matInner,
      Vector3.dot]
  · simp [lineSearchOf, validateChemicalDirection, exStiffIntegrator, exStiffSystem,
      exIntegrator, exSystem, exStiffParameters, exParameters, exForces, exStiffPotential,
      vecInner]
    norm_num

/-- C6, amended. In `backtrack` the supplied position direction is replaced by the raw
mechanical force exactly when shape variation is enabled and the inner product of the
mechanical force with the supplied direction is negative; otherwise (inner product 0 or
positive, or shape variation off) the supplied direction is the one used. Likewise the
supplied chemical direction is replaced by the raw chemical potential exactly when protein
variation is enabled and its inner product with the chemical potential is negative. -/
theorem backtrack_direction_used (I : Integrator) (energy_pre : ℚ)
    (positionDirection : List Vector3) (chemicalDirection : List ℚ) (rho c1 : ℚ) :
    (lineSearchOf I energy_pre positionDirection chemicalDirection rho c1).positionDirection =
        (if I.system.parameters.variation.isShapeVariation = true ∧
            matInner I.system.forces.mechanicalForceVec positionDirection < 0
          then I.system.forces.mechanicalForceVec else positionDirection) ∧
      (lineSearchOf I energy_pre positionDirection chemicalDirection rho c1).chemicalDirection =
        (if I.system.parameters.variation.isProteinVariation = true ∧
            vecInner I.system.forces.chemicalPotential chemicalDirection < 0
          then I.system.forces.chemicalPotential else chemicalDirection) :=
  ⟨validatePositionDirection_fst I.system positionDirection,
    validateChemicalDirection_fst I.system chemicalDirection⟩

/-- C7. When `backtrack` returns `alpha` without signalling failure, the state it leaves is
the accepted update: the vertex positions are the positions on entry plus `alpha` times the
position direction used if shape variation is enabled and are unchanged otherwise, the
protein density is the density on entry plus `alpha` times the chemical direction used if
protein variation is enabled and is unchanged otherwise, and `system.time` is the time on
entry plus `alpha`. -/
theorem backtrack_accepted_update (ext : External) (fuel : Nat) (I : Integrator)
    (energy_pre : ℚ) (positionDirection : List Vector3) (chemicalDirection : List ℚ)
    (rho c1 : ℚ) (r : BacktrackResult)
    (h : I.backtrack ext fuel energy_pre positionDirection chemicalDirection rho c1 = some r)
    (hok : ¬ r.failed) :
    r.integrator.system.vpg.inputVertexPositions =
        (if I.system.parameters.variation.isShapeVariation = true
          then matAdd I.system.vpg.inputVertexPositions
            (matScale r.alpha
              (lineSearchOf I energy_pre positionDirection chemicalDirection rho
                c1).positionDirection)
          else I.system.vpg.inputVertexPositions) ∧
      r.integrator.system.proteinDensity =
        (if I.system.parameters.variation.isProteinVariation = true
          then vecAdd I.system.proteinDensity
            (vecScale r.alpha
              (lineSearchOf I energy_pre positionDirection chemicalDirection rho
                c1).chemicalDirection)
          else I.system.proteinDensity) ∧
      r.integrator.system.time = I.system.time + r.alpha := by
  have hr := (backtrack_accepted ext fuel I energy_pre positionDirection chemicalDirection
    rho c1 r h hok).2
  have ha := backtrack_alpha_eq ext fuel I energy_pre positionDirection chemicalDirection
    rho c1 r h
  rw [hr, ha]
  exact ⟨trialSystem_positions ext _ I.system I.characteristicTimeStep rfl r.count,
    trialSystem_proteinDensity ext _ I.system I.characteristicTimeStep rfl r.count,
    trialSystem_time ext _ I.system I.characteristicTimeStep rfl r.count⟩

theorem backtrack_accepted_update_witness :
    exStiffIntegrator.backtrack exExternal 5 (539 / 1600) exZeroVectors exStiffPotential
        (1 / 10) (1 / 4) = some exResult ∧
      ¬ exResult.failed ∧
      exResult.integrator.system.vpg.inputVertexPositions =
        (if exStiffIntegrator.system.parameters.variation.isShapeVariation = true
          then matAdd exStiffIntegrator.system.vpg.inputVertexPositions
            (matScale exResult.alpha
              (lineSearchOf exStiffIntegrator (539 / 1600) exZeroVectors exStiffPotential
                (1 / 10) (1 / 4)).positionDirection)
          else exStiffIntegrator.system.vpg.inputVertexPositions) ∧
      exResult.integrator.system.proteinDensity =
        (if exStiffIntegrator.system.parameters.variation.isProteinVariation = true
          then vecAdd exStiffIntegrator.system.proteinDensity
            (vecScale exResult.alpha
              (lineSearchOf exStiffIntegrator (539 / 1600) exZeroVectors exStiffPotential
                (1 / 10) (1 / 4)).chemicalDirection)
          else exStiffIntegrator.system.proteinDensity) ∧
      exResult.integrator.system.time = exStiffIntegrator.system.time + exResult.alpha :=
  ⟨exResult_eq, by simp [BacktrackResult.failed, exResult, exStiffIntegrator, exIntegrator],
    backtrack_accepted_update exExternal 5 exStiffIntegrator (539 / 1600) exZeroVectors
      exStiffPotential (1 / 10) (1 / 4) exResult exResult_eq
      (by simp [BacktrackResult.failed, exResult, exStiffIntegrator, exIntegrator])⟩

/-- C8. In a run of `backtrack` that returns after `count` shrinks: every earlier trial step
`cts * rho ^ j` (`j < count`) was rejected by the sufficient-decrease test and was not below
`1e-5 * cts`, and was therefore multiplied by `rho` and retried; the returned step is
`cts * rho ^ count`; and at the returned step either the test accepted, and then `EXIT` and
`SUCCESS` are as on entry, or the test rejected with the step below `1e-5 * cts`, and then
`EXIT = true` and `SUCCESS = false`. So the flags are set on a rejected step below the
threshold and in no other case. -/
theorem backtrack_failure_signal (ext : External) (fuel : Nat) (I : Integrator)
    (energy_pre : ℚ) (positionDirection : List Vector3) (chemicalDirection : List ℚ)
    (rho c1 : ℚ) (r : BacktrackResult)
    (h : I.backtrack ext fuel energy_pre positionDirection chemicalDirection rho c1 = some r) :
    r.alpha = I.characteristicTimeStep * rho ^ r.count ∧
    (∀ j, j < r.count →
      ¬ wolfeCondition ext
          (lineSearchOf I energy_pre positionDirection chemicalDirection rho c1)
          (trialSystem ext
            (lineSearchOf I energy_pre positionDirection chemicalDirection rho c1)
            I.system I.characteristicTimeStep j)
          (I.characteristicTimeStep * rho ^ j) ∧
      ¬ (I.characteristicTimeStep * rho ^ j
          < (1 / 100000 : ℚ) * I.characteristicTimeStep)) ∧
    ((wolfeCondition ext
          (lineSearchOf I energy_pre positionDirection chemicalDirection rho c1)
          (trialSystem ext
            (lineSearchOf I energy_pre positionDirection chemicalDirection rho c1)
            I.system I.characteristicTimeStep r.count) r.alpha ∧
        r.integrator.EXIT = I.EXIT ∧ r.integrator.SUCCESS = I.SUCCESS) ∨
      (¬ wolfeCondition ext
          (lineSearchOf I energy_pre positionDirection chemicalDirection rho c1)
          (trialSystem ext
            (lineSearchOf I energy_pre positionDirection chemicalDirection rho c1)
            I.system I.characteristicTimeStep r.count) r.alpha ∧
        r.alpha < (1 / 100000 : ℚ) * I.characteristicTimeStep ∧
        r.integrator.EXIT = true ∧ r.integrator.SUCCESS = false)) := by
  obtain ⟨ha, hrej, hend⟩ := backtrack_trace ext fuel I energy_pre positionDirection
    chemicalDirection rho c1 r h
  refine ⟨ha, hrej, ?_⟩
  rcases hend with ⟨hw, hr⟩ | ⟨hw, hthr, hr⟩
  · exact Or.inl ⟨hw, by rw [hr], by rw [hr]⟩
  · exact Or.inr ⟨hw, hthr, by rw [hr], by rw [hr]⟩

theorem backtrack_failure_signal_witness :
    exOverstepIntegrator.backtrack exExternal 5 (539 / 1600) exZeroVectors exStiffPotential
        (1 / 100) (1 / 4) = some exFailResult ∧
      exFailResult.alpha < (1 / 100000 : ℚ) * exOverstepIntegrator.characteristicTimeStep ∧
      exFailResult.integrator.EXIT = true ∧ exFailResult.integrator.SUCCESS = false ∧
      exFailResult.alpha =
        exOverstepIntegrator.characteristicTimeStep * (1 / 100) ^ exFailResult.count :=
  ⟨exFailResult_eq, by norm_num [exFailResult, exOverstepIntegrator, exIntegrator], rfl, rfl,
    (backtrack_failure_signal exExternal 5 exOverstepIntegrator (539 / 1600) exZeroVectors
      exStiffPotential (1 / 100) (1 / 4) exFailResult exFailResult_eq).1⟩

/-- State left by a failed line search: the positions on entry, and the protein density on
entry moved by the last probe of the diagnostic. -/
theorem backtrack_failure_state_aux (ext : External) (fuel : Nat) (I : Integrator)
    (energy_pre : ℚ) (positionDirection : List Vector3) (chemicalDirection : List ℚ)
    (rho c1 : ℚ) (r : BacktrackResult)
    (h : I.backtrack ext fuel energy_pre positionDirection chemicalDirection rho c1 = some r)
    (hentry : ¬ (I.EXIT = true ∧ I.SUCCESS = false)) (hfail : r.failed) :
    r.integrator.system.vpg.inputVertexPositions = I.system.vpg.inputVertexPositions ∧
      r.integrator.system.proteinDensity =
        vecAdd I.system.proteinDensity
          (vecScale (r.alpha * I.system.parameters.proteinMobility)
            (I.system.forces.maskProtein I.system.forces.diffusionPotential)) := by
  obtain ⟨-, hsys⟩ := backtrack_rejected ext fuel I energy_pre positionDirection
    chemicalDirection rho c1 r h hentry hfail
  obtain ⟨hp, hd, -⟩ := lineSearchErrorBacktrace_runAll ext
    { I with system := (trialSystem ext
        (lineSearchOf I energy_pre positionDirection chemicalDirection rho c1)
        I.system I.characteristicTimeStep r.count) }
    r.alpha I.system.vpg.inputVertexPositions I.system.proteinDensity I.system.energy
  rw [hsys]
  refine ⟨hp, ?_⟩
  rw [hd]
  simp only [trialSystem_parameters, trialSystem_maskedDiffusion]

/-- C9, as stated, fails. On the diffusion example with the characteristic step 10000 the
line search rejects the steps 10000, 100, 1 and 1/100 and ends in failure at the step 1/100;
the diagnostic it then runs leaves the protein density
`(511/2000, 463/800, 29/50, 463/800, 133/250)`, which is the density on entry,
`(21/40, 1/2, 1/2, 1/2, 1/2)`, moved by 1/100 of the diffusion potential. -/
theorem backtrack_failure_moves_density :
    exOverstepIntegrator.backtrack exExternal 5 (539 / 1600) exZeroVectors exStiffPotential
        (1 / 100) (1 / 4) = some exFailResult ∧
      ¬ (exOverstepIntegrator.EXIT = true ∧ exOverstepIntegrator.SUCCESS = false) ∧
      exFailResult.failed ∧
      exOverstepIntegrator.system.proteinDensity = [21 / 40, 1 / 2, 1 / 2, 1 / 2, 1 / 2] ∧
      exFailResult.integrator.system.proteinDensity =
        [511 / 2000, 463 / 800, 29 / 50, 463 / 800, 133 / 250] ∧
      exFailResult.integrator.system.proteinDensity ≠
        exOverstepIntegrator.system.proteinDensity := by
  have hentry :
      ¬ (exOverstepIntegrator.EXIT = true ∧ exOverstepIntegrator.SUCCESS = false) := by
    simp [exOverstepIntegrator, exIntegrator]
  have hd := (backtrack_failure_state_aux exExternal 5 exOverstepIntegrator (539 / 1600)
    exZeroVectors exStiffPotential (1 / 100) (1 / 4) exFailResult exFailResult_eq hentry
    ⟨rfl, rfl⟩).2
  have hval : exFailResult.integrator.system.proteinDensity =
      [511 / 2000, 463 / 800, 29 / 50, 463 / 800, 133 / 250] := by
    rw [hd]
    simp [exFailResult, exOverstepIntegrator, exIntegrator, exStiffSystem, exSystem,
      exStiffParameters, exParameters, exForces, exStiffDensity, exStiffPotential,
      Forces.maskProtein, vecAdd, vecScale]
    norm_num
  refine ⟨exFailResult_eq, hentry, ⟨rfl, rfl⟩, rfl, hval, ?_⟩
  rw [hval]
  norm_num [exOverstepIntegrator, exIntegrator, exStiffSystem, exSystem, exStiffDensity]

/-- C9, amended. When `backtrack` ends in line-search failure (the entry state did not carry
the failure signal, the state left does), the vertex positions of the system equal their
values on entry, and the protein density equals its value on entry plus
`alpha * proteinMobility * maskProtein(diffusionPotential)`, the perturbation that the last
probe of `lineSearchErrorBacktrace` applies. -/
theorem backtrack_failure_state (ext : External) (fuel : Nat) (I : Integrator)
    (energy_pre : ℚ) (positionDirection : List Vector3) (chemicalDirection : List ℚ)
    (rho c1 : ℚ) (r : BacktrackResult)
    (h : I.backtrack ext fuel energy_pre positionDirection chemicalDirection rho c1 = some r)
    (hentry : ¬ (I.EXIT = true ∧ I.SUCCESS = false)) (hfail : r.failed) :
    r.integrator.system.vpg.inputVertexPositions = I.system.vpg.inputVertexPositions ∧
      r.integrator.system.proteinDensity =
        vecAdd I.system.proteinDensity
          (vecScale (r.alpha * I.system.parameters.proteinMobility)
            (I.system.forces.maskProtein I.system.forces.diffusionPotential)) :=
  backtrack_failure_state_aux ext fuel I energy_pre positionDirection chemicalDirection
    rho c1 r h hentry hfail

theorem backtrack_failure_state_witness :
    exOverstepIntegrator.backtrack exExternal 5 (539 / 1600) exZeroVectors exStiffPotential
        (1 / 100) (1 / 4) = some exFailResult ∧
      ¬ (exOverstepIntegrator.EXIT = true ∧ exOverstepIntegrator.SUCCESS = false) ∧
      exFailResult.failed ∧
      exFailResult.integrator.system.vpg.inputVertexPositions
        = exOverstepIntegrator.system.vpg.inputVertexPositions ∧
      exFailResult.integrator.system.proteinDensity =
        vecAdd exOverstepIntegrator.system.proteinDensity
          (vecScale
            (exFailResult.alpha * exOverstepIntegrator.system.parameters.proteinMobility)
            (exOverstepIntegrator.system.forces.maskProtein
              exOverstepIntegrator.system.forces.diffusionPotential)) :=
  ⟨exFailResult_eq, by simp [exOverstepIntegrator, exIntegrator], ⟨rfl, rfl⟩,
    backtrack_failure_state exExternal 5 exOverstepIntegrator (539 / 1600) exZeroVectors
      exStiffPotential (1 / 100) (1 / 4) exFailResult exFailResult_eq
      (by simp [exOverstepIntegrator, exIntegrator]) ⟨rfl, rfl⟩⟩

/-! ## Theorems: force engine -/

theorem sameForcingInputs_refl (s : System) : s.sameForcingInputs s :=
  ⟨rfl, rfl, rfl, rfl, rfl, rfl, rfl, rfl, rfl, rfl, rfl, rfl, rfl⟩

theorem sameForcingInputs_trans {s t u : System} (h1 : s.sameForcingInputs t)
    (h2 : t.sameForcingInputs u) : s.sameForcingInputs u := by
  obtain ⟨a1, a2, a3, a4, a5, a6, a7, a8, a9, a10, a11, a12, a13⟩ := h1
  obtain ⟨b1, b2, b3, b4, b5, b6, b7, b8, b9, b10, b11, b12, b13⟩ := h2
  exact ⟨b1.trans a1, b2.trans a2, b3.trans a3, b4.trans a4, b5.trans a5, b6.trans a6,
    b7.trans a7, b8.trans a8, b9.trans a9, b10.trans a10, b11.trans a11, b12.trans a12,
    b13.trans a13⟩

theorem zeroAllForces_sameForcingInputs (s : System) : s.sameForcingInputs s.zeroAllForces :=
  ⟨rfl, rfl, rfl, rfl, rfl, rfl, rfl, rfl, rfl, rfl, rfl, rfl, rfl⟩

theorem computeMechanicalForces_sameForcingInputs (ext : External) (s : System) :
    s.sameForcingInputs (s.computeMechanicalForces ext) :=
  ⟨rfl, rfl, rfl, rfl, rfl, rfl, rfl, rfl, rfl, rfl, rfl, rfl, rfl⟩

theorem prescribeExternalForce_sameForcingInputs (ext : External) (s : System) :
    s.sameForcingInputs (s.prescribeExternalForce ext) :=
  ⟨rfl, rfl, rfl, rfl, rfl, rfl, rfl, rfl, rfl, rfl, rfl, rfl, rfl⟩

theorem computeChemicalPotential_sameForcingInputs (s : System) :
    s.sameForcingInputs s.computeChemicalPotential :=
  ⟨rfl, rfl, rfl, rfl, rfl, rfl, rfl, rfl, rfl, rfl, rfl, rfl, rfl⟩

theorem shapeForcing_sameForcingInputs (ext : External) (s : System) :
    s.sameForcingInputs (s.shapeForcing ext) := by
  simp only [System.shapeForcing]
  split_ifs
  · exact sameForcingInputs_trans (computeMechanicalForces_sameForcingInputs ext s)
      (sameForcingInputs_trans (prescribeExternalForce_sameForcingInputs ext _)
        ⟨rfl, rfl, rfl, rfl, rfl, rfl, rfl, rfl, rfl, rfl, rfl, rfl, rfl⟩)
  · exact sameForcingInputs_trans (computeMechanicalForces_sameForcingInputs ext s)
      ⟨rfl, rfl, rfl, rfl, rfl, rfl, rfl, rfl, rfl, rfl, rfl, rfl, rfl⟩

theorem computePhysicalForcing_sameForcingInputs (ext : External) (s : System) :
    s.sameForcingInputs (s.computePhysicalForcing ext) := by
  have h0 := zeroAllForces_sameForcingInputs s
  have hfinal : ∀ u : System, ∀ m c : Double,
      u.sameForcingInputs { u with mechErrorNorm := m, chemErrorNorm := c } :=
    fun u m c => ⟨rfl, rfl, rfl, rfl, rfl, rfl, rfl, rfl, rfl, rfl, rfl, rfl, rfl⟩
  simp only [System.computePhysicalForcing]
  split_ifs
  all_goals first
    | exact sameForcingInputs_trans h0 (sameForcingInputs_trans
        (shapeForcing_sameForcingInputs ext _) (sameForcingInputs_trans
          (computeChemicalPotential_sameForcingInputs _) (hfinal _ _ _)))
    | exact sameForcingInputs_trans h0 (sameForcingInputs_trans
        (shapeForcing_sameForcingInputs ext _) (hfinal _ _ _))
    | exact sameForcingInputs_trans h0 (sameForcingInputs_trans
        (computeChemicalPotential_sameForcingInputs _) (hfinal _ _ _))

theorem sameForcingInputs_symm {s t : System} (h : s.sameForcingInputs t) :
    t.sameForcingInputs s := by
  obtain ⟨a1, a2, a3, a4, a5, a6, a7, a8, a9, a10, a11, a12, a13⟩ := h
  exact ⟨a1.symm, a2.symm, a3.symm, a4.symm, a5.symm, a6.symm, a7.symm, a8.symm, a9.symm,
    a10.symm, a11.symm, a12.symm, a13.symm⟩

/-- Mechanical force left by `computePhysicalForcing`: the sum assembled by the shape block
when shape variation is on, the stored field otherwise. -/
theorem computePhysicalForcing_mechanicalForceVec (ext : External) (s : System) :
    (s.computePhysicalForcing ext).forces.mechanicalForceVec =
      if s.parameters.variation.isShapeVariation = true
      then (s.zeroAllForces.shapeForcing ext).forces.mechanicalForceVec
      else s.forces.mechanicalForceVec := by
  simp only [System.computePhysicalForcing]
  by_cases h1 : s.parameters.variation.isShapeVariation = true
  · have h1' : s.zeroAllForces.parameters.variation.isShapeVariation = true := h1
    rw [if_pos h1', if_pos h1]
    split_ifs <;> rfl
  · have h1' : ¬ s.zeroAllForces.parameters.variation.isShapeVariation = true := h1
    rw [if_neg h1', if_neg h1]
    split_ifs <;> rfl

theorem computePhysicalForcing_chemicalPotential (ext : External) (s : System) :
    (s.computePhysicalForcing ext).forces.chemicalPotential =
      if s.parameters.variation.isProteinVariation = true
      then (System.computeChemicalPotential
        (if s.parameters.variation.isShapeVariation = true
          then s.zeroAllForces.shapeForcing ext else s.zeroAllForces)).forces.chemicalPotential
      else zeroScalars s.mesh := by
  have hp := (shapeForcing_sameForcingInputs ext s.zeroAllForces).2.2.1
  simp only [System.computePhysicalForcing]
  by_cases h1 : s.parameters.variation.isShapeVariation = true
  · have h1' : s.zeroAllForces.parameters.variation.isShapeVariation = true := h1
    rw [if_pos h1', if_pos h1, hp]
    by_cases h2 : s.parameters.variation.isProteinVariation = true
    · have h2' : s.zeroAllForces.parameters.variation.isProteinVariation = true := h2
      rw [if_pos h2', if_pos h2]
    · have h2' : ¬ s.zeroAllForces.parameters.variation.isProteinVariation = true := h2
      rw [if_neg h2', if_neg h2]
      show (s.zeroAllForces.shapeForcing ext).forces.chemicalPotential = _
      simp only [System.shapeForcing]
      split_ifs <;> rfl
  · have h1' : ¬ s.zeroAllForces.parameters.variation.isShapeVariation = true := h1
    rw [if_neg h1', if_neg h1]
    by_cases h2 : s.parameters.variation.isProteinVariation = true
    · have h2' : s.zeroAllForces.parameters.variation.isProteinVariation = true := h2
      rw [if_pos h2', if_pos h2]
    · have h2' : ¬ s.zeroAllForces.parameters.variation.isProteinVariation = true := h2
      rw [if_neg h2', if_neg h2]
      rfl

/-- The mechanical force assembled by the shape block depends on the state through the
forcing inputs and the incoming external force only. -/
theorem shapeForcing_mechanicalForceVec_congr (ext : External) (s t : System)
    (h : s.sameForcingInputs t)
    (hext : t.forces.externalForceVec = s.forces.externalForceVec) :
    (t.shapeForcing ext).forces.mechanicalForceVec =
      (s.shapeForcing ext).forces.mechanicalForceVec := by
  obtain ⟨smesh, svpg, sparams, smp, sforces, senergy, sphi, sgrad, svel, spvel, sH0, sKb,
    stime, smech, schem, sarea, svol, spt, sgeo⟩ := s
  obtain ⟨tmesh, tvpg, tparams, tmp, tforces, tenergy, tphi, tgrad, tvel, tpvel, tH0, tKb,
    ttime, tmech, tchem, tarea, tvol, tpt, tgeo⟩ := t
  cases sforces
  cases tforces
  simp only [System.sameForcingInputs] at h
  obtain ⟨rfl, rfl, rfl, rfl, rfl, rfl, rfl, rfl, rfl, rfl, rfl, rfl, rfl⟩ := h
  simp only at hext
  subst hext
  by_cases hK : tparams.external_Kf = 0
  · simp only [System.shapeForcing, System.computeMechanicalForces, hK, ne_eq,
      not_true_eq_false, if_false]
    rfl
  · simp only [System.shapeForcing, System.computeMechanicalForces, hK, ne_eq,
      not_false_eq_true, if_true]
    rfl

theorem computeChemicalPotential_congr (s t : System) (h : s.sameForcingInputs t) :
    t.computeChemicalPotential.forces.chemicalPotential =
      s.computeChemicalPotential.forces.chemicalPotential := by
  obtain ⟨smesh, svpg, sparams, smp, sforces, senergy, sphi, sgrad, svel, spvel, sH0, sKb,
    stime, smech, schem, sarea, svol, spt, sgeo⟩ := s
  obtain ⟨tmesh, tvpg, tparams, tmp, tforces, tenergy, tphi, tgrad, tvel, tpvel, tH0, tKb,
    ttime, tmech, tchem, tarea, tvol, tpt, tgeo⟩ := t
  cases sforces
  cases tforces
  simp only [System.sameForcingInputs] at h
  obtain ⟨rfl, rfl, rfl, rfl, rfl, rfl, rfl, rfl, rfl, rfl, rfl, rfl, rfl⟩ := h
  rfl

/-- C1. Calling `computePhysicalForcing` twice in succession, with nothing changed in between,
leaves `forces.mechanicalForceVec` and `forces.chemicalPotential` after the second call equal
to their values after the first call, for every system state. -/
theorem computePhysicalForcing_idempotent (ext : External) (s : System) :
    ((s.computePhysicalForcing ext).computePhysicalForcing ext).forces.mechanicalForceVec =
        (s.computePhysicalForcing ext).forces.mechanicalForceVec ∧
      ((s.computePhysicalForcing ext).computePhysicalForcing ext).forces.chemicalPotential =
        (s.computePhysicalForcing ext).forces.chemicalPotential := by
  have hin := computePhysicalForcing_sameForcingInputs ext s
  have hpar : (s.computePhysicalForcing ext).parameters = s.parameters := hin.2.2.1
  have hmesh : (s.computePhysicalForcing ext).mesh = s.mesh := hin.1
  have hz : s.zeroAllForces.sameForcingInputs (s.computePhysicalForcing ext).zeroAllForces :=
    sameForcingInputs_trans (sameForcingInputs_symm (zeroAllForces_sameForcingInputs s))
      (sameForcingInputs_trans hin (zeroAllForces_sameForcingInputs _))
  have hzext : (s.computePhysicalForcing ext).zeroAllForces.forces.externalForceVec =
      s.zeroAllForces.forces.externalForceVec := by
    show zeroVectors (s.computePhysicalForcing ext).mesh = zeroVectors s.mesh
    rw [hmesh]
  have hmechZ := shapeForcing_mechanicalForceVec_congr ext _ _ hz hzext
  constructor
  · rw [computePhysicalForcing_mechanicalForceVec ext (s.computePhysicalForcing ext), hpar]
    by_cases h1 : s.parameters.variation.isShapeVariation = true
    · rw [if_pos h1, hmechZ, computePhysicalForcing_mechanicalForceVec ext s, if_pos h1]
    · rw [if_neg h1]
  · rw [computePhysicalForcing_chemicalPotential ext (s.computePhysicalForcing ext), hpar,
      computePhysicalForcing_chemicalPotential ext s, hmesh]
    by_cases h2 : s.parameters.variation.isProteinVariation = true
    · rw [if_pos h2, if_pos h2]
      apply computeChemicalPotential_congr
      by_cases h1 : s.parameters.variation.isShapeVariation = true
      · rw [if_pos h1, if_pos h1]
        exact sameForcingInputs_trans
          (sameForcingInputs_symm (shapeForcing_sameForcingInputs ext _))
          (sameForcingInputs_trans hz (shapeForcing_sameForcingInputs ext _))
      · rw [if_neg h1, if_neg h1]
        exact hz
    · rw [if_neg h2, if_neg h2]

/-- C2, evaluated on the code: on the example patch with edge stiffness `Kse = 1` and mean
target edge length 10, the spokes of the interior vertex have lengths 8, 6, 8, 15, so the
first call of `computeRegularizationForce` leaves the regularization force `(0,-9,0)` at that
vertex, and the second call, on unchanged geometry, leaves `(0,-18,0)`: the routine adds to
the field without resetting it. -/
theorem computeRegularizationForce_accumulates :
    (exRegularizedSystem.computeRegularizationForce exExternal).forces.regularizationForce
        = [⟨0, -9, 0⟩, ⟨0, 0, 0⟩, ⟨0, 0, 0⟩, ⟨0, 0, 0⟩, ⟨0, 0, 0⟩] ∧
      ((exRegularizedSystem.computeRegularizationForce exExternal).computeRegularizationForce
          exExternal).forces.regularizationForce
        = [⟨0, -18, 0⟩, ⟨0, 0, 0⟩, ⟨0, 0, 0⟩, ⟨0, 0, 0⟩, ⟨0, 0, 0⟩] := by
  constructor <;>
  simp [System.computeRegularizationForce, removeNormalComponent, vertexField,
    accumulateRegularization, regularizeHalfedge, exRegularizedSystem, exSystem, exMesh, exVpg,
    exPositions, exMeshProcessor, exExternal, exForces, exZeroVectors, exSqrt, vAt,
    Vector3.dot, Vector3.norm2, List.range, List.range.loop, Vector3.add_def,
    Vector3.sub_def, Vector3.neg_def, Vector3.smul_def, Vector3.mul_scalar_def,
    Vector3.div_def] <;> norm_num

/-! ## Theorems: forward Euler loop -/

theorem finitenessErrorBacktrack_of_success (I : Integrator)
    (h : I.finitenessErrorBacktrack.SUCCESS = true) :
    I.finitenessErrorBacktrack = I ∧ I.timeStep.isfinite = true ∧
      I.system.mechErrorNorm.isfinite = true ∧ I.system.chemErrorNorm.isfinite = true ∧
      I.system.energy.totalEnergy.isfinite = true := by
  cases h1 : I.timeStep.isfinite <;> cases h2 : I.system.mechErrorNorm.isfinite <;>
    cases h3 : I.system.chemErrorNorm.isfinite <;>
    cases h4 : I.system.energy.totalEnergy.isfinite <;>
    simp_all [Integrator.finitenessErrorBacktrack, Integrator.signalFailure]

theorem thresholdTime_of_success (I : Integrator)
    (h : (Euler.thresholdTime I).SUCCESS = true) :
    Euler.thresholdTime I = I ∧ ¬ (I.system.time > I.totalTime) := by
  by_cases ht : I.system.time > I.totalTime
  · simp [Euler.thresholdTime, ht] at h
  · exact ⟨by simp [Euler.thresholdTime, ht], ht⟩

theorem thresholdTolerance_frame (I : Integrator) :
    (Euler.thresholdTolerance I).SUCCESS = I.SUCCESS ∧
      (Euler.thresholdTolerance I).system = I.system ∧
      (Euler.thresholdTolerance I).timeStep = I.timeStep ∧
      (Euler.thresholdTolerance I).tolerance = I.tolerance ∧
      (Euler.thresholdTolerance I).totalTime = I.totalTime := by
  unfold Euler.thresholdTolerance
  split_ifs <;> exact ⟨rfl, rfl, rfl, rfl, rfl⟩

theorem thresholdTolerance_exit (I : Integrator) (hI : I.EXIT = false)
    (h : (Euler.thresholdTolerance I).EXIT = true) :
    I.system.mechErrorNorm.ltRat I.tolerance = true ∧
      I.system.chemErrorNorm.ltRat I.tolerance = true := by
  unfold Euler.thresholdTolerance at h
  split_ifs at h with hc
  · exact hc
  · rw [hI] at h
    exact absurd h (by simp)

theorem computeFreeEnergy_frame (ext : External) (I : Integrator) :
    (Euler.computeFreeEnergy ext I).SUCCESS = I.SUCCESS ∧
      (Euler.computeFreeEnergy ext I).EXIT = I.EXIT ∧
      (Euler.computeFreeEnergy ext I).system.time = I.system.time ∧
      (Euler.computeFreeEnergy ext I).system.mechErrorNorm = I.system.mechErrorNorm ∧
      (Euler.computeFreeEnergy ext I).system.chemErrorNorm = I.system.chemErrorNorm ∧
      (Euler.computeFreeEnergy ext I).timeStep = I.timeStep ∧
      (Euler.computeFreeEnergy ext I).tolerance = I.tolerance ∧
      (Euler.computeFreeEnergy ext I).totalTime = I.totalTime := by
  simp only [Euler.computeFreeEnergy]
  split_ifs <;> exact ⟨rfl, rfl, rfl, rfl, rfl, rfl, rfl, rfl⟩

theorem getForces_flags (ext : External) (I : Integrator) :
    (I.getForces ext).SUCCESS = I.SUCCESS ∧ (I.getForces ext).EXIT = I.EXIT := by
  simp only [Integrator.getForces]
  split_ifs <;> exact ⟨rfl, rfl⟩

/-- A status call that leaves `SUCCESS` set found it set, found the time within `totalTime`
and the four tested values finite; if it also leaves `EXIT` set and did not find it set, both
error norms were below the tolerance. -/
theorem status_of_success (ext : External) (I : Integrator)
    (h : (Euler.status ext I).SUCCESS = true) :
    I.SUCCESS = true ∧ Euler.statusClean ext I ∧
      ((Euler.status ext I).EXIT = true → I.EXIT = false → Euler.statusConverged ext I) := by
  have hstatus : Euler.status ext I = Integrator.finitenessErrorBacktrack
      (Euler.computeFreeEnergy ext (Euler.thresholdTime (Euler.thresholdTolerance
        (Euler.constraintErrors (I.getForces ext))))) := rfl
  obtain ⟨hF, hf1, hf2, hf3, hf4⟩ := finitenessErrorBacktrack_of_success _ (hstatus ▸ h)
  have hS0 : Euler.status ext I = Euler.computeFreeEnergy ext (Euler.thresholdTime
      (Euler.thresholdTolerance (Euler.constraintErrors (I.getForces ext)))) :=
    hstatus.trans hF
  have hT2 : (Euler.thresholdTime (Euler.thresholdTolerance
      (Euler.constraintErrors (I.getForces ext)))).SUCCESS = true := by
    rw [← (computeFreeEnergy_frame ext _).1, ← hS0]; exact h
  obtain ⟨hT, htime⟩ := thresholdTime_of_success _ hT2
  have hS : Euler.status ext I = Euler.computeFreeEnergy ext
      (Euler.thresholdTolerance (Euler.constraintErrors (I.getForces ext))) := by
    rw [hS0, hT]
  rw [hT] at hf1 hf2 hf3 hf4 hT2
  obtain ⟨-, e2, e3, e4, e5, -, e7, e8⟩ := computeFreeEnergy_frame ext
    (Euler.thresholdTolerance (Euler.constraintErrors (I.getForces ext)))
  obtain ⟨t1, t2, -, t4, -⟩ := thresholdTolerance_frame
    (Euler.constraintErrors (I.getForces ext))
  obtain ⟨g1, g2⟩ := getForces_flags ext I
  refine ⟨?_, ⟨?_, ?_, ?_, ?_, ?_⟩, ?_⟩
  · rw [← g1]
    rw [t1] at hT2
    exact hT2
  · rw [hS, e3, e8]
    exact htime
  · rw [hS]; exact hf1
  · rw [hS]; exact hf2
  · rw [hS]; exact hf3
  · rw [hS]; exact hf4
  · intro hexit hI
    have hEx : (Euler.thresholdTolerance (Euler.constraintErrors (I.getForces ext))).EXIT
        = true := by
      rw [← e2, ← hS]; exact hexit
    have hG : (Euler.constraintErrors (I.getForces ext)).EXIT = false := by
      show (I.getForces ext).EXIT = false
      rw [g2]; exact hI
    obtain ⟨c1, c2⟩ := thresholdTolerance_exit _ hG hEx
    unfold Euler.statusConverged
    rw [hS, e4, e5, e7, t2, t4]
    exact ⟨c1, c2⟩

theorem loopBody_flags (ext : External) (I P : Integrator)
    (h : Euler.loopBody ext I = some P) :
    P.SUCCESS = (Euler.status ext I).SUCCESS ∧ P.EXIT = (Euler.status ext I).EXIT := by
  unfold Euler.loopBody at h
  have hsave : (Euler.periodicSave (Euler.status ext I)).SUCCESS = (Euler.status ext I).SUCCESS ∧
      (Euler.periodicSave (Euler.status ext I)).EXIT = (Euler.status ext I).EXIT := by
    unfold Euler.periodicSave
    split_ifs <;> exact ⟨rfl, rfl⟩
  cases hm : Euler.periodicMesh ext (Euler.periodicSave (Euler.status ext I)) with
  | none => rw [hm] at h; simp at h
  | some M =>
    rw [hm] at h
    simp only [Option.some.injEq] at h
    have hmesh : M.SUCCESS = (Euler.periodicSave (Euler.status ext I)).SUCCESS ∧
        M.EXIT = (Euler.periodicSave (Euler.status ext I)).EXIT := by
      unfold Euler.periodicMesh at hm
      split_ifs at hm
      · cases hmut : ext.mutateMesh (Euler.periodicSave (Euler.status ext I)).system with
        | none => rw [hmut] at hm; simp at hm
        | some s =>
          rw [hmut] at hm
          simp only [Option.some.injEq] at hm
          rw [← hm]
          exact ⟨rfl, rfl⟩
      · simp only [Option.some.injEq] at hm
        rw [← hm]
        exact ⟨rfl, rfl⟩
    have hgeo : (Euler.periodicGeodesics ext M).SUCCESS = M.SUCCESS ∧
        (Euler.periodicGeodesics ext M).EXIT = M.EXIT := by
      unfold Euler.periodicGeodesics
      split_ifs <;> exact ⟨rfl, rfl⟩
    rw [← h]
    exact ⟨hgeo.1.trans (hmesh.1.trans hsave.1), hgeo.2.trans (hmesh.2.trans hsave.2)⟩

theorem marchEntry_flags (I : Integrator) :
    (Euler.marchEntry I).SUCCESS = I.SUCCESS ∧ (Euler.marchEntry I).EXIT = I.EXIT := by
  simp only [Euler.marchEntry]
  split_ifs <;> exact ⟨rfl, rfl⟩

theorem marchExit_flags (ext : External) (I : Integrator) :
    (Euler.marchExit ext I).SUCCESS = I.SUCCESS ∧ (Euler.marchExit ext I).EXIT = I.EXIT :=
  ⟨rfl, rfl⟩

/-- Flags after `backtrack`: as on entry, or the failure signal. -/
theorem backtrack_flags (ext : External) (fuel : Nat) (I : Integrator) (energy_pre : ℚ)
    (positionDirection : List Vector3) (chemicalDirection : List ℚ) (rho c1 : ℚ)
    (r : BacktrackResult)
    (h : I.backtrack ext fuel energy_pre positionDirection chemicalDirection rho c1 = some r) :
    (r.integrator.SUCCESS = I.SUCCESS ∧ r.integrator.EXIT = I.EXIT) ∨ r.failed := by
  obtain ⟨-, -, hend⟩ := backtrack_trace ext fuel I energy_pre positionDirection
    chemicalDirection rho c1 r h
  rcases hend with ⟨-, hr⟩ | ⟨-, -, hr⟩
  · exact Or.inl ⟨by rw [hr], by rw [hr]⟩
  · exact Or.inr (by rw [BacktrackResult.failed, hr]; exact ⟨rfl, rfl⟩)

/-- A step forward that leaves `SUCCESS` set found it set, keeps `EXIT`, and did not go
through a failed line search. -/
theorem stepForward_of_success (ext : External) (lsFuel : Nat) (P Q : Integrator)
    (h : Euler.stepForward ext lsFuel P = some Q) (hQ : Q.SUCCESS = true) :
    P.SUCCESS = true ∧ Q.EXIT = P.EXIT ∧ ¬ Euler.lineSearchFailed ext lsFuel P := by
  unfold Euler.stepForward at h
  split_ifs at h with hnudge
  · simp only [Option.some.injEq] at h
    subst h
    exact ⟨hQ, rfl, fun hf => hf.1 hnudge⟩
  · unfold Euler.march at h
    split_ifs at h with hbt
    · cases hls : Euler.marchLineSearch ext lsFuel P with
      | none => rw [hls] at h; simp at h
      | some r =>
        rw [hls] at h
        simp only [Option.some.injEq] at h
        subst h
        have hQ' : r.integrator.SUCCESS = true := hQ
        have hflags := backtrack_flags ext lsFuel (Euler.marchEntry P) _ _ _ _ _ r hls
        have hnf : ¬ r.failed := fun hf => by
          rw [hf.2] at hQ'
          exact absurd hQ' (by simp)
        rcases hflags with ⟨f1, f2⟩ | hf
        · refine ⟨?_, ?_, ?_⟩
          · rw [← (marchEntry_flags P).1, ← f1]; exact hQ'
          · show r.integrator.EXIT = P.EXIT
            rw [f2, (marchEntry_flags P).2]
          · rintro ⟨-, -, r', hr', hf'⟩
            rw [hls] at hr'
            simp only [Option.some.injEq] at hr'
            subst hr'
            exact hnf hf'
        · exact absurd hf hnf
    · simp only [Option.some.injEq] at h
      subst h
      refine ⟨?_, ?_, fun hf => hbt hf.2.1⟩
      · rw [← (marchEntry_flags P).1]; exact hQ
      · show (Euler.marchEntry P).EXIT = P.EXIT
        exact (marchEntry_flags P).2

theorem integrateLoop_zero (ext : External) (lsFuel : Nat) (I : Integrator) :
    Euler.integrateLoop ext lsFuel 0 I = none := rfl

theorem integrateLoop_succ (ext : External) (lsFuel fuel : Nat) (I : Integrator) :
    Euler.integrateLoop ext lsFuel (fuel + 1) I =
      match Euler.loopBody ext I with
      | none => none
      | some P =>
        if P.EXIT = true then some P
        else
          match Euler.stepForward ext lsFuel P with
          | none => none
          | some Q => Euler.integrateLoop ext lsFuel fuel Q := rfl

theorem loopHead_succ (ext : External) (lsFuel k : Nat) (I : Integrator) :
    Euler.loopHead ext lsFuel (k + 1) I =
      match Euler.loopBody ext I with
      | none => none
      | some P =>
        if P.EXIT = true then none
        else
          match Euler.stepForward ext lsFuel P with
          | none => none
          | some Q => Euler.loopHead ext lsFuel k Q := rfl

theorem loopBody_of_success (ext : External) (I P : Integrator)
    (h : Euler.loopBody ext I = some P) (hP : P.SUCCESS = true) :
    I.SUCCESS = true ∧ Euler.statusClean ext I ∧
      (P.EXIT = true → I.EXIT = false → Euler.statusConverged ext I) := by
  obtain ⟨pf1, pf2⟩ := loopBody_flags ext I P h
  obtain ⟨hI, hclean, hconv⟩ := status_of_success ext I (by rw [← pf1]; exact hP)
  exact ⟨hI, hclean, fun hx => hconv (by rw [← pf2]; exact hx)⟩

/-- Flag `SUCCESS` is never set again by the loop once it is cleared. -/
theorem integrateLoop_sticky (ext : External) (lsFuel : Nat) :
    ∀ (fuel : Nat) (A B : Integrator),
      Euler.integrateLoop ext lsFuel fuel A = some B → B.SUCCESS = true →
      A.SUCCESS = true := by
  intro fuel
  induction fuel with
  | zero => intro A B hAB; rw [integrateLoop_zero] at hAB; exact absurd hAB (by simp)
  | succ m ihm =>
    intro A B hAB hB
    rw [integrateLoop_succ] at hAB
    cases hbA : Euler.loopBody ext A with
    | none => rw [hbA] at hAB; exact absurd hAB (by simp)
    | some PA =>
      rw [hbA] at hAB
      dsimp only at hAB
      by_cases hx : PA.EXIT = true
      · rw [if_pos hx] at hAB
        have hPB : PA = B := Option.some.inj hAB
        exact (loopBody_of_success ext A PA hbA (by rw [hPB]; exact hB)).1
      · rw [if_neg hx] at hAB
        cases hsA : Euler.stepForward ext lsFuel PA with
        | none => rw [hsA] at hAB; exact absurd hAB (by simp)
        | some QA =>
          rw [hsA] at hAB
          dsimp only at hAB
          have hQA : QA.SUCCESS = true := ihm QA B hAB hB
          have hPA := (stepForward_of_success ext lsFuel PA QA hsA hQA).1
          exact (loopBody_of_success ext A PA hbA hPA).1

/-- Run of the loop of `Euler::integrate` that ends with `SUCCESS` set, from a state whose
`EXIT` flag is clear: the last pass found both norms below the tolerance, every status call
was clean, and no line search failed. -/
theorem integrateLoop_of_success (ext : External) (lsFuel : Nat) :
    ∀ (fuel : Nat) (I R : Integrator),
      Euler.integrateLoop ext lsFuel fuel I = some R → I.EXIT = false → R.SUCCESS = true →
      ∃ k J, Euler.loopHead ext lsFuel k I = some J ∧ Euler.loopBody ext J = some R ∧
        Euler.statusConverged ext J ∧
        (∀ j J', j ≤ k → Euler.loopHead ext lsFuel j I = some J' →
          J'.SUCCESS = true ∧ Euler.statusClean ext J') ∧
        (∀ j J' P, j < k → Euler.loopHead ext lsFuel j I = some J' →
          Euler.loopBody ext J' = some P → ¬ Euler.lineSearchFailed ext lsFuel P) := by
  intro fuel
  induction fuel with
  | zero => intro I R h; rw [integrateLoop_zero] at h; exact absurd h (by simp)
  | succ n ih =>
    intro I R h hexit hsucc
    have hIS := integrateLoop_sticky ext lsFuel (n + 1) I R h hsucc
    rw [integrateLoop_succ] at h
    cases hb : Euler.loopBody ext I with
    | none => rw [hb] at h; exact absurd h (by simp)
    | some P =>
      rw [hb] at h
      dsimp only at h
      by_cases hPexit : P.EXIT = true
      · -- the loop ends in this pass
        rw [if_pos hPexit] at h
        have hPR : P = R := Option.some.inj h
        rw [hPR] at hb hPexit
        obtain ⟨hI, hclean, hconv⟩ := loopBody_of_success ext I R hb hsucc
        refine ⟨0, I, rfl, hb, hconv hPexit hexit, ?_, ?_⟩
        · intro j J' hj hJ'
          have hj0 : j = 0 := Nat.le_zero.mp hj
          rw [hj0] at hJ'
          have hIJ : I = J' := Option.some.inj hJ'
          rw [← hIJ]
          exact ⟨hI, hclean⟩
        · intro j J' P' hj
          exact absurd hj (Nat.not_lt_zero j)
      · -- step forward and continue
        rw [if_neg hPexit] at h
        cases hs : Euler.stepForward ext lsFuel P with
        | none => rw [hs] at h; exact absurd h (by simp)
        | some Q =>
          rw [hs] at h
          dsimp only at h
          have hPexit' : P.EXIT = false := by
            cases hP : P.EXIT
            · rfl
            · exact absurd hP hPexit
          have hQS : Q.SUCCESS = true := integrateLoop_sticky ext lsFuel n Q R h hsucc
          obtain ⟨hPS, hQE, hnls⟩ := stepForward_of_success ext lsFuel P Q hs hQS
          obtain ⟨hI, hclean, -⟩ := loopBody_of_success ext I P hb hPS
          have hQexit : Q.EXIT = false := by rw [hQE]; exact hPexit'
          obtain ⟨k, J, hk, hJ, hconv, hall, hls⟩ := ih Q R h hQexit hsucc
          have hshift : ∀ j, Euler.loopHead ext lsFuel (j + 1) I
              = Euler.loopHead ext lsFuel j Q := by
            intro j
            rw [loopHead_succ, hb]
            dsimp only
            rw [if_neg hPexit, hs]
          refine ⟨k + 1, J, by rw [hshift]; exact hk, hJ, hconv, ?_, ?_⟩
          · intro j J' hj hJ'
            cases j with
            | zero =>
              have hIJ : I = J' := Option.some.inj hJ'
              rw [← hIJ]
              exact ⟨hI, hclean⟩
            | succ j =>
              rw [hshift] at hJ'
              exact hall j J' (Nat.le_of_succ_le_succ hj) hJ'
          · intro j J' P' hj hJ' hP'
            cases j with
            | zero =>
              have hIJ : I = J' := Option.some.inj hJ'
              rw [← hIJ, hb] at hP'
              have hPP : P = P' := Option.some.inj hP'
              rw [← hPP]
              exact hnls
            | succ j =>
              rw [hshift] at hJ'
              exact hls j J' P' (Nat.lt_of_succ_lt_succ hj) hJ' hP'

/-- With zero pressure, tension and moduli, one halfedge contributes nothing to the
accumulators of `computeMechanicalForces(i)`. -/
theorem accumulateHalfedge_zero (ext : External) (s : System) (i he : Nat)
    (h1 : s.forces.osmoticPressure = 0) (h2 : s.forces.surfaceTension = 0)
    (h3 : s.parameters.adsorption_epsilon = 0) (h4 : s.parameters.aggregation_chi = 0)
    (h5 : s.parameters.dirichlet_eta = 0) (h6 : ∀ j, s.Kb j = 0) :
    accumulateHalfedge ext s i VertexForces.zero he = VertexForces.zero := by
  simp [accumulateHalfedge, VertexForces.zero, Vector3.zero, h1, h2, h3, h4, h5, h6,
    Vector3.add_def, Vector3.sub_def, Vector3.smul_def]

theorem foldl_accumulateHalfedge_zero (ext : External) (s : System) (i : Nat)
    (h1 : s.forces.osmoticPressure = 0) (h2 : s.forces.surfaceTension = 0)
    (h3 : s.parameters.adsorption_epsilon = 0) (h4 : s.parameters.aggregation_chi = 0)
    (h5 : s.parameters.dirichlet_eta = 0) (h6 : ∀ j, s.Kb j = 0) (l : List Nat) :
    l.foldl (accumulateHalfedge ext s i) VertexForces.zero = VertexForces.zero := by
  induction l with
  | nil => rfl
  | cons he l ih =>
    rw [List.foldl_cons, accumulateHalfedge_zero ext s i he h1 h2 h3 h4 h5 h6]
    exact ih

theorem vertexForcesAt_zero (ext : External) (s : System) (i : Nat)
    (h1 : s.forces.osmoticPressure = 0) (h2 : s.forces.surfaceTension = 0)
    (h3 : s.parameters.adsorption_epsilon = 0) (h4 : s.parameters.aggregation_chi = 0)
    (h5 : s.parameters.dirichlet_eta = 0) (h6 : ∀ j, s.Kb j = 0) :
    vertexForcesAt ext s i = VertexForces.zero := by
  simp only [vertexForcesAt, foldl_accumulateHalfedge_zero ext s i h1 h2 h3 h4 h5 h6]
  simp [Forces.maskForceAt, Vector3.cwiseMul, VertexForces.zero, Vector3.zero]

theorem exForcing_eq : exSystem.computePhysicalForcing exExternal = exSystem := by
  have hv : ∀ i, vertexForcesAt exExternal exSystem.zeroAllForces i = VertexForces.zero :=
    fun i => vertexForcesAt_zero exExternal exSystem.zeroAllForces i rfl rfl rfl rfl rfl
      (fun _ => rfl)
  simp only [System.computePhysicalForcing, System.shapeForcing,
    System.computeMechanicalForces, hv]
  norm_num [System.zeroAllForces, System.computeChemicalPotential,
    System.prescribeExternalForce, vertexField, zeroVectors, zeroScalars, VertexForces.zero,
    Forces.maskProtein, exSystem, exExternal, exParameters, exMesh, exVpg, exForces,
    exZeroVectors, exZeroScalars, exSqrt, matInner, vecInner, matAdd, vecAdd, vecScale, sAt,
    Vector3.zero, Vector3.add, Vector3.dot, pointwiseMeanCurvature, ontoNormalAt, ontoNormal,
    List.range, List.range.loop]

/-- The forces stored in the pushed example are the ones `computePhysicalForcing` computes
for it. -/
theorem exPushedForcing_eq :
    exPushedSystem.computePhysicalForcing exExternal = exPushedSystem := by
  have hv : ∀ i, vertexForcesAt exExternal exPushedSystem.zeroAllForces i
      = VertexForces.zero :=
    fun i => vertexForcesAt_zero exExternal exPushedSystem.zeroAllForces i rfl rfl rfl rfl rfl
      (fun _ => rfl)
  simp only [System.computePhysicalForcing, System.shapeForcing,
    System.computeMechanicalForces, hv]
  norm_num [System.zeroAllForces, System.computeChemicalPotential,
    System.prescribeExternalForce, vertexField, zeroVectors, zeroScalars, VertexForces.zero,
    Forces.maskProtein, exPushedSystem, exPush, exSystem, exExternal, exGeodesic, exSqrt,
    exParameters,
    exMesh, exVpg, exForces, exZeroVectors, exZeroScalars, matInner, vecInner, matAdd, vecAdd,
    vecScale, sAt, Vector3.zero, Vector3.add, Vector3.dot, Vector3.smul_def,
    pointwiseMeanCurvature, ontoNormalAt, ontoNormal, List.range, List.range.loop]

/-- The forces and the energy stored in the diffusion example are the ones that
`computePhysicalForcing` and the energy routine compute for it. -/
theorem exStiffForcing_eq :
    exStiffSystem.computePhysicalForcing exExternal = exStiffSystem ∧
      exExternal.computePotentialEnergy exStiffSystem = exStiffSystem.energy := by
  constructor
  · norm_num [System.computePhysicalForcing, System.zeroAllForces,
      System.computeChemicalPotential, vertexField, zeroVectors, zeroScalars,
      Forces.maskProtein, exStiffSystem, exStiffParameters, exStiffDensity, exStiffPotential,
      exSystem, exExternal, exParameters, exMesh, exVpg, exForces, exZeroVectors,
      exZeroScalars, vecInner, vecAdd, vecScale, sAt, pointwiseMeanCurvature, Vector3.zero,
      List.range, List.range.loop]
  · norm_num [exExternal, exEnergy, exDirichletEnergy, exStiffSystem, exStiffParameters,
      exStiffDensity, exSystem, exParameters, exVpg, vecInner, sAt]

theorem exStatus_eval :
    (Euler.status exExternal exIntegrator).EXIT = true ∧
      (Euler.status exExternal exIntegrator).SUCCESS = true ∧
      (Euler.status exExternal exIntegrator).system.time = 0 ∧
      (Euler.status exExternal exIntegrator).lastSave = 0 ∧
      (Euler.status exExternal exIntegrator).initialTime = 0 ∧
      (Euler.status exExternal exIntegrator).lastProcessMesh = 0 ∧
      (Euler.status exExternal exIntegrator).processMeshPeriod = 100 ∧
      (Euler.status exExternal exIntegrator).lastUpdateGeodesics = 0 ∧
      (Euler.status exExternal exIntegrator).updateGeodesicsPeriod = 100 := by
  have hF : exIntegrator.system.computePhysicalForcing exExternal = exSystem := exForcing_eq
  simp only [Euler.status, Integrator.getForces, hF]
  norm_num [Integrator.finitenessErrorBacktrack, Integrator.signalFailure,
    Euler.computeFreeEnergy, Euler.thresholdTime, Euler.thresholdTolerance,
    Euler.constraintErrors, System.setEnergy, exIntegrator, exSystem, exExternal,
    exParameters, exEnergy, Double.isfinite, Double.ltRat]

theorem exLoopBody_eq :
    Euler.loopBody exExternal exIntegrator = some exIntegrateResult.integrator := by
  obtain ⟨-, -, h3, h4, h5, h6, h7, h8, h9⟩ := exStatus_eval
  unfold exIntegrateResult Euler.loopBody
  generalize Euler.status exExternal exIntegrator = S at *
  have hsave : Euler.periodicSave S = Integrator.saveData { S with lastSave := 0 } := by
    unfold Euler.periodicSave
    rw [if_pos (Or.inr (Or.inl (h3.trans h5.symm))), h3]
  have hmesh : Euler.periodicMesh exExternal (Integrator.saveData { S with lastSave := 0 })
      = some (Integrator.saveData { S with lastSave := 0 }) := by
    unfold Euler.periodicMesh
    have hc : ¬ ((Integrator.saveData { S with lastSave := 0 }).system.time -
        (Integrator.saveData { S with lastSave := 0 }).lastProcessMesh >
        (Integrator.saveData { S with lastSave := 0 }).processMeshPeriod) := by
      show ¬ (S.system.time - S.lastProcessMesh > S.processMeshPeriod)
      rw [h3, h6, h7]
      norm_num
    rw [if_neg hc]
  have hgeo : Euler.periodicGeodesics exExternal (Integrator.saveData { S with lastSave := 0 })
      = Integrator.saveData { S with lastSave := 0 } := by
    unfold Euler.periodicGeodesics
    have hc : ¬ ((Integrator.saveData { S with lastSave := 0 }).system.time -
        (Integrator.saveData { S with lastSave := 0 }).lastUpdateGeodesics >
        (Integrator.saveData { S with lastSave := 0 }).updateGeodesicsPeriod) := by
      show ¬ (S.system.time - S.lastUpdateGeodesics > S.updateGeodesicsPeriod)
      rw [h3, h8, h9]
      norm_num
    rw [if_neg hc]
  rw [hsave, hmesh]
  dsimp only
  rw [hgeo]

theorem exIntegrateResult_eq :
    Euler.integrate exExternal 1 5 exIntegrator = some exIntegrateResult := by
  obtain ⟨h1, h2, -⟩ := exStatus_eval
  have hE : exIntegrateResult.integrator.EXIT = true := h1
  have hS : exIntegrateResult.integrator.SUCCESS = true := h2
  unfold Euler.integrate
  rw [integrateLoop_succ, exLoopBody_eq]
  dsimp only
  rw [if_pos hE]
  dsimp only
  rw [hS]
  rfl

/-- C10. A run of `Euler::integrate` that starts with the exit flag clear (no interrupt is
pending, and the model has none during the run) and returns `true` started with `SUCCESS`
set and ended because the status call of its last pass found both `mechErrorNorm` and
`chemErrorNorm` below the tolerance; at every status call of the run the time did not exceed
`totalTime` and `timeStep`, both norms and `energy.totalEnergy` were finite, and no step of
the run went through a line-search failure. -/
theorem integrate_true_only_converged (ext : External) (fuel lsFuel : Nat) (I : Integrator)
    (out : IntegrateResult) (h : Euler.integrate ext fuel lsFuel I = some out)
    (hexit : I.EXIT = false) (htrue : out.success = true) :
    I.SUCCESS = true ∧
    ∃ k J, Euler.loopHead ext lsFuel k I = some J ∧
      Euler.loopBody ext J = some out.integrator ∧
      Euler.statusConverged ext J ∧
      (∀ j J', j ≤ k → Euler.loopHead ext lsFuel j I = some J' → Euler.statusClean ext J') ∧
      (∀ j J' P, j < k → Euler.loopHead ext lsFuel j I = some J' →
        Euler.loopBody ext J' = some P → ¬ Euler.lineSearchFailed ext lsFuel P) := by
  unfold Euler.integrate at h
  cases hl : Euler.integrateLoop ext lsFuel fuel I with
  | none => rw [hl] at h; exact absurd h (by simp)
  | some R =>
    rw [hl] at h
    dsimp only at h
    have hout := Option.some.inj h
    have hR : out.integrator = R := by rw [← hout]
    have hRS : R.SUCCESS = true := by rw [← hout] at htrue; exact htrue
    obtain ⟨k, J, hk, hJ, hconv, hall, hls⟩ :=
      integrateLoop_of_success ext lsFuel fuel I R hl hexit hRS
    refine ⟨integrateLoop_sticky ext lsFuel fuel I R hl hRS, k, J, hk, ?_, hconv, ?_, hls⟩
    · rw [hR]; exact hJ
    · intro j J' hj hJ'
      exact (hall j J' hj hJ').2

theorem integrate_true_only_converged_witness :
    Euler.integrate exExternal 1 5 exIntegrator = some exIntegrateResult ∧
      exIntegrator.EXIT = false ∧ exIntegrateResult.success = true ∧
      exIntegrator.SUCCESS = true ∧
      ∃ k J, Euler.loopHead exExternal 5 k exIntegrator = some J ∧
        Euler.loopBody exExternal J = some exIntegrateResult.integrator ∧
        Euler.statusConverged exExternal J ∧
        (∀ j J', j ≤ k → Euler.loopHead exExternal 5 j exIntegrator = some J' →
          Euler.statusClean exExternal J') ∧
        (∀ j J' P, j < k → Euler.loopHead exExternal 5 j exIntegrator = some J' →
          Euler.loopBody exExternal J' = some P → ¬ Euler.lineSearchFailed exExternal 5 P) :=
  ⟨exIntegrateResult_eq, rfl, rfl,
    integrate_true_only_converged exExternal 1 5 exIntegrator exIntegrateResult
      exIntegrateResult_eq rfl rfl⟩

/-! ## Theorems: thresholds, finiteness check and parameter check -/

theorem signalFailure_signalFailure (I : Integrator) :
    I.signalFailure.signalFailure = I.signalFailure := rfl

theorem finitenessErrorBacktrack_eq (I : Integrator) :
    I.finitenessErrorBacktrack = if I.allFinite then I else I.signalFailure := by
  simp only [Integrator.finitenessErrorBacktrack, Integrator.allFinite]
  by_cases hts : I.timeStep.isfinite = true <;>
    by_cases hm : I.system.mechErrorNorm.isfinite = true <;>
    by_cases hc : I.system.chemErrorNorm.isfinite = true <;>
    by_cases he : I.system.energy.totalEnergy.isfinite = true <;>
    simp [hts, hm, hc, he, Integrator.signalFailure]

/-- C12. `finitenessErrorBacktrack` leaves the integrator as it is, both flags included,
when `timeStep`, `mechErrorNorm`, `chemErrorNorm` and `energy.totalEnergy` are all finite, and
otherwise, when at least one of the four is non-finite, sets `EXIT = true` and
`SUCCESS = false` and changes nothing else. -/
theorem finitenessErrorBacktrack_flags (I : Integrator) :
    I.finitenessErrorBacktrack =
      (if I.timeStep.isfinite = true ∧ I.system.mechErrorNorm.isfinite = true ∧
          I.system.chemErrorNorm.isfinite = true ∧
          I.system.energy.totalEnergy.isfinite = true
        then I else { I with EXIT := true, SUCCESS := false }) :=
  finitenessErrorBacktrack_eq I

/-- C13. `Euler::checkParameters` raises a runtime error if and only if the DPD coefficient
`gamma` is nonzero, or backtracking is enabled and `rho` or `c1` lies outside the open interval
`(0,1)`; in every other case, in particular for any `rho` and `c1` when backtracking is
disabled and `gamma` is zero, it returns normally. -/
theorem checkParameters_error_iff (I : Integrator) :
    ((∃ msg, Euler.checkParameters I = Except.error msg) ↔
      (I.system.parameters.dpd_gamma ≠ 0 ∨
        (I.isBacktrack = true ∧ ¬ (0 < I.rho ∧ I.rho < 1 ∧ 0 < I.c1 ∧ I.c1 < 1)))) ∧
    (Euler.checkParameters I = Except.ok () ↔
      (I.system.parameters.dpd_gamma = 0 ∧
        (I.isBacktrack = false ∨ (0 < I.rho ∧ I.rho < 1 ∧ 0 < I.c1 ∧ I.c1 < 1)))) := by
  unfold Euler.checkParameters
  by_cases hg : I.system.parameters.dpd_gamma = 0
  · by_cases hb : I.isBacktrack = true
    · by_cases hr : I.rho ≥ 1 ∨ I.rho ≤ 0 ∨ I.c1 ≥ 1 ∨ I.c1 ≤ 0
      · have hn : ¬ (0 < I.rho ∧ I.rho < 1 ∧ 0 < I.c1 ∧ I.c1 < 1) := by
          rintro ⟨h1, h2, h3, h4⟩
          rcases hr with h | h | h | h <;> linarith
        simp [hg, hb, hr, hn]
      · have hy : 0 < I.rho ∧ I.rho < 1 ∧ 0 < I.c1 ∧ I.c1 < 1 := by
          simp only [not_or, not_le] at hr
          exact ⟨hr.2.1, hr.1, hr.2.2.2, hr.2.2.1⟩
        simp [hg, hb, hr, hy]
    · simp [hg, hb]
  · simp [hg]

/-- The two thresholds change neither the flag nor the integrator when an error norm is not
below the tolerance. -/
theorem thresholds_idle (I : Integrator) (EXIT isAugmentedLagrangian : Bool)
    (dArea dVolume ctol increment : ℚ) (h : ¬ I.normsBelowTolerance) :
    I.pressureConstraintThreshold EXIT isAugmentedLagrangian dArea ctol increment = (EXIT, I) ∧
      I.reducedVolumeThreshold EXIT isAugmentedLagrangian dArea dVolume ctol increment
        = (EXIT, I) := by
  unfold Integrator.pressureConstraintThreshold Integrator.reducedVolumeThreshold
  rw [if_neg h, if_neg h]
  exact ⟨rfl, rfl⟩

/-- With both norms below the tolerance, `pressureConstraintThreshold` sets the flag exactly
when `dArea < ctol`, and otherwise raises `lambdaSG` by `Ksg * (A - At) / At` (augmented
Lagrangian) or multiplies `Ksg` by the supplied increment (incremental penalty). -/
theorem pressureConstraintThreshold_active (I : Integrator) (EXIT isAugmentedLagrangian : Bool)
    (dArea ctol increment : ℚ) (h : I.normsBelowTolerance) :
    I.pressureConstraintThreshold EXIT isAugmentedLagrangian dArea ctol increment =
      (if dArea < ctol then (true, I)
        else if isAugmentedLagrangian = true then
          (EXIT, I.setLambdaSG (I.system.parameters.tension.lambdaSG +
            I.system.parameters.tension.Ksg *
              (I.system.surfaceArea - I.system.parameters.tension.At) /
              I.system.parameters.tension.At))
        else (EXIT, I.setKsg (I.system.parameters.tension.Ksg * increment))) := by
  unfold Integrator.pressureConstraintThreshold
  rw [if_pos h]
  by_cases ha : isAugmentedLagrangian = true <;> by_cases hd : dArea < ctol <;>
    simp [ha, hd]

/-- C11, evaluated on the code. On the penalty example both error norms are below the
tolerance and `Ksg = Kv = 1`. Under the incremental-penalty policy with both residuals 1/2
above `ctol = 1/100` and the supplied increment 2, `reducedVolumeThreshold` leaves
`Ksg = Kv = 13/10`, not 2: it multiplies by the literal `1.3`. With `dArea` equal to `ctol`
it neither sets the flag nor changes a parameter. `pressureConstraintThreshold`, on the same
input, leaves `Ksg = 2`. -/
theorem reducedVolumeThreshold_ignores_increment :
    exPenaltyIntegrator.normsBelowTolerance ∧
      exPenaltyIntegrator.system.parameters.tension.Ksg = 1 ∧
      exPenaltyIntegrator.system.parameters.osmotic.Kv = 1 ∧
      (exPenaltyIntegrator.reducedVolumeThreshold false false (1 / 2) (1 / 2) (1 / 100)
        2).1 = false ∧
      (exPenaltyIntegrator.reducedVolumeThreshold false false (1 / 2) (1 / 2) (1 / 100)
        2).2.system.parameters.tension.Ksg = 13 / 10 ∧
      (exPenaltyIntegrator.reducedVolumeThreshold false false (1 / 2) (1 / 2) (1 / 100)
        2).2.system.parameters.osmotic.Kv = 13 / 10 ∧
      exPenaltyIntegrator.reducedVolumeThreshold false false (1 / 100) 0 (1 / 100) 2
        = (false, exPenaltyIntegrator) ∧
      (exPenaltyIntegrator.pressureConstraintThreshold false false (1 / 2) (1 / 100)
        2).2.system.parameters.tension.Ksg = 2 := by
  have hn : exPenaltyIntegrator.normsBelowTolerance := by
    simp [Integrator.normsBelowTolerance, exPenaltyIntegrator, exIntegrator, exSystem,
      Double.ltRat]
  refine ⟨hn, rfl, rfl, ?_, ?_, ?_, ?_, ?_⟩
  · simp only [Integrator.reducedVolumeThreshold, if_pos hn]
    norm_num
  · simp only [Integrator.reducedVolumeThreshold, if_pos hn]
    norm_num [Integrator.setKsg, Integrator.setKv, exPenaltyIntegrator]
  · simp only [Integrator.reducedVolumeThreshold, if_pos hn]
    norm_num [Integrator.setKsg, Integrator.setKv, exPenaltyIntegrator]
  · simp only [Integrator.reducedVolumeThreshold, if_pos hn]
    norm_num
  · simp only [Integrator.pressureConstraintThreshold, if_pos hn]
    norm_num [Integrator.setKsg, exPenaltyIntegrator]

/-! ## Theorems: additive decomposition and masking of the forces -/

theorem length_vertexField {α : Type} (m : Mesh) (f : Nat → α) :
    (vertexField m f).length = m.nVertices := by
  simp [vertexField]

theorem vAt_vertexField (m : Mesh) (f : Nat → Vector3) (i : Nat) (h : i < m.nVertices) :
    vAt (vertexField m f) i = f i := by
  simp [vAt, vertexField, List.getD, h]

theorem sAt_vertexField (m : Mesh) (f : Nat → ℚ) (i : Nat) (h : i < m.nVertices) :
    sAt (vertexField m f) i = f i := by
  simp [sAt, vertexField, List.getD, h]

theorem length_matAdd (a b : List Vector3) : (matAdd a b).length = min a.length b.length := by
  simp [matAdd]

theorem length_vecAdd (a b : List ℚ) : (vecAdd a b).length = min a.length b.length := by
  simp [vecAdd]

theorem vAt_matAdd (a b : List Vector3) (i : Nat) (ha : i < a.length) (hb : i < b.length) :
    vAt (matAdd a b) i = vAt a i + vAt b i := by
  simp [vAt, matAdd, List.getD, List.getElem?_zipWith, ha, hb]
  rfl

theorem sAt_vecAdd (a b : List ℚ) (i : Nat) (ha : i < a.length) (hb : i < b.length) :
    sAt (vecAdd a b) i = sAt a i + sAt b i := by
  simp [sAt, vecAdd, List.getD, List.getElem?_zipWith, ha, hb]

theorem bend_parts_step (b a g c G A S : Vector3) (h : b = a + g + c) :
    b - (G + A + S) = (a - A) + (g - G) + (c - S) := by
  rw [h]
  simp only [Vector3.add_def, Vector3.sub_def, Vector3.mk.injEq]
  refine ⟨?_, ?_, ?_⟩ <;> ring

/-- Invariant of the loop over the outgoing halfedges: the bending accumulator is the sum of
its three parts. -/
theorem accumulateHalfedge_bend (ext : External) (s : System) (i : Nat) (acc : VertexForces)
    (he : Nat)
    (h : acc.bendForceVec =
      acc.bendForceVec_areaGrad + acc.bendForceVec_gaussVec + acc.bendForceVec_schlafliVec) :
    (accumulateHalfedge ext s i acc he).bendForceVec =
      (accumulateHalfedge ext s i acc he).bendForceVec_areaGrad +
        (accumulateHalfedge ext s i acc he).bendForceVec_gaussVec +
        (accumulateHalfedge ext s i acc he).bendForceVec_schlafliVec :=
  bend_parts_step _ _ _ _ _ _ _ h

theorem foldl_accumulateHalfedge_bend (ext : External) (s : System) (i : Nat)
    (l : List Nat) (acc : VertexForces)
    (h : acc.bendForceVec =
      acc.bendForceVec_areaGrad + acc.bendForceVec_gaussVec + acc.bendForceVec_schlafliVec) :
    (l.foldl (accumulateHalfedge ext s i) acc).bendForceVec =
      (l.foldl (accumulateHalfedge ext s i) acc).bendForceVec_areaGrad +
        (l.foldl (accumulateHalfedge ext s i) acc).bendForceVec_gaussVec +
        (l.foldl (accumulateHalfedge ext s i) acc).bendForceVec_schlafliVec := by
  induction l generalizing acc with
  | nil => exact h
  | cons he l ih =>
    rw [List.foldl_cons]
    exact ih _ (accumulateHalfedge_bend ext s i acc he h)

theorem maskForceAt_add (f : Forces) (a b : Vector3) (i : Nat) :
    f.maskForceAt (a + b) i = f.maskForceAt a i + f.maskForceAt b i := by
  simp only [Forces.maskForceAt, Vector3.cwiseMul, Vector3.add_def, Vector3.mk.injEq]
  refine ⟨?_, ?_, ?_⟩ <;> ring

/-- The masked bending force of a vertex is the sum of its masked parts. -/
theorem vertexForcesAt_bend (ext : External) (s : System) (i : Nat) :
    (vertexForcesAt ext s i).bendForceVec =
      (vertexForcesAt ext s i).bendForceVec_areaGrad +
        (vertexForcesAt ext s i).bendForceVec_gaussVec +
        (vertexForcesAt ext s i).bendForceVec_schlafliVec := by
  have h := foldl_accumulateHalfedge_bend ext s i (s.mesh.outgoingHalfedges i) VertexForces.zero
    (by simp [VertexForces.zero, Vector3.zero, Vector3.add_def])
  simp only [vertexForcesAt]
  rw [h, maskForceAt_add, maskForceAt_add]

/-- Fields left by the shape block of `computePhysicalForcing`: the per-mechanism vectors are
the masked vertex sums, and the aggregate is their sum with the external force. -/
theorem shapeForcing_fields (ext : External) (s : System) :
    (s.shapeForcing ext).forces.osmoticForceVec =
        vertexField s.mesh (fun i => (vertexForcesAt ext s i).osmoticForceVec) ∧
      (s.shapeForcing ext).forces.capillaryForceVec =
        vertexField s.mesh (fun i => (vertexForcesAt ext s i).capillaryForceVec) ∧
      (s.shapeForcing ext).forces.bendingForceVec =
        vertexField s.mesh (fun i => (vertexForcesAt ext s i).bendForceVec) ∧
      (s.shapeForcing ext).forces.lineCapillaryForceVec =
        vertexField s.mesh (fun i => (vertexForcesAt ext s i).lineCapForceVec) ∧
      (s.shapeForcing ext).forces.adsorptionForceVec =
        vertexField s.mesh (fun i => (vertexForcesAt ext s i).adsorptionForceVec) ∧
      (s.shapeForcing ext).forces.aggregationForceVec =
        vertexField s.mesh (fun i => (vertexForcesAt ext s i).aggregationForceVec) ∧
      (s.shapeForcing ext).forces.bendingForceVec_areaGrad =
        vertexField s.mesh (fun i => (vertexForcesAt ext s i).bendForceVec_areaGrad) ∧
      (s.shapeForcing ext).forces.bendingForceVec_gaussVec =
        vertexField s.mesh (fun i => (vertexForcesAt ext s i).bendForceVec_gaussVec) ∧
      (s.shapeForcing ext).forces.bendingForceVec_schlafliVec =
        vertexField s.mesh (fun i => (vertexForcesAt ext s i).bendForceVec_schlafliVec) ∧
      (s.shapeForcing ext).forces.externalForceVec =
        (if s.parameters.external_Kf ≠ 0 then (s.prescribeExternalForce ext).forces.externalForceVec
          else s.forces.externalForceVec) ∧
      (s.shapeForcing ext).forces.mechanicalForceVec =
        matAdd (matAdd (matAdd (matAdd (matAdd (matAdd
          (s.shapeForcing ext).forces.osmoticForceVec
          (s.shapeForcing ext).forces.capillaryForceVec)
          (s.shapeForcing ext).forces.bendingForceVec)
          (s.shapeForcing ext).forces.lineCapillaryForceVec)
          (s.shapeForcing ext).forces.adsorptionForceVec)
          (s.shapeForcing ext).forces.aggregationForceVec)
          (s.shapeForcing ext).forces.externalForceVec := by
  by_cases hk : s.parameters.external_Kf ≠ 0
  · have hk' : (s.computeMechanicalForces ext).parameters.external_Kf ≠ 0 := hk
    refine ⟨?_, ?_, ?_, ?_, ?_, ?_, ?_, ?_, ?_, ?_, ?_⟩ <;>
      simp only [System.shapeForcing, if_pos hk', if_pos hk] <;> rfl
  · have hk' : ¬ (s.computeMechanicalForces ext).parameters.external_Kf ≠ 0 := hk
    refine ⟨?_, ?_, ?_, ?_, ?_, ?_, ?_, ?_, ?_, ?_, ?_⟩ <;>
      simp only [System.shapeForcing, if_neg hk', if_neg hk] <;> rfl

/-- With shape variation enabled, the mechanical fields after `computePhysicalForcing` are the
ones the shape block leaves on the zeroed state. -/
theorem computePhysicalForcing_shapeFields (ext : External) (s : System)
    (h : s.parameters.variation.isShapeVariation = true) :
    (s.computePhysicalForcing ext).forces.osmoticForceVec =
        (s.zeroAllForces.shapeForcing ext).forces.osmoticForceVec ∧
      (s.computePhysicalForcing ext).forces.capillaryForceVec =
        (s.zeroAllForces.shapeForcing ext).forces.capillaryForceVec ∧
      (s.computePhysicalForcing ext).forces.bendingForceVec =
        (s.zeroAllForces.shapeForcing ext).forces.bendingForceVec ∧
      (s.computePhysicalForcing ext).forces.lineCapillaryForceVec =
        (s.zeroAllForces.shapeForcing ext).forces.lineCapillaryForceVec ∧
      (s.computePhysicalForcing ext).forces.adsorptionForceVec =
        (s.zeroAllForces.shapeForcing ext).forces.adsorptionForceVec ∧
      (s.computePhysicalForcing ext).forces.aggregationForceVec =
        (s.zeroAllForces.shapeForcing ext).forces.aggregationForceVec ∧
      (s.computePhysicalForcing ext).forces.bendingForceVec_areaGrad =
        (s.zeroAllForces.shapeForcing ext).forces.bendingForceVec_areaGrad ∧
      (s.computePhysicalForcing ext).forces.bendingForceVec_gaussVec =
        (s.zeroAllForces.shapeForcing ext).forces.bendingForceVec_gaussVec ∧
      (s.computePhysicalForcing ext).forces.bendingForceVec_schlafliVec =
        (s.zeroAllForces.shapeForcing ext).forces.bendingForceVec_schlafliVec ∧
      (s.computePhysicalForcing ext).forces.externalForceVec =
        (s.zeroAllForces.shapeForcing ext).forces.externalForceVec ∧
      (s.computePhysicalForcing ext).forces.mechanicalForceVec =
        (s.zeroAllForces.shapeForcing ext).forces.mechanicalForceVec := by
  have h' : s.zeroAllForces.parameters.variation.isShapeVariation = true := h
  refine ⟨?_, ?_, ?_, ?_, ?_, ?_, ?_, ?_, ?_, ?_, ?_⟩ <;>
    (simp only [System.computePhysicalForcing, if_pos h']; split_ifs <;> rfl)

/-- With protein variation enabled, the chemical potential after `computePhysicalForcing` is
the sum of the five potentials it leaves. -/
theorem computePhysicalForcing_potentialSum (ext : External) (s : System)
    (h : s.parameters.variation.isProteinVariation = true) :
    (s.computePhysicalForcing ext).forces.chemicalPotential =
      vecAdd (vecAdd (vecAdd (vecAdd
        (s.computePhysicalForcing ext).forces.adsorptionPotential
        (s.computePhysicalForcing ext).forces.aggregationPotential)
        (s.computePhysicalForcing ext).forces.bendingPotential)
        (s.computePhysicalForcing ext).forces.diffusionPotential)
        (s.computePhysicalForcing ext).forces.interiorPenaltyPotential := by
  have hp := (shapeForcing_sameForcingInputs ext s.zeroAllForces).2.2.1
  simp only [System.computePhysicalForcing]
  by_cases h1 : s.zeroAllForces.parameters.variation.isShapeVariation = true
  · have h2 : (s.zeroAllForces.shapeForcing ext).parameters.variation.isProteinVariation
        = true := by rw [hp]; exact h
    rw [if_pos h1, if_pos h2]
    rfl
  · have h2 : s.zeroAllForces.parameters.variation.isProteinVariation = true := h
    rw [if_neg h1, if_pos h2]
    rfl

theorem computeChemicalPotential_lengths (q : System) :
    q.computeChemicalPotential.forces.adsorptionPotential.length =
        min q.forces.proteinMask.length q.mesh.nVertices ∧
      q.computeChemicalPotential.forces.aggregationPotential.length =
        min q.forces.proteinMask.length q.mesh.nVertices ∧
      q.computeChemicalPotential.forces.bendingPotential.length =
        min q.forces.proteinMask.length q.mesh.nVertices ∧
      q.computeChemicalPotential.forces.diffusionPotential.length =
        min q.forces.proteinMask.length (q.vpg.cotanLaplacian q.proteinDensity).length ∧
      q.computeChemicalPotential.forces.interiorPenaltyPotential.length =
        min q.forces.proteinMask.length q.mesh.nVertices := by
  simp [System.computeChemicalPotential, Forces.maskProtein, vertexField, vecScale]

/-- With protein variation enabled, the five potentials after `computePhysicalForcing` are
the ones `computeChemicalPotential` leaves on a state with the forcing inputs of `s`. -/
theorem computePhysicalForcing_potentials (ext : External) (s : System)
    (h : s.parameters.variation.isProteinVariation = true) :
    ∃ q : System, s.sameForcingInputs q ∧
      (s.computePhysicalForcing ext).forces.adsorptionPotential =
        q.computeChemicalPotential.forces.adsorptionPotential ∧
      (s.computePhysicalForcing ext).forces.aggregationPotential =
        q.computeChemicalPotential.forces.aggregationPotential ∧
      (s.computePhysicalForcing ext).forces.bendingPotential =
        q.computeChemicalPotential.forces.bendingPotential ∧
      (s.computePhysicalForcing ext).forces.diffusionPotential =
        q.computeChemicalPotential.forces.diffusionPotential ∧
      (s.computePhysicalForcing ext).forces.interiorPenaltyPotential =
        q.computeChemicalPotential.forces.interiorPenaltyPotential := by
  have hp := (shapeForcing_sameForcingInputs ext s.zeroAllForces).2.2.1
  by_cases h1 : s.zeroAllForces.parameters.variation.isShapeVariation = true
  · have h2 : (s.zeroAllForces.shapeForcing ext).parameters.variation.isProteinVariation
        = true := by rw [hp]; exact h
    refine ⟨s.zeroAllForces.shapeForcing ext,
      sameForcingInputs_trans (zeroAllForces_sameForcingInputs s)
        (shapeForcing_sameForcingInputs ext _), ?_, ?_, ?_, ?_, ?_⟩ <;>
      simp only [System.computePhysicalForcing, if_pos h1, if_pos h2]
  · have h2 : s.zeroAllForces.parameters.variation.isProteinVariation = true := h
    refine ⟨s.zeroAllForces, zeroAllForces_sameForcingInputs s, ?_, ?_, ?_, ?_, ?_⟩ <;>
      simp only [System.computePhysicalForcing, if_neg h1, if_pos h2]

/-- C14. After `computePhysicalForcing` with shape variation enabled, `forces.mechanicalForceVec`
is at every vertex the sum of the osmotic, capillary, bending, line-capillary, adsorption,
aggregation and external force vectors, and the bending vector is the sum of its
area-gradient, Gaussian-curvature and Schlafli parts. With protein variation enabled (the
protein mask and the Laplacian product having one entry per vertex),
`forces.chemicalPotential` is at every vertex the sum of the adsorption, aggregation,
bending, diffusion and interior-penalty potentials. -/
theorem computePhysicalForcing_additive (ext : External) (s : System) :
    (s.parameters.variation.isShapeVariation = true → ∀ i, i < s.mesh.nVertices →
      vAt (s.computePhysicalForcing ext).forces.mechanicalForceVec i =
          vAt (s.computePhysicalForcing ext).forces.osmoticForceVec i +
            vAt (s.computePhysicalForcing ext).forces.capillaryForceVec i +
            vAt (s.computePhysicalForcing ext).forces.bendingForceVec i +
            vAt (s.computePhysicalForcing ext).forces.lineCapillaryForceVec i +
            vAt (s.computePhysicalForcing ext).forces.adsorptionForceVec i +
            vAt (s.computePhysicalForcing ext).forces.aggregationForceVec i +
            vAt (s.computePhysicalForcing ext).forces.externalForceVec i ∧
        vAt (s.computePhysicalForcing ext).forces.bendingForceVec i =
          vAt (s.computePhysicalForcing ext).forces.bendingForceVec_areaGrad i +
            vAt (s.computePhysicalForcing ext).forces.bendingForceVec_gaussVec i +
            vAt (s.computePhysicalForcing ext).forces.bendingForceVec_schlafliVec i) ∧
    (s.parameters.variation.isProteinVariation = true →
      s.forces.proteinMask.length = s.mesh.nVertices →
      (s.vpg.cotanLaplacian s.proteinDensity).length = s.mesh.nVertices →
      ∀ i, i < s.mesh.nVertices →
        sAt (s.computePhysicalForcing ext).forces.chemicalPotential i =
          sAt (s.computePhysicalForcing ext).forces.adsorptionPotential i +
            sAt (s.computePhysicalForcing ext).forces.aggregationPotential i +
            sAt (s.computePhysicalForcing ext).forces.bendingPotential i +
            sAt (s.computePhysicalForcing ext).forces.diffusionPotential i +
            sAt (s.computePhysicalForcing ext).forces.interiorPenaltyPotential i) := by
  constructor
  · intro h i hi
    obtain ⟨e1, e2, e3, e4, e5, e6, e7, e8, e9, e10, e11⟩ :=
      computePhysicalForcing_shapeFields ext s h
    obtain ⟨f1, f2, f3, f4, f5, f6, f7, f8, f9, f10, f11⟩ :=
      shapeForcing_fields ext s.zeroAllForces
    have hi' : i < s.zeroAllForces.mesh.nVertices := hi
    have hext : (s.zeroAllForces.shapeForcing ext).forces.externalForceVec.length
        = s.zeroAllForces.mesh.nVertices := by
      rw [f10]
      split_ifs
      · exact length_vertexField _ _
      · exact length_vertexField _ _
    rw [e11, e1, e2, e3, e4, e5, e6, e7, e8, e9, e10, f11]
    have l1 := congrArg List.length f1
    have l2 := congrArg List.length f2
    have l3 := congrArg List.length f3
    have l4 := congrArg List.length f4
    have l5 := congrArg List.length f5
    have l6 := congrArg List.length f6
    rw [length_vertexField] at l1 l2 l3 l4 l5 l6
    constructor
    · rw [vAt_matAdd, vAt_matAdd, vAt_matAdd, vAt_matAdd, vAt_matAdd, vAt_matAdd] <;>
        simp only [length_matAdd, l1, l2, l3, l4, l5, l6, hext, min_self] <;> exact hi'
    · rw [f3, f7, f8, f9, vAt_vertexField _ _ _ hi', vAt_vertexField _ _ _ hi',
        vAt_vertexField _ _ _ hi', vAt_vertexField _ _ _ hi']
      exact vertexForcesAt_bend ext s.zeroAllForces i
  · intro h hm hL i hi
    obtain ⟨q, hq, p1, p2, p3, p4, p5⟩ := computePhysicalForcing_potentials ext s h
    obtain ⟨n1, n2, n3, n4, n5⟩ := computeChemicalPotential_lengths q
    have qmesh : q.mesh = s.mesh := hq.1
    have qvpg : q.vpg = s.vpg := hq.2.1
    have qphi : q.proteinDensity = s.proteinDensity := hq.2.2.2.1
    have qmask : q.forces.proteinMask = s.forces.proteinMask := hq.2.2.2.2.2.2.2.2.2.2.1
    rw [qmask, qmesh, hm, min_self] at n1 n2 n3 n5
    rw [qmask, qvpg, qphi, hm, hL, min_self] at n4
    rw [computePhysicalForcing_potentialSum ext s h, p1, p2, p3, p4, p5]
    rw [sAt_vecAdd, sAt_vecAdd, sAt_vecAdd, sAt_vecAdd] <;>
      simp only [length_vecAdd, n1, n2, n3, n4, n5, min_self] <;> exact hi

theorem computePhysicalForcing_additive_witness :
    exPushedSystem.parameters.variation.isShapeVariation = true ∧
      exPushedSystem.parameters.variation.isProteinVariation = true ∧
      0 < exPushedSystem.mesh.nVertices ∧
      (vAt (exPushedSystem.computePhysicalForcing exExternal).forces.mechanicalForceVec 0 =
          vAt (exPushedSystem.computePhysicalForcing exExternal).forces.osmoticForceVec 0 +
            vAt (exPushedSystem.computePhysicalForcing exExternal).forces.capillaryForceVec 0 +
            vAt (exPushedSystem.computePhysicalForcing exExternal).forces.bendingForceVec 0 +
            vAt (exPushedSystem.computePhysicalForcing exExternal).forces.lineCapillaryForceVec
              0 +
            vAt (exPushedSystem.computePhysicalForcing exExternal).forces.adsorptionForceVec 0 +
            vAt (exPushedSystem.computePhysicalForcing exExternal).forces.aggregationForceVec 0 +
            vAt (exPushedSystem.computePhysicalForcing exExternal).forces.externalForceVec 0 ∧
        vAt (exPushedSystem.computePhysicalForcing exExternal).forces.bendingForceVec 0 =
          vAt (exPushedSystem.computePhysicalForcing exExternal).forces.bendingForceVec_areaGrad
              0 +
            vAt (exPushedSystem.computePhysicalForcing exExternal).forces.bendingForceVec_gaussVec
              0 +
            vAt
              (exPushedSystem.computePhysicalForcing exExternal).forces.bendingForceVec_schlafliVec
              0) ∧
      sAt (exPushedSystem.computePhysicalForcing exExternal).forces.chemicalPotential 0 =
        sAt (exPushedSystem.computePhysicalForcing exExternal).forces.adsorptionPotential 0 +
          sAt (exPushedSystem.computePhysicalForcing exExternal).forces.aggregationPotential 0 +
          sAt (exPushedSystem.computePhysicalForcing exExternal).forces.bendingPotential 0 +
          sAt (exPushedSystem.computePhysicalForcing exExternal).forces.diffusionPotential 0 +
          sAt (exPushedSystem.computePhysicalForcing exExternal).forces.interiorPenaltyPotential
            0 :=
  ⟨rfl, rfl, by decide,
    (computePhysicalForcing_additive exExternal exPushedSystem).1 rfl 0 (by decide),
    (computePhysicalForcing_additive exExternal exPushedSystem).2 rfl rfl rfl 0 (by decide)⟩


/-- Each per-mechanism vector that `computeMechanicalForces` stores at a vertex is a
component-wise product with the force mask of that vertex. -/
theorem shapeForcing_masked (ext : External) (s : System) (i : Nat)
    (hi : i < s.mesh.nVertices) :
    ∃ acc : VertexForces,
      vAt (s.shapeForcing ext).forces.osmoticForceVec i
          = Vector3.cwiseMul (vAt s.forces.forceMask i) acc.osmoticForceVec ∧
        vAt (s.shapeForcing ext).forces.capillaryForceVec i
          = Vector3.cwiseMul (vAt s.forces.forceMask i) acc.capillaryForceVec ∧
        vAt (s.shapeForcing ext).forces.bendingForceVec i
          = Vector3.cwiseMul (vAt s.forces.forceMask i) acc.bendForceVec ∧
        vAt (s.shapeForcing ext).forces.lineCapillaryForceVec i
          = Vector3.cwiseMul (vAt s.forces.forceMask i) acc.lineCapForceVec ∧
        vAt (s.shapeForcing ext).forces.adsorptionForceVec i
          = Vector3.cwiseMul (vAt s.forces.forceMask i) acc.adsorptionForceVec ∧
        vAt (s.shapeForcing ext).forces.aggregationForceVec i
          = Vector3.cwiseMul (vAt s.forces.forceMask i) acc.aggregationForceVec ∧
        vAt (s.shapeForcing ext).forces.bendingForceVec_areaGrad i
          = Vector3.cwiseMul (vAt s.forces.forceMask i) acc.bendForceVec_areaGrad ∧
        vAt (s.shapeForcing ext).forces.bendingForceVec_gaussVec i
          = Vector3.cwiseMul (vAt s.forces.forceMask i) acc.bendForceVec_gaussVec ∧
        vAt (s.shapeForcing ext).forces.bendingForceVec_schlafliVec i
          = Vector3.cwiseMul (vAt s.forces.forceMask i) acc.bendForceVec_schlafliVec := by
  obtain ⟨f1, f2, f3, f4, f5, f6, f7, f8, f9, -, -⟩ := shapeForcing_fields ext s
  refine ⟨(s.mesh.outgoingHalfedges i).foldl (accumulateHalfedge ext s i) VertexForces.zero,
    ?_, ?_, ?_, ?_, ?_, ?_, ?_, ?_, ?_⟩
  · rw [f1, vAt_vertexField _ _ _ hi]; rfl
  · rw [f2, vAt_vertexField _ _ _ hi]; rfl
  · rw [f3, vAt_vertexField _ _ _ hi]; rfl
  · rw [f4, vAt_vertexField _ _ _ hi]; rfl
  · rw [f5, vAt_vertexField _ _ _ hi]; rfl
  · rw [f6, vAt_vertexField _ _ _ hi]; rfl
  · rw [f7, vAt_vertexField _ _ _ hi]; rfl
  · rw [f8, vAt_vertexField _ _ _ hi]; rfl
  · rw [f9, vAt_vertexField _ _ _ hi]; rfl

/-- The external force that `prescribeExternalForce` stores at a vertex does not read the
force mask. -/
theorem prescribeExternalForce_unmasked (ext : External) (s : System) (i : Nat)
    (hi : i < s.mesh.nVertices) :
    vAt (s.prescribeExternalForce ext).forces.externalForceVec i =
      (ext.exp (-s.time / 500) * s.parameters.external_Kf *
        ext.gaussianDistribution (ext.computeDistance s.mesh s.vpg s.thePoint i) (2 / 100) *
        ext.vertexDualArea s.mesh s.vpg i) * (⟨0, 0, 1⟩ : Vector3) := by
  simp only [System.prescribeExternalForce]
  rw [vAt_vertexField _ _ _ hi]

/-- The forces stored in the clamped example are the ones `computePhysicalForcing` computes
for it. -/
theorem exClampedForcing_eq :
    exClampedSystem.computePhysicalForcing exRimExternal = exClampedSystem := by
  have hv : ∀ i, vertexForcesAt exRimExternal exClampedSystem.zeroAllForces i
      = VertexForces.zero :=
    fun i => vertexForcesAt_zero exRimExternal exClampedSystem.zeroAllForces i rfl rfl rfl rfl
      rfl (fun _ => rfl)
  simp only [System.computePhysicalForcing, System.shapeForcing,
    System.computeMechanicalForces, hv]
  norm_num [System.zeroAllForces, System.computeChemicalPotential,
    System.prescribeExternalForce, vertexField, zeroVectors, zeroScalars, VertexForces.zero,
    Forces.maskProtein, exClampedSystem, exRimPush, exRimExternal, exSystem, exExternal,
    exGeodesicFromRim, exSqrt, exParameters, exMesh, exVpg, exForces, exZeroVectors,
    exZeroScalars, matInner, vecInner, matAdd, vecAdd, vecScale, sAt, Vector3.zero,
    Vector3.add, Vector3.dot, Vector3.smul_def, pointwiseMeanCurvature, ontoNormalAt,
    ontoNormal, List.range, List.range.loop]

/-- C15, evaluated on the code. On the clamped example the force mask of the boundary vertex 1
is `(0,0,0)`, yet `computePhysicalForcing` leaves the external force `(0,0,560)` and the
aggregate mechanical force `(0,0,560)` at that vertex: the external force is added to the
aggregate without being masked. -/
theorem computePhysicalForcing_external_unmasked :
    exClampedSystem.parameters.variation.isShapeVariation = true ∧
      vAt (exClampedSystem.computePhysicalForcing exRimExternal).forces.forceMask 1
        = ⟨0, 0, 0⟩ ∧
      vAt (exClampedSystem.computePhysicalForcing exRimExternal).forces.externalForceVec 1
        = ⟨0, 0, 560⟩ ∧
      vAt (exClampedSystem.computePhysicalForcing exRimExternal).forces.mechanicalForceVec 1
        = ⟨0, 0, 560⟩ := by
  rw [exClampedForcing_eq]
  exact ⟨rfl, rfl, rfl, rfl⟩

/-! ## Theorems: damping and stochastic forces -/

theorem Vector3.ext3 {a b : Vector3} (hx : a.x = b.x) (hy : a.y = b.y) (hz : a.z = b.z) :
    a = b := by
  cases a; cases b; simp only [Vector3.mk.injEq]; exact ⟨hx, hy, hz⟩

theorem matSum_cons (x : Vector3) (xs : List Vector3) : matSum (x :: xs) = x + matSum xs := rfl

theorem length_addAt (l : List Vector3) (i : Nat) (f : Vector3) :
    (addAt l i f).length = l.length := by
  induction l generalizing i with
  | nil => rfl
  | cons x xs ih => cases i with
    | zero => rfl
    | succ i => simp [addAt, ih]

theorem length_subAt (l : List Vector3) (i : Nat) (f : Vector3) :
    (subAt l i f).length = l.length := by
  induction l generalizing i with
  | nil => rfl
  | cons x xs ih => cases i with
    | zero => rfl
    | succ i => simp [subAt, ih]

theorem matSum_addAt (l : List Vector3) (i : Nat) (f : Vector3) (h : i < l.length) :
    matSum (addAt l i f) = matSum l + f := by
  induction l generalizing i with
  | nil => exact absurd h (Nat.not_lt_zero _)
  | cons x xs ih =>
    cases i with
    | zero =>
      simp only [addAt, matSum_cons]
      apply Vector3.ext3 <;> simp only [Vector3.add_def] <;> ring
    | succ i =>
      simp only [addAt, matSum_cons, ih i (Nat.lt_of_succ_lt_succ h)]
      apply Vector3.ext3 <;> simp only [Vector3.add_def] <;> ring

theorem matSum_subAt (l : List Vector3) (i : Nat) (f : Vector3) (h : i < l.length) :
    matSum (subAt l i f) = matSum l - f := by
  induction l generalizing i with
  | nil => exact absurd h (Nat.not_lt_zero _)
  | cons x xs ih =>
    cases i with
    | zero =>
      simp only [subAt, matSum_cons]
      apply Vector3.ext3 <;> simp only [Vector3.add_def, Vector3.sub_def] <;> ring
    | succ i =>
      simp only [subAt, matSum_cons, ih i (Nat.lt_of_succ_lt_succ h)]
      apply Vector3.ext3 <;> simp only [Vector3.add_def, Vector3.sub_def] <;> ring

theorem matSum_zeroVectors (m : Mesh) : matSum (zeroVectors m) = Vector3.zero := by
  unfold zeroVectors vertexField
  induction List.range m.nVertices with
  | nil => rfl
  | cons x xs ih =>
    rw [List.map_cons, matSum_cons, ih]
    apply Vector3.ext3 <;> simp [Vector3.add_def, Vector3.zero]

/-- One edge leaves the sum over the vertices of the damping force and of the stochastic
force as it was: what it adds at one endpoint it subtracts at the other. -/
theorem dpdEdge_sum (ext : External) (m : Mesh) (pos vel : List Vector3) (gamma sigma : ℚ)
    (noise : Nat → ℚ) (st : DPDForces) (e : Nat)
    (h1d : m.vertex (m.edgeHalfedge e) < st.dampingForce.length)
    (h2d : m.vertex (m.next (m.edgeHalfedge e)) < st.dampingForce.length)
    (h1s : m.vertex (m.edgeHalfedge e) < st.stochasticForce.length)
    (h2s : m.vertex (m.next (m.edgeHalfedge e)) < st.stochasticForce.length) :
    matSum (dpdEdge ext m pos vel gamma sigma noise st e).dampingForce
        = matSum st.dampingForce ∧
      matSum (dpdEdge ext m pos vel gamma sigma noise st e).stochasticForce
        = matSum st.stochasticForce ∧
      (dpdEdge ext m pos vel gamma sigma noise st e).dampingForce.length
        = st.dampingForce.length ∧
      (dpdEdge ext m pos vel gamma sigma noise st e).stochasticForce.length
        = st.stochasticForce.length := by
  have cancel1 : ∀ a f : Vector3, a - f + f = a := by
    intro a f
    apply Vector3.ext3 <;> simp only [Vector3.add_def, Vector3.sub_def] <;> ring
  have cancel2 : ∀ a f : Vector3, a + f - f = a := by
    intro a f
    apply Vector3.ext3 <;> simp only [Vector3.add_def, Vector3.sub_def] <;> ring
  simp only [dpdEdge]
  by_cases hg : gamma ≠ 0 <;> by_cases hs : sigma ≠ 0
  · simp only [if_pos hg, if_pos hs]
    refine ⟨?_, ?_, ?_, ?_⟩
    · rw [matSum_addAt _ _ _ (by rw [length_subAt]; exact h2d), matSum_subAt _ _ _ h1d, cancel1]
    · rw [matSum_subAt _ _ _ (by rw [length_addAt]; exact h2s), matSum_addAt _ _ _ h1s, cancel2]
    · rw [length_addAt, length_subAt]
    · rw [length_subAt, length_addAt]
  · simp only [if_pos hg, if_neg hs]
    refine ⟨?_, trivial, ?_, trivial⟩
    · rw [matSum_addAt _ _ _ (by rw [length_subAt]; exact h2d), matSum_subAt _ _ _ h1d, cancel1]
    · rw [length_addAt, length_subAt]
  · simp only [if_neg hg, if_pos hs]
    refine ⟨trivial, ?_, trivial, ?_⟩
    · rw [matSum_subAt _ _ _ (by rw [length_addAt]; exact h2s), matSum_addAt _ _ _ h1s, cancel2]
    · rw [length_subAt, length_addAt]
  · simp only [if_neg hg, if_neg hs]
    exact ⟨trivial, trivial, trivial, trivial⟩

/-- Invariant of the loop over the edges. -/
theorem foldl_dpdEdge_sum (ext : External) (m : Mesh) (pos vel : List Vector3)
    (gamma sigma : ℚ) (noise : Nat → ℚ) (n : Nat) (edges : List Nat) (st : DPDForces)
    (hmesh : ∀ e ∈ edges, m.vertex (m.edgeHalfedge e) < n ∧
      m.vertex (m.next (m.edgeHalfedge e)) < n)
    (hd : st.dampingForce.length = n) (hs : st.stochasticForce.length = n) :
    matSum (edges.foldl (dpdEdge ext m pos vel gamma sigma noise) st).dampingForce
        = matSum st.dampingForce ∧
      matSum (edges.foldl (dpdEdge ext m pos vel gamma sigma noise) st).stochasticForce
        = matSum st.stochasticForce := by
  induction edges generalizing st with
  | nil => exact ⟨rfl, rfl⟩
  | cons e es ih =>
    have he := hmesh e (List.mem_cons_self e es)
    obtain ⟨a1, a2, a3, a4⟩ := dpdEdge_sum ext m pos vel gamma sigma noise st e
      (by rw [hd]; exact he.1) (by rw [hd]; exact he.2) (by rw [hs]; exact he.1)
      (by rw [hs]; exact he.2)
    rw [List.foldl_cons]
    obtain ⟨b1, b2⟩ := ih (dpdEdge ext m pos vel gamma sigma noise st e)
      (fun e' he' => hmesh e' (List.mem_cons_of_mem e he')) (a3.trans hd) (a4.trans hs)
    exact ⟨b1.trans a1, b2.trans a2⟩

theorem dpdLoop_sum (ext : External) (m : Mesh) (pos vel : List Vector3) (gamma sigma : ℚ)
    (noise : Nat → ℚ)
    (hmesh : ∀ e ∈ m.edges, m.vertex (m.edgeHalfedge e) < m.nVertices ∧
      m.vertex (m.next (m.edgeHalfedge e)) < m.nVertices) :
    matSum (dpdLoop ext m pos vel gamma sigma noise).dampingForce = Vector3.zero ∧
      matSum (dpdLoop ext m pos vel gamma sigma noise).stochasticForce = Vector3.zero := by
  obtain ⟨h1, h2⟩ := foldl_dpdEdge_sum ext m pos vel gamma sigma noise m.nVertices m.edges
    ⟨zeroVectors m, zeroVectors m, 0⟩ hmesh (length_vertexField _ _) (length_vertexField _ _)
  exact ⟨h1.trans (matSum_zeroVectors m), h2.trans (matSum_zeroVectors m)⟩

/-- C18. On a mesh whose edges join vertices of the mesh, for every velocity field, `gamma`,
temperature, time step and sequence of noise draws: in `computeDPDForces` (and in the older
`getDPDForces`) each edge leaves the sums over the vertices of the damping force and of the
stochastic force unchanged, because it subtracts at one endpoint what it adds at the other,
and so both sums are the zero vector when the routine returns. -/
theorem computeDPDForces_sums_vanish (ext : External) (sqrt : ℚ → ℚ) (kBoltzmann : ℚ)
    (noise : Nat → ℚ) (dt : ℚ) (s : System) (sigma : ℚ)
    (hmesh : ∀ e ∈ s.mesh.edges, s.mesh.vertex (s.mesh.edgeHalfedge e) < s.mesh.nVertices ∧
      s.mesh.vertex (s.mesh.next (s.mesh.edgeHalfedge e)) < s.mesh.nVertices) :
    (∀ (st : DPDForces) (e : Nat), e ∈ s.mesh.edges →
      st.dampingForce.length = s.mesh.nVertices →
      st.stochasticForce.length = s.mesh.nVertices →
      matSum (dpdEdge ext s.mesh s.vpg.inputVertexPositions s.velocity s.parameters.dpd_gamma
          sigma noise st e).dampingForce = matSum st.dampingForce ∧
        matSum (dpdEdge ext s.mesh s.vpg.inputVertexPositions s.velocity s.parameters.dpd_gamma
          sigma noise st e).stochasticForce = matSum st.stochasticForce) ∧
    matSum (s.computeDPDForces ext sqrt kBoltzmann noise dt).forces.dampingForce
      = Vector3.zero ∧
    matSum (s.computeDPDForces ext sqrt kBoltzmann noise dt).forces.stochasticForce
      = Vector3.zero ∧
    matSum (getDPDForces ext s.mesh s.vpg.inputVertexPositions s.velocity
      s.parameters.dpd_gamma sigma noise).dampingForce = Vector3.zero ∧
    matSum (getDPDForces ext s.mesh s.vpg.inputVertexPositions s.velocity
      s.parameters.dpd_gamma sigma noise).stochasticForce = Vector3.zero := by
  refine ⟨?_, ?_, ?_, ?_, ?_⟩
  · intro st e he hd hs
    have hv := hmesh e he
    obtain ⟨a1, a2, -, -⟩ := dpdEdge_sum ext s.mesh s.vpg.inputVertexPositions s.velocity
      s.parameters.dpd_gamma sigma noise st e (by rw [hd]; exact hv.1) (by rw [hd]; exact hv.2)
      (by rw [hs]; exact hv.1) (by rw [hs]; exact hv.2)
    exact ⟨a1, a2⟩
  · exact (dpdLoop_sum ext s.mesh _ _ _ _ noise hmesh).1
  · exact (dpdLoop_sum ext s.mesh _ _ _ _ noise hmesh).2
  · exact (dpdLoop_sum ext s.mesh _ _ _ _ noise hmesh).1
  · exact (dpdLoop_sum ext s.mesh _ _ _ _ noise hmesh).2

theorem computeDPDForces_sums_vanish_witness :
    (∀ e ∈ exDampedSystem.mesh.edges,
        exDampedSystem.mesh.vertex (exDampedSystem.mesh.edgeHalfedge e)
            < exDampedSystem.mesh.nVertices ∧
          exDampedSystem.mesh.vertex
              (exDampedSystem.mesh.next (exDampedSystem.mesh.edgeHalfedge e))
            < exDampedSystem.mesh.nVertices) ∧
      matSum (exDampedSystem.computeDPDForces exExternal exSqrt 1 (fun k => (k : ℚ) + 1)
        1).forces.dampingForce = Vector3.zero ∧
      matSum (exDampedSystem.computeDPDForces exExternal exSqrt 1 (fun k => (k : ℚ) + 1)
        1).forces.stochasticForce = Vector3.zero :=
  ⟨by decide,
    (computeDPDForces_sums_vanish exExternal exSqrt 1 (fun k => (k : ℚ) + 1) 1 exDampedSystem
      1 (by decide)).2.1,
    (computeDPDForces_sums_vanish exExternal exSqrt 1 (fun k => (k : ℚ) + 1) 1 exDampedSystem
      1 (by decide)).2.2.1⟩

/-! ## Theorems: normal component of the regularization force -/

theorem vAt_removeNormalComponent (f n : List Vector3) (i : Nat) (hf : i < f.length)
    (hn : i < n.length) :
    vAt (removeNormalComponent f n) i = vAt f i - Vector3.dot (vAt f i) (vAt n i) * vAt n i := by
  simp [vAt, removeNormalComponent, List.getD, List.getElem?_zipWith, hf, hn]

theorem dot_strip_normal (f n : Vector3) (h : Vector3.norm2 n = 1) :
    Vector3.dot (f - Vector3.dot f n * n) n = 0 := by
  have h1 : n.x * n.x + n.y * n.y + n.z * n.z = 1 := h
  simp only [Vector3.dot, Vector3.sub_def, Vector3.smul_def]
  have : (f.x - (f.x * n.x + f.y * n.y + f.z * n.z) * n.x) * n.x +
      (f.y - (f.x * n.x + f.y * n.y + f.z * n.z) * n.y) * n.y +
      (f.z - (f.x * n.x + f.y * n.y + f.z * n.z) * n.z) * n.z
      = (f.x * n.x + f.y * n.y + f.z * n.z) * (1 - (n.x * n.x + n.y * n.y + n.z * n.z)) := by
    ring
  rw [this, h1]
  ring

/-- C19. After `computeRegularizationForce`, at every vertex whose vertex normal is a unit
vector, the regularization force has zero dot product with that normal, whatever the field
held before the call and whatever was accumulated before the stripping. -/
theorem computeRegularizationForce_tangential (ext : External) (s : System) (i : Nat)
    (hi : i < s.mesh.nVertices) (hn : i < s.vpg.vertexNormals.length)
    (hunit : Vector3.norm2 (vAt s.vpg.vertexNormals i) = 1) :
    Vector3.dot (vAt (s.computeRegularizationForce ext).forces.regularizationForce i)
      (vAt (s.computeRegularizationForce ext).vpg.vertexNormals i) = 0 := by
  show Vector3.dot (vAt (removeNormalComponent
    (vertexField s.mesh (accumulateRegularization ext s)) s.vpg.vertexNormals) i)
    (vAt s.vpg.vertexNormals i) = 0
  rw [vAt_removeNormalComponent _ _ _ (by rw [length_vertexField]; exact hi) hn]
  exact dot_strip_normal _ _ hunit

theorem computeRegularizationForce_tangential_witness :
    0 < exRegularizedSystem.mesh.nVertices ∧
      0 < exRegularizedSystem.vpg.vertexNormals.length ∧
      Vector3.norm2 (vAt exRegularizedSystem.vpg.vertexNormals 0) = 1 ∧
      Vector3.dot
        (vAt (exRegularizedSystem.computeRegularizationForce exExternal).forces.regularizationForce
          0)
        (vAt (exRegularizedSystem.computeRegularizationForce exExternal).vpg.vertexNormals 0)
        = 0 :=
  ⟨by decide, by decide, by norm_num [exRegularizedSystem, exSystem, exVpg, vAt, Vector3.norm2,
      Vector3.dot],
    computeRegularizationForce_tangential exExternal exRegularizedSystem 0 (by decide)
      (by decide) (by norm_num [exRegularizedSystem, exSystem, exVpg, vAt, Vector3.norm2,
        Vector3.dot])⟩

/-! ## Theorems: edge collapse -/

theorem sum_lt_iff_not_free (m : Vector3) (h : m.isBinary) :
    Vector3.sum m < 5 / 2 ↔ ¬ m.isFree := by
  obtain ⟨mx, my, mz⟩ := m
  obtain ⟨hx, hy, hz⟩ := h
  simp only [Vector3.sum, Vector3.isFree, Vector3.mk.injEq]
  simp only at hx hy hz
  rcases hx with rfl | rfl <;> rcases hy with rfl | rfl <;> rcases hz with rfl | rfl <;>
    norm_num

theorem vAt_setAt (l : List Vector3) (i : Nat) (v : Vector3) (h : i < l.length) :
    vAt (setAt l i v) i = v := by
  induction l generalizing i with
  | nil => exact absurd h (Nat.not_lt_zero _)
  | cons x xs ih =>
    cases i with
    | zero => rfl
    | succ i =>
      have := ih i (Nat.lt_of_succ_lt_succ h)
      simpa [vAt, setAt] using this

theorem midpoint_eq_left_iff (a b : Vector3) : (a + b) / (2 : ℚ) = a ↔ a = b := by
  obtain ⟨ax, ay, az⟩ := a
  obtain ⟨bx, b_y, bz⟩ := b
  simp only [Vector3.add_def, Vector3.div_def, Vector3.mk.injEq]
  constructor
  · rintro ⟨h1, h2, h3⟩
    exact ⟨by linarith, by linarith, by linarith⟩
  · rintro ⟨h1, h2, h3⟩
    exact ⟨by linarith, by linarith, by linarith⟩

theorem midpoint_eq_right_iff (a b : Vector3) : (a + b) / (2 : ℚ) = b ↔ a = b := by
  obtain ⟨ax, ay, az⟩ := a
  obtain ⟨bx, b_y, bz⟩ := b
  simp only [Vector3.add_def, Vector3.div_def, Vector3.mk.injEq]
  constructor
  · rintro ⟨h1, h2, h3⟩
    exact ⟨by linarith, by linarith, by linarith⟩
  · rintro ⟨h1, h2, h3⟩
    exact ⟨by linarith, by linarith, by linarith⟩

/-- Value of `collapsedPosition` by the masks of the two endpoints, for masks in `{0,1}^3`. -/
theorem collapsedPosition_eq (s : System) (vertex1 vertex2 : Nat)
    (h1 : (vAt s.forces.forceMask vertex1).isBinary)
    (h2 : (vAt s.forces.forceMask vertex2).isBinary) :
    s.collapsedPosition vertex1 vertex2 =
      (if (vAt s.forces.forceMask vertex1).isFree ∧ (vAt s.forces.forceMask vertex2).isFree
        then (vAt s.vpg.inputVertexPositions vertex1 + vAt s.vpg.inputVertexPositions vertex2) /
          (2 : ℚ)
        else if ¬ (vAt s.forces.forceMask vertex1).isFree
          then vAt s.vpg.inputVertexPositions vertex1
          else vAt s.vpg.inputVertexPositions vertex2) := by
  unfold System.collapsedPosition
  by_cases f1 : (vAt s.forces.forceMask vertex1).isFree
  · have n1 : ¬ Vector3.sum (vAt s.forces.forceMask vertex1) < 5 / 2 := by
      rw [sum_lt_iff_not_free _ h1]; exact not_not.mpr f1
    by_cases f2 : (vAt s.forces.forceMask vertex2).isFree
    · have n2 : ¬ Vector3.sum (vAt s.forces.forceMask vertex2) < 5 / 2 := by
        rw [sum_lt_iff_not_free _ h2]; exact not_not.mpr f2
      rw [if_neg n1, if_neg n2, if_pos ⟨f1, f2⟩]
    · have n2 : Vector3.sum (vAt s.forces.forceMask vertex2) < 5 / 2 :=
        (sum_lt_iff_not_free _ h2).mpr f2
      rw [if_neg n1, if_pos n2, if_neg (fun h => f2 h.2), if_neg (not_not.mpr f1)]
  · have n1 : Vector3.sum (vAt s.forces.forceMask vertex1) < 5 / 2 :=
      (sum_lt_iff_not_free _ h1).mpr f1
    rw [if_pos n1, if_neg (fun h => f1 h.1), if_pos f1]

/-- C20. On an edge collapse in `growMesh` with the force masks of the two endpoints in
`{0,1}^3`, the surviving vertex is placed at the midpoint of the two endpoints when both are
fully free (mask `(1,1,1)`), at the pre-collapse position of the tip vertex when the tip is
not fully free, and at the pre-collapse position of the tail vertex when the tip is fully
free and the tail is not; for endpoints at distinct positions it is therefore at the
midpoint if and only if both endpoints are fully free. -/
theorem growMesh_collapse_position (s : System) (e newVertex : Nat)
    (hnew : newVertex < s.vpg.inputVertexPositions.length)
    (htip : (vAt s.forces.forceMask (s.mesh.tipVertex (s.mesh.edgeHalfedge e))).isBinary)
    (htail : (vAt s.forces.forceMask (s.mesh.vertex (s.mesh.edgeHalfedge e))).isBinary) :
    vAt (s.placeCollapsedVertex e newVertex).vpg.inputVertexPositions newVertex =
        (if (vAt s.forces.forceMask (s.mesh.tipVertex (s.mesh.edgeHalfedge e))).isFree ∧
            (vAt s.forces.forceMask (s.mesh.vertex (s.mesh.edgeHalfedge e))).isFree
          then (vAt s.vpg.inputVertexPositions (s.mesh.tipVertex (s.mesh.edgeHalfedge e)) +
            vAt s.vpg.inputVertexPositions (s.mesh.vertex (s.mesh.edgeHalfedge e))) / (2 : ℚ)
          else if ¬ (vAt s.forces.forceMask (s.mesh.tipVertex (s.mesh.edgeHalfedge e))).isFree
            then vAt s.vpg.inputVertexPositions (s.mesh.tipVertex (s.mesh.edgeHalfedge e))
            else vAt s.vpg.inputVertexPositions (s.mesh.vertex (s.mesh.edgeHalfedge e))) ∧
      (vAt s.vpg.inputVertexPositions (s.mesh.tipVertex (s.mesh.edgeHalfedge e)) ≠
          vAt s.vpg.inputVertexPositions (s.mesh.vertex (s.mesh.edgeHalfedge e)) →
        (vAt (s.placeCollapsedVertex e newVertex).vpg.inputVertexPositions newVertex =
            (vAt s.vpg.inputVertexPositions (s.mesh.tipVertex (s.mesh.edgeHalfedge e)) +
              vAt s.vpg.inputVertexPositions (s.mesh.vertex (s.mesh.edgeHalfedge e))) /
              (2 : ℚ) ↔
          (vAt s.forces.forceMask (s.mesh.tipVertex (s.mesh.edgeHalfedge e))).isFree ∧
            (vAt s.forces.forceMask (s.mesh.vertex (s.mesh.edgeHalfedge e))).isFree)) := by
  have hplace : vAt (s.placeCollapsedVertex e newVertex).vpg.inputVertexPositions newVertex =
      s.collapsedPosition (s.mesh.tipVertex (s.mesh.edgeHalfedge e))
        (s.mesh.vertex (s.mesh.edgeHalfedge e)) := by
    show vAt (setAt s.vpg.inputVertexPositions newVertex _) newVertex = _
    exact vAt_setAt _ _ _ hnew
  rw [hplace, collapsedPosition_eq s _ _ htip htail]
  refine ⟨rfl, ?_⟩
  intro hne
  by_cases f1 : (vAt s.forces.forceMask (s.mesh.tipVertex (s.mesh.edgeHalfedge e))).isFree
  · by_cases f2 : (vAt s.forces.forceMask (s.mesh.vertex (s.mesh.edgeHalfedge e))).isFree
    · rw [if_pos ⟨f1, f2⟩]
      exact ⟨fun _ => ⟨f1, f2⟩, fun _ => rfl⟩
    · rw [if_neg (fun h => f2 h.2), if_neg (not_not.mpr f1)]
      constructor
      · intro h
        exact absurd ((midpoint_eq_right_iff _ _).mp h.symm) hne
      · intro h
        exact absurd h.2 f2
  · rw [if_neg (fun h => f1 h.1), if_pos f1]
    constructor
    · intro h
      exact absurd ((midpoint_eq_left_iff _ _).mp h.symm) hne
    · intro h
      exact absurd h.1 f1

theorem growMesh_collapse_position_witness :
    0 < exClampedSystem.vpg.inputVertexPositions.length ∧
      (vAt exClampedSystem.forces.forceMask
        (exClampedSystem.mesh.tipVertex (exClampedSystem.mesh.edgeHalfedge 0))).isBinary ∧
      (vAt exClampedSystem.forces.forceMask
        (exClampedSystem.mesh.vertex (exClampedSystem.mesh.edgeHalfedge 0))).isBinary ∧
      vAt (exClampedSystem.placeCollapsedVertex 0 0).vpg.inputVertexPositions 0 =
        (if (vAt exClampedSystem.forces.forceMask
              (exClampedSystem.mesh.tipVertex (exClampedSystem.mesh.edgeHalfedge 0))).isFree ∧
            (vAt exClampedSystem.forces.forceMask
              (exClampedSystem.mesh.vertex (exClampedSystem.mesh.edgeHalfedge 0))).isFree
          then (vAt exClampedSystem.vpg.inputVertexPositions
              (exClampedSystem.mesh.tipVertex (exClampedSystem.mesh.edgeHalfedge 0)) +
            vAt exClampedSystem.vpg.inputVertexPositions
              (exClampedSystem.mesh.vertex (exClampedSystem.mesh.edgeHalfedge 0))) / (2 : ℚ)
          else if ¬ (vAt exClampedSystem.forces.forceMask
              (exClampedSystem.mesh.tipVertex (exClampedSystem.mesh.edgeHalfedge 0))).isFree
            then vAt exClampedSystem.vpg.inputVertexPositions
              (exClampedSystem.mesh.tipVertex (exClampedSystem.mesh.edgeHalfedge 0))
            else vAt exClampedSystem.vpg.inputVertexPositions
              (exClampedSystem.mesh.vertex (exClampedSystem.mesh.edgeHalfedge 0))) :=
  ⟨by decide,
    by norm_num [Vector3.isBinary, vAt, exClampedSystem, exSystem, exMesh, exForces],
    by norm_num [Vector3.isBinary, vAt, exClampedSystem, exSystem, exMesh, exForces],
    (growMesh_collapse_position exClampedSystem 0 0 (by decide)
      (by norm_num [Vector3.isBinary, vAt, exClampedSystem, exSystem, exMesh, exForces])
      (by norm_num [Vector3.isBinary, vAt, exClampedSystem, exSystem, exMesh, exForces])).1⟩

/-! ## Theorems: protein density under explicit diffusion steps -/

theorem getForces_marchView (ext : External) (I : Integrator)
    (hg : I.system.parameters.dpd_gamma = 0) :
    (I.getForces ext).marchView =
      { I.marchView with
        chemicalPotential := (I.system.computePhysicalForcing ext).forces.chemicalPotential } := by
  have hin := computePhysicalForcing_sameForcingInputs ext I.system
  have hp : (I.system.computePhysicalForcing ext).parameters = I.system.parameters := hin.2.2.1
  have hg' : ¬ (I.system.computePhysicalForcing ext).parameters.dpd_gamma ≠ 0 := by
    rw [hp, hg]; exact fun h => h rfl
  simp only [Integrator.getForces, if_neg hg', Integrator.marchView]
  rw [hp, hin.1, hin.2.2.2.1]

theorem constraintErrors_marchView (I : Integrator) :
    (Euler.constraintErrors I).marchView = I.marchView := rfl

theorem thresholdTolerance_marchView (I : Integrator) :
    (Euler.thresholdTolerance I).marchView = I.marchView := by
  unfold Euler.thresholdTolerance
  split_ifs <;> rfl

theorem thresholdTime_marchView (I : Integrator) :
    (Euler.thresholdTime I).marchView = I.marchView := by
  unfold Euler.thresholdTime
  split_ifs <;> rfl

theorem computeFreeEnergy_marchView (ext : External) (I : Integrator) :
    (Euler.computeFreeEnergy ext I).marchView = I.marchView := by
  simp only [Euler.computeFreeEnergy]
  split_ifs <;> rfl

theorem finitenessErrorBacktrack_marchView (I : Integrator) :
    I.finitenessErrorBacktrack.marchView = I.marchView := by
  rw [finitenessErrorBacktrack_eq]
  split_ifs <;> rfl

theorem status_marchView (ext : External) (I : Integrator)
    (hg : I.system.parameters.dpd_gamma = 0) :
    (Euler.status ext I).marchView =
      { I.marchView with
        chemicalPotential := (I.system.computePhysicalForcing ext).forces.chemicalPotential } := by
  unfold Euler.status
  rw [finitenessErrorBacktrack_marchView, computeFreeEnergy_marchView, thresholdTime_marchView,
    thresholdTolerance_marchView, constraintErrors_marchView, getForces_marchView ext I hg]

/-- A non-backtracking, non-adaptive `march()` returns, and moves the protein density by
`timeStep * proteinMobility * chemicalPotential`. -/
theorem march_density (ext : External) (lsFuel : Nat) (I : Integrator)
    (hb : I.isBacktrack = false) (ha : I.isAdaptiveStep = false) :
    ∃ J, Euler.march ext lsFuel I = some J ∧
      J.system.proteinDensity =
        vecAdd I.system.proteinDensity
          (vecScale I.characteristicTimeStep
            (vecScale I.system.parameters.proteinMobility I.system.forces.chemicalPotential)) := by
  have hb' : ¬ I.isBacktrack = true := by rw [hb]; exact Bool.false_ne_true
  have ha' : ¬ I.isAdaptiveStep = true := by rw [ha]; exact Bool.false_ne_true
  refine ⟨_, by simp only [Euler.march, if_neg hb']; rfl, ?_⟩
  simp only [Euler.marchExit, Euler.marchEntry]
  split_ifs <;> rfl

theorem sAt_zipWith_mul (a b : List ℚ) (i : Nat) (ha : i < a.length) (hb : i < b.length) :
    sAt (List.zipWith (fun p q => p * q) a b) i = sAt a i * sAt b i := by
  simp [sAt, List.getD, List.getElem?_zipWith, ha, hb]

theorem sAt_vecScale (c : ℚ) (a : List ℚ) (i : Nat) (ha : i < a.length) :
    sAt (vecScale c a) i = c * sAt a i := by
  simp [sAt, vecScale, List.getD, ha]

theorem length_vecScale (c : ℚ) (a : List ℚ) : (vecScale c a).length = a.length := by
  simp [vecScale]

/-- With every potential but the diffusion potential switched off, the chemical potential
that `computeChemicalPotential` leaves at a vertex is the masked `-eta * (L phi)`. -/
theorem computeChemicalPotential_diffusionOnly (q : System) (i : Nat)
    (hi : i < q.mesh.nVertices)
    (heps : q.parameters.adsorption_epsilon = 0) (hchi : q.parameters.aggregation_chi = 0)
    (hlam : q.parameters.proteinDistribution_lambdaPhi = 0)
    (hH : q.parameters.bending.H0c = 0) (hK : q.parameters.bending.Kbc = 0)
    (hm : q.forces.proteinMask.length = q.mesh.nVertices)
    (hL : (q.vpg.cotanLaplacian q.proteinDensity).length = q.mesh.nVertices) :
    sAt q.computeChemicalPotential.forces.chemicalPotential i =
      sAt q.forces.proteinMask i *
        (-q.parameters.dirichlet_eta * sAt (q.vpg.cotanLaplacian q.proteinDensity) i) := by
  obtain ⟨n1, n2, n3, n4, n5⟩ := computeChemicalPotential_lengths q
  rw [hm, min_self] at n1 n2 n3 n5
  rw [hm, hL, min_self] at n4
  have hsum : q.computeChemicalPotential.forces.chemicalPotential =
      vecAdd (vecAdd (vecAdd (vecAdd q.computeChemicalPotential.forces.adsorptionPotential
        q.computeChemicalPotential.forces.aggregationPotential)
        q.computeChemicalPotential.forces.bendingPotential)
        q.computeChemicalPotential.forces.diffusionPotential)
        q.computeChemicalPotential.forces.interiorPenaltyPotential := rfl
  have hmi : i < q.forces.proteinMask.length := by rw [hm]; exact hi
  have hvf : ∀ f : Nat → ℚ, i < (vertexField q.mesh f).length := by
    intro f; rw [length_vertexField]; exact hi
  have e1 : sAt q.computeChemicalPotential.forces.adsorptionPotential i = 0 := by
    show sAt (List.zipWith (fun a b => a * b) q.forces.proteinMask (vertexField q.mesh _)) i = 0
    rw [sAt_zipWith_mul _ _ _ hmi (hvf _), sAt_vertexField _ _ _ hi, heps]
    ring
  have e2 : sAt q.computeChemicalPotential.forces.aggregationPotential i = 0 := by
    show sAt (List.zipWith (fun a b => a * b) q.forces.proteinMask (vertexField q.mesh _)) i = 0
    rw [sAt_zipWith_mul _ _ _ hmi (hvf _), sAt_vertexField _ _ _ hi, hchi]
    ring
  have e3 : sAt q.computeChemicalPotential.forces.bendingPotential i = 0 := by
    show sAt (List.zipWith (fun a b => a * b) q.forces.proteinMask (vertexField q.mesh _)) i = 0
    rw [sAt_zipWith_mul _ _ _ hmi (hvf _), sAt_vertexField _ _ _ hi, hH, hK]
    by_cases hl : q.parameters.bending.relation = "linear"
    · simp only [if_pos hl]; ring
    · by_cases hh : q.parameters.bending.relation = "hill"
      · simp only [if_neg hl, if_pos hh]; ring
      · simp only [if_neg hl, if_neg hh]; ring
  have e4 : sAt q.computeChemicalPotential.forces.diffusionPotential i =
      sAt q.forces.proteinMask i *
        (-q.parameters.dirichlet_eta * sAt (q.vpg.cotanLaplacian q.proteinDensity) i) := by
    show sAt (List.zipWith (fun a b => a * b) q.forces.proteinMask (vecScale _ _)) i = _
    rw [sAt_zipWith_mul _ _ _ hmi (by rw [length_vecScale, hL]; exact hi),
      sAt_vecScale _ _ _ (by rw [hL]; exact hi)]
  have e5 : sAt q.computeChemicalPotential.forces.interiorPenaltyPotential i = 0 := by
    show sAt (List.zipWith (fun a b => a * b) q.forces.proteinMask (vertexField q.mesh _)) i = 0
    rw [sAt_zipWith_mul _ _ _ hmi (hvf _), sAt_vertexField _ _ _ hi, hlam]
    ring
  have l1 : i < (vecAdd q.computeChemicalPotential.forces.adsorptionPotential
      q.computeChemicalPotential.forces.aggregationPotential).length := by
    rw [length_vecAdd, n1, n2, min_self]; exact hi
  have l2 : i < (vecAdd (vecAdd q.computeChemicalPotential.forces.adsorptionPotential
      q.computeChemicalPotential.forces.aggregationPotential)
      q.computeChemicalPotential.forces.bendingPotential).length := by
    rw [length_vecAdd, length_vecAdd, n1, n2, n3, min_self, min_self]; exact hi
  have l3 : i < (vecAdd (vecAdd (vecAdd q.computeChemicalPotential.forces.adsorptionPotential
      q.computeChemicalPotential.forces.aggregationPotential)
      q.computeChemicalPotential.forces.bendingPotential)
      q.computeChemicalPotential.forces.diffusionPotential).length := by
    rw [length_vecAdd, length_vecAdd, length_vecAdd, n1, n2, n3, n4, min_self, min_self,
      min_self]
    exact hi
  rw [hsum, sAt_vecAdd _ _ _ l3 (by rw [n5]; exact hi), sAt_vecAdd _ _ _ l2 (by rw [n4]; exact hi),
    sAt_vecAdd _ _ _ l1 (by rw [n3]; exact hi),
    sAt_vecAdd _ _ _ (by rw [n1]; exact hi) (by rw [n2]; exact hi), e1, e2, e3, e4, e5]
  ring

/-- With every potential but the diffusion potential switched off, the chemical potential
after `computePhysicalForcing` has one entry per vertex, the masked `-eta * (L phi)`. -/
theorem computePhysicalForcing_diffusionOnly (ext : External) (s : System)
    (hp : s.parameters.variation.isProteinVariation = true)
    (heps : s.parameters.adsorption_epsilon = 0) (hchi : s.parameters.aggregation_chi = 0)
    (hlam : s.parameters.proteinDistribution_lambdaPhi = 0)
    (hH : s.parameters.bending.H0c = 0) (hK : s.parameters.bending.Kbc = 0)
    (hm : s.forces.proteinMask.length = s.mesh.nVertices)
    (hL : (s.vpg.cotanLaplacian s.proteinDensity).length = s.mesh.nVertices) :
    (s.computePhysicalForcing ext).forces.chemicalPotential.length = s.mesh.nVertices ∧
      ∀ i, i < s.mesh.nVertices →
        sAt (s.computePhysicalForcing ext).forces.chemicalPotential i =
          sAt s.forces.proteinMask i *
            (-s.parameters.dirichlet_eta * sAt (s.vpg.cotanLaplacian s.proteinDensity) i) := by
  obtain ⟨q, hq, p1, p2, p3, p4, p5⟩ := computePhysicalForcing_potentials ext s hp
  have qmesh : q.mesh = s.mesh := hq.1
  have qvpg : q.vpg = s.vpg := hq.2.1
  have qpar : q.parameters = s.parameters := hq.2.2.1
  have qphi : q.proteinDensity = s.proteinDensity := hq.2.2.2.1
  have qmask : q.forces.proteinMask = s.forces.proteinMask := hq.2.2.2.2.2.2.2.2.2.2.1
  have hchem : (s.computePhysicalForcing ext).forces.chemicalPotential =
      q.computeChemicalPotential.forces.chemicalPotential := by
    rw [computePhysicalForcing_potentialSum ext s hp, p1, p2, p3, p4, p5]
    rfl
  have hm' : q.forces.proteinMask.length = q.mesh.nVertices := by rw [qmask, qmesh]; exact hm
  have hL' : (q.vpg.cotanLaplacian q.proteinDensity).length = q.mesh.nVertices := by
    rw [qvpg, qphi, qmesh]; exact hL
  obtain ⟨n1, n2, n3, n4, n5⟩ := computeChemicalPotential_lengths q
  rw [hm', min_self] at n1 n2 n3 n5
  rw [hm', hL', min_self] at n4
  constructor
  · rw [hchem]
    show (vecAdd (vecAdd (vecAdd (vecAdd q.computeChemicalPotential.forces.adsorptionPotential
      q.computeChemicalPotential.forces.aggregationPotential)
      q.computeChemicalPotential.forces.bendingPotential)
      q.computeChemicalPotential.forces.diffusionPotential)
      q.computeChemicalPotential.forces.interiorPenaltyPotential).length = _
    rw [length_vecAdd, length_vecAdd, length_vecAdd, length_vecAdd, n1, n2, n3, n4, n5,
      min_self, min_self, min_self, min_self, qmesh]
  · intro i hi
    rw [hchem, computeChemicalPotential_diffusionOnly q i (by rw [qmesh]; exact hi)
      (by rw [qpar]; exact heps) (by rw [qpar]; exact hchi) (by rw [qpar]; exact hlam)
      (by rw [qpar]; exact hH) (by rw [qpar]; exact hK) hm' hL', qmask, qpar, qvpg, qphi]

theorem weighted_sum_bounds (l : List Nat) (w phi : Nat → ℚ) (a μ M : ℚ)
    (hw : ∀ j ∈ l, 0 ≤ w j) (hμ : ∀ j ∈ l, μ ≤ phi j) (hM : ∀ j ∈ l, phi j ≤ M) :
    (l.map fun j => w j * (a - phi j)).sum ≤ (a - μ) * (l.map fun j => w j).sum ∧
      (a - M) * (l.map fun j => w j).sum ≤ (l.map fun j => w j * (a - phi j)).sum ∧
      0 ≤ (l.map fun j => w j).sum := by
  induction l with
  | nil => simp
  | cons j l ih =>
    obtain ⟨i1, i2, i3⟩ := ih (fun k hk => hw k (List.mem_cons_of_mem j hk))
      (fun k hk => hμ k (List.mem_cons_of_mem j hk))
      (fun k hk => hM k (List.mem_cons_of_mem j hk))
    have hwj := hw j (List.mem_cons_self j l)
    have hμj := hμ j (List.mem_cons_self j l)
    have hMj := hM j (List.mem_cons_self j l)
    simp only [List.map_cons, List.sum_cons]
    refine ⟨?_, ?_, by linarith⟩
    · have : w j * (a - phi j) ≤ w j * (a - μ) :=
        mul_le_mul_of_nonneg_left (by linarith) hwj
      nlinarith
    · have : w j * (a - M) ≤ w j * (a - phi j) :=
        mul_le_mul_of_nonneg_left (by linarith) hwj
      nlinarith

/-- One entry of an explicit diffusion step stays between the bounds of the old entries. -/
theorem explicit_step_bounds (a S W t mob eta m μ M : ℚ) (hμa : μ ≤ a) (haM : a ≤ M)
    (hS1 : S ≤ (a - μ) * W) (hS2 : (a - M) * W ≤ S) (hW : 0 ≤ W)
    (hc : 0 ≤ t * mob * eta) (hcfl : t * mob * eta * W ≤ 1) (hm0 : 0 ≤ m) (hm1 : m ≤ 1) :
    μ ≤ a + t * (mob * (m * (-eta * S))) ∧ a + t * (mob * (m * (-eta * S))) ≤ M := by
  have hk : 0 ≤ t * mob * eta * m := mul_nonneg hc hm0
  have hkW : t * mob * eta * m * W ≤ 1 := by
    have h1 : t * mob * eta * m * W ≤ t * mob * eta * W := by
      have : t * mob * eta * W * m ≤ t * mob * eta * W * 1 :=
        mul_le_mul_of_nonneg_left hm1 (mul_nonneg hc hW)
      linarith
    linarith
  have e : a + t * (mob * (m * (-eta * S))) = a - t * mob * eta * m * S := by ring
  rw [e]
  have hl : t * mob * eta * m * S ≤ t * mob * eta * m * ((a - μ) * W) :=
    mul_le_mul_of_nonneg_left hS1 hk
  have hu : t * mob * eta * m * ((a - M) * W) ≤ t * mob * eta * m * S :=
    mul_le_mul_of_nonneg_left hS2 hk
  have h1 : 0 ≤ (a - μ) * (1 - t * mob * eta * m * W) :=
    mul_nonneg (by linarith) (by linarith)
  have h2 : 0 ≤ (M - a) * (1 - t * mob * eta * m * W) :=
    mul_nonneg (by linarith) (by linarith)
  constructor
  · nlinarith
  · nlinarith

theorem exists_bounds (l : List ℚ) (h : ∀ x ∈ l, 0 < x ∧ x < 1) :
    ∃ μ M : ℚ, 0 < μ ∧ M < 1 ∧ ∀ x ∈ l, μ ≤ x ∧ x ≤ M := by
  induction l with
  | nil => exact ⟨1 / 2, 1 / 2, by norm_num, by norm_num, fun x hx => absurd hx (List.not_mem_nil x)⟩
  | cons y l ih =>
    obtain ⟨μ, M, h1, h2, h3⟩ := ih (fun x hx => h x (List.mem_cons_of_mem y hx))
    obtain ⟨hy0, hy1⟩ := h y (List.mem_cons_self y l)
    refine ⟨min y μ, max y M, lt_min hy0 h1, max_lt hy1 h2, ?_⟩
    intro x hx
    rcases List.mem_cons.mp hx with rfl | hx
    · exact ⟨min_le_left _ _, le_max_left _ _⟩
    · exact ⟨le_trans (min_le_right _ _) (h3 x hx).1, le_trans (h3 x hx).2 (le_max_right _ _)⟩

theorem sAt_mem (l : List ℚ) (i : Nat) (h : i < l.length) : sAt l i ∈ l := by
  have : sAt l i = l[i] := by simp [sAt, List.getD, h]
  rw [this]
  exact List.getElem_mem h

theorem mem_vecAdd (a b : List ℚ) (x : ℚ) (h : x ∈ vecAdd a b) :
    ∃ i, i < a.length ∧ i < b.length ∧ x = sAt a i + sAt b i := by
  obtain ⟨i, hi, hx⟩ := List.mem_iff_getElem.mp h
  have hlen : i < min a.length b.length := by rw [← length_vecAdd]; exact hi
  have ha : i < a.length := lt_of_lt_of_le hlen (min_le_left _ _)
  have hb : i < b.length := lt_of_lt_of_le hlen (min_le_right _ _)
  refine ⟨i, ha, hb, ?_⟩
  rw [← sAt_vecAdd a b i ha hb, ← hx]
  simp [sAt, List.getD, hi]

/-- One diffusion-only pass within the stability bound returns and keeps every entry of the
protein density strictly between 0 and 1. -/
theorem pass_densityInUnit (ext : External) (lsFuel : Nat) (I : Integrator)
    (hs : Euler.DiffusionStable I) (hu : I.densityInUnit) :
    ∃ J, Euler.pass ext lsFuel I = some J ∧ J.densityInUnit := by
  obtain ⟨hb, ha, hg, hp, heps, hchi, hlam, hH, hK, hm, hphi, hL, hmask, hc, w, hw, hLw, hcfl⟩ := hs
  have hv := status_marchView ext I hg
  have v1 : (Euler.status ext I).system.proteinDensity = I.system.proteinDensity :=
    congrArg MarchView.proteinDensity hv
  have v2 : (Euler.status ext I).system.forces.chemicalPotential =
      (I.system.computePhysicalForcing ext).forces.chemicalPotential :=
    congrArg MarchView.chemicalPotential hv
  have v3 : (Euler.status ext I).system.parameters = I.system.parameters :=
    congrArg MarchView.parameters hv
  have v5 : (Euler.status ext I).characteristicTimeStep = I.characteristicTimeStep :=
    congrArg MarchView.characteristicTimeStep hv
  have v6 : (Euler.status ext I).isBacktrack = I.isBacktrack :=
    congrArg MarchView.isBacktrack hv
  have v7 : (Euler.status ext I).isAdaptiveStep = I.isAdaptiveStep :=
    congrArg MarchView.isAdaptiveStep hv
  obtain ⟨J, hJ, hd⟩ := march_density ext lsFuel (Euler.status ext I) (v6.trans hb)
    (v7.trans ha)
  refine ⟨J, hJ, ?_⟩
  obtain ⟨hlen, hent⟩ := computePhysicalForcing_diffusionOnly ext I.system hp heps hchi hlam hH
    hK hm hL
  obtain ⟨μ, M, hμ, hM, hbd⟩ := exists_bounds I.system.proteinDensity hu
  intro x hx
  rw [hd, v1, v2, v3, v5] at hx
  obtain ⟨i, hi1, hi2, rfl⟩ := mem_vecAdd _ _ _ hx
  have hi : i < I.system.mesh.nVertices := by rw [← hphi]; exact hi1
  have hiC : i < (I.system.computePhysicalForcing ext).forces.chemicalPotential.length := by
    rw [hlen]; exact hi
  rw [sAt_vecScale _ _ _ (by rw [length_vecScale]; exact hiC), sAt_vecScale _ _ _ hiC,
    hent i hi, hLw i hi]
  have hin : ∀ j ∈ List.range I.system.mesh.nVertices,
      μ ≤ sAt I.system.proteinDensity j ∧ sAt I.system.proteinDensity j ≤ M := by
    intro j hj
    exact hbd _ (sAt_mem _ _ (by rw [hphi]; exact List.mem_range.mp hj))
  obtain ⟨b1, b2, b3⟩ := weighted_sum_bounds (List.range I.system.mesh.nVertices) (w i)
    (fun j => sAt I.system.proteinDensity j) (sAt I.system.proteinDensity i) μ M
    (fun j hj => hw i j hi (List.mem_range.mp hj)) (fun j hj => (hin j hj).1)
    (fun j hj => (hin j hj).2)
  have hai := hbd _ (sAt_mem _ _ hi1)
  obtain ⟨r1, r2⟩ := explicit_step_bounds (sAt I.system.proteinDensity i) _ _
    I.characteristicTimeStep I.system.parameters.proteinMobility
    I.system.parameters.dirichlet_eta (sAt I.system.forces.proteinMask i) μ M hai.1 hai.2 b1 b2
    b3 hc (hcfl i hi) (hmask i hi).1 (hmask i hi).2
  exact ⟨lt_of_lt_of_le hμ r1, lt_of_le_of_lt r2 hM⟩

theorem evolve_zero (ext : External) (lsFuel : Nat) (I : Integrator) :
    Euler.evolve ext lsFuel 0 I = some I := rfl

theorem evolve_succ (ext : External) (lsFuel k : Nat) (I : Integrator) :
    Euler.evolve ext lsFuel (k + 1) I =
      (match Euler.pass ext lsFuel I with
        | none => none
        | some J => Euler.evolve ext lsFuel k J) := rfl

/-- Protein density after one pass from a state without dissipation whose step is neither
backtracking nor adaptive. -/
theorem pass_density (ext : External) (lsFuel : Nat) (I : Integrator)
    (hb : I.isBacktrack = false) (ha : I.isAdaptiveStep = false)
    (hg : I.system.parameters.dpd_gamma = 0) :
    ∃ J, Euler.pass ext lsFuel I = some J ∧
      J.system.proteinDensity =
        vecAdd I.system.proteinDensity
          (vecScale I.characteristicTimeStep
            (vecScale I.system.parameters.proteinMobility
              (I.system.computePhysicalForcing ext).forces.chemicalPotential)) := by
  have hv := status_marchView ext I hg
  have v1 : (Euler.status ext I).system.proteinDensity = I.system.proteinDensity :=
    congrArg MarchView.proteinDensity hv
  have v2 : (Euler.status ext I).system.forces.chemicalPotential =
      (I.system.computePhysicalForcing ext).forces.chemicalPotential :=
    congrArg MarchView.chemicalPotential hv
  have v3 : (Euler.status ext I).system.parameters = I.system.parameters :=
    congrArg MarchView.parameters hv
  have v5 : (Euler.status ext I).characteristicTimeStep = I.characteristicTimeStep :=
    congrArg MarchView.characteristicTimeStep hv
  have v6 : (Euler.status ext I).isBacktrack = I.isBacktrack :=
    congrArg MarchView.isBacktrack hv
  have v7 : (Euler.status ext I).isAdaptiveStep = I.isAdaptiveStep :=
    congrArg MarchView.isAdaptiveStep hv
  obtain ⟨J, hJ, hd⟩ := march_density ext lsFuel (Euler.status ext I) (v6.trans hb)
    (v7.trans ha)
  refine ⟨J, hJ, ?_⟩
  rw [hd, v1, v2, v3, v5]

/-- C17, as stated, fails. The diffusion example is a diffusion-potential-only state (protein
variation only, every potential but the diffusion potential switched off, so the chemical
potential is the diffusion potential `-eta * L * phi`) whose protein density
`(21/40, 1/2, 1/2, 1/2, 1/2)` lies strictly inside `(0,1)`. One explicit step with the
characteristic step 1 leaves the density `(-1057/40, 67/8, 17/2, 67/8, 37/10)`: no entry is
inside `(0,1)`. -/
theorem explicit_diffusion_leaves_unit_interval :
    exExplicitIntegrator.densityInUnit ∧
      exExplicitIntegrator.system.parameters.variation.isProteinVariation = true ∧
      exExplicitIntegrator.system.parameters.proteinDistribution_lambdaPhi = 0 ∧
      (exExplicitIntegrator.system.computePhysicalForcing exExternal).forces.chemicalPotential
        = (exExplicitIntegrator.system.computePhysicalForcing
            exExternal).forces.diffusionPotential ∧
      (exExplicitIntegrator.system.computePhysicalForcing exExternal).forces.diffusionPotential
        = exExplicitIntegrator.system.forces.maskProtein
            (vecScale (-exExplicitIntegrator.system.parameters.dirichlet_eta)
              (exExplicitIntegrator.system.vpg.cotanLaplacian
                exExplicitIntegrator.system.proteinDensity)) ∧
      ∃ J, Euler.evolve exExternal 0 1 exExplicitIntegrator = some J ∧
        J.system.proteinDensity = [-1057 / 40, 67 / 8, 17 / 2, 67 / 8, 37 / 10] ∧
        ¬ J.densityInUnit := by
  have hF : exExplicitIntegrator.system.computePhysicalForcing exExternal = exStiffSystem :=
    exStiffForcing_eq.1
  obtain ⟨J, hJ, hd⟩ := pass_density exExternal 0 exExplicitIntegrator rfl rfl rfl
  have hval : J.system.proteinDensity = [-1057 / 40, 67 / 8, 17 / 2, 67 / 8, 37 / 10] := by
    rw [hd, hF]
    norm_num [exExplicitIntegrator, exIntegrator, exStiffSystem, exSystem, exStiffParameters,
      exParameters, exForces, exStiffDensity, exStiffPotential, vecAdd, vecScale]
  refine ⟨?_, rfl, rfl, ?_, ?_, J, ?_, hval, ?_⟩
  · intro x hx
    have hx' : x ∈ [(21 / 40 : ℚ), 1 / 2, 1 / 2, 1 / 2, 1 / 2] := hx
    simp only [List.mem_cons, List.mem_singleton, List.not_mem_nil, or_false] at hx'
    rcases hx' with rfl | rfl | rfl | rfl | rfl <;> norm_num
  · rw [hF]; rfl
  · rw [hF]
    norm_num [exExplicitIntegrator, exStiffSystem, exStiffParameters, exStiffDensity,
      exStiffPotential, exSystem, exParameters, exVpg, exForces, Forces.maskProtein, vecScale,
      sAt]
  · rw [evolve_succ, hJ]
    rfl
  · intro h
    have h0 := (h (-1057 / 40) (by rw [hval]; exact List.mem_cons_self _ _)).1
    norm_num at h0

/-- C17, amended. Under diffusion-potential-only evolution by explicit steps, a protein
density strictly inside `(0,1)` at every vertex is strictly inside `(0,1)` at every vertex
after any finite number of steps, provided the state at the start of each step satisfies
`Euler.DiffusionStable`: the step is neither backtracking nor adaptive, the protein mask
has entries in `[0,1]`, the Laplacian product has the form `sum_j w i j * (phi i - phi j)`
with weights `w i j >= 0`, and `tau = timeStep * proteinMobility * eta >= 0` satisfies
`tau * sum_j w i j <= 1` at every vertex. -/
theorem diffusion_density_bound (ext : External) (lsFuel k : Nat) (I : Integrator)
    (hu : I.densityInUnit)
    (hs : ∀ j J, j < k → Euler.evolve ext lsFuel j I = some J → Euler.DiffusionStable J) :
    ∃ J, Euler.evolve ext lsFuel k I = some J ∧ J.densityInUnit := by
  induction k generalizing I with
  | zero => exact ⟨I, rfl, hu⟩
  | succ k ih =>
    have h0 : Euler.DiffusionStable I := hs 0 I (Nat.succ_pos k) rfl
    obtain ⟨J1, hJ1, hu1⟩ := pass_densityInUnit ext lsFuel I h0 hu
    have hshift : ∀ j, Euler.evolve ext lsFuel (j + 1) I = Euler.evolve ext lsFuel j J1 := by
      intro j
      rw [evolve_succ, hJ1]
    obtain ⟨J, hJ, huJ⟩ := ih J1 hu1 (fun j J hj hJ =>
      hs (j + 1) J (Nat.succ_lt_succ hj) ((hshift j).trans hJ))
    exact ⟨J, (hshift k).trans hJ, huJ⟩

theorem exCalm_stable : Euler.DiffusionStable exCalmIntegrator := by
  refine ⟨rfl, rfl, rfl, rfl, rfl, rfl, rfl, rfl, rfl, rfl, rfl, rfl, ?_, ?_, exWeights, ?_, ?_,
    ?_⟩
  · intro i hi
    have hi' : i < 5 := hi
    interval_cases i <;>
      norm_num [exCalmIntegrator, exStiffSystem, exSystem, exForces, sAt]
  · norm_num [exCalmIntegrator, exStiffSystem, exStiffParameters, exParameters]
  · intro i j hi hj
    have hi' : i < 5 := hi
    have hj' : j < 5 := hj
    interval_cases i <;> interval_cases j <;> norm_num [exWeights]
  · intro i hi
    have hi' : i < 5 := hi
    show sAt (exVpg.cotanLaplacian exStiffDensity) i =
      ((List.range 5).map fun j =>
        exWeights i j * (sAt exStiffDensity i - sAt exStiffDensity j)).sum
    interval_cases i <;>
      norm_num [exVpg, exStiffDensity, exWeights, sAt, List.range, List.range.loop]
  · intro i hi
    have hi' : i < 5 := hi
    show (1 / 2000 : ℚ) * 1 * 240 * ((List.range 5).map fun j => exWeights i j).sum ≤ 1
    interval_cases i <;> norm_num [exWeights, List.range, List.range.loop]

theorem diffusion_density_bound_witness :
    exCalmIntegrator.densityInUnit ∧ Euler.DiffusionStable exCalmIntegrator ∧
      ∃ J, Euler.evolve exExternal 0 1 exCalmIntegrator = some J ∧ J.densityInUnit := by
  have hu : exCalmIntegrator.densityInUnit := by
    intro x hx
    have hx' : x ∈ [(21 / 40 : ℚ), 1 / 2, 1 / 2, 1 / 2, 1 / 2] := hx
    simp only [List.mem_cons, List.mem_singleton, List.not_mem_nil, or_false] at hx'
    rcases hx' with rfl | rfl | rfl | rfl | rfl <;> norm_num
  refine ⟨hu, exCalm_stable, diffusion_density_bound exExternal 0 1 exCalmIntegrator hu ?_⟩
  intro j J hj hJ
  have hj0 : j = 0 := Nat.lt_one_iff.mp hj
  subst hj0
  have hIJ : exCalmIntegrator = J := Option.some.inj hJ
  rw [← hIJ]
  exact exCalm_stable

/-! ## Theorems: bound on the number of shrinks of the line search -/

/-- C25. For a positive characteristic time step and a shrink ratio `rho` in (0,1), and for
every energy routine and every direction, `backtrack` returns: with `n` the least natural
number such that `rho ^ n < 1e-5`, `n + 1` tests of the loop are enough, and the result
(accepted step or signalled failure) is reached after at most `n` shrinks. -/
theorem backtrack_shrinks_bounded (ext : External) (I : Integrator) (energy_pre : ℚ)
    (positionDirection : List Vector3) (chemicalDirection : List ℚ) (rho c1 : ℚ)
    (hcts : 0 < I.characteristicTimeStep) (_hrho0 : 0 < rho) (hrho1 : rho < 1) :
    ∃ n : Nat, IsLeast {m : Nat | rho ^ m < (1 / 100000 : ℚ)} n ∧
      ∀ fuel, n + 1 ≤ fuel →
        ∃ r, I.backtrack ext fuel energy_pre positionDirection chemicalDirection rho c1
            = some r ∧ r.count ≤ n := by
  classical
  have hex : ∃ m : Nat, rho ^ m < (1 / 100000 : ℚ) :=
    exists_pow_lt_of_lt_one (show (0 : ℚ) < 1 / 100000 by norm_num) hrho1
  refine ⟨Nat.find hex, ⟨Nat.find_spec hex, fun m hm => Nat.find_min' hex hm⟩, ?_⟩
  intro fuel hfuel
  have hn : I.characteristicTimeStep * rho ^ (Nat.find hex)
      < (1 / 100000 : ℚ) * I.characteristicTimeStep := by
    have := mul_lt_mul_of_pos_left (Nat.find_spec hex) hcts
    linarith [mul_comm I.characteristicTimeStep (1 / 100000 : ℚ)]
  obtain ⟨r, hr⟩ := backtrackLoop_returns ext
    (lineSearchOf I energy_pre positionDirection chemicalDirection rho c1)
    I.characteristicTimeStep (Nat.find hex) hn (Nat.find hex) 0
    { I with system := (zerothUpdate ext
        (lineSearchOf I energy_pre positionDirection chemicalDirection rho c1)
        I.system I.characteristicTimeStep) }
    (by omega) rfl
  simp only [pow_zero, mul_one] at hr
  have hr' : I.backtrack ext fuel energy_pre positionDirection chemicalDirection rho c1
      = some r := backtrackLoop_fuel_le ext _ (Nat.find hex + 1) fuel hfuel _ _ _ _ hr
  refine ⟨r, hr', ?_⟩
  obtain ⟨-, hrej, -⟩ := backtrack_trace ext fuel I energy_pre positionDirection
    chemicalDirection rho c1 r hr'
  by_contra hlt
  exact (hrej (Nat.find hex) (not_le.mp hlt)).2 hn

theorem backtrack_shrinks_bounded_witness :
    0 < exOverstepIntegrator.characteristicTimeStep ∧ (0 : ℚ) < 1 / 100 ∧
      (1 / 100 : ℚ) < 1 ∧
      ∃ n : Nat, IsLeast {m : Nat | (1 / 100 : ℚ) ^ m < (1 / 100000 : ℚ)} n ∧
        ∀ fuel, n + 1 ≤ fuel →
          ∃ r, exOverstepIntegrator.backtrack exExternal fuel (539 / 1600) exZeroVectors
              exStiffPotential (1 / 100) (1 / 4) = some r ∧ r.count ≤ n :=
  ⟨by simp [exOverstepIntegrator, exStiffIntegrator, exIntegrator], by norm_num, by norm_num,
    backtrack_shrinks_bounded exExternal exOverstepIntegrator (539 / 1600) exZeroVectors
      exStiffPotential (1 / 100) (1 / 4)
      (by simp [exOverstepIntegrator, exStiffIntegrator, exIntegrator]) (by norm_num)
      (by norm_num)⟩

/-! ## Theorems: interior penalty potential -/

/-- Entry of the interior penalty potential at a vertex whose protein mask entry is 1. -/
theorem sAt_interiorPenaltyPotential (s : System) (i : Nat) (hi : i < s.mesh.nVertices)
    (hmask : sAt s.forces.proteinMask i = 1) :
    sAt s.computeChemicalPotential.forces.interiorPenaltyPotential i =
      s.parameters.proteinDistribution_lambdaPhi *
        (1 / sAt s.proteinDensity i - 1 / (1 - sAt s.proteinDensity i)) := by
  have hlen : i < s.forces.proteinMask.length := by
    by_contra hge
    have h0 : sAt s.forces.proteinMask i = 0 := by
      simp [sAt, List.getD, List.getElem?_eq_none (not_lt.mp hge)]
    rw [h0] at hmask
    exact zero_ne_one hmask
  show sAt (List.zipWith (fun a b => a * b) s.forces.proteinMask
      (vertexField s.mesh fun i => s.parameters.proteinDistribution_lambdaPhi *
        (1 / sAt s.proteinDensity i - 1 / (1 - sAt s.proteinDensity i)))) i = _
  rw [sAt_zipWith_mul _ _ i hlen (by rw [length_vertexField]; exact hi), hmask,
    sAt_vertexField _ _ i hi, one_mul]

theorem barrier_sign (lam phi : ℚ) (hlam : 0 < lam) (h0 : 0 < phi) (h1 : phi < 1) :
    (phi < 1 / 2 → 0 < lam * (1 / phi - 1 / (1 - phi))) ∧
      (phi = 1 / 2 → lam * (1 / phi - 1 / (1 - phi)) = 0) ∧
      (1 / 2 < phi → lam * (1 / phi - 1 / (1 - phi)) < 0) := by
  have h1' : 0 < 1 - phi := by linarith
  have hform : lam * (1 / phi - 1 / (1 - phi)) = lam * (1 - 2 * phi) / (phi * (1 - phi)) := by
    have hp : phi ≠ 0 := ne_of_gt h0
    have hq : 1 - phi ≠ 0 := ne_of_gt h1'
    field_simp
    exact Or.inl (by ring)
  have hden : 0 < phi * (1 - phi) := mul_pos h0 h1'
  rw [hform]
  refine ⟨fun h => ?_, fun h => ?_, fun h => ?_⟩
  · exact div_pos (mul_pos hlam (by linarith)) hden
  · rw [h]; norm_num
  · exact div_neg_of_neg_of_pos (mul_neg_of_pos_of_neg hlam (by linarith)) hden

theorem barrier_unbounded (lam M : ℚ) (hlam : 0 < lam) :
    ∃ delta : ℚ, 0 < delta ∧ ∀ phi : ℚ,
      (0 < phi → phi < delta → M < lam * (1 / phi - 1 / (1 - phi))) ∧
      (1 - delta < phi → phi < 1 → lam * (1 / phi - 1 / (1 - phi)) < -M) := by
  have hden : 0 < |M| + 2 * lam + 1 := by positivity
  have hd : 0 < lam / (|M| + 2 * lam + 1) := div_pos hlam hden
  have hdhalf : lam / (|M| + 2 * lam + 1) < 1 / 2 := by
    rw [div_lt_div_iff₀ hden (by norm_num)]
    nlinarith [abs_nonneg M]
  have key : ∀ a b : ℚ, 0 < a → a < lam / (|M| + 2 * lam + 1) → b = 1 - a →
      |M| < lam * (1 / a - 1 / b) := by
    intro a b ha hlt hb
    have hb' : 1 / 2 < b := by linarith
    have hbpos : 0 < b := by linarith
    have h1 : 1 / b < 2 := by
      rw [div_lt_iff₀ hbpos]; linarith
    have h2 : (|M| + 2 * lam + 1) / lam < 1 / a := by
      rw [div_lt_div_iff₀ hlam ha]
      have := (lt_div_iff₀ hden).mp hlt
      linarith
    have h3 : lam * ((|M| + 2 * lam + 1) / lam) = |M| + 2 * lam + 1 := by
      field_simp
    have h4 : lam * ((|M| + 2 * lam + 1) / lam) < lam * (1 / a) :=
      mul_lt_mul_of_pos_left h2 hlam
    have h5 : lam * (1 / b) < lam * 2 := mul_lt_mul_of_pos_left h1 hlam
    rw [mul_sub]
    linarith
  refine ⟨lam / (|M| + 2 * lam + 1), hd, fun phi => ⟨fun h0 hlt => ?_, fun hgt h1 => ?_⟩⟩
  · exact lt_of_le_of_lt (le_abs_self M) (key phi (1 - phi) h0 hlt rfl)
  · have h := key (1 - phi) phi (by linarith) (by linarith) (by ring)
    have hneg : lam * (1 / phi - 1 / (1 - phi)) = -(lam * (1 / (1 - phi) - 1 / phi)) := by ring
    rw [hneg]
    have := neg_abs_le M
    linarith [le_abs_self M]

/-- C28. For `lambdaPhi > 0`, at a vertex of the mesh whose protein mask entry is 1 and whose
protein density `phi` lies in (0,1), the interior penalty potential that
`computeChemicalPotential` leaves equals `lambdaPhi * (1/phi - 1/(1 - phi))`; it is positive
for `phi < 1/2`, zero at `phi = 1/2` and negative for `phi > 1/2`. It is unbounded towards
the ends: for every bound `M` there is `delta > 0` such that at every such vertex the
potential exceeds `M` when `0 < phi < delta` and is below `-M` when `1 - delta < phi < 1`. -/
theorem interiorPenaltyPotential_barrier (lam : ℚ) (hlam : 0 < lam) :
    (∀ (s : System) (i : Nat), s.parameters.proteinDistribution_lambdaPhi = lam →
      i < s.mesh.nVertices → sAt s.forces.proteinMask i = 1 →
      0 < sAt s.proteinDensity i → sAt s.proteinDensity i < 1 →
      sAt s.computeChemicalPotential.forces.interiorPenaltyPotential i =
          lam * (1 / sAt s.proteinDensity i - 1 / (1 - sAt s.proteinDensity i)) ∧
        (sAt s.proteinDensity i < 1 / 2 →
          0 < sAt s.computeChemicalPotential.forces.interiorPenaltyPotential i) ∧
        (sAt s.proteinDensity i = 1 / 2 →
          sAt s.computeChemicalPotential.forces.interiorPenaltyPotential i = 0) ∧
        (1 / 2 < sAt s.proteinDensity i →
          sAt s.computeChemicalPotential.forces.interiorPenaltyPotential i < 0)) ∧
    ∀ M : ℚ, ∃ delta : ℚ, 0 < delta ∧
      ∀ (s : System) (i : Nat), s.parameters.proteinDistribution_lambdaPhi = lam →
        i < s.mesh.nVertices → sAt s.forces.proteinMask i = 1 →
        (0 < sAt s.proteinDensity i → sAt s.proteinDensity i < delta →
          M < sAt s.computeChemicalPotential.forces.interiorPenaltyPotential i) ∧
        (1 - delta < sAt s.proteinDensity i → sAt s.proteinDensity i < 1 →
          sAt s.computeChemicalPotential.forces.interiorPenaltyPotential i < -M) := by
  constructor
  · intro s i hl hi hmask h0 h1
    have hval := sAt_interiorPenaltyPotential s i hi hmask
    rw [hl] at hval
    rw [hval]
    exact ⟨rfl, barrier_sign lam _ hlam h0 h1⟩
  · intro M
    obtain ⟨delta, hd, hb⟩ := barrier_unbounded lam M hlam
    refine ⟨delta, hd, ?_⟩
    intro s i hl hi hmask
    have hval := sAt_interiorPenaltyPotential s i hi hmask
    rw [hl] at hval
    rw [hval]
    exact hb _

theorem interiorPenaltyPotential_barrier_witness :
    (0 : ℚ) < 1 ∧
      sAt exBarrierSystem.computeChemicalPotential.forces.interiorPenaltyPotential 0 =
        1 * (1 / sAt exBarrierSystem.proteinDensity 0 -
          1 / (1 - sAt exBarrierSystem.proteinDensity 0)) ∧
      0 < sAt exBarrierSystem.computeChemicalPotential.forces.interiorPenaltyPotential 0 :=
  ⟨by norm_num,
    ((interiorPenaltyPotential_barrier 1 (by norm_num)).1 exBarrierSystem 0 rfl (by decide)
      (by simp [exBarrierSystem, exSystem, exForces, sAt])
      (by norm_num [exBarrierSystem, sAt])
      (by norm_num [exBarrierSystem, sAt])).1,
    ((interiorPenaltyPotential_barrier 1 (by norm_num)).1 exBarrierSystem 0 rfl (by decide)
      (by simp [exBarrierSystem, exSystem, exForces, sAt])
      (by norm_num [exBarrierSystem, sAt])
      (by norm_num [exBarrierSystem, sAt])).2.1 (by norm_num [exBarrierSystem, sAt])⟩

/-! ## Theorems: work done by the damping force -/

theorem vAt_addAt (l : List Vector3) (i : Nat) (f : Vector3) (v : Nat) :
    vAt (addAt l i f) v = if v = i ∧ i < l.length then vAt l v + f else vAt l v := by
  induction l generalizing i v with
  | nil => simp [addAt]
  | cons x xs ih =>
    cases i with
    | zero =>
      cases v with
      | zero => simp [addAt, vAt]
      | succ v => simp [addAt, vAt]
    | succ i =>
      cases v with
      | zero => simp [addAt, vAt]
      | succ v =>
        have := ih i v
        simp only [vAt, List.getD_cons_succ, addAt, List.length_cons, Nat.succ_lt_succ_iff,
          Nat.succ_inj'] at this ⊢
        exact this

theorem vAt_subAt (l : List Vector3) (i : Nat) (f : Vector3) (v : Nat) :
    vAt (subAt l i f) v = if v = i ∧ i < l.length then vAt l v - f else vAt l v := by
  induction l generalizing i v with
  | nil => simp [subAt]
  | cons x xs ih =>
    cases i with
    | zero =>
      cases v with
      | zero => simp [subAt, vAt]
      | succ v => simp [subAt, vAt]
    | succ i =>
      cases v with
      | zero => simp [subAt, vAt]
      | succ v =>
        have := ih i v
        simp only [vAt, List.getD_cons_succ, subAt, List.length_cons, Nat.succ_lt_succ_iff,
          Nat.succ_inj'] at this ⊢
        exact this

theorem dot_add_left (a f b : Vector3) :
    Vector3.dot (a + f) b = Vector3.dot a b + Vector3.dot f b := by
  simp only [Vector3.dot, Vector3.add_def]
  ring

theorem dot_sub_left (a f b : Vector3) :
    Vector3.dot (a - f) b = Vector3.dot a b - Vector3.dot f b := by
  simp only [Vector3.dot, Vector3.sub_def]
  ring

/-- Adding `f` at the vertex `i` adds `f . g i` to the sum over the vertices of
`field[v] . g v`. -/
theorem work_addAt (l : List Vector3) (g : Nat → Vector3) (n i : Nat) (f : Vector3)
    (hl : l.length = n) (hi : i < n) :
    ∑ v in Finset.range n, Vector3.dot (vAt (addAt l i f) v) (g v) =
      ∑ v in Finset.range n, Vector3.dot (vAt l v) (g v) + Vector3.dot f (g i) := by
  have hfun : ∀ v, Vector3.dot (vAt (addAt l i f) v) (g v) =
      Vector3.dot (vAt l v) (g v) + if i = v then Vector3.dot f (g i) else 0 := by
    intro v
    rw [vAt_addAt]
    by_cases hv : v = i
    · subst hv
      simp [hl, hi, dot_add_left]
    · have hv' : ¬ i = v := fun h => hv h.symm
      simp [hv, hv']
  simp only [hfun, Finset.sum_add_distrib, Finset.sum_ite_eq, Finset.mem_range, hi, if_true]

theorem work_subAt (l : List Vector3) (g : Nat → Vector3) (n i : Nat) (f : Vector3)
    (hl : l.length = n) (hi : i < n) :
    ∑ v in Finset.range n, Vector3.dot (vAt (subAt l i f) v) (g v) =
      ∑ v in Finset.range n, Vector3.dot (vAt l v) (g v) - Vector3.dot f (g i) := by
  have hfun : ∀ v, Vector3.dot (vAt (subAt l i f) v) (g v) =
      Vector3.dot (vAt l v) (g v) + if i = v then -Vector3.dot f (g i) else 0 := by
    intro v
    rw [vAt_subAt]
    by_cases hv : v = i
    · subst hv
      simp [hl, hi, dot_sub_left, sub_eq_add_neg]
    · have hv' : ¬ i = v := fun h => hv h.symm
      simp [hv, hv']
  simp only [hfun, Finset.sum_add_distrib, Finset.sum_ite_eq, Finset.mem_range, hi, if_true]
  ring

/-- One edge lowers the sum over the vertices of `dampingForce[v] . velocity[v]` by `gamma`
times the square of `dot(dVel12, dPos12_n)`. -/
theorem dpdEdge_work (ext : External) (m : Mesh) (pos vel : List Vector3) (gamma sigma : ℚ)
    (noise : Nat → ℚ) (st : DPDForces) (e n : Nat)
    (hd : st.dampingForce.length = n)
    (h1 : m.vertex (m.edgeHalfedge e) < n)
    (h2 : m.vertex (m.next (m.edgeHalfedge e)) < n) :
    (dpdEdge ext m pos vel gamma sigma noise st e).dampingForce.length = n ∧
    ∑ v in Finset.range n,
        Vector3.dot (vAt (dpdEdge ext m pos vel gamma sigma noise st e).dampingForce v)
          (vAt vel v) =
      ∑ v in Finset.range n, Vector3.dot (vAt st.dampingForce v) (vAt vel v) -
        gamma *
          (Vector3.dot
            (vAt vel (m.vertex (m.edgeHalfedge e)) -
              vAt vel (m.vertex (m.next (m.edgeHalfedge e))))
            (ext.normalize (vAt pos (m.vertex (m.edgeHalfedge e)) -
              vAt pos (m.vertex (m.next (m.edgeHalfedge e)))))) ^ 2 := by
  have hdamp : (dpdEdge ext m pos vel gamma sigma noise st e).dampingForce =
      if gamma ≠ 0 then
        addAt (subAt st.dampingForce (m.vertex (m.edgeHalfedge e))
          (gamma * (Vector3.dot
            (vAt vel (m.vertex (m.edgeHalfedge e)) -
              vAt vel (m.vertex (m.next (m.edgeHalfedge e))))
            (ext.normalize (vAt pos (m.vertex (m.edgeHalfedge e)) -
              vAt pos (m.vertex (m.next (m.edgeHalfedge e))))) *
            ext.normalize (vAt pos (m.vertex (m.edgeHalfedge e)) -
              vAt pos (m.vertex (m.next (m.edgeHalfedge e)))))))
          (m.vertex (m.next (m.edgeHalfedge e)))
          (gamma * (Vector3.dot
            (vAt vel (m.vertex (m.edgeHalfedge e)) -
              vAt vel (m.vertex (m.next (m.edgeHalfedge e))))
            (ext.normalize (vAt pos (m.vertex (m.edgeHalfedge e)) -
              vAt pos (m.vertex (m.next (m.edgeHalfedge e))))) *
            ext.normalize (vAt pos (m.vertex (m.edgeHalfedge e)) -
              vAt pos (m.vertex (m.next (m.edgeHalfedge e))))))
      else st.dampingForce := by
    simp only [dpdEdge]
    by_cases hg : gamma ≠ 0 <;> by_cases hs : sigma ≠ 0
    · simp only [if_pos hg, if_pos hs]
    · simp only [if_pos hg, if_neg hs]
    · simp only [if_neg hg, if_pos hs]
    · simp only [if_neg hg, if_neg hs]
  rw [hdamp]
  by_cases hg : gamma ≠ 0
  · simp only [if_pos hg]
    refine ⟨by rw [length_addAt, length_subAt, hd], ?_⟩
    rw [work_addAt _ _ n _ _ (by rw [length_subAt, hd]) h2, work_subAt _ _ n _ _ hd h1]
    simp only [Vector3.dot, Vector3.sub_def, Vector3.smul_def]
    ring
  · simp only [if_neg hg]
    have hg0 : gamma = 0 := not_not.mp hg
    refine ⟨hd, ?_⟩
    rw [hg0]
    ring

theorem foldl_dpdEdge_work (ext : External) (m : Mesh) (pos vel : List Vector3)
    (gamma sigma : ℚ) (noise : Nat → ℚ) (n : Nat) (edges : List Nat) (st : DPDForces)
    (hmesh : ∀ e ∈ edges, m.vertex (m.edgeHalfedge e) < n ∧
      m.vertex (m.next (m.edgeHalfedge e)) < n)
    (hd : st.dampingForce.length = n) :
    ∑ v in Finset.range n,
        Vector3.dot
          (vAt (edges.foldl (dpdEdge ext m pos vel gamma sigma noise) st).dampingForce v)
          (vAt vel v) =
      ∑ v in Finset.range n, Vector3.dot (vAt st.dampingForce v) (vAt vel v) -
        gamma * (edges.map fun e =>
          (Vector3.dot
            (vAt vel (m.vertex (m.edgeHalfedge e)) -
              vAt vel (m.vertex (m.next (m.edgeHalfedge e))))
            (ext.normalize (vAt pos (m.vertex (m.edgeHalfedge e)) -
              vAt pos (m.vertex (m.next (m.edgeHalfedge e)))))) ^ 2).sum := by
  induction edges generalizing st with
  | nil => simp
  | cons e es ih =>
    have he := hmesh e (List.mem_cons_self e es)
    obtain ⟨a1, a2⟩ := dpdEdge_work ext m pos vel gamma sigma noise st e n hd he.1 he.2
    rw [List.foldl_cons, ih (dpdEdge ext m pos vel gamma sigma noise st e)
      (fun e' he' => hmesh e' (List.mem_cons_of_mem e he')) a1, a2, List.map_cons,
      List.sum_cons]
    ring

theorem work_zeroVectors (m : Mesh) (g : Nat → Vector3) (n : Nat) :
    ∑ v in Finset.range n, Vector3.dot (vAt (zeroVectors m) v) (g v) = 0 := by
  apply Finset.sum_eq_zero
  intro v _
  have hz : vAt (zeroVectors m) v = Vector3.zero := by
    by_cases hv : v < m.nVertices
    · exact vAt_vertexField m _ v hv
    · simp [vAt, zeroVectors, vertexField, List.getD, hv]
  rw [hz]
  simp [Vector3.dot, Vector3.zero]

theorem dpdLoop_work (ext : External) (m : Mesh) (pos vel : List Vector3) (gamma sigma : ℚ)
    (noise : Nat → ℚ)
    (hmesh : ∀ e ∈ m.edges, m.vertex (m.edgeHalfedge e) < m.nVertices ∧
      m.vertex (m.next (m.edgeHalfedge e)) < m.nVertices) :
    ∑ v in Finset.range m.nVertices,
        Vector3.dot (vAt (dpdLoop ext m pos vel gamma sigma noise).dampingForce v)
          (vAt vel v) =
      -gamma * (m.edges.map fun e =>
          (Vector3.dot
            (vAt vel (m.vertex (m.edgeHalfedge e)) -
              vAt vel (m.vertex (m.next (m.edgeHalfedge e))))
            (ext.normalize (vAt pos (m.vertex (m.edgeHalfedge e)) -
              vAt pos (m.vertex (m.next (m.edgeHalfedge e)))))) ^ 2).sum := by
  unfold dpdLoop
  rw [foldl_dpdEdge_work ext m pos vel gamma sigma noise m.nVertices m.edges
    ⟨zeroVectors m, zeroVectors m, 0⟩ hmesh (length_vertexField _ _), work_zeroVectors]
  ring

theorem sum_squares_nonneg {α : Type} (l : List α) (f : α → ℚ) :
    0 ≤ (l.map fun e => (f e) ^ 2).sum := by
  apply List.sum_nonneg
  intro x hx
  obtain ⟨e, -, rfl⟩ := List.mem_map.mp hx
  exact sq_nonneg _

/-- C29. For `gamma ≥ 0`, on every mesh whose edges join vertices of the mesh and for every
velocity field, time step and sequence of noise draws, the damping force that
`computeDPDForces` (and the older `getDPDForces`) leaves does no positive work: the sum over
the vertices of `dampingForce[v] . velocity[v]` equals `-gamma` times the sum over the edges
of the square of `dot(velocity[v1] - velocity[v2], dPos12_n)`, the relative velocity of the
endpoints along the normalized edge direction, and is therefore at most 0. -/
theorem computeDPDForces_damping_work (ext : External) (sqrt : ℚ → ℚ) (kBoltzmann : ℚ)
    (noise : Nat → ℚ) (dt : ℚ) (s : System) (sigma : ℚ)
    (hgamma : 0 ≤ s.parameters.dpd_gamma)
    (hmesh : ∀ e ∈ s.mesh.edges, s.mesh.vertex (s.mesh.edgeHalfedge e) < s.mesh.nVertices ∧
      s.mesh.vertex (s.mesh.next (s.mesh.edgeHalfedge e)) < s.mesh.nVertices) :
    (∑ v in Finset.range s.mesh.nVertices,
        Vector3.dot (vAt (s.computeDPDForces ext sqrt kBoltzmann noise dt).forces.dampingForce v)
          (vAt s.velocity v) =
      -s.parameters.dpd_gamma * (s.mesh.edges.map fun e =>
          (Vector3.dot
            (vAt s.velocity (s.mesh.vertex (s.mesh.edgeHalfedge e)) -
              vAt s.velocity (s.mesh.vertex (s.mesh.next (s.mesh.edgeHalfedge e))))
            (ext.normalize
              (vAt s.vpg.inputVertexPositions (s.mesh.vertex (s.mesh.edgeHalfedge e)) -
                vAt s.vpg.inputVertexPositions
                  (s.mesh.vertex (s.mesh.next (s.mesh.edgeHalfedge e)))))) ^ 2).sum) ∧
    ∑ v in Finset.range s.mesh.nVertices,
        Vector3.dot (vAt (s.computeDPDForces ext sqrt kBoltzmann noise dt).forces.dampingForce v)
          (vAt s.velocity v) ≤ 0 ∧
    (∑ v in Finset.range s.mesh.nVertices,
        Vector3.dot (vAt (getDPDForces ext s.mesh s.vpg.inputVertexPositions s.velocity
          s.parameters.dpd_gamma sigma noise).dampingForce v) (vAt s.velocity v) =
      -s.parameters.dpd_gamma * (s.mesh.edges.map fun e =>
          (Vector3.dot
            (vAt s.velocity (s.mesh.vertex (s.mesh.edgeHalfedge e)) -
              vAt s.velocity (s.mesh.vertex (s.mesh.next (s.mesh.edgeHalfedge e))))
            (ext.normalize
              (vAt s.vpg.inputVertexPositions (s.mesh.vertex (s.mesh.edgeHalfedge e)) -
                vAt s.vpg.inputVertexPositions
                  (s.mesh.vertex (s.mesh.next (s.mesh.edgeHalfedge e)))))) ^ 2).sum) ∧
    ∑ v in Finset.range s.mesh.nVertices,
        Vector3.dot (vAt (getDPDForces ext s.mesh s.vpg.inputVertexPositions s.velocity
          s.parameters.dpd_gamma sigma noise).dampingForce v) (vAt s.velocity v) ≤ 0 := by
  have hneg : ∀ l : List Nat, ∀ f : Nat → ℚ,
      -s.parameters.dpd_gamma * (l.map fun e => (f e) ^ 2).sum ≤ 0 := by
    intro l f
    have := mul_nonneg hgamma (sum_squares_nonneg l f)
    linarith
  have h1 := dpdLoop_work ext s.mesh s.vpg.inputVertexPositions s.velocity
    s.parameters.dpd_gamma
    (sqrt (2 * s.parameters.dpd_gamma * kBoltzmann * s.parameters.temperature / dt)) noise hmesh
  have h2 := dpdLoop_work ext s.mesh s.vpg.inputVertexPositions s.velocity
    s.parameters.dpd_gamma sigma noise hmesh
  refine ⟨h1, ?_, h2, ?_⟩
  · exact h1.trans_le (hneg _ _)
  · exact h2.trans_le (hneg _ _)

theorem computeDPDForces_damping_work_witness :
    0 ≤ exDampedSystem.parameters.dpd_gamma ∧
      (∀ e ∈ exDampedSystem.mesh.edges,
        exDampedSystem.mesh.vertex (exDampedSystem.mesh.edgeHalfedge e)
            < exDampedSystem.mesh.nVertices ∧
          exDampedSystem.mesh.vertex
              (exDampedSystem.mesh.next (exDampedSystem.mesh.edgeHalfedge e))
            < exDampedSystem.mesh.nVertices) ∧
      ∑ v in Finset.range exDampedSystem.mesh.nVertices,
        Vector3.dot
          (vAt (exDampedSystem.computeDPDForces exExternal exSqrt 1 (fun k => (k : ℚ) + 1)
            1).forces.dampingForce v)
          (vAt exDampedSystem.velocity v) ≤ 0 :=
  ⟨by norm_num [exDampedSystem], by decide,
    (computeDPDForces_damping_work exExternal exSqrt 1 (fun k => (k : ℚ) + 1) 1 exDampedSystem
      1 (by norm_num [exDampedSystem]) (by decide)).2.1⟩

/-! ## Theorems: vertex shift -/

theorem boundaryScan_count_aux (m : MutableMesh) (v : Nat) (l : List Nat) :
    ∀ st : BoundaryScan,
      (l.foldl (boundaryScanStep m v) st).n_vAdj =
        st.n_vAdj + (l.filter fun u => m.connectivity.vertexIsBoundary u).length := by
  induction l with
  | nil => intro st; simp
  | cons u us ih =>
    intro st
    rw [List.foldl_cons, ih]
    by_cases hb : m.connectivity.vertexIsBoundary u = true
    · have hstep : (boundaryScanStep m v st u).n_vAdj = st.n_vAdj + 1 := by
        unfold boundaryScanStep
        rw [if_pos hb]
        split_ifs <;> rfl
      rw [hstep, List.filter_cons_of_pos (by simpa using hb), List.length_cons]
      omega
    · have hstep : boundaryScanStep m v st u = st := by
        unfold boundaryScanStep
        rw [if_neg hb]
      rw [hstep, List.filter_cons_of_neg (by simpa using hb)]

/-- The local `n_vAdj` of the boundary branch is the number of adjacent vertices that are on
the boundary. -/
theorem boundaryScan_count (m : MutableMesh) (v : Nat) :
    (boundaryScan m v).n_vAdj =
      ((m.adjacentVertices v).filter fun u => m.connectivity.vertexIsBoundary u).length := by
  unfold boundaryScan
  rw [boundaryScan_count_aux]
  simp

/-- Condition under which the visit of the vertex `v` raises the error. -/
theorem vertexShiftVertex_error_iff (ext : External) (s : MutableSystem) (v : Nat) :
    (s.vertexShiftVertex ext v =
        Except.error "vertexShift: number of neighbor vertices on boundary is not 2!" ↔
      (Vector3.sum (s.forceMask v) > 1 / 2 ∧ s.mesh.connectivity.vertexIsBoundary v = true ∧
        (boundaryScan s.mesh v).n_vAdj ≠ 2)) ∧
    ((∃ q, s.vertexShiftVertex ext v = Except.ok q) ↔
      ¬ (Vector3.sum (s.forceMask v) > 1 / 2 ∧ s.mesh.connectivity.vertexIsBoundary v = true ∧
        (boundaryScan s.mesh v).n_vAdj ≠ 2)) := by
  unfold MutableSystem.vertexShiftVertex
  by_cases hm : Vector3.sum (s.forceMask v) > 1 / 2
  · by_cases hb : s.mesh.connectivity.vertexIsBoundary v = true
    · by_cases hn : (boundaryScan s.mesh v).n_vAdj ≠ 2
      · simp only [if_pos hm, if_pos hb, if_pos hn]
        simp [hb, hn]
        simpa using hm
      · simp only [if_pos hm, if_pos hb, if_neg hn]
        simp [hn]
    · simp only [if_pos hm, if_neg hb]
      simp [hb]
  · simp only [if_neg hm]
    simp
    intro h
    exact absurd (by simpa using h) hm

/-- A visit writes the position of the visited vertex and nothing else. -/
theorem vertexShiftVertex_frame (ext : External) (s q : MutableSystem) (v : Nat)
    (h : s.vertexShiftVertex ext v = Except.ok q) :
    q = { s with inputVertexPositions := q.inputVertexPositions } ∧
      (∀ u, u ≠ v → q.inputVertexPositions u = s.inputVertexPositions u) ∧
      (Vector3.sum (s.forceMask v) ≤ 1 / 2 → q = s) := by
  have hfold : ∀ (B : Vector3) (l : List Nat) (p : MutableSystem),
      l.foldl (fun (q : MutableSystem) (_he : Nat) =>
          { q with
            inputVertexPositions := Function.update q.inputVertexPositions v
              (B - Vector3.dot (q.vertexNormals v) (B - q.inputVertexPositions v) *
                  q.vertexNormals v) }) p
        = { p with inputVertexPositions := (l.foldl (fun (q : MutableSystem) (_he : Nat) =>
          { q with
            inputVertexPositions := Function.update q.inputVertexPositions v
              (B - Vector3.dot (q.vertexNormals v) (B - q.inputVertexPositions v) *
                  q.vertexNormals v) }) p).inputVertexPositions } ∧
      ∀ u, u ≠ v → (l.foldl (fun (q : MutableSystem) (_he : Nat) =>
          { q with
            inputVertexPositions := Function.update q.inputVertexPositions v
              (B - Vector3.dot (q.vertexNormals v) (B - q.inputVertexPositions v) *
                  q.vertexNormals v) }) p).inputVertexPositions u = p.inputVertexPositions u := by
    intro B l
    induction l with
    | nil => intro p; exact ⟨rfl, fun _ _ => rfl⟩
    | cons a as ih =>
      intro p
      rw [List.foldl_cons]
      obtain ⟨h1, h2⟩ := ih { p with
        inputVertexPositions := Function.update p.inputVertexPositions v
          (B - Vector3.dot (p.vertexNormals v) (B - p.inputVertexPositions v) *
              p.vertexNormals v) }
      refine ⟨?_, ?_⟩
      · rw [h1]
      · intro u hu
        rw [h2 u hu]
        exact Function.update_noteq hu _ _
  unfold MutableSystem.vertexShiftVertex at h
  by_cases hm : Vector3.sum (s.forceMask v) > 1 / 2
  · have hm' : ¬ Vector3.sum (s.forceMask v) ≤ 1 / 2 := not_le.mpr hm
    by_cases hb : s.mesh.connectivity.vertexIsBoundary v = true
    · by_cases hn : (boundaryScan s.mesh v).n_vAdj ≠ 2
      · simp only [if_pos hm, if_pos hb, if_pos hn] at h
        cases h
      · simp only [if_pos hm, if_pos hb, if_neg hn] at h
        cases h
        refine ⟨rfl, ?_, fun hle => absurd hle hm'⟩
        intro u hu
        exact Function.update_noteq hu _ _
    · simp only [if_pos hm, if_neg hb] at h
      cases h
      obtain ⟨h1, h2⟩ := hfold (s.baryCenter v) (s.mesh.connectivity.outgoingHalfedges v) s
      exact ⟨h1, h2, fun hle => absurd hle hm'⟩
  · simp only [if_neg hm] at h
    cases h
    exact ⟨rfl, fun _ _ => rfl, fun _ => rfl⟩

/-- The projection of the interior branch is idempotent for a unit normal. -/
theorem project_idem (B n p : Vector3) (hn : Vector3.norm2 n = 1) :
    B - Vector3.dot n (B - (B - Vector3.dot n (B - p) * n)) * n =
      B - Vector3.dot n (B - p) * n := by
  have h1 : n.x * n.x + n.y * n.y + n.z * n.z = 1 := hn
  have hc : Vector3.dot n (B - (B - Vector3.dot n (B - p) * n)) = Vector3.dot n (B - p) := by
    simp only [Vector3.dot, Vector3.sub_def, Vector3.mul_scalar_def, Vector3.smul_def]
    have : n.x * (B.x - (B.x - (n.x * (B.x - p.x) + n.y * (B.y - p.y) + n.z * (B.z - p.z)) * n.x)) +
        n.y * (B.y - (B.y - (n.x * (B.x - p.x) + n.y * (B.y - p.y) + n.z * (B.z - p.z)) * n.y)) +
        n.z * (B.z - (B.z - (n.x * (B.x - p.x) + n.y * (B.y - p.y) + n.z * (B.z - p.z)) * n.z))
        = (n.x * (B.x - p.x) + n.y * (B.y - p.y) + n.z * (B.z - p.z)) *
          (n.x * n.x + n.y * n.y + n.z * n.z) := by ring
    rw [this, h1, mul_one]
  rw [hc]

/-- The projected point differs from the old position by a vector orthogonal to the unit
normal. -/
theorem project_tangential (B n p : Vector3) (hn : Vector3.norm2 n = 1) :
    Vector3.dot (B - Vector3.dot n (B - p) * n - p) n = 0 := by
  have h1 : n.x * n.x + n.y * n.y + n.z * n.z = 1 := hn
  simp only [Vector3.dot, Vector3.sub_def, Vector3.smul_def]
  have : (B.x - (n.x * (B.x - p.x) + n.y * (B.y - p.y) + n.z * (B.z - p.z)) * n.x - p.x) * n.x +
      (B.y - (n.x * (B.x - p.x) + n.y * (B.y - p.y) + n.z * (B.z - p.z)) * n.y - p.y) * n.y +
      (B.z - (n.x * (B.x - p.x) + n.y * (B.y - p.y) + n.z * (B.z - p.z)) * n.z - p.z) * n.z
      = (n.x * (B.x - p.x) + n.y * (B.y - p.y) + n.z * (B.z - p.z)) *
        (1 - (n.x * n.x + n.y * n.y + n.z * n.z)) := by ring
  rw [this, h1]
  ring

/-- Interior branch: with a unit normal and at least one outgoing halfedge the visit leaves
the vertex at the projection of the barycentre. -/
theorem vertexShiftVertex_interior (ext : External) (s q : MutableSystem) (v : Nat)
    (h : s.vertexShiftVertex ext v = Except.ok q)
    (hm : Vector3.sum (s.forceMask v) > 1 / 2)
    (hb : s.mesh.connectivity.vertexIsBoundary v = false)
    (hout : s.mesh.connectivity.outgoingHalfedges v ≠ [])
    (hn : Vector3.norm2 (s.vertexNormals v) = 1) :
    q.inputVertexPositions v =
      s.baryCenter v -
        Vector3.dot (s.vertexNormals v) (s.baryCenter v - s.inputVertexPositions v) *
          s.vertexNormals v := by
  have hfold : ∀ (l : List Nat) (p : MutableSystem), p.vertexNormals v = s.vertexNormals v →
      (l.foldl (fun (q : MutableSystem) (_he : Nat) =>
          { q with
            inputVertexPositions := Function.update q.inputVertexPositions v
              (s.baryCenter v -
                Vector3.dot (q.vertexNormals v) (s.baryCenter v - q.inputVertexPositions v) *
                  q.vertexNormals v) }) p).inputVertexPositions v =
        if l = [] then p.inputVertexPositions v
        else s.baryCenter v -
          Vector3.dot (s.vertexNormals v) (s.baryCenter v - p.inputVertexPositions v) *
            s.vertexNormals v := by
    intro l
    induction l with
    | nil => intro p _; rfl
    | cons a as ih =>
      intro p hp
      rw [List.foldl_cons]
      have hp1 : ({ p with
          inputVertexPositions := Function.update p.inputVertexPositions v
            (s.baryCenter v -
              Vector3.dot (p.vertexNormals v) (s.baryCenter v - p.inputVertexPositions v) *
                p.vertexNormals v) } : MutableSystem).vertexNormals v = s.vertexNormals v := hp
      rw [ih _ hp1]
      simp only [Function.update_same, hp]
      by_cases has : as = []
      · simp [has]
      · simp only [if_neg has, if_neg (List.cons_ne_nil a as)]
        exact project_idem _ _ _ hn
  unfold MutableSystem.vertexShiftVertex at h
  have hb' : ¬ s.mesh.connectivity.vertexIsBoundary v = true := by simp [hb]
  simp only [if_pos hm, if_neg hb'] at h
  cases h
  rw [hfold _ s rfl, if_neg hout]

theorem vertexShiftLoop_append (ext : External) (l1 l2 : List Nat) :
    ∀ s : MutableSystem,
      MutableSystem.vertexShiftLoop ext (l1 ++ l2) s =
        match MutableSystem.vertexShiftLoop ext l1 s with
        | Except.error msg => Except.error msg
        | Except.ok q => MutableSystem.vertexShiftLoop ext l2 q := by
  induction l1 with
  | nil => intro s; rfl
  | cons v vs ih =>
    intro s
    simp only [List.cons_append, MutableSystem.vertexShiftLoop]
    cases hv : s.vertexShiftVertex ext v with
    | error msg => rfl
    | ok q => exact ih q

/-- The loop writes positions of visited vertices whose mask sum exceeds 1/2 and nothing
else. -/
theorem vertexShiftLoop_frame (ext : External) (l : List Nat) :
    ∀ s q : MutableSystem, MutableSystem.vertexShiftLoop ext l s = Except.ok q →
      q = { s with inputVertexPositions := q.inputVertexPositions } ∧
        (∀ u, u ∉ l → q.inputVertexPositions u = s.inputVertexPositions u) ∧
        (∀ u, Vector3.sum (s.forceMask u) ≤ 1 / 2 →
          q.inputVertexPositions u = s.inputVertexPositions u) := by
  induction l with
  | nil =>
    intro s q h
    simp only [MutableSystem.vertexShiftLoop] at h
    cases h
    exact ⟨rfl, fun _ _ => rfl, fun _ _ => rfl⟩
  | cons v vs ih =>
    intro s q h
    simp only [MutableSystem.vertexShiftLoop] at h
    cases hv : s.vertexShiftVertex ext v with
    | error msg => rw [hv] at h; cases h
    | ok p =>
      rw [hv] at h
      obtain ⟨a1, a2, a3⟩ := vertexShiftVertex_frame ext s p v hv
      obtain ⟨b1, b2, b3⟩ := ih p q h
      have hmask : p.forceMask = s.forceMask := by rw [a1]
      refine ⟨?_, ?_, ?_⟩
      · rw [b1, a1]
      · intro u hu
        rw [b2 u (fun hmem => hu (List.mem_cons_of_mem v hmem)),
          a2 u (fun heq => hu (heq ▸ List.mem_cons_self v vs))]
      · intro u hle
        rw [b3 u (by rw [hmask]; exact hle)]
        by_cases huv : u = v
        · subst huv
          rw [a3 hle]
        · exact a2 u huv

/-- The loop raises the error exactly when it visits a boundary vertex with mask sum above
1/2 whose number of boundary neighbours is not 2. -/
theorem vertexShiftLoop_error_iff (ext : External) (l : List Nat) :
    ∀ s : MutableSystem,
      (MutableSystem.vertexShiftLoop ext l s =
          Except.error "vertexShift: number of neighbor vertices on boundary is not 2!" ↔
        ∃ v ∈ l, Vector3.sum (s.forceMask v) > 1 / 2 ∧
          s.mesh.connectivity.vertexIsBoundary v = true ∧
          (boundaryScan s.mesh v).n_vAdj ≠ 2) ∧
      ((∃ q, MutableSystem.vertexShiftLoop ext l s = Except.ok q) ↔
        ¬ ∃ v ∈ l, Vector3.sum (s.forceMask v) > 1 / 2 ∧
          s.mesh.connectivity.vertexIsBoundary v = true ∧
          (boundaryScan s.mesh v).n_vAdj ≠ 2) := by
  induction l with
  | nil =>
    intro s
    simp [MutableSystem.vertexShiftLoop]
  | cons v vs ih =>
    intro s
    obtain ⟨e1, e2⟩ := vertexShiftVertex_error_iff ext s v
    simp only [MutableSystem.vertexShiftLoop]
    cases hv : s.vertexShiftVertex ext v with
    | error msg =>
      have hnot : ¬ ∃ q, s.vertexShiftVertex ext v = Except.ok q := by
        rintro ⟨q, hq⟩
        rw [hv] at hq
        cases hq
      have hc := not_not.mp (fun hc => hnot (e2.mpr hc))
      have hmsg : msg = "vertexShift: number of neighbor vertices on boundary is not 2!" := by
        have := e1.mpr hc
        rw [hv] at this
        cases this
        rfl
      subst hmsg
      simp only [true_iff]
      refine ⟨⟨v, List.mem_cons_self v vs, hc⟩, ?_⟩
      constructor
      · rintro ⟨q, hq⟩
        cases hq
      · intro hno
        exact absurd ⟨v, List.mem_cons_self v vs, hc⟩ hno
    | ok p =>
      have hc : ¬ (Vector3.sum (s.forceMask v) > 1 / 2 ∧
          s.mesh.connectivity.vertexIsBoundary v = true ∧
          (boundaryScan s.mesh v).n_vAdj ≠ 2) := e2.mp ⟨p, hv⟩
      obtain ⟨a1, -, -⟩ := vertexShiftVertex_frame ext s p v hv
      have hmask : p.forceMask = s.forceMask := by rw [a1]
      have hmesh : p.mesh = s.mesh := by rw [a1]
      obtain ⟨i1, i2⟩ := ih p
      rw [hmask, hmesh] at i1 i2
      have hex : (∃ u ∈ v :: vs, Vector3.sum (s.forceMask u) > 1 / 2 ∧
          s.mesh.connectivity.vertexIsBoundary u = true ∧
          (boundaryScan s.mesh u).n_vAdj ≠ 2) ↔
          ∃ u ∈ vs, Vector3.sum (s.forceMask u) > 1 / 2 ∧
          s.mesh.connectivity.vertexIsBoundary u = true ∧
          (boundaryScan s.mesh u).n_vAdj ≠ 2 := by
        constructor
        · rintro ⟨u, hu, hcu⟩
          rcases List.mem_cons.mp hu with rfl | hu'
          · exact absurd hcu hc
          · exact ⟨u, hu', hcu⟩
        · rintro ⟨u, hu, hcu⟩
          exact ⟨u, List.mem_cons_of_mem v hu, hcu⟩
      rw [hex]
      exact ⟨i1, i2⟩

/-- C23, as stated, fails on a boundary vertex that is held fixed. In the rectangle of two
triangles every vertex is on the boundary and the vertex 0 has three neighbours on the
boundary; with the force mask `(0,0,0)` at every vertex `vertexShift` raises no error and
leaves the state as it was. -/
theorem vertexShift_skips_fixed_boundary_vertex :
    (0 ∈ exPinnedQuad.mesh.vertices ∧
      exPinnedQuad.mesh.connectivity.vertexIsBoundary 0 = true ∧
      ((exPinnedQuad.mesh.adjacentVertices 0).filter fun u =>
        exPinnedQuad.mesh.connectivity.vertexIsBoundary u).length = 3) ∧
    exPinnedQuad.vertexShift exExternal = Except.ok exPinnedQuad := by
  refine ⟨⟨by decide, rfl, by decide⟩, ?_⟩
  have hstep : ∀ v, exPinnedQuad.vertexShiftVertex exExternal v = Except.ok exPinnedQuad := by
    intro v
    unfold MutableSystem.vertexShiftVertex
    rw [if_neg]
    show ¬ Vector3.sum Vector3.zero > 1 / 2
    norm_num [Vector3.sum, Vector3.zero]
  show MutableSystem.vertexShiftLoop exExternal [0, 1, 2, 3] exPinnedQuad = _
  simp only [MutableSystem.vertexShiftLoop, hstep]

/-- C23, amended. `vertexShift` raises the runtime error whenever the mesh contains a
boundary vertex with force-mask sum above 0.5 whose number of boundary neighbours is other
than two, and raises no error otherwise (it then returns a state). -/
theorem vertexShift_error_iff (ext : External) (s : MutableSystem) :
    (s.vertexShift ext =
        Except.error "vertexShift: number of neighbor vertices on boundary is not 2!" ↔
      ∃ v ∈ s.mesh.vertices, Vector3.sum (s.forceMask v) > 1 / 2 ∧
        s.mesh.connectivity.vertexIsBoundary v = true ∧
        ((s.mesh.adjacentVertices v).filter fun u =>
          s.mesh.connectivity.vertexIsBoundary u).length ≠ 2) ∧
    ((∃ q, s.vertexShift ext = Except.ok q) ↔
      ¬ ∃ v ∈ s.mesh.vertices, Vector3.sum (s.forceMask v) > 1 / 2 ∧
        s.mesh.connectivity.vertexIsBoundary v = true ∧
        ((s.mesh.adjacentVertices v).filter fun u =>
          s.mesh.connectivity.vertexIsBoundary u).length ≠ 2) := by
  have h := vertexShiftLoop_error_iff ext s.mesh.vertices s
  simp only [boundaryScan_count] at h
  exact h

/-- C27. When `vertexShift` returns, every vertex whose force-mask sum is at most 0.5 is
where it was. A vertex `v` of the mesh that is not on the boundary, has an outgoing halfedge,
a unit vertex normal `n` and force-mask sum above 0.5 is at `B - dot(n, B - old) * n`, where
`old` is its position on entry and `B` is the barycentre of its neighbours at the time `v` is
visited (after the vertices before `v` have been relocated): the barycentre projected onto
the plane through `old` orthogonal to `n`. Hence the displacement `new - old` is orthogonal
to `n`. -/
theorem vertexShift_tangential (ext : External) (s q : MutableSystem)
    (h : s.vertexShift ext = Except.ok q) (hnodup : s.mesh.vertices.Nodup) :
    (∀ v, Vector3.sum (s.forceMask v) ≤ 1 / 2 →
      q.inputVertexPositions v = s.inputVertexPositions v) ∧
    ∀ (before : List Nat) (v : Nat) (after : List Nat),
      s.mesh.vertices = before ++ v :: after →
      Vector3.sum (s.forceMask v) > 1 / 2 →
      s.mesh.connectivity.vertexIsBoundary v = false →
      s.mesh.connectivity.outgoingHalfedges v ≠ [] →
      Vector3.norm2 (s.vertexNormals v) = 1 →
      ∃ p, MutableSystem.vertexShiftLoop ext before s = Except.ok p ∧
        q.inputVertexPositions v =
          p.baryCenter v -
            Vector3.dot (s.vertexNormals v) (p.baryCenter v - s.inputVertexPositions v) *
              s.vertexNormals v ∧
        Vector3.dot (q.inputVertexPositions v - s.inputVertexPositions v)
          (s.vertexNormals v) = 0 := by
  refine ⟨(vertexShiftLoop_frame ext _ s q h).2.2, ?_⟩
  intro before v after hsplit hm hb hout hn
  unfold MutableSystem.vertexShift at h
  rw [hsplit, vertexShiftLoop_append] at h
  rw [hsplit] at hnodup
  have hv1 : v ∉ before := fun hmem =>
    (List.nodup_append.mp hnodup).2.2 hmem (List.mem_cons_self v after)
  have hv2 : v ∉ after := (List.nodup_cons.mp (List.nodup_append.mp hnodup).2.1).1
  cases hp : MutableSystem.vertexShiftLoop ext before s with
  | error msg => rw [hp] at h; cases h
  | ok p =>
    rw [hp] at h
    simp only [MutableSystem.vertexShiftLoop] at h
    cases hr : p.vertexShiftVertex ext v with
    | error msg => rw [hr] at h; cases h
    | ok r =>
      rw [hr] at h
      obtain ⟨a1, a2, -⟩ := vertexShiftLoop_frame ext before s p hp
      have hmask : p.forceMask = s.forceMask := by rw [a1]
      have hmesh : p.mesh = s.mesh := by rw [a1]
      have hnormal : p.vertexNormals = s.vertexNormals := by rw [a1]
      have hold : p.inputVertexPositions v = s.inputVertexPositions v := a2 v hv1
      have hnew := vertexShiftVertex_interior ext p r v hr (by rw [hmask]; exact hm)
        (by rw [hmesh]; exact hb) (by rw [hmesh]; exact hout) (by rw [hnormal]; exact hn)
      obtain ⟨-, b2, -⟩ := vertexShiftLoop_frame ext after r q h
      have hq : q.inputVertexPositions v =
          p.baryCenter v -
            Vector3.dot (s.vertexNormals v) (p.baryCenter v - s.inputVertexPositions v) *
              s.vertexNormals v := by
        rw [b2 v hv2, hnew, hnormal, hold]
      refine ⟨p, rfl, hq, ?_⟩
      rw [hq]
      exact project_tangential _ _ _ hn

/-- A vertex whose force-mask sum is at most 1/2 is passed over. -/
theorem exShift_masked (s : MutableSystem) (v : Nat)
    (h : Vector3.sum (s.forceMask v) ≤ 1 / 2) :
    s.vertexShiftVertex exExternal v = Except.ok s := by
  unfold MutableSystem.vertexShiftVertex
  rw [if_neg (not_lt.mpr h)]

/-- Visit of the interior vertex of the patch. -/
theorem exShift_interior :
    exMutableSystem.vertexShiftVertex exExternal 0 = Except.ok exShiftedSystem := by
  have hB : exMutableSystem.baryCenter 0 = ⟨0, -9 / 4, 0⟩ := by
    simp [MutableSystem.baryCenter, MutableMesh.adjacentVertices, exMutableSystem,
      exMutableMesh, exMesh, exPositions, vAt, Vector3.add_def, Vector3.zero, Vector3.div_def]
    norm_num
  unfold MutableSystem.vertexShiftVertex
  rw [if_pos (by norm_num [exMutableSystem, Vector3.sum]), if_neg (by decide)]
  rw [hB]
  have hout : exMutableSystem.mesh.connectivity.outgoingHalfedges 0 = [0, 2, 4, 6] := rfl
  rw [hout]
  simp only [List.foldl_cons, List.foldl_nil, Function.update_idem, Function.update_same]
  unfold exShiftedSystem
  congr 2
  simp [exMutableSystem, exPositions, vAt, Vector3.dot, Vector3.sub_def, Vector3.smul_def]

/-- Run of `vertexShift` on the patch with its boundary held fixed. -/
theorem exShift_eq : exMutableSystem.vertexShift exExternal = Except.ok exShiftedSystem := by
  have hz : ∀ v, v ≠ 0 → Vector3.sum (exShiftedSystem.forceMask v) ≤ 1 / 2 := by
    intro v hv
    show Vector3.sum (if v = 0 then (⟨1, 1, 1⟩ : Vector3) else Vector3.zero) ≤ 1 / 2
    rw [if_neg hv]
    norm_num [Vector3.sum, Vector3.zero]
  show MutableSystem.vertexShiftLoop exExternal [0, 1, 2, 3, 4] exMutableSystem = _
  simp only [MutableSystem.vertexShiftLoop, exShift_interior,
    exShift_masked exShiftedSystem 1 (hz 1 (by decide)),
    exShift_masked exShiftedSystem 2 (hz 2 (by decide)),
    exShift_masked exShiftedSystem 3 (hz 3 (by decide)),
    exShift_masked exShiftedSystem 4 (hz 4 (by decide))]

theorem vertexShift_tangential_witness :
    exMutableSystem.vertexShift exExternal = Except.ok exShiftedSystem ∧
      exMutableSystem.mesh.vertices.Nodup ∧
      exShiftedSystem.inputVertexPositions 1 = exMutableSystem.inputVertexPositions 1 ∧
      ∃ p, MutableSystem.vertexShiftLoop exExternal [] exMutableSystem = Except.ok p ∧
        exShiftedSystem.inputVertexPositions 0 =
          p.baryCenter 0 -
            Vector3.dot (exMutableSystem.vertexNormals 0)
                (p.baryCenter 0 - exMutableSystem.inputVertexPositions 0) *
              exMutableSystem.vertexNormals 0 ∧
        Vector3.dot
          (exShiftedSystem.inputVertexPositions 0 - exMutableSystem.inputVertexPositions 0)
          (exMutableSystem.vertexNormals 0) = 0 :=
  ⟨exShift_eq, by decide,
    (vertexShift_tangential exExternal exMutableSystem exShiftedSystem exShift_eq
      (by decide)).1 1 (by norm_num [exMutableSystem, Vector3.sum, Vector3.zero]),
    (vertexShift_tangential exExternal exMutableSystem exShiftedSystem exShift_eq
      (by decide)).2 [] 0 [1, 2, 3, 4] rfl (by norm_num [exMutableSystem, Vector3.sum]) rfl
      (by decide) (by norm_num [exMutableSystem, Vector3.norm2, Vector3.dot])⟩

/-! ## Theorems: the tracked point after a mutation -/

/-- The loop over the vertices of `globalUpdateAfterMutation` writes `thePoint` only, and
leaves it at the last marked vertex of the mesh if there is one. -/
theorem trackLoop_eq (l : List Nat) :
    ∀ s : MutableSystem,
      l.foldl (fun (q : MutableSystem) (v : Nat) =>
          if q.thePointTracker v = true then { q with thePoint := SurfacePoint.vertex v }
          else q) s =
        { s with
          thePoint := (l.filter fun v => s.thePointTracker v).foldl
            (fun _ v => SurfacePoint.vertex v) s.thePoint } := by
  induction l with
  | nil => intro s; rfl
  | cons a as ih =>
    intro s
    rw [List.foldl_cons, ih]
    by_cases ha : s.thePointTracker a = true
    · rw [if_pos ha, List.filter_cons_of_pos (by simpa using ha), List.foldl_cons]
    · rw [if_neg ha, List.filter_cons_of_neg (by simpa using ha)]

/-- C22, as stated, fails for a floating tracked point. With `isFloatVertex` true the routine
raises no error and leaves `thePoint` as it was, here a point in the face 0, although the
vertex 1 is the one marked vertex. -/
theorem globalUpdateAfterMutation_keeps_floating_point :
    exFloatingSystem.globalUpdateAfterMutation exLibrary = Except.ok exFloatingSystem ∧
      exFloatingSystem.trackerSum = 1 ∧ exFloatingSystem.thePointTracker 1 = true ∧
      exFloatingSystem.thePoint ≠ SurfacePoint.vertex 1 := by
  refine ⟨rfl, by decide, rfl, ?_⟩
  intro h
  cases h

/-- C22, amended. `globalUpdateAfterMutation` raises a runtime error if and only if point
tracking is vertex-bound (`isFloatVertex` is false) and the number of vertices marked in
`thePointTracker` differs from one; when point tracking is vertex-bound and it does not
raise, `thePoint` refers to the unique marked vertex. -/
theorem globalUpdateAfterMutation_unique_point (lib : MeshLibrary) (s : MutableSystem) :
    ((∃ msg, s.globalUpdateAfterMutation lib = Except.error msg) ↔
      (s.point_isFloatVertex = false ∧ s.trackerSum ≠ 1)) ∧
    ∀ q, s.globalUpdateAfterMutation lib = Except.ok q → s.point_isFloatVertex = false →
      ∃ u ∈ s.mesh.vertices, s.thePointTracker u = true ∧
        (∀ w ∈ s.mesh.vertices, s.thePointTracker w = true → w = u) ∧
        q.thePoint = SurfacePoint.vertex u ∧ q.thePointTracker = s.thePointTracker ∧
        q.mesh = s.mesh := by
  have hkey : ∀ p : MutableSystem, p.mesh = s.mesh → p.thePointTracker = s.thePointTracker →
      p.point_isFloatVertex = s.point_isFloatVertex →
      (if p.point_isFloatVertex = false then
          if (p.mesh.vertices.foldl (fun (q : MutableSystem) (v : Nat) =>
              if q.thePointTracker v = true then { q with thePoint := SurfacePoint.vertex v }
              else q) p).trackerSum ≠ 1 then
            (Except.error
              "globalUpdateAfterMutation: there is no unique/existing \"the\" point!" :
              Except String MutableSystem)
          else Except.ok (p.mesh.vertices.foldl (fun (q : MutableSystem) (v : Nat) =>
              if q.thePointTracker v = true then { q with thePoint := SurfacePoint.vertex v }
              else q) p)
        else Except.ok p) =
      if s.point_isFloatVertex = false then
        if s.trackerSum ≠ 1 then
          Except.error "globalUpdateAfterMutation: there is no unique/existing \"the\" point!"
        else Except.ok { p with
          thePoint := (s.mesh.vertices.filter fun v => s.thePointTracker v).foldl
            (fun _ v => SurfacePoint.vertex v) p.thePoint }
      else Except.ok p := by
    intro p hm ht hf
    rw [trackLoop_eq, hf, hm, ht]
    rfl
  have hrun : s.globalUpdateAfterMutation lib =
      if s.point_isFloatVertex = false then
        if s.trackerSum ≠ 1 then
          Except.error "globalUpdateAfterMutation: there is no unique/existing \"the\" point!"
        else Except.ok
          { (if s.isOpenMesh = true then
              { s with
                forceMask := lib.boundaryForceMask s.mesh fun _ => ⟨1, 1, 1⟩
                proteinMask := lib.boundaryProteinMask s.mesh fun _ => 1 }
            else s) with
            thePoint := (s.mesh.vertices.filter fun v => s.thePointTracker v).foldl
              (fun _ v => SurfacePoint.vertex v)
              (if s.isOpenMesh = true then
                { s with
                  forceMask := lib.boundaryForceMask s.mesh fun _ => ⟨1, 1, 1⟩
                  proteinMask := lib.boundaryProteinMask s.mesh fun _ => 1 }
              else s).thePoint }
      else Except.ok
        (if s.isOpenMesh = true then
          { s with
            forceMask := lib.boundaryForceMask s.mesh fun _ => ⟨1, 1, 1⟩
            proteinMask := lib.boundaryProteinMask s.mesh fun _ => 1 }
        else s) := by
    unfold MutableSystem.globalUpdateAfterMutation
    exact hkey _ (by split_ifs <;> rfl) (by split_ifs <;> rfl) (by split_ifs <;> rfl)
  rw [hrun]
  constructor
  · by_cases hf : s.point_isFloatVertex = false
    · by_cases hn : s.trackerSum ≠ 1
      · rw [if_pos hf, if_pos hn]
        exact ⟨fun _ => ⟨hf, hn⟩, fun _ => ⟨_, rfl⟩⟩
      · rw [if_pos hf, if_neg hn]
        exact ⟨fun ⟨msg, h⟩ => (by cases h), fun hc => absurd hc.2 hn⟩
    · rw [if_neg hf]
      exact ⟨fun ⟨msg, h⟩ => (by cases h), fun hc => absurd hc.1 hf⟩
  · intro q hq hf
    rw [if_pos hf] at hq
    by_cases hn : s.trackerSum ≠ 1
    · rw [if_pos hn] at hq
      cases hq
    · rw [if_neg hn] at hq
      have hone : (s.mesh.vertices.filter fun v => s.thePointTracker v).length = 1 :=
        not_not.mp hn
      obtain ⟨u, hu⟩ := List.length_eq_one.mp hone
      have humem : u ∈ s.mesh.vertices.filter fun v => s.thePointTracker v := by
        rw [hu]; exact List.mem_singleton_self u
      have hu' := List.mem_filter.mp humem
      refine ⟨u, hu'.1, by simpa using hu'.2, ?_, ?_, ?_, ?_⟩
      · intro w hw hwt
        have hwmem : w ∈ s.mesh.vertices.filter fun v => s.thePointTracker v :=
          List.mem_filter.mpr ⟨hw, by simpa using hwt⟩
        rw [hu] at hwmem
        exact List.mem_singleton.mp hwmem
      · cases hq
        rw [hu]
        rfl
      · cases hq
        split_ifs <;> rfl
      · cases hq
        split_ifs <;> rfl

/-- Run of `globalUpdateAfterMutation` on the patch. -/
theorem exUpdated_eq :
    exMutableSystem.globalUpdateAfterMutation exLibrary = Except.ok exUpdatedSystem := rfl

theorem globalUpdateAfterMutation_unique_point_witness :
    exMutableSystem.globalUpdateAfterMutation exLibrary = Except.ok exUpdatedSystem ∧
      exMutableSystem.point_isFloatVertex = false ∧
      ∃ u ∈ exMutableSystem.mesh.vertices, exMutableSystem.thePointTracker u = true ∧
        (∀ w ∈ exMutableSystem.mesh.vertices, exMutableSystem.thePointTracker w = true →
          w = u) ∧
        exUpdatedSystem.thePoint = SurfacePoint.vertex u ∧
        exUpdatedSystem.thePointTracker = exMutableSystem.thePointTracker ∧
        exUpdatedSystem.mesh = exMutableSystem.mesh :=
  ⟨exUpdated_eq, rfl,
    (globalUpdateAfterMutation_unique_point exLibrary exMutableSystem).2 exUpdatedSystem
      exUpdated_eq rfl⟩

/-! ## Theorems: the flip passes of `mutateMesh` -/

/-- A visit of the flip loop that leaves `isFlipped` false leaves everything as it was. -/
theorem edgeFlipEdge_unflipped (lib : MeshLibrary) (st : FlipState) (e : Nat)
    (h : (edgeFlipEdge lib st e).isFlipped = false) : edgeFlipEdge lib st e = st := by
  unfold edgeFlipEdge at h ⊢
  by_cases h1 : e ∉ st.system.mesh.connectivity.edges
  · simp only [if_pos h1]
  · by_cases h2 : (!st.isOrigEdge e || st.system.mesh.connectivity.edgeIsBoundary e) = true
    · simp only [if_neg h1, if_pos h2]
    · by_cases h3 : Vector3.sum
          (st.system.forceMask
              (st.system.mesh.connectivity.vertex
                (st.system.mesh.connectivity.edgeHalfedge e)) +
            st.system.forceMask
              (st.system.mesh.connectivity.vertex
                (st.system.mesh.connectivity.twin
                  (st.system.mesh.connectivity.edgeHalfedge e)))) < 1 / 2
      · simp only [if_neg h1, if_neg h2, if_pos h3]
      · by_cases h4 : st.system.meshMutator.ifFlip e st.system.mesh
            st.system.inputVertexPositions = true
        · simp only [if_neg h1, if_neg h2, if_neg h3, if_pos h4] at h
          cases h
        · simp only [if_neg h1, if_neg h2, if_neg h3, if_neg h4]

/-- Once `isFlipped` is true it stays true. -/
theorem edgeFlipEdge_flipped (lib : MeshLibrary) (st : FlipState) (e : Nat)
    (h : st.isFlipped = true) : (edgeFlipEdge lib st e).isFlipped = true := by
  simp only [edgeFlipEdge]
  split_ifs <;> first | exact h | rfl

theorem edgeFlipLoop_flipped (lib : MeshLibrary) (l : List Nat) :
    ∀ st : FlipState, st.isFlipped = true →
      (l.foldl (edgeFlipEdge lib) st).isFlipped = true := by
  induction l with
  | nil => intro st h; exact h
  | cons a as ih =>
    intro st h
    rw [List.foldl_cons]
    exact ih _ (edgeFlipEdge_flipped lib st a h)

theorem edgeFlipLoop_unflipped (lib : MeshLibrary) (l : List Nat) :
    ∀ st : FlipState, (l.foldl (edgeFlipEdge lib) st).isFlipped = false →
      l.foldl (edgeFlipEdge lib) st = st := by
  induction l with
  | nil => intro st _; rfl
  | cons a as ih =>
    intro st h
    rw [List.foldl_cons] at h ⊢
    have hstep : (edgeFlipEdge lib st a).isFlipped = false := by
      by_contra hne
      have ht : (edgeFlipEdge lib st a).isFlipped = true := by
        cases hb : (edgeFlipEdge lib st a).isFlipped with
        | false => exact absurd hb hne
        | true => rfl
      rw [edgeFlipLoop_flipped lib as _ ht] at h
      cases h
    rw [ih _ h]
    exact edgeFlipEdge_unflipped lib st a hstep

/-- A flip pass that returns false leaves the state as it was. -/
theorem edgeFlip_unflipped (lib : MeshLibrary) (s : MutableSystem)
    (h : (s.edgeFlip lib).1 = false) : (s.edgeFlip lib).2 = s := by
  unfold MutableSystem.edgeFlip at h ⊢
  simp only at h ⊢
  rw [h, edgeFlipLoop_unflipped lib _ _ h]
  rfl

/-- C26. With edge flipping switched on, `mutateMesh` runs the flip pass `edgeFlip` three
times, each on the state the pass before left, and continues from the state the third pass
leaves. If the first pass flips nothing it leaves the state as it was, so the second and the
third pass flip nothing either and leave it as it was. Hence whenever one of the three
passes flips an edge the first one does, `isFlipped` is true and
`globalUpdateAfterMutation` is performed on the state that the third pass leaves, before the
smoothing. Here `shifted` is the state after the vertex shift, `grown` the outcome of the
split and collapse pass, and `first`, `second`, `third` the outcomes of the three flip
passes. -/
theorem mutateMesh_flip_passes (ext : External) (lib : MeshLibrary)
    (s shifted : MutableSystem) (grown first second third : Bool × MutableSystem)
    (hflip : s.meshMutator.isEdgeFlip = true)
    (hshift : s.mutateMeshShift ext = Except.ok shifted)
    (hgrown : grown = shifted.mutateMeshGrow lib s.meshMutator)
    (hfirst : first = grown.2.edgeFlip lib)
    (hsecond : second = first.2.edgeFlip lib)
    (hthird : third = second.2.edgeFlip lib) :
    (s.mutateMesh ext lib =
      match
        (if (grown.1 || first.1) = true then third.2.globalUpdateAfterMutation lib
        else Except.ok third.2) with
      | Except.error msg => Except.error msg
      | Except.ok q => Except.ok (lib.globalSmoothing q)) ∧
    (first.1 = false →
      first.2 = grown.2 ∧ second.1 = false ∧ third.1 = false ∧ third.2 = grown.2) ∧
    ((first.1 || second.1 || third.1) = true →
      s.mutateMesh ext lib =
        match third.2.globalUpdateAfterMutation lib with
        | Except.error msg => Except.error msg
        | Except.ok q => Except.ok (lib.globalSmoothing q)) := by
  have hrun : s.mutateMesh ext lib =
      match
        (if (grown.1 || first.1) = true then third.2.globalUpdateAfterMutation lib
        else Except.ok third.2) with
      | Except.error msg => Except.error msg
      | Except.ok q => Except.ok (lib.globalSmoothing q) := by
    unfold MutableSystem.mutateMesh
    rw [hshift, hthird, hsecond, hfirst, hgrown]
    simp only [if_pos hflip, MutableSystem.flipPasses]
  have hquiet : first.1 = false →
      first.2 = grown.2 ∧ second.1 = false ∧ third.1 = false ∧ third.2 = grown.2 := by
    intro h1
    have e1 : first.2 = grown.2 := by
      rw [hfirst] at h1 ⊢
      exact edgeFlip_unflipped lib _ h1
    have e2 : second = first := by rw [hsecond, e1, hfirst]
    have e3 : third = first := by rw [hthird, e2, e1, hfirst]
    rw [e2, e3]
    exact ⟨e1, h1, h1, e1⟩
  refine ⟨hrun, hquiet, ?_⟩
  intro hany
  have hone : first.1 = true := by
    cases h1 : first.1 with
    | true => rfl
    | false =>
      obtain ⟨-, h2, h3, -⟩ := hquiet h1
      rw [h1, h2, h3] at hany
      cases hany
  rw [hrun, hone, Bool.or_true, if_pos rfl]

theorem mutateMesh_flip_passes_witness :
    exMutableSystem.meshMutator.isEdgeFlip = true ∧
      exMutableSystem.mutateMeshShift exExternal = Except.ok exShiftedSystem ∧
      (((exShiftedSystem.mutateMeshGrow exLibrary exMutableSystem.meshMutator).2.edgeFlip
          exLibrary).1 = false →
        ((exShiftedSystem.mutateMeshGrow exLibrary exMutableSystem.meshMutator).2.edgeFlip
            exLibrary).2 =
          (exShiftedSystem.mutateMeshGrow exLibrary exMutableSystem.meshMutator).2) :=
  ⟨rfl, exShift_eq,
    fun h => ((mutateMesh_flip_passes exExternal exLibrary exMutableSystem exShiftedSystem
      (exShiftedSystem.mutateMeshGrow exLibrary exMutableSystem.meshMutator)
      ((exShiftedSystem.mutateMeshGrow exLibrary exMutableSystem.meshMutator).2.edgeFlip
        exLibrary)
      (((exShiftedSystem.mutateMeshGrow exLibrary exMutableSystem.meshMutator).2.edgeFlip
        exLibrary).2.edgeFlip exLibrary)
      ((((exShiftedSystem.mutateMeshGrow exLibrary exMutableSystem.meshMutator).2.edgeFlip
        exLibrary).2.edgeFlip exLibrary).2.edgeFlip exLibrary)
      rfl exShift_eq rfl rfl rfl rfl).2.1 h).1⟩

/-! ## Theorems: the tracker of the tracked point in `growMesh` -/

/-- A split under its contract keeps exactly one vertex marked. -/
theorem growMeshSplit_oneMarked (lib : MeshLibrary) (hsplit : lib.SplitContract)
    (st : GrowState) (e vertex1 vertex2 : Nat)
    (hlive : st.system.mesh.EndpointsLive) (he : e ∈ st.system.mesh.connectivity.edges)
    (hone : st.system.OneMarked) :
    (growMeshSplit lib st e vertex1 vertex2).system.OneMarked ∧
      (growMeshSplit lib st e vertex1 vertex2).system.mesh.EndpointsLive := by
  obtain ⟨hnew, hmem, hlive1⟩ := hsplit st.system.mesh e hlive he
  obtain ⟨u, hu, hut, huniq⟩ := hone
  have hune : u ≠ (lib.splitEdgeTriangular st.system.mesh e).2 := fun h => hnew (h ▸ hu)
  refine ⟨⟨u, (hmem u).mpr (Or.inr hu), ?_, ?_⟩, hlive1⟩
  · show Function.update st.system.thePointTracker
      (lib.splitEdgeTriangular st.system.mesh e).2 false u = true
    rw [Function.update_noteq hune]
    exact hut
  · intro w hw hwt
    have hwt1 : Function.update st.system.thePointTracker
        (lib.splitEdgeTriangular st.system.mesh e).2 false w = true := hwt
    by_cases hwn : w = (lib.splitEdgeTriangular st.system.mesh e).2
    · rw [hwn, Function.update_same] at hwt1
      cases hwt1
    · rw [Function.update_noteq hwn] at hwt1
      rcases (hmem w).mp hw with h | h
      · exact absurd h hwn
      · exact huniq w h hwt1

/-- A collapse under its contract keeps exactly one vertex marked. -/
theorem growMeshCollapse_oneMarked (lib : MeshLibrary) (hcollapse : lib.CollapseContract)
    (st : GrowState) (e : Nat)
    (hlive : st.system.mesh.EndpointsLive) (he : e ∈ st.system.mesh.connectivity.edges)
    (hone : st.system.OneMarked) :
    (growMeshCollapse lib st e
        (st.system.mesh.connectivity.tipVertex (st.system.mesh.connectivity.edgeHalfedge e))
        (st.system.mesh.connectivity.vertex
          (st.system.mesh.connectivity.edgeHalfedge e))).system.OneMarked ∧
      (growMeshCollapse lib st e
        (st.system.mesh.connectivity.tipVertex (st.system.mesh.connectivity.edgeHalfedge e))
        (st.system.mesh.connectivity.vertex
          (st.system.mesh.connectivity.edgeHalfedge e))).system.mesh.EndpointsLive := by
  obtain ⟨hnew, hmem, hlive1⟩ := hcollapse st.system.mesh e hlive he
  obtain ⟨hv1, hv2⟩ := hlive e he
  obtain ⟨u, hu, hut, huniq⟩ := hone
  refine ⟨?_, hlive1⟩
  generalize hn : (lib.collapseEdgeTriangular st.system.mesh e).2 = newVertex at hnew hmem
  generalize h1 : st.system.mesh.connectivity.tipVertex
    (st.system.mesh.connectivity.edgeHalfedge e) = vertex1 at hnew hmem hv1
  generalize h2 : st.system.mesh.connectivity.vertex
    (st.system.mesh.connectivity.edgeHalfedge e) = vertex2 at hnew hmem hv2
  have htr : ∀ w, (growMeshCollapse lib st e vertex1 vertex2).system.thePointTracker w =
      Function.update st.system.thePointTracker newVertex
        (st.system.thePointTracker vertex1 || st.system.thePointTracker vertex2) w := by
    intro w
    rw [← hn]
    rfl
  have hvs : ∀ w, w ∈ (growMeshCollapse lib st e vertex1 vertex2).system.mesh.vertices ↔
      (w = newVertex ∨ (w ∈ st.system.mesh.vertices ∧ w ≠ vertex1 ∧ w ≠ vertex2)) := hmem
  cases hp : (st.system.thePointTracker vertex1 || st.system.thePointTracker vertex2) with
  | true =>
    have hu12 : u = vertex1 ∨ u = vertex2 := by
      rcases Bool.or_eq_true_iff.mp hp with h | h
      · exact Or.inl (huniq vertex1 hv1 h).symm
      · exact Or.inr (huniq vertex2 hv2 h).symm
    refine ⟨newVertex, (hvs newVertex).mpr (Or.inl rfl), ?_, ?_⟩
    · rw [htr, hp, Function.update_same]
    · intro w hw hwt
      by_contra hwn
      rw [htr, Function.update_noteq hwn] at hwt
      rcases (hvs w).mp hw with h | ⟨hwv, hw1, hw2⟩
      · exact hwn h
      · have hwu := huniq w hwv hwt
        rcases hu12 with h | h
        · exact hw1 (hwu.trans h)
        · exact hw2 (hwu.trans h)
  | false =>
    obtain ⟨hf1, hf2⟩ := Bool.or_eq_false_iff.mp hp
    have hu1 : u ≠ vertex1 := fun h => by rw [h, hf1] at hut; cases hut
    have hu2 : u ≠ vertex2 := fun h => by rw [h, hf2] at hut; cases hut
    have hun : u ≠ newVertex := by
      rcases hnew with h | h
      · rw [h]; exact hu1
      · rw [h]; exact hu2
    refine ⟨u, (hvs u).mpr (Or.inr ⟨hu, hu1, hu2⟩), ?_, ?_⟩
    · rw [htr, Function.update_noteq hun]
      exact hut
    · intro w hw hwt
      by_cases hwn : w = newVertex
      · rw [htr, hwn, hp, Function.update_same] at hwt
        cases hwt
      · rw [htr, Function.update_noteq hwn] at hwt
        rcases (hvs w).mp hw with h | ⟨hwv, -, -⟩
        · exact absurd h hwn
        · exact huniq w hwv hwt

/-- A visit of the loop of `growMesh` keeps exactly one vertex marked. -/
theorem growMeshEdge_oneMarked (lib : MeshLibrary) (hsplit : lib.SplitContract)
    (hcollapse : lib.CollapseContract) (st : GrowState) (e : Nat)
    (hlive : st.system.mesh.EndpointsLive) (hone : st.system.OneMarked) :
    (growMeshEdge lib st e).system.OneMarked ∧
      (growMeshEdge lib st e).system.mesh.EndpointsLive := by
  unfold growMeshEdge
  by_cases h1 : e ∉ st.system.mesh.connectivity.edges
  · simp only [if_pos h1]
    exact ⟨hone, hlive⟩
  · by_cases h2 : st.isOrigEdge e = false
    · simp only [if_neg h1, if_pos h2]
      exact ⟨hone, hlive⟩
    · by_cases h3 : Vector3.sum
          (st.system.forceMask
              (st.system.mesh.connectivity.tipVertex
                (st.system.mesh.connectivity.edgeHalfedge e)) +
            st.system.forceMask
              (st.system.mesh.connectivity.vertex
                (st.system.mesh.connectivity.edgeHalfedge e))) < 1 / 2
      · simp only [if_neg h1, if_neg h2, if_pos h3]
        exact ⟨hone, hlive⟩
      · by_cases h4 : st.system.meshMutator.ifSplit e st.system.mesh
            st.system.inputVertexPositions = true
        · simp only [if_neg h1, if_neg h2, if_neg h3, if_pos h4]
          exact growMeshSplit_oneMarked lib hsplit st e _ _ hlive (not_not.mp h1) hone
        · by_cases h5 : st.system.meshMutator.ifCollapse e st.system.mesh
              st.system.inputVertexPositions = true
          · simp only [if_neg h1, if_neg h2, if_neg h3, if_neg h4, if_pos h5]
            exact growMeshCollapse_oneMarked lib hcollapse st e hlive (not_not.mp h1) hone
          · simp only [if_neg h1, if_neg h2, if_neg h3, if_neg h4, if_neg h5]
            exact ⟨hone, hlive⟩

theorem growMeshLoop_oneMarked (lib : MeshLibrary) (hsplit : lib.SplitContract)
    (hcollapse : lib.CollapseContract) (l : List Nat) :
    ∀ st : GrowState, st.system.mesh.EndpointsLive → st.system.OneMarked →
      (l.foldl (growMeshEdge lib) st).system.OneMarked ∧
        (l.foldl (growMeshEdge lib) st).system.mesh.EndpointsLive := by
  induction l with
  | nil => intro st hlive hone; exact ⟨hone, hlive⟩
  | cons a as ih =>
    intro st hlive hone
    rw [List.foldl_cons]
    obtain ⟨h1, h2⟩ := growMeshEdge_oneMarked lib hsplit hcollapse st a hlive hone
    exact ih _ h2 h1

/-- C21. Let the mesh library keep its contracts for a split and a collapse, and let the
edges of the mesh join vertices of the mesh. If exactly one vertex is marked in
`thePointTracker` before `growMesh`, then after every number of visits of its loop, so after
every split and every collapse it performs, exactly one vertex of the mesh is marked. A split
marks the new vertex false and leaves every other mark, those of the two endpoints among
them, as it was; a collapse marks the vertex that is left true exactly when one of the two
endpoints was marked and leaves every other mark as it was. -/
theorem growMesh_keeps_one_marked (lib : MeshLibrary) (s : MutableSystem)
    (hsplit : lib.SplitContract) (hcollapse : lib.CollapseContract)
    (hlive : s.mesh.EndpointsLive) (hone : s.OneMarked) :
    (∀ k : Nat,
      ((s.mesh.connectivity.edges.take k).foldl (growMeshEdge lib)
        (GrowState.initial s)).system.OneMarked) ∧
    (∀ (st : GrowState) (e vertex1 vertex2 : Nat),
      st.system.mesh.EndpointsLive → e ∈ st.system.mesh.connectivity.edges →
      vertex1 = st.system.mesh.connectivity.tipVertex
        (st.system.mesh.connectivity.edgeHalfedge e) →
      vertex2 = st.system.mesh.connectivity.vertex
        (st.system.mesh.connectivity.edgeHalfedge e) →
      (growMeshSplit lib st e vertex1 vertex2).system.thePointTracker
          (lib.splitEdgeTriangular st.system.mesh e).2 = false ∧
        (growMeshSplit lib st e vertex1 vertex2).system.thePointTracker vertex1 =
          st.system.thePointTracker vertex1 ∧
        (growMeshSplit lib st e vertex1 vertex2).system.thePointTracker vertex2 =
          st.system.thePointTracker vertex2 ∧
        ∀ w, w ≠ (lib.splitEdgeTriangular st.system.mesh e).2 →
          (growMeshSplit lib st e vertex1 vertex2).system.thePointTracker w =
            st.system.thePointTracker w) ∧
    (∀ (st : GrowState) (e vertex1 vertex2 : Nat),
      (growMeshCollapse lib st e vertex1 vertex2).system.thePointTracker
          (lib.collapseEdgeTriangular st.system.mesh e).2 =
        (st.system.thePointTracker vertex1 || st.system.thePointTracker vertex2) ∧
        ∀ w, w ≠ (lib.collapseEdgeTriangular st.system.mesh e).2 →
          (growMeshCollapse lib st e vertex1 vertex2).system.thePointTracker w =
            st.system.thePointTracker w) := by
  refine ⟨?_, ?_, ?_⟩
  · intro k
    exact (growMeshLoop_oneMarked lib hsplit hcollapse _ (GrowState.initial s) hlive hone).1
  · intro st e vertex1 vertex2 hl he h1 h2
    obtain ⟨hnew, -, -⟩ := hsplit st.system.mesh e hl he
    obtain ⟨hv1, hv2⟩ := hl e he
    rw [← h1] at hv1
    rw [← h2] at hv2
    have hother : ∀ w, w ≠ (lib.splitEdgeTriangular st.system.mesh e).2 →
        (growMeshSplit lib st e vertex1 vertex2).system.thePointTracker w =
          st.system.thePointTracker w := by
      intro w hw
      exact Function.update_noteq hw _ _
    refine ⟨Function.update_same _ _ _, hother _ ?_, hother _ ?_, hother⟩
    · exact fun h => hnew (h ▸ hv1)
    · exact fun h => hnew (h ▸ hv2)
  · intro st e vertex1 vertex2
    refine ⟨Function.update_same _ _ _, ?_⟩
    intro w hw
    exact Function.update_noteq hw _ _

/-- The split of the example library keeps the contract of a split. -/
theorem exLibrary_split : exLibrary.SplitContract := by
  intro m e hlive _
  have hbound : ∀ l : List Nat, ∀ u ∈ l, u ≤ l.foldr max 0 := by
    intro l
    induction l with
    | nil => intro u hu; cases hu
    | cons a as ih =>
      intro u hu
      rw [List.foldr_cons]
      rcases List.mem_cons.mp hu with rfl | h
      · exact le_max_left _ _
      · exact le_trans (ih u h) (le_max_right _ _)
  refine ⟨?_, ?_, ?_⟩
  · intro hmem
    have := hbound m.vertices _ hmem
    simp only [exLibrary] at this
    omega
  · intro u
    simp only [exLibrary, List.mem_append, List.mem_singleton]
    tauto
  · intro e1 he1
    obtain ⟨a, b⟩ := hlive e1 he1
    exact ⟨List.mem_append_left _ a, List.mem_append_left _ b⟩

/-- The collapse of the example library keeps the contract of a collapse. -/
theorem exLibrary_collapse : exLibrary.CollapseContract := by
  intro m e _ _
  refine ⟨Or.inr rfl, ?_, ?_⟩
  · intro u
    simp only [exLibrary, List.mem_cons, List.mem_filter, decide_eq_true_eq]
  · intro e1 he1
    simp only [exLibrary, List.mem_filter, decide_eq_true_eq] at he1
    exact he1.2

theorem growMesh_keeps_one_marked_witness :
    exLibrary.SplitContract ∧ exLibrary.CollapseContract ∧
      exMutableSystem.mesh.EndpointsLive ∧ exMutableSystem.OneMarked ∧
      ∀ k : Nat,
        ((exMutableSystem.mesh.connectivity.edges.take k).foldl (growMeshEdge exLibrary)
          (GrowState.initial exMutableSystem)).system.OneMarked :=
  ⟨exLibrary_split, exLibrary_collapse, by decide, by decide,
    (growMesh_keeps_one_marked exLibrary exMutableSystem exLibrary_split exLibrary_collapse
      (by decide) (by decide)).1⟩

/-! ## Theorems: inside pressure -/

/-- C24, as stated, fails for a closed volume-constrained vesicle with a nonzero multiplier
`lambdaV`: with volume 3, `refVolume * Vt = 2`, `Kv = 2` and `lambdaV = 1` the claim gives
`-Kv * (V - refVolume * Vt) / (refVolume * Vt) = -1`, while the routine leaves `-2`. -/
theorem getInsidePressure_includes_multiplier :
    exVesicle.hasBoundary = false ∧ exVesicle.isReducedVolume = true ∧
      exVesicle.getInsidePressure.insidePressure = -2 ∧
      -exVesicle.Kv * (exVesicle.volume - exVesicle.refVolume * exVesicle.Vt) /
        (exVesicle.refVolume * exVesicle.Vt) = -1 := by
  refine ⟨rfl, rfl, ?_, ?_⟩
  · simp [PressureSystem.getInsidePressure, exVesicle]
    norm_num
  · norm_num [exVesicle]

/-- C24, amended. `getInsidePressure` sets the inside pressure by exactly one of three
policies and leaves everything else as it was: the fixed value `Kv` for a patch (a mesh with
boundary, whatever the other flags); `-(Kv * (V - refVolume * Vt) / (refVolume * Vt) +
lambdaV)` for a closed volume-constrained vesicle; and `Kv * (1 / V - cam)` otherwise. -/
theorem getInsidePressure_policies (s : PressureSystem) :
    s.getInsidePressure =
      { s with
        insidePressure :=
          if s.hasBoundary = true then s.Kv
          else if s.isReducedVolume = true then
            -(s.Kv * (s.volume - s.refVolume * s.Vt) / (s.refVolume * s.Vt) + s.lambdaV)
          else s.Kv * (1 / s.volume - s.cam) } := by
  unfold PressureSystem.getInsidePressure
  split_ifs <;> rfl

/-! ## Theorems: marking the trajectory file -/

theorem cString_nul_free (buf : List Char) : nul ∉ cString buf := by
  intro h
  have := List.mem_takeWhile_imp h
  simp at this

theorem cString_append_nul (a rest : List Char) (ha : nul ∉ a) :
    cString (a ++ nul :: rest) = a := by
  induction a with
  | nil => simp [cString]
  | cons c cs ih =>
    have hc : c ≠ nul := fun h => ha (h ▸ List.mem_cons_self c cs)
    have hcs : nul ∉ cs := fun h => ha (List.mem_cons_of_mem c h)
    have ih1 := ih hcs
    unfold cString at ih1 ⊢
    rw [List.cons_append, List.takeWhile_cons_of_pos (by simpa using hc), ih1]

theorem take_cString (buf : List Char) : buf.take (cString buf).length = cString buf := by
  unfold cString
  induction buf with
  | nil => rfl
  | cons c cs ih =>
    by_cases hc : (c != nul) = true
    · simp only [List.takeWhile_cons, hc, if_true, List.length_cons, List.take_succ_cons, ih]
    · simp [List.takeWhile_cons, hc]

/-- After `strcpy` the buffer holds the string copied. -/
theorem cString_strcpy (dest src r : List Char) (hsrc : nul ∉ src)
    (h : strcpy dest src = some r) : cString r = src := by
  unfold strcpy writeAt at h
  split_ifs at h
  cases h
  simp only [List.take_zero, List.nil_append, List.append_assoc, List.singleton_append]
  exact cString_append_nul _ _ hsrc

/-- After `strcat` the buffer holds the string it held followed by the string appended. -/
theorem cString_strcat (dest src r : List Char) (hsrc : nul ∉ src)
    (h : strcat dest src = some r) : cString r = cString dest ++ src := by
  unfold strcat writeAt at h
  split_ifs at h
  cases h
  rw [take_cString]
  simp only [List.append_assoc, List.singleton_append]
  rw [← List.append_assoc]
  exact cString_append_nul _ _ (by
    intro hmem
    rcases List.mem_append.mp hmem with h1 | h1
    · exact cString_nul_free dest h1
    · exact hsrc h1)

/-- The first argument of `rename` is the directory followed by the file name, with nothing
between them. -/
theorem markFileName_old (sizeofPointer : Nat)
    (outputDirectory trajFileName marker_str old new : List Char)
    (h : markFileName sizeofPointer outputDirectory trajFileName marker_str
      = some (old, new)) :
    old = cString outputDirectory ++ cString trajFileName := by
  unfold markFileName at h
  simp only at h
  split_ifs at h with hdot
  split at h
  · cases h
  · split at h
    · cases h
    · split at h
      · cases h
      · split at h
        · cases h
        · split at h
          · rename_i oldNC newNC hold hnew
            split at h
            · rename_i oldNC2 newNC2 hold2 hnew2
              cases h
              rw [cString_strcat _ _ _ (cString_nul_free _) hold2,
                cString_strcpy _ _ _ (cString_nul_free _) hold]
            · cases h
          · cases h

/-- C30 fails on the code for every input: `markFileName` passes to `rename` the directory
followed directly by the file name, never the path `outputDirectory + "/" + trajFileName` at
which the trajectory file was created. With the directory `out`, the file name `traj.nc` and
the marker `_failed` it asks to rename `outtraj.nc` to `outtraj_failed.nc`, while the file was
created at `out/traj.nc`. -/
theorem markFileName_omits_separator :
    (∀ (sizeofPointer : Nat) (outputDirectory trajFileName marker_str old new : List Char),
      markFileName sizeofPointer outputDirectory trajFileName marker_str = some (old, new) →
      old = cString outputDirectory ++ cString trajFileName ∧
        old ≠ trajectoryFilePath (cString outputDirectory) (cString trajFileName)) ∧
    markFileName 8 "out".toList "traj.nc".toList "_failed".toList =
      some ("outtraj.nc".toList, "outtraj_failed.nc".toList) ∧
    trajectoryFilePath "out".toList "traj.nc".toList = "out/traj.nc".toList := by
  refine ⟨?_, by decide, by decide⟩
  intro p dir file marker old new h
  have hold := markFileName_old p dir file marker old new h
  refine ⟨hold, ?_⟩
  rw [hold]
  intro heq
  have hlen := congrArg List.length heq
  simp [trajectoryFilePath] at hlen

end Mem3DG
